import Mathlib

/-! Send-stream pipeline of `dmu_send.c`.

A shallow embedding of the merge stage (`send_range_start_compare`,
`send_range_after`, `find_next_range`, `send_merge_thread`) and of the
serializer (`dump_record`, `dump_free`, `dump_redact`, `dump_write`,
`dump_write_embedded`, `dump_spill`, `dump_freeobjects`, `dump_dnode`) of
`usr/src/uts/common/fs/zfs/dmu_send.c`.

Conventions.
* `uint64_t` values are natural numbers; every operation that can wrap in C
  is written with an explicit `% 2 ^ 64`.
* `ASSERT`, `ASSERT3U`, ... expand to nothing in a non-DEBUG kernel.  The
  functions below follow the non-DEBUG behaviour; an asserted condition is
  stated as a separate definition where a property is about it.
* A blocking queue (`bqueue_t`) is the list of records that its producer
  delivers; `bqueue_dequeue` on the empty list blocks for ever (`none`).
* Error codes are natural numbers, `SET_ERROR(e)` is `e`.
-/

namespace DmuSend

set_option maxHeartbeats 1000000

/-! ## Constants of headers that the file includes -/

/-- The value of `UINT64_MAX`, also written `-1ULL` in the source. -/
def UINT64_MAX : Nat := 2 ^ 64 - 1

/-- The shift `DNODES_PER_BLOCK_SHIFT` of `sys/dnode.h`
(`DNODE_BLOCK_SHIFT - DNODE_SHIFT = 14 - 9`). -/
def DNODES_PER_BLOCK_SHIFT : Nat := 5

/-- The constant `DNODES_PER_BLOCK` of `sys/dnode.h`. -/
def DNODES_PER_BLOCK : Nat := 2 ^ DNODES_PER_BLOCK_SHIFT

/-- The object number of the meta dnode, `DMU_META_DNODE_OBJECT`. -/
def DMU_META_DNODE_OBJECT : Nat := 0

/-- The error number `EINTR`. -/
def EINTR : Nat := 4

/-- The error number `EIO`. -/
def EIO : Nat := 5

/-! ## Change records (`struct send_range`) -/

/-- The `enum type` of `struct send_range`. -/
inductive range_type where
  | DATA
  | HOLE
  | OBJECT
  | REDACT
  | PREVIOUSLY_REDACTED
deriving DecidableEq, Repr

/-- The attributes of a `blkptr_t` that `dmu_send.c` reads through the `BP_*`
and `BPE_*` accessors of `sys/spa.h`. -/
structure blkptr_t where
  is_hole : Bool
  is_redacted : Bool
  is_embedded : Bool
  is_protected : Bool
  is_encrypted : Bool
  should_byteswap : Bool
  bp_type : Nat
  lsize : Nat
  psize : Nat
  compress : Nat
  checksum : Nat
  etype : Nat
  bpe_lsize : Nat
  bpe_psize : Nat
  blk_cksum : Nat
  salt : Nat
  iv : Nat
  mac : Nat
  embedded_payload : List Nat
deriving DecidableEq, Repr

/-- The fields of a `dnode_phys_t` that `dmu_send.c` reads. -/
structure dnode_phys_t where
  dn_type : Nat
  dn_bonustype : Nat
  dn_datablkszsec : Nat
  dn_bonuslen : Nat
  dn_checksum : Nat
  dn_compress : Nat
  dn_maxblkid : Nat
  dn_indblkshift : Nat
  dn_nlevels : Nat
  dn_nblkptr : Nat
  dn_max_bonus_len : Nat
  dn_bonus : List Nat
deriving DecidableEq, Repr

/-- The union `sru` of `struct send_range`: `datablksz` is the member of that
name of `srd`, `srh` and `srr`; `obj_type` and `bp` are the other members of
`srd`; `dnp` is the pointer of `sro` (`none` for `NULL`). -/
structure sru_t where
  datablksz : Nat
  obj_type : Nat
  bp : Option blkptr_t
  dnp : Option dnode_phys_t
deriving DecidableEq, Repr

/-- The record `struct send_range` (the queue linkage `ln` is left out). -/
structure send_range where
  eos_marker : Bool
  object : Nat
  start_blkid : Nat
  end_blkid : Nat
  type : range_type
  sru : sru_t
deriving DecidableEq, Repr

/-- Contents of freshly allocated union memory that the code never reads. -/
def sru_zero : sru_t :=
  { datablksz := 0, obj_type := 0, bp := none, dnp := none }

/-- The allocator `range_alloc`. -/
def range_alloc (type : range_type) (object start_blkid end_blkid : Nat)
    (eos : Bool) : send_range :=
  { eos_marker := eos, object := object, start_blkid := start_blkid,
    end_blkid := end_blkid, type := type, sru := sru_zero }

/-! ## Ordering of change records -/

/-- The function `send_range_after`. -/
def send_range_after (frm tor : send_range) : Int :=
  if frm.eos_marker = true then 1
  else if tor.eos_marker = true then -1
  else
    let from_obj :=
      if frm.object = 0 then (frm.start_blkid <<< DNODES_PER_BLOCK_SHIFT) % 2 ^ 64
      else frm.object
    let from_end_obj :=
      if frm.object = 0 then (frm.end_blkid <<< DNODES_PER_BLOCK_SHIFT) % 2 ^ 64
      else (frm.object + 1) % 2 ^ 64
    let to_obj :=
      if tor.object = 0 then (tor.start_blkid <<< DNODES_PER_BLOCK_SHIFT) % 2 ^ 64
      else tor.object
    let to_end_obj :=
      if tor.object = 0 then (tor.end_blkid <<< DNODES_PER_BLOCK_SHIFT) % 2 ^ 64
      else (tor.object + 1) % 2 ^ 64
    if from_end_obj ≤ to_obj then -1
    else if from_obj ≥ to_end_obj then 1
    else if frm.type = range_type.OBJECT ∧ tor.type ≠ range_type.OBJECT then -1
    else if frm.type ≠ range_type.OBJECT ∧ tor.type = range_type.OBJECT then 1
    else if frm.end_blkid ≤ tor.start_blkid then -1
    else if frm.start_blkid ≥ tor.end_blkid then 1
    else 0

/-- The function `send_range_start_compare`. -/
def send_range_start_compare (r1 r2 : send_range) : Int :=
  if r1.eos_marker = true then 1
  else if r2.eos_marker = true then -1
  else
    let r1_objequiv :=
      if r1.object = 0 then (r1.start_blkid * DNODES_PER_BLOCK) % 2 ^ 64 else r1.object
    let r1_l0equiv := if r1.object = 0 then 0 else r1.start_blkid
    let r2_objequiv :=
      if r2.object = 0 then (r2.start_blkid * DNODES_PER_BLOCK) % 2 ^ 64 else r2.object
    let r2_l0equiv := if r2.object = 0 then 0 else r2.start_blkid
    if r1_objequiv < r2_objequiv then -1
    else if r1_objequiv > r2_objequiv then 1
    else if r1.type = range_type.OBJECT ∧ r2.type ≠ range_type.OBJECT then -1
    else if r1.type ≠ range_type.OBJECT ∧ r2.type = range_type.OBJECT then 1
    else if r1_l0equiv < r2_l0equiv then -1
    else if r1_l0equiv > r2_l0equiv then 1
    else 0

/-! ## The merge stage -/

/-- The number of merged queues, `NUM_THREADS` of `enum q_idx`. -/
abbrev NUM_THREADS : Nat := 3

/-- The index `REDACT_IDX` of `enum q_idx`. -/
def REDACT_IDX : Fin NUM_THREADS := 0

/-- The index `TO_IDX` of `enum q_idx`. -/
def TO_IDX : Fin NUM_THREADS := 1

/-- The index `FROM_IDX` of `enum q_idx`. -/
def FROM_IDX : Fin NUM_THREADS := 2

/-- The arrays `ranges` and `qs` that `find_next_range` works on: the record
at the front of each queue and what each queue still delivers. -/
structure merge_state where
  ranges : Fin NUM_THREADS → send_range
  qs : Fin NUM_THREADS → List send_range

/-- The call `bqueue_dequeue`: the next record and the rest of the queue. -/
def bqueue_dequeue (q : List send_range) : Option (send_range × List send_range) :=
  match q with
  | [] => none
  | r :: rest => some (r, rest)

/-- The condition that `get_next_range_nofree` asserts. -/
def get_next_range_nofree_ASSERT (prev next : send_range) : Bool :=
  decide (send_range_after prev next = -1)

/-- The function `get_next_range_nofree`. -/
def get_next_range_nofree (bq : List send_range) (_prev : send_range) :
    Option (send_range × List send_range) :=
  bqueue_dequeue bq

/-- The function `get_next_range` (freeing `prev` has no effect here). -/
def get_next_range (bq : List send_range) (prev : send_range) :
    Option (send_range × List send_range) :=
  get_next_range_nofree bq prev

/-- First loop of `find_next_range`: the index of the front with the earliest
start. -/
def find_next_range_idx (ranges : Fin NUM_THREADS → send_range) : Fin NUM_THREADS :=
  [(1 : Fin NUM_THREADS), 2].foldl
    (fun idx i => if send_range_start_compare (ranges i) (ranges idx) < 0 then i else idx) 0

/-- Second loop of `find_next_range`: the mask of the fronts that start at the
same point as `ranges[idx]`. -/
def find_next_range_bmask (ranges : Fin NUM_THREADS → send_range)
    (idx : Fin NUM_THREADS) : Nat :=
  [(0 : Fin NUM_THREADS), 1, 2].foldl
    (fun bmask i =>
      if send_range_start_compare (ranges i) (ranges idx) = 0 then bmask ||| (1 <<< i.val)
      else bmask) 0

/-- Third loop of `find_next_range`: the first start or end point after the
start of `ranges[idx]`. -/
def find_next_range_first_change (ranges : Fin NUM_THREADS → send_range)
    (idx : Fin NUM_THREADS) (bmask : Nat) : Nat :=
  [(0 : Fin NUM_THREADS), 1, 2].foldl
    (fun first_change i =>
      if i = idx ∨ (ranges i).eos_marker = true ∨
          (ranges i).object > (ranges idx).object ∨
          (ranges i).object = DMU_META_DNODE_OBJECT then first_change
      else if first_change > (ranges i).start_blkid ∧ bmask &&& (1 <<< i.val) = 0 then
        (ranges i).start_blkid
      else if first_change > (ranges i).end_blkid then (ranges i).end_blkid
      else first_change)
    (ranges idx).end_blkid

/-- One iteration of the fourth loop of `find_next_range`. -/
def find_next_range_update_one (idx : Fin NUM_THREADS) (bmask first_change : Nat)
    (st : merge_state) (i : Fin NUM_THREADS) : Option merge_state :=
  if i = idx ∨ bmask &&& (1 <<< i.val) = 0 then some st
  else
    let r : send_range := { st.ranges i with start_blkid := first_change }
    if r.start_blkid = r.end_blkid then
      match get_next_range (st.qs i) r with
      | none => none
      | some (next, rest) =>
        some { ranges := Function.update st.ranges i next,
               qs := Function.update st.qs i rest }
    else some { st with ranges := Function.update st.ranges i r }

/-- Fourth loop of `find_next_range`: the fronts that start where the returned
range starts are moved to `first_change`, and replaced when that empties them. -/
def find_next_range_update (idx : Fin NUM_THREADS) (bmask first_change : Nat)
    (st : merge_state) : Option merge_state :=
  [(0 : Fin NUM_THREADS), 1, 2].foldlM (find_next_range_update_one idx bmask first_change) st

/-- The function `find_next_range`: the returned range, `*out_mask` and the
arrays as the call leaves them; `none` when a dequeue blocks for ever. -/
def find_next_range (st : merge_state) : Option (send_range × Nat × merge_state) :=
  let idx := find_next_range_idx st.ranges
  if (st.ranges idx).eos_marker = true then
    some (range_alloc range_type.DATA 0 0 0 true, 0, st)
  else
    let bmask := find_next_range_bmask st.ranges idx
    let first_change := find_next_range_first_change st.ranges idx bmask
    match find_next_range_update idx bmask first_change st with
    | none => none
    | some st1 =>
      if first_change = (st1.ranges idx).end_blkid then
        match get_next_range_nofree (st1.qs idx) (st1.ranges idx) with
        | none => none
        | some (next, rest) =>
          some (st1.ranges idx, bmask,
            { ranges := Function.update st1.ranges idx next,
              qs := Function.update st1.qs idx rest })
      else
        let ret : send_range := { st1.ranges idx with end_blkid := first_change }
        let front : send_range := { st1.ranges idx with start_blkid := first_change }
        some (ret, bmask, { st1 with ranges := Function.update st1.ranges idx front })

/-- Successive calls of `find_next_range`, as the loop of `send_merge_thread`
makes them: the ranges returned before the end-of-stream range.  `none` when
the fuel runs out or a dequeue blocks. -/
def find_next_range_calls : Nat → merge_state → Option (List send_range)
  | 0, _ => none
  | fuel + 1, st =>
    match find_next_range st with
    | none => none
    | some (ret, _, st1) =>
      if ret.eos_marker = true then some []
      else
        match find_next_range_calls fuel st1 with
        | none => none
        | some rest => some (ret :: rest)

/-- The end-of-stream record that the producer threads enqueue,
`range_alloc(DATA, 0, 0, 0, B_TRUE)`. -/
def eos_record : send_range := range_alloc range_type.DATA 0 0 0 true

/-- The three queues as `send_merge_thread` finds them when every producer
delivers its records followed by the end-of-stream record: each front is the
first dequeued record. -/
def merge_start (redact tor frm : List send_range) : Option merge_state :=
  match bqueue_dequeue (redact ++ [eos_record]), bqueue_dequeue (tor ++ [eos_record]),
      bqueue_dequeue (frm ++ [eos_record]) with
  | some (r0, q0), some (r1, q1), some (r2, q2) =>
    some { ranges := fun i => if i = 0 then r0 else if i = 1 then r1 else r2,
           qs := fun i => if i = 0 then q0 else if i = 1 then q1 else q2 }
  | _, _, _ => none

/-- The mask `FROM_AND_REDACT_BITS`. -/
def FROM_AND_REDACT_BITS : Nat := (1 <<< REDACT_IDX.val) ||| (1 <<< FROM_IDX.val)

/-- What `send_merge_thread` reads, while it runs, from fields that other
threads write: `cancel n` is `smt_arg->cancel` and the three functions are the
`error_code` fields of the producers, each as read after `n` calls of
`find_next_range`.  The test of `smt_arg->cancel` after the loop reads what
the last test of the loop condition read. -/
structure merge_observed where
  cancel : Nat → Bool
  to_error_code : Nat → Nat
  from_error_code : Nat → Nat
  redact_error_code : Nat → Nat

/-- The producers never fail and nobody cancels. -/
def merge_observed_quiet : merge_observed :=
  { cancel := fun _ => false, to_error_code := fun _ => 0,
    from_error_code := fun _ => 0, redact_error_code := fun _ => 0 }

/-- The local variables of the `for` loop of `send_merge_thread`, with the
records enqueued on `smt_arg->q` so far and the number of calls of
`find_next_range` made. -/
structure merge_loop_state where
  range : send_range
  mask : Nat
  err : Nat
  fronts : merge_state
  enqueued : List send_range
  calls : Nat

/-- The `for` loop of `send_merge_thread`, entered after the call of
`find_next_range` in its initialiser. -/
def send_merge_loop (obs : merge_observed) (redact_arg_present : Bool) :
    Nat → merge_loop_state → Option merge_loop_state
  | 0, _ => none
  | fuel + 1, l =>
    if l.range.eos_marker = false ∧ l.err = 0 ∧ obs.cancel l.calls = false then
      let body : List send_range × Nat :=
        if l.mask &&& FROM_AND_REDACT_BITS = FROM_AND_REDACT_BITS then
          (l.enqueued, l.err)
        else
          (l.enqueued ++ [l.range],
            if obs.to_error_code l.calls ≠ 0 then obs.to_error_code l.calls
            else if obs.from_error_code l.calls ≠ 0 then obs.from_error_code l.calls
            else if redact_arg_present = true ∧ obs.redact_error_code l.calls ≠ 0 then
              obs.redact_error_code l.calls
            else l.err)
      match find_next_range l.fronts with
      | none => none
      | some (range, mask, fronts) =>
        send_merge_loop obs redact_arg_present fuel
          { range := range, mask := mask, err := body.2, fronts := fronts,
            enqueued := body.1, calls := l.calls + 1 }
    else some l

/-- The loop `while (!front_ranges[i]->eos_marker)` of `send_merge_thread`. -/
def send_merge_drain : send_range → List send_range → Option send_range
  | front, q =>
    if front.eos_marker = true then some front
    else
      match q with
      | [] => none
      | next :: rest => send_merge_drain next rest

/-- What `send_merge_thread` leaves behind: the records enqueued on
`smt_arg->q`, `smt_arg->error`, and whether it set the `cancel` flag of its
producers. -/
structure merge_result where
  q : List send_range
  error : Nat
  cancelled_inputs : Bool
deriving DecidableEq, Repr

/-- The function `send_merge_thread`.  `redact_q` is `none` when
`smt_arg->redact_arg` is `NULL`; the other arguments are what the queues of
the to-traversal and of the from-redaction thread deliver. -/
def send_merge_thread (obs : merge_observed) (redact_q : Option (List send_range))
    (to_q from_q : List send_range) (fuel : Nat) : Option merge_result :=
  let front0 : Option (send_range × List send_range) :=
    match redact_q with
    | none =>
      some ({ eos_marker := true, object := 0, start_blkid := 0, end_blkid := 0,
              type := range_type.REDACT, sru := sru_zero }, [])
    | some q => bqueue_dequeue q
  match front0, bqueue_dequeue to_q, bqueue_dequeue from_q with
  | some (r0, q0), some (r1, q1), some (r2, q2) =>
    let st : merge_state :=
      { ranges := fun i => if i = REDACT_IDX then r0 else if i = TO_IDX then r1 else r2,
        qs := fun i => if i = REDACT_IDX then q0 else if i = TO_IDX then q1 else q2 }
    match find_next_range st with
    | none => none
    | some (range, mask, fronts) =>
      match send_merge_loop obs redact_q.isSome fuel
          { range := range, mask := mask, err := 0, fronts := fronts,
            enqueued := [], calls := 1 } with
      | none => none
      | some l =>
        let err := if obs.cancel l.calls = true ∧ l.err = 0 then EINTR else l.err
        match send_merge_drain (l.fronts.ranges 0) (l.fronts.qs 0),
            send_merge_drain (l.fronts.ranges 1) (l.fronts.qs 1),
            send_merge_drain (l.fronts.ranges 2) (l.fronts.qs 2) with
        | some _, some _, some _ =>
          some { q := l.enqueued ++ [{ l.range with eos_marker := true }],
                 error := err, cancelled_inputs := decide (err ≠ 0) }
        | _, _, _ => none
  | _, _, _ => none

/-- A block of an object lies in a range that is not an end-of-stream marker. -/
def covers (r : send_range) (object blkid : Nat) : Prop :=
  r.eos_marker = false ∧ r.object = object ∧ r.start_blkid ≤ blkid ∧ blkid < r.end_blkid

instance (r : send_range) (object blkid : Nat) : Decidable (covers r object blkid) :=
  inferInstanceAs (Decidable (r.eos_marker = false ∧ r.object = object ∧
    r.start_blkid ≤ blkid ∧ blkid < r.end_blkid))

/-! ## Stream records and the serializer state -/

/-- The `drr_type` enumeration of `dmu_replay_record_t` (`sys/zfs_ioctl.h`);
`DRR_BEGIN` is the value 0 that `bzero` leaves. -/
inductive drr_type_t where
  | DRR_BEGIN
  | DRR_OBJECT
  | DRR_FREEOBJECTS
  | DRR_WRITE
  | DRR_FREE
  | DRR_END
  | DRR_WRITE_BYREF
  | DRR_SPILL
  | DRR_WRITE_EMBEDDED
  | DRR_OBJECT_RANGE
  | DRR_REDACT
deriving DecidableEq, Repr

/-- The type `zio_cksum_t`: four 64-bit words. -/
structure zio_cksum_t where
  w0 : Nat
  w1 : Nat
  w2 : Nat
  w3 : Nat
deriving DecidableEq, Repr

/-- The all-zero checksum, for which `ZIO_CHECKSUM_IS_ZERO` holds. -/
def zio_cksum_zero : zio_cksum_t := { w0 := 0, w1 := 0, w2 := 0, w3 := 0 }

/-- The record buffer `dmu_replay_record_t`.  The members of the union `drr_u`
that `dmu_send.c` stores to are kept as one set of named fields (a field name
shared by several members, such as `drr_object`, is one field); every store
sequence of the source starts with `bzero` and a store to `drr_type`.
`drr_otype` is the member `drr_type` of `drr_object` and of `drr_write`,
`drr_checksum` is the trailing `drr_u.drr_checksum.drr_checksum`, and
`drr_end_checksum` is `drr_u.drr_end.drr_checksum`. -/
structure dmu_replay_record_t where
  drr_type : drr_type_t
  drr_payloadlen : Nat
  drr_magic : Nat
  drr_versioninfo : Nat
  drr_creation_time : Nat
  drr_fromguid : Nat
  drr_object : Nat
  drr_otype : Nat
  drr_bonustype : Nat
  drr_blksz : Nat
  drr_bonuslen : Nat
  drr_checksumtype : Nat
  drr_compress : Nat
  drr_toguid : Nat
  drr_flags : Nat
  drr_maxblkid : Nat
  drr_indblkshift : Nat
  drr_nlevels : Nat
  drr_nblkptr : Nat
  drr_raw_bonuslen : Nat
  drr_firstobj : Nat
  drr_numobjs : Nat
  drr_numslots : Nat
  drr_offset : Nat
  drr_length : Nat
  drr_logical_size : Nat
  drr_compressiontype : Nat
  drr_compressed_size : Nat
  drr_key_lsize : Nat
  drr_key_psize : Nat
  drr_key_compress : Nat
  drr_key_crypt : Bool
  drr_key_cksum : Nat
  drr_salt : Nat
  drr_iv : Nat
  drr_mac : Nat
  drr_compression : Nat
  drr_etype : Nat
  drr_lsize : Nat
  drr_psize : Nat
  drr_end_checksum : zio_cksum_t
  drr_checksum : zio_cksum_t
deriving DecidableEq, Repr

/-- The buffer after `bzero(dscp->dsc_drr, sizeof (dmu_replay_record_t))`. -/
def drr_zero : dmu_replay_record_t :=
  { drr_type := drr_type_t.DRR_BEGIN, drr_payloadlen := 0, drr_magic := 0,
    drr_versioninfo := 0, drr_creation_time := 0, drr_fromguid := 0, drr_object := 0,
    drr_otype := 0, drr_bonustype := 0, drr_blksz := 0, drr_bonuslen := 0,
    drr_checksumtype := 0, drr_compress := 0, drr_toguid := 0, drr_flags := 0,
    drr_maxblkid := 0, drr_indblkshift := 0, drr_nlevels := 0, drr_nblkptr := 0,
    drr_raw_bonuslen := 0, drr_firstobj := 0, drr_numobjs := 0, drr_numslots := 0,
    drr_offset := 0, drr_length := 0, drr_logical_size := 0, drr_compressiontype := 0,
    drr_compressed_size := 0, drr_key_lsize := 0, drr_key_psize := 0,
    drr_key_compress := 0, drr_key_crypt := false, drr_key_cksum := 0, drr_salt := 0,
    drr_iv := 0, drr_mac := 0, drr_compression := 0, drr_etype := 0, drr_lsize := 0,
    drr_psize := 0, drr_end_checksum := zio_cksum_zero, drr_checksum := zio_cksum_zero }

/-- The type `dmu_pendop_t`. -/
inductive dmu_pendop_t where
  | PENDING_NONE
  | PENDING_FREE
  | PENDING_FREEOBJECTS
  | PENDING_REDACT
deriving DecidableEq, Repr

/-- One buffer handed to `dso_outfunc`: a record header (always
`sizeof (dmu_replay_record_t)` bytes) or a payload of `len` bytes, `none` for
the `NULL` payload of a dry run. -/
inductive out_chunk where
  | header (drr : dmu_replay_record_t)
  | payload (data : Option (List Nat)) (len : Nat)
deriving DecidableEq, Repr

/-- The output parameters `dmu_send_outparams_t`: `dso_outfunc` gives the error
code of a call from all buffers handed over so far, the current one last. -/
structure dmu_send_outparams_t where
  dso_outfunc : List out_chunk → Nat
  dso_dryrun : Bool

/-- The session state `dmu_send_cookie_t`.  `dsc_out` is the sink behind
`dso_arg`: the buffers handed to `dso_outfunc`, in order; `dsc_off` is
`*dsc_off`. -/
structure dmu_send_cookie_t where
  dsc_drr : dmu_replay_record_t
  dsc_dso : dmu_send_outparams_t
  dsc_out : List out_chunk
  dsc_off : Nat
  dsc_zc : zio_cksum_t
  dsc_toguid : Nat
  dsc_err : Nat
  dsc_pending_op : dmu_pendop_t
  dsc_featureflags : Nat
  dsc_last_data_object : Nat
  dsc_last_data_offset : Nat
  dsc_resume_object : Nat
  dsc_resume_offset : Nat
  dsc_sent_begin : Bool
  dsc_sent_end : Bool

/-- What `dmu_send.c` takes from other files for the bytes of the stream: the
bytes of a header in front of its checksum field, the bytes of a checksum,
`fletcher_4_incremental_native`, and the `ZCHECKSUM_FLAG_DEDUP` bit of
`zio_checksum_table`. -/
structure stream_codec where
  header_bytes : dmu_replay_record_t → List Nat
  cksum_bytes : zio_cksum_t → List Nat
  fletcher_4_incremental_native : List Nat → zio_cksum_t → zio_cksum_t
  checksum_dedup : Nat → Bool

/-- The size `sizeof (dmu_replay_record_t)`. -/
def SIZEOF_DMU_REPLAY_RECORD : Nat := 312

/-- The feature flag `DMU_BACKUP_FEATURE_EMBED_DATA`. -/
def DMU_BACKUP_FEATURE_EMBED_DATA : Nat := 1 <<< 16

/-- The feature flag `DMU_BACKUP_FEATURE_LZ4`. -/
def DMU_BACKUP_FEATURE_LZ4 : Nat := 1 <<< 17

/-- The feature flag `DMU_BACKUP_FEATURE_LARGE_BLOCKS`. -/
def DMU_BACKUP_FEATURE_LARGE_BLOCKS : Nat := 1 <<< 19

/-- The feature flag `DMU_BACKUP_FEATURE_COMPRESSED`. -/
def DMU_BACKUP_FEATURE_COMPRESSED : Nat := 1 <<< 22

/-- The feature flag `DMU_BACKUP_FEATURE_RAW`. -/
def DMU_BACKUP_FEATURE_RAW : Nat := 1 <<< 24

/-- The record flag `DRR_CHECKSUM_DEDUP`. -/
def DRR_CHECKSUM_DEDUP : Nat := 1 <<< 0

/-- The record flag `DRR_RAW_BYTESWAP`. -/
def DRR_RAW_BYTESWAP : Nat := 1 <<< 1

/-- The checksum id `ZIO_CHECKSUM_OFF`. -/
def ZIO_CHECKSUM_OFF : Nat := 2

/-- The object type `DMU_OT_NONE`. -/
def DMU_OT_NONE : Nat := 0

/-- The shift `SPA_MINBLOCKSHIFT`. -/
def SPA_MINBLOCKSHIFT : Nat := 9

/-- The size `SPA_OLD_MAXBLOCKSIZE` (128K). -/
def SPA_OLD_MAXBLOCKSIZE : Nat := 1 <<< 17

/-- The macro `P2ROUNDUP(x, 8)`. -/
def P2ROUNDUP8 (x : Nat) : Nat := (x + 7) / 8 * 8

/-- Modelled from the spec: `MAX_OBJECT_ID`, "the maximum object id".  The source
has no constant of that name; `dump_freeobjects` subtracts `firstobj` from
`UINT64_MAX`, the largest value of the 64-bit object id. -/
def MAX_OBJECT_ID : Nat := UINT64_MAX

/-- The condition `ZIO_CHECKSUM_IS_ZERO` that `dump_record` asserts for every
record but `DRR_BEGIN`. -/
def dump_record_ASSERT (dscp : dmu_send_cookie_t) : Bool :=
  decide (dscp.dsc_drr.drr_type = drr_type_t.DRR_BEGIN ∨
    dscp.dsc_drr.drr_checksum = zio_cksum_zero)

/-- The header as `dump_record` hands it to `dso_outfunc`: for every record
but `DRR_BEGIN` the running checksum, taken over the header bytes in front of
the checksum field, is stored into that field; nothing else changes. -/
def dump_record_header (W : stream_codec) (dscp : dmu_send_cookie_t) :
    dmu_replay_record_t :=
  if dscp.dsc_drr.drr_type = drr_type_t.DRR_BEGIN then dscp.dsc_drr
  else
    { dscp.dsc_drr with
      drr_checksum :=
        W.fletcher_4_incremental_native (W.header_bytes dscp.dsc_drr) dscp.dsc_zc }

/-- The function `dump_record`: the returned error and the state it leaves. -/
def dump_record (W : stream_codec) (dscp : dmu_send_cookie_t)
    (payload : Option (List Nat)) (payload_len : Nat) : Nat × dmu_send_cookie_t :=
  let zc1 := W.fletcher_4_incremental_native (W.header_bytes dscp.dsc_drr) dscp.dsc_zc
  let drr1 := dump_record_header W dscp
  let sent_begin :=
    if dscp.dsc_drr.drr_type = drr_type_t.DRR_BEGIN then true else dscp.dsc_sent_begin
  let sent_end :=
    if dscp.dsc_drr.drr_type = drr_type_t.DRR_END then true else dscp.dsc_sent_end
  let zc2 := W.fletcher_4_incremental_native (W.cksum_bytes drr1.drr_checksum) zc1
  let out1 := dscp.dsc_out ++ [out_chunk.header drr1]
  let d1 : dmu_send_cookie_t :=
    { dscp with dsc_drr := drr1, dsc_zc := zc2, dsc_sent_begin := sent_begin,
                dsc_sent_end := sent_end, dsc_off := dscp.dsc_off + SIZEOF_DMU_REPLAY_RECORD,
                dsc_out := out1, dsc_err := dscp.dsc_dso.dso_outfunc out1 }
  if d1.dsc_err ≠ 0 then (EINTR, d1)
  else if payload_len ≠ 0 then
    let zc3 :=
      match payload with
      | some bytes => W.fletcher_4_incremental_native (bytes.take payload_len) zc2
      | none => zc2
    let out2 := out1 ++ [out_chunk.payload (payload.map (List.take payload_len)) payload_len]
    let d2 : dmu_send_cookie_t :=
      { d1 with dsc_off := d1.dsc_off + payload_len, dsc_zc := zc3, dsc_out := out2,
                dsc_err := dscp.dsc_dso.dso_outfunc out2 }
    if d2.dsc_err ≠ 0 then (EINTR, d2) else (0, d2)
  else (0, d1)

/-- The statement pair
`if (dump_record(dscp, NULL, 0) != 0) return (SET_ERROR(EINTR));
dscp->dsc_pending_op = PENDING_NONE;` that pushes out the pending record:
error `EINTR` stands for the early return. -/
def push_out_pending (W : stream_codec) (dscp : dmu_send_cookie_t) :
    Nat × dmu_send_cookie_t :=
  let r := dump_record W dscp none 0
  if r.1 ≠ 0 then (EINTR, r.2)
  else (0, { r.2 with dsc_pending_op := dmu_pendop_t.PENDING_NONE })

/-- The condition that `dump_free` and `dump_write` assert on entry: data is
sent in increasing (object, offset) order. -/
def increasing_order_ASSERT (dscp : dmu_send_cookie_t) (object offset : Nat) : Bool :=
  decide (object > dscp.dsc_last_data_object ∨
    (object = dscp.dsc_last_data_object ∧ offset > dscp.dsc_last_data_offset))

/-- The `DRR_FREE` record that `dump_free` creates after `bzero`. -/
def dump_free_record (toguid object offset length : Nat) : dmu_replay_record_t :=
  { drr_zero with drr_type := drr_type_t.DRR_FREE, drr_object := object,
                  drr_offset := offset, drr_length := length, drr_toguid := toguid }

/-- The `DRR_REDACT` record that `dump_redact` creates after `bzero`. -/
def dump_redact_record (toguid object offset length : Nat) : dmu_replay_record_t :=
  { drr_zero with drr_type := drr_type_t.DRR_REDACT, drr_object := object,
                  drr_offset := offset, drr_length := length, drr_toguid := toguid }

/-- The `DRR_FREEOBJECTS` record that `dump_freeobjects` creates after `bzero`. -/
def dump_freeobjects_record (toguid firstobj numobjs : Nat) : dmu_replay_record_t :=
  { drr_zero with drr_type := drr_type_t.DRR_FREEOBJECTS, drr_firstobj := firstobj,
                  drr_numobjs := numobjs, drr_toguid := toguid }

/-- The first statement of `dump_free`,
`if (length != -1ULL && offset + length < offset) length = -1ULL;`:
the value of `length` after it. -/
def dump_free_length (offset length : Nat) : Nat :=
  if length ≠ UINT64_MAX ∧ (offset + length) % 2 ^ 64 < offset then UINT64_MAX else length

/-- The function `dump_free`. -/
def dump_free (W : stream_codec) (dscp : dmu_send_cookie_t)
    (object offset length : Nat) : Nat × dmu_send_cookie_t :=
  let length1 := dump_free_length offset length
  let r1 :=
    if dscp.dsc_pending_op ≠ dmu_pendop_t.PENDING_NONE ∧
        dscp.dsc_pending_op ≠ dmu_pendop_t.PENDING_FREE then push_out_pending W dscp
    else (0, dscp)
  if r1.1 ≠ 0 then r1
  else
    let d1 := r1.2
    if d1.dsc_pending_op = dmu_pendop_t.PENDING_FREE ∧ d1.dsc_drr.drr_object = object ∧
        (d1.dsc_drr.drr_offset + d1.dsc_drr.drr_length) % 2 ^ 64 = offset then
      (0, { d1 with dsc_drr :=
        { d1.dsc_drr with drr_length :=
            if length1 = UINT64_MAX then UINT64_MAX
            else (d1.dsc_drr.drr_length + length1) % 2 ^ 64 } })
    else
      let r2 :=
        if d1.dsc_pending_op = dmu_pendop_t.PENDING_FREE then push_out_pending W d1
        else (0, d1)
      if r2.1 ≠ 0 then r2
      else
        let d2 := r2.2
        let d3 : dmu_send_cookie_t :=
          { d2 with dsc_drr := dump_free_record d2.dsc_toguid object offset length1 }
        if length1 = UINT64_MAX then
          let r3 := dump_record W d3 none 0
          if r3.1 ≠ 0 then (EINTR, r3.2) else (0, r3.2)
        else (0, { d3 with dsc_pending_op := dmu_pendop_t.PENDING_FREE })

/-- The function `dump_redact`. -/
def dump_redact (W : stream_codec) (dscp : dmu_send_cookie_t)
    (object offset length : Nat) : Nat × dmu_send_cookie_t :=
  let r1 :=
    if dscp.dsc_pending_op ≠ dmu_pendop_t.PENDING_NONE ∧
        dscp.dsc_pending_op ≠ dmu_pendop_t.PENDING_REDACT then push_out_pending W dscp
    else (0, dscp)
  if r1.1 ≠ 0 then r1
  else
    let d1 := r1.2
    if d1.dsc_pending_op = dmu_pendop_t.PENDING_REDACT ∧ d1.dsc_drr.drr_object = object ∧
        (d1.dsc_drr.drr_offset + d1.dsc_drr.drr_length) % 2 ^ 64 = offset then
      (0, { d1 with dsc_drr :=
        { d1.dsc_drr with drr_length := (d1.dsc_drr.drr_length + length) % 2 ^ 64 } })
    else
      let r2 :=
        if d1.dsc_pending_op = dmu_pendop_t.PENDING_REDACT then push_out_pending W d1
        else (0, d1)
      if r2.1 ≠ 0 then r2
      else
        let d2 := r2.2
        (0, { d2 with
          dsc_drr := dump_redact_record d2.dsc_toguid object offset length,
          dsc_pending_op := dmu_pendop_t.PENDING_REDACT })

/-- A `BP_*` accessor applied to a block pointer argument; the source never
applies one to `NULL` on a path it takes, and this gives 0 there. -/
def bp_get (f : blkptr_t → Nat) (bp : Option blkptr_t) : Nat :=
  match bp with
  | some b => f b
  | none => 0

/-- A boolean `BP_*` test applied to a block pointer argument. -/
def bp_test (f : blkptr_t → Bool) (bp : Option blkptr_t) : Bool :=
  match bp with
  | some b => f b
  | none => false

/-- The `DRR_WRITE` record that `dump_write` fills in after `bzero`. -/
def dump_write_record (W : stream_codec) (d1 : dmu_send_cookie_t) (type object offset : Nat)
    (lsize psize : Nat) (bp : Option blkptr_t) : dmu_replay_record_t :=
  let raw : Bool := decide (d1.dsc_featureflags &&& DMU_BACKUP_FEATURE_RAW ≠ 0)
  let w0 : dmu_replay_record_t :=
    { drr_zero with drr_type := drr_type_t.DRR_WRITE, drr_object := object,
                    drr_otype := type, drr_offset := offset,
                    drr_toguid := d1.dsc_toguid, drr_logical_size := lsize }
  let w1 : dmu_replay_record_t :=
    if raw = true ∨ lsize ≠ psize then
      let w := if raw = true then
          { w0 with
            drr_flags :=
              if bp_test blkptr_t.should_byteswap bp = true then
                w0.drr_flags ||| DRR_RAW_BYTESWAP
              else w0.drr_flags,
            drr_salt := bp_get blkptr_t.salt bp, drr_iv := bp_get blkptr_t.iv bp,
            drr_mac := bp_get blkptr_t.mac bp }
        else w0
      { w with drr_compressiontype := bp_get blkptr_t.compress bp,
               drr_compressed_size := psize }
    else w0
  if bp = none ∨ bp_test blkptr_t.is_embedded bp = true ∨
      (bp_test blkptr_t.is_protected bp = true ∧ raw = false) then
    { w1 with drr_checksumtype := ZIO_CHECKSUM_OFF }
  else
    { w1 with
      drr_checksumtype := bp_get blkptr_t.checksum bp,
      drr_flags :=
        if W.checksum_dedup (bp_get blkptr_t.checksum bp) = true then
          w1.drr_flags ||| DRR_CHECKSUM_DEDUP
        else w1.drr_flags,
      drr_key_lsize := bp_get blkptr_t.lsize bp,
      drr_key_psize := bp_get blkptr_t.psize bp,
      drr_key_compress := bp_get blkptr_t.compress bp,
      drr_key_crypt := bp_test blkptr_t.is_protected bp,
      drr_key_cksum := bp_get blkptr_t.blk_cksum bp }

/-- The local `payload_size` of `dump_write`: `drr_compressed_size` for a raw
or compressed buffer, `drr_logical_size` otherwise. -/
def dump_write_payload_size (d1 : dmu_send_cookie_t) (lsize psize : Nat) : Nat :=
  if d1.dsc_featureflags &&& DMU_BACKUP_FEATURE_RAW ≠ 0 ∨ lsize ≠ psize then psize
  else lsize

/-- The function `dump_write`. -/
def dump_write (W : stream_codec) (dscp : dmu_send_cookie_t) (type object offset : Nat)
    (lsize psize : Nat) (bp : Option blkptr_t) (data : Option (List Nat)) :
    Nat × dmu_send_cookie_t :=
  let d0 : dmu_send_cookie_t :=
    { dscp with dsc_last_data_object := object,
                dsc_last_data_offset := (offset + lsize + 2 ^ 64 - 1) % 2 ^ 64 }
  let r1 :=
    if d0.dsc_pending_op ≠ dmu_pendop_t.PENDING_NONE then push_out_pending W d0
    else (0, d0)
  if r1.1 ≠ 0 then r1
  else
    let r2 := dump_record W
      { r1.2 with dsc_drr := dump_write_record W r1.2 type object offset lsize psize bp }
      data (dump_write_payload_size r1.2 lsize psize)
    if r2.1 ≠ 0 then (EINTR, r2.2) else (0, r2.2)

/-- The `DRR_WRITE_EMBEDDED` record that `dump_write_embedded` fills in. -/
def dump_write_embedded_record (d1 : dmu_send_cookie_t) (object offset blksz : Nat)
    (bp : blkptr_t) : dmu_replay_record_t :=
  { drr_zero with drr_type := drr_type_t.DRR_WRITE_EMBEDDED, drr_object := object,
                  drr_offset := offset, drr_length := blksz,
                  drr_toguid := d1.dsc_toguid, drr_compression := bp.compress,
                  drr_etype := bp.etype, drr_lsize := bp.bpe_lsize,
                  drr_psize := bp.bpe_psize }

/-- The function `dump_write_embedded`; the payload is what
`decode_embedded_bp_compressed` puts into `buf`. -/
def dump_write_embedded (W : stream_codec) (dscp : dmu_send_cookie_t)
    (object offset blksz : Nat) (bp : blkptr_t) : Nat × dmu_send_cookie_t :=
  let r1 :=
    if dscp.dsc_pending_op ≠ dmu_pendop_t.PENDING_NONE then push_out_pending W dscp
    else (0, dscp)
  if r1.1 ≠ 0 then r1
  else
    let r2 := dump_record W
      { r1.2 with dsc_drr := dump_write_embedded_record r1.2 object offset blksz bp }
      (some bp.embedded_payload) (P2ROUNDUP8 bp.bpe_psize)
    if r2.1 ≠ 0 then (EINTR, r2.2) else (0, r2.2)

/-- The `DRR_SPILL` record that `dump_spill` fills in; the length is the local
`blksz`, `BP_GET_LSIZE(bp)`. -/
def dump_spill_record (d1 : dmu_send_cookie_t) (bp : blkptr_t) (object : Nat) :
    dmu_replay_record_t :=
  let w0 : dmu_replay_record_t :=
    { drr_zero with drr_type := drr_type_t.DRR_SPILL, drr_object := object,
                    drr_length := bp.lsize, drr_toguid := d1.dsc_toguid }
  if d1.dsc_featureflags &&& DMU_BACKUP_FEATURE_RAW ≠ 0 then
    { w0 with
      drr_flags :=
        if bp.should_byteswap = true then w0.drr_flags ||| DRR_RAW_BYTESWAP
        else w0.drr_flags,
      drr_compressiontype := bp.compress, drr_compressed_size := bp.psize,
      drr_salt := bp.salt, drr_iv := bp.iv, drr_mac := bp.mac }
  else w0

/-- The function `dump_spill`. -/
def dump_spill (W : stream_codec) (dscp : dmu_send_cookie_t) (bp : blkptr_t)
    (object : Nat) (data : Option (List Nat)) : Nat × dmu_send_cookie_t :=
  let r1 :=
    if dscp.dsc_pending_op ≠ dmu_pendop_t.PENDING_NONE then push_out_pending W dscp
    else (0, dscp)
  if r1.1 ≠ 0 then r1
  else
    let r2 := dump_record W { r1.2 with dsc_drr := dump_spill_record r1.2 bp object }
      data bp.lsize
    if r2.1 ≠ 0 then (EINTR, r2.2) else (0, r2.2)

/-- The function `dump_freeobjects`. -/
def dump_freeobjects (W : stream_codec) (dscp : dmu_send_cookie_t)
    (firstobj numobjs : Nat) : Nat × dmu_send_cookie_t :=
  let r1 :=
    if dscp.dsc_pending_op ≠ dmu_pendop_t.PENDING_NONE ∧
        dscp.dsc_pending_op ≠ dmu_pendop_t.PENDING_FREEOBJECTS then push_out_pending W dscp
    else (0, dscp)
  if r1.1 ≠ 0 then r1
  else
    let d1 := r1.2
    let numobjs1 := if numobjs = 0 then UINT64_MAX - firstobj else numobjs
    if d1.dsc_pending_op = dmu_pendop_t.PENDING_FREEOBJECTS ∧
        (d1.dsc_drr.drr_firstobj + d1.dsc_drr.drr_numobjs) % 2 ^ 64 = firstobj then
      (0, { d1 with dsc_drr :=
        { d1.dsc_drr with drr_numobjs := (d1.dsc_drr.drr_numobjs + numobjs1) % 2 ^ 64 } })
    else
      let r2 :=
        if d1.dsc_pending_op = dmu_pendop_t.PENDING_FREEOBJECTS then push_out_pending W d1
        else (0, d1)
      if r2.1 ≠ 0 then r2
      else
        let d2 := r2.2
        (0, { d2 with
          dsc_drr := dump_freeobjects_record d2.dsc_toguid firstobj numobjs1,
          dsc_pending_op := dmu_pendop_t.PENDING_FREEOBJECTS })

/-- The `DRR_OBJECT` record that `dump_dnode` fills in. -/
def dump_dnode_record (d1 : dmu_send_cookie_t) (bp : Option blkptr_t) (object : Nat)
    (dn : dnode_phys_t) : dmu_replay_record_t :=
  let blksz := dn.dn_datablkszsec <<< SPA_MINBLOCKSHIFT
  let o0 : dmu_replay_record_t :=
    { drr_zero with
      drr_type := drr_type_t.DRR_OBJECT, drr_object := object,
      drr_otype := dn.dn_type, drr_bonustype := dn.dn_bonustype,
      drr_blksz :=
        if d1.dsc_featureflags &&& DMU_BACKUP_FEATURE_LARGE_BLOCKS = 0 ∧
            blksz > SPA_OLD_MAXBLOCKSIZE then SPA_OLD_MAXBLOCKSIZE
        else blksz,
      drr_bonuslen := dn.dn_bonuslen, drr_checksumtype := dn.dn_checksum,
      drr_compress := dn.dn_compress, drr_toguid := d1.dsc_toguid }
  if d1.dsc_featureflags &&& DMU_BACKUP_FEATURE_RAW ≠ 0 then
    { o0 with
      drr_flags :=
        if bp_test blkptr_t.should_byteswap bp = true then o0.drr_flags ||| DRR_RAW_BYTESWAP
        else o0.drr_flags,
      drr_maxblkid := dn.dn_maxblkid, drr_indblkshift := dn.dn_indblkshift,
      drr_nlevels := dn.dn_nlevels, drr_nblkptr := dn.dn_nblkptr,
      drr_raw_bonuslen :=
        if P2ROUNDUP8 dn.dn_bonuslen ≠ 0 then dn.dn_max_bonus_len else o0.drr_raw_bonuslen }
  else o0

/-- The local `bonuslen` of `dump_dnode` when it calls `dump_record`. -/
def dump_dnode_bonuslen (d1 : dmu_send_cookie_t) (dn : dnode_phys_t) : Nat :=
  if d1.dsc_featureflags &&& DMU_BACKUP_FEATURE_RAW ≠ 0 ∧ P2ROUNDUP8 dn.dn_bonuslen ≠ 0 then
    dn.dn_max_bonus_len
  else P2ROUNDUP8 dn.dn_bonuslen

/-- The function `dump_dnode`; `dnp` is `none` for a `NULL` dnode. -/
def dump_dnode (W : stream_codec) (dscp : dmu_send_cookie_t) (bp : Option blkptr_t)
    (object : Nat) (dnp : Option dnode_phys_t) : Nat × dmu_send_cookie_t :=
  if object < dscp.dsc_resume_object then (0, dscp)
  else
    match dnp with
    | none => dump_freeobjects W dscp object 1
    | some dn =>
      if dn.dn_type = DMU_OT_NONE then dump_freeobjects W dscp object 1
      else
        let r1 :=
          if dscp.dsc_pending_op ≠ dmu_pendop_t.PENDING_NONE then push_out_pending W dscp
          else (0, dscp)
        if r1.1 ≠ 0 then r1
        else
          let r2 := dump_record W { r1.2 with dsc_drr := dump_dnode_record r1.2 bp object dn }
            (some dn.dn_bonus) (dump_dnode_bonuslen r1.2 dn)
          if r2.1 ≠ 0 then (EINTR, r2.2)
          else
            let r3 := dump_free W r2.2 object
              (((dn.dn_maxblkid + 1) * (dn.dn_datablkszsec <<< SPA_MINBLOCKSHIFT)) % 2 ^ 64)
              UINT64_MAX
            if r3.1 ≠ 0 then (EINTR, r3.2)
            else if r3.2.dsc_err ≠ 0 then (EINTR, r3.2)
            else (0, r3.2)

/-! ## Concrete inputs -/

/-- A concrete codec for examples: the header bytes are the fields that the
aggregated records use, and the checksum is a Fletcher-4 style running sum. -/
def sample_codec : stream_codec :=
  { header_bytes := fun r =>
      [r.drr_object, r.drr_offset, r.drr_length, r.drr_firstobj, r.drr_numobjs, r.drr_toguid],
    cksum_bytes := fun z => [z.w0, z.w1, z.w2, z.w3],
    fletcher_4_incremental_native := fun bytes z =>
      bytes.foldl (fun acc w =>
        { w0 := (acc.w0 + w) % 2 ^ 64,
          w1 := (acc.w1 + (acc.w0 + w)) % 2 ^ 64,
          w2 := (acc.w2 + (acc.w1 + (acc.w0 + w))) % 2 ^ 64,
          w3 := (acc.w3 + (acc.w2 + (acc.w1 + (acc.w0 + w)))) % 2 ^ 64 }) z,
    checksum_dedup := fun _ => false }

/-- A session state with nothing pending and an output function that accepts
every buffer. -/
def sample_cookie : dmu_send_cookie_t :=
  { dsc_drr := drr_zero, dsc_dso := { dso_outfunc := fun _ => 0, dso_dryrun := false },
    dsc_out := [], dsc_off := 0, dsc_zc := zio_cksum_zero, dsc_toguid := 77, dsc_err := 0,
    dsc_pending_op := dmu_pendop_t.PENDING_NONE, dsc_featureflags := 0,
    dsc_last_data_object := 0, dsc_last_data_offset := 0, dsc_resume_object := 0,
    dsc_resume_offset := 0, dsc_sent_begin := true, dsc_sent_end := false }

/-- A change record of the given type, object and block range, with
`datablksz` set to `m`. -/
def sample_range (t : range_type) (object start_blkid end_blkid m : Nat) : send_range :=
  { eos_marker := false, object := object, start_blkid := start_blkid,
    end_blkid := end_blkid, type := t, sru := { sru_zero with datablksz := m } }

/-- The state after `dump_free(1, 0, 10)` on `sample_cookie`: a FREE record for
object 1, offset 0, length 10 is pending. -/
def sample_cookie_free : dmu_send_cookie_t := (dump_free sample_codec sample_cookie 1 0 10).2

/-- The state after `dump_redact(1, 0, 10)` on `sample_cookie`: a REDACT record
for object 1, offset 0, length 10 is pending. -/
def sample_cookie_redact : dmu_send_cookie_t :=
  (dump_redact sample_codec sample_cookie 1 0 10).2

/-- What a serializer call appends to the sink when it first pushes out the
pending record and then emits one record of type `t`: the pending header,
unchanged but for its checksum field, then the header of the new record and at
most one payload buffer; nothing is pending afterwards. -/
def pushes_out_then_emits (W : stream_codec) (dscp : dmu_send_cookie_t)
    (r : Nat × dmu_send_cookie_t) (t : drr_type_t) : Prop :=
  r.2.dsc_pending_op = dmu_pendop_t.PENDING_NONE ∧
  ∃ (w : dmu_replay_record_t) (pl : List out_chunk),
    r.2.dsc_out =
      dscp.dsc_out ++ out_chunk.header (dump_record_header W dscp) :: out_chunk.header w :: pl ∧
    { dump_record_header W dscp with drr_checksum := dscp.dsc_drr.drr_checksum } =
      dscp.dsc_drr ∧
    w.drr_type = t ∧
    (pl = [] ∨ ∃ data n, pl = [out_chunk.payload data n])

/-! ## Inputs of the merge over one object -/

/-- A record of a merge input over the object `o`: not an end-of-stream marker,
on object `o`, and either an `OBJECT` record (which spans no block, `[0,0)`) or
a non-empty block range `[start_blkid, end_blkid)`. -/
def range_ok (o : Nat) (r : send_range) : Prop :=
  r.eos_marker = false ∧ r.object = o ∧
  ((r.type = range_type.OBJECT ∧ r.start_blkid = 0 ∧ r.end_blkid = 0) ∨
   (r.type ≠ range_type.OBJECT ∧ r.start_blkid < r.end_blkid))

/-- A merge input over the object `o`: the records that a producer delivers
before its end-of-stream record, sorted and non-overlapping. -/
def input_ok (o : Nat) (l : List send_range) : Prop :=
  (∀ r ∈ l, range_ok o r) ∧ l.Chain' (fun a b => a.end_blkid ≤ b.start_blkid)

/-- A front record with the rest of its queue, as the merge keeps them: the
records are sorted and non-overlapping ranges over the object `o`, and the
queue ends with the end-of-stream record. -/
def stream_ok (o : Nat) : send_range → List send_range → Prop
  | r, [] => r.eos_marker = true
  | r, next :: q =>
    range_ok o r ∧ (next.eos_marker = false → r.end_blkid ≤ next.start_blkid) ∧
      stream_ok o next q

/-- The type and the union `sru` of a record: what a returned range carries over
from the input range it was cut from. -/
def range_meta (r : send_range) : range_type × sru_t := (r.type, r.sru)

/-- The metadata of the records of a queue (front first) that cover a block. -/
def covering_meta (s : List send_range) (o b : Nat) : List (range_type × sru_t) :=
  (s.filter (fun x => decide (covers x o b))).map range_meta

/-- The metadata of the highest-priority record, over the three queues of a
merge state, that covers a block: index 0 before index 1 before index 2. -/
def priority_meta (st : merge_state) (o b : Nat) : Option (range_type × sru_t) :=
  ((covering_meta (st.ranges 0 :: st.qs 0) o b).head?.orElse fun _ =>
    (covering_meta (st.ranges 1 :: st.qs 1) o b).head?).orElse fun _ =>
    (covering_meta (st.ranges 2 :: st.qs 2) o b).head?

/-- What is left to merge in one queue: one for each record plus the number of
blocks it still spans. -/
def stream_weight (s : List send_range) : Nat :=
  (s.map fun r => if r.eos_marker = true then 0 else 1 + (r.end_blkid - r.start_blkid)).sum

/-- What is left to merge in the three queues. -/
def merge_weight (st : merge_state) : Nat :=
  stream_weight (st.ranges 0 :: st.qs 0) + stream_weight (st.ranges 1 :: st.qs 1) +
    stream_weight (st.ranges 2 :: st.qs 2)

/-- The start key of a record within one object: `OBJECT` records first, then
block ranges by their first block. -/
def start_key (r : send_range) : Nat :=
  if r.type = range_type.OBJECT then 0 else r.start_blkid + 1

/-- How one call of `find_next_range` changes one queue.  A queue whose front
starts where the returned range starts (`tie`) is advanced to `first_change`:
its front is replaced by the next record when that empties it, and has its
`start_blkid` moved otherwise.  The other queues are left alone. -/
def queue_advanced (tie : Prop) (first_change : Nat) (r : send_range) (q : List send_range)
    (r1 : send_range) (q1 : List send_range) : Prop :=
  (tie → (first_change = r.end_blkid → r1 :: q1 = q) ∧
    (first_change ≠ r.end_blkid → r1 = { r with start_blkid := first_change } ∧ q1 = q)) ∧
  (¬ tie → r1 = r ∧ q1 = q)

/-- The invariant of the merge over the object `o`: every front with the rest
of its queue is a sorted, non-overlapping input that ends with end-of-stream. -/
def merge_inv (o : Nat) (st : merge_state) : Prop :=
  ∀ i, stream_ok o (st.ranges i) (st.qs i)

/-! ## The start order as a triple -/

/-- Modelled from the spec: the triple that `send_range_start_compare` orders
records by: the object-equivalent, 0 for an `OBJECT` record and 1 for any other
record, and the block-equivalent.  A record on object 0 has object-equivalent
`start_blkid * DNODES_PER_BLOCK`, taken in `uint64_t` as the source takes it,
and block-equivalent 0; any other record has its object and `start_blkid`. -/
def start_triple (r : send_range) : Nat × Nat × Nat :=
  (if r.object = 0 then (r.start_blkid * DNODES_PER_BLOCK) % 2 ^ 64 else r.object,
   if r.type = range_type.OBJECT then 0 else 1,
   if r.object = 0 then 0 else r.start_blkid)

/-- Modelled from the spec: the sign of the lexicographic comparison of two
triples: -1 when the first is smaller, 1 when it is greater, 0 when they are
equal. -/
def lex_sign (a b : Nat × Nat × Nat) : Int :=
  if a.1 < b.1 ∨ (a.1 = b.1 ∧ (a.2.1 < b.2.1 ∨ (a.2.1 = b.2.1 ∧ a.2.2 < b.2.2))) then -1
  else if b.1 < a.1 ∨ (b.1 = a.1 ∧ (b.2.1 < a.2.1 ∨ (b.2.1 = a.2.1 ∧ b.2.2 < a.2.2))) then 1
  else 0

/-! ## The fast size estimate -/

/-- The error number `EINVAL`. -/
def EINVAL : Nat := 22

/-- The error number `EXDEV`. -/
def EXDEV : Nat := 18

/-- The size `sizeof (blkptr_t)`. -/
def SIZEOF_BLKPTR : Nat := 128

/-- What `dmu_adjust_send_estimate_for_indirects` reads to find the record
size: the tunable `zfs_override_estimate_recordsize`, whether the object set is
a volume (`os_type == DMU_OST_ZVOL`), and what `dsl_prop_get_int_ds` gives
(returned error, value stored) for the properties `volblocksize` and
`recordsize`. -/
structure estimate_recordsize_t where
  zfs_override_estimate_recordsize : Nat
  is_zvol : Bool
  volblocksize : Nat × Nat
  recordsize : Nat × Nat

/-- The first statements of `dmu_adjust_send_estimate_for_indirects`: the
locals `err` and `recordsize` after the `if` chain. -/
def estimate_recordsize (E : estimate_recordsize_t) : Nat × Nat :=
  if E.zfs_override_estimate_recordsize ≠ 0 then (0, E.zfs_override_estimate_recordsize)
  else if E.is_zvol = true then E.volblocksize
  else E.recordsize

/-- The function `dmu_adjust_send_estimate_for_indirects`: the returned error
and `*sizep`, which is left alone on an error; `none` is the division by a
record size of zero. -/
def dmu_adjust_send_estimate_for_indirects (E : estimate_recordsize_t)
    (uncompressed compressed : Nat) (stream_compressed : Bool) (sizep : Nat) :
    Option (Nat × Nat) :=
  let err := (estimate_recordsize E).1
  let recordsize := (estimate_recordsize E).2
  if err ≠ 0 then some (err, sizep)
  else if recordsize = 0 then none
  else
    let record_count := uncompressed / recordsize
    let size := if stream_compressed = true then compressed else uncompressed
    let size1 := (size + 2 ^ 64 - (record_count * SIZEOF_BLKPTR) % 2 ^ 64) % 2 ^ 64
    let size2 := (size1 + (record_count * SIZEOF_DMU_REPLAY_RECORD) % 2 ^ 64) % 2 ^ 64
    some (0, size2)

/-- What `dmu_send_estimate_fast` reads from a non-`NULL` `fromds`: whether it
is a snapshot, what `dsl_dataset_is_before(ds, fromds, 0)` gives, and what
`dsl_dataset_space_written` gives (returned error, `comp`, `uncomp`). -/
structure estimate_fromds_t where
  ds_is_snapshot : Bool
  is_before : Bool
  space_written : Nat × Nat × Nat

/-- What `dmu_send_estimate_fast` reads from its arguments: `frombook` holds
what `dsl_dataset_space_written_bookmark` gives (returned error, `comp`,
`uncomp`); `none` is a `NULL` argument. -/
structure estimate_args_t where
  ds_is_snapshot : Bool
  fromds : Option estimate_fromds_t
  frombook : Option (Nat × Nat × Nat)
  ds_uncompressed_bytes : Nat
  ds_compressed_bytes : Nat

/-- The statements of `dmu_send_estimate_fast` in front of the call of
`dmu_adjust_send_estimate_for_indirects`: the error of an early return (0 when
there is none) and the locals `comp` and `uncomp`. -/
def dmu_send_estimate_fast_totals (A : estimate_args_t) : Nat × Nat × Nat :=
  if A.ds_is_snapshot = false then (EINVAL, 0, 0)
  else
    match A.fromds with
    | some f =>
      if f.ds_is_snapshot = false then (EINVAL, 0, 0)
      else if f.is_before = false then (EXDEV, 0, 0)
      else f.space_written
    | none =>
      match A.frombook with
      | some b => b
      | none => (0, A.ds_compressed_bytes, A.ds_uncompressed_bytes)

/-- The function `dmu_send_estimate_fast`: the returned error and `*sizep`. -/
def dmu_send_estimate_fast (E : estimate_recordsize_t) (A : estimate_args_t)
    (stream_compressed : Bool) (sizep : Nat) : Option (Nat × Nat) :=
  let t := dmu_send_estimate_fast_totals A
  if t.1 ≠ 0 then some (t.1, sizep)
  else
    match dmu_adjust_send_estimate_for_indirects E t.2.2 t.2.1 stream_compressed sizep with
    | none => none
    | some (err, size) => some (err, (size + 2 * SIZEOF_DMU_REPLAY_RECORD) % 2 ^ 64)

/-- A file system whose `recordsize` property is 512. -/
def sample_estimate : estimate_recordsize_t :=
  { zfs_override_estimate_recordsize := 0, is_zvol := false, volblocksize := (0, 0),
    recordsize := (0, 512) }

/-- A full send of a snapshot with the given byte totals. -/
def sample_estimate_args (uncompressed compressed : Nat) : estimate_args_t :=
  { ds_is_snapshot := true, fromds := none, frombook := none,
    ds_uncompressed_bytes := uncompressed, ds_compressed_bytes := compressed }

/-! ## The redaction-list traversal stage -/

/-- An entry `redact_block_phys_t` of a redaction list: `count` is what
`redact_block_get_count` gives and `size` what `redact_block_get_size` gives. -/
structure redact_block_phys_t where
  rbp_object : Nat
  rbp_blkid : Nat
  count : Nat
  size : Nat
deriving DecidableEq, Repr

/-- The callback `redact_list_cb`: the returned value and the queue `*rlcap->q`
after the call.  `cancel` is `*rlcap->cancel` as this call reads it; the counter
`num_blocks_visited` is left out. -/
def redact_list_cb (mark_redact : Bool) (cancel : Bool) (q : List send_range)
    (rb : redact_block_phys_t) : Int × List send_range :=
  if cancel = true then (-1, q)
  else
    let data := range_alloc range_type.REDACT rb.rbp_object rb.rbp_blkid
      ((rb.rbp_blkid + rb.count) % 2 ^ 64) false
    let data1 : send_range :=
      if mark_redact = true then
        { data with type := range_type.REDACT, sru := { data.sru with datablksz := rb.size } }
      else { data with type := range_type.PREVIOUSLY_REDACTED }
    (0, q ++ [data1])

/-- A redaction list as `dsl_redaction_list_traverse` reads it from the resume
point on: the entries it reaches, in order, and the error of the read that ends
the traversal (0 at the end of the list). -/
structure redaction_list_t where
  entries : List redact_block_phys_t
  read_error : Nat
deriving DecidableEq, Repr

/-- Modelled from the spec: `dsl_redaction_list_traverse`, whose code is not in
this file: an ordered traversal that calls the callback once for each entry and
stops with `EINTR` at the first call that returns non-zero.  `cancel i` is the
cancel flag as the call for entry number `i` reads it. -/
def dsl_redaction_list_traverse (mark_redact : Bool) (cancel : Nat → Bool) (read_error : Nat) :
    List redact_block_phys_t → Nat → List send_range → Nat × List send_range
  | [], _, q => (read_error, q)
  | rb :: rest, i, q =>
    if (redact_list_cb mark_redact (cancel i) q rb).1 ≠ 0 then
      (EINTR, (redact_list_cb mark_redact (cancel i) q rb).2)
    else
      dsl_redaction_list_traverse mark_redact cancel read_error rest (i + 1)
        (redact_list_cb mark_redact (cancel i) q rb).2

/-- The fields of `struct redact_list_thread_arg` that `redact_list_thread`
writes: the queue `q` and `error_code`. -/
structure redact_list_thread_result where
  q : List send_range
  error_code : Nat
deriving DecidableEq, Repr

/-- The function `redact_list_thread`, started with an empty queue and
`error_code` 0 as `setup_from_thread` and `setup_redact_list_thread` leave
them; `rl` is `none` for a `NULL` list. -/
def redact_list_thread (rl : Option redaction_list_t) (mark_redact : Bool)
    (cancel : Nat → Bool) : redact_list_thread_result :=
  let r : Nat × List send_range :=
    match rl with
    | some l =>
      let t := dsl_redaction_list_traverse mark_redact cancel l.read_error l.entries 0 []
      (if t.1 ≠ EINTR then t.1 else 0, t.2)
    | none => (0, [])
  { q := r.2 ++ [range_alloc range_type.DATA 0 0 0 true], error_code := r.1 }

/-- A redaction list of two entries that is read to its end. -/
def sample_redaction_list : redaction_list_t :=
  { entries := [{ rbp_object := 7, rbp_blkid := 2, count := 3, size := 4096 },
                { rbp_object := 7, rbp_blkid := 9, count := 1, size := 4096 }],
    read_error := 0 }

/-! ## The bytes of the stream and its running checksum -/

/-- The bytes of one buffer handed to the output function.  A header is the
bytes in front of its checksum field followed by the checksum field; a `NULL`
payload, as a dry run hands over, has no bytes to give. -/
def chunk_bytes (W : stream_codec) : out_chunk → Option (List Nat)
  | out_chunk.header drr => some (W.header_bytes drr ++ W.cksum_bytes drr.drr_checksum)
  | out_chunk.payload (some data) _ => some data
  | out_chunk.payload none _ => none

/-- The bytes of the stream that the buffers handed to the output function make
up; `none` when a payload was `NULL`. -/
def stream_bytes (W : stream_codec) : List out_chunk → Option (List Nat)
  | [] => some []
  | c :: rest =>
    match chunk_bytes W c, stream_bytes W rest with
    | some a, some b => some (a ++ b)
    | _, _ => none

/-- What the checksum properties take from the code that is not in this file:
the bytes in front of the checksum field do not depend on that field, and
`fletcher_4_incremental_native` is incremental: hashing a buffer in two parts
gives what hashing it at once gives. -/
def stream_codec_ok (W : stream_codec) : Prop :=
  (∀ (r : dmu_replay_record_t) (c : zio_cksum_t),
    W.header_bytes { r with drr_checksum := c } = W.header_bytes r) ∧
  (∀ (a b : List Nat) (z : zio_cksum_t),
    W.fletcher_4_incremental_native (a ++ b) z =
      W.fletcher_4_incremental_native b (W.fletcher_4_incremental_native a z))

/-- One call of `dump_record`: the contents of the record buffer `dsc_drr` when
the call is made, the payload (`none` for `NULL`) and `payload_len`. -/
structure dump_record_call where
  drr : dmu_replay_record_t
  payload : Option (List Nat)
  payload_len : Nat

/-- A sequence of calls of `dump_record` on one session; between two calls the
callers store to the record buffer. -/
def dump_record_calls (W : stream_codec) :
    dmu_send_cookie_t → List dump_record_call → dmu_send_cookie_t
  | d, [] => d
  | d, c :: rest =>
    dump_record_calls W (dump_record W { d with dsc_drr := c.drr } c.payload c.payload_len).2 rest

/-- The running checksum `dsc_zc` is the hash, started from zero, of the bytes
handed to the output function so far: hashing any further bytes `s` from
`dsc_zc` gives what hashing the whole stream followed by `s` gives. -/
def cksum_inv (W : stream_codec) (d : dmu_send_cookie_t) : Prop :=
  ∃ bytes, stream_bytes W d.dsc_out = some bytes ∧
    ∀ s, W.fletcher_4_incremental_native s d.dsc_zc =
      W.fletcher_4_incremental_native (bytes ++ s) zio_cksum_zero

/-- Two calls of `dump_record`: a WRITE record for object 1 with a
payload of three bytes, then a FREE record without payload. -/
def sample_calls : List dump_record_call :=
  [{ drr := dump_write_record sample_codec sample_cookie 19 1 0 3 3 none,
     payload := some [1, 2, 3], payload_len := 3 },
   { drr := dump_free_record 77 1 3 10, payload := none, payload_len := 0 }]

/-! ## The serializer's dispatch, `do_dump` -/

/-- The object type `DMU_OT_SA` of `sys/dmu.h`. -/
def DMU_OT_SA : Nat := 44

/-- The value `ZIO_COMPRESS_LEGACY_FUNCTIONS` of `sys/zio_compress.h`
(`ZIO_COMPRESS_LZ4`). -/
def ZIO_COMPRESS_LEGACY_FUNCTIONS : Nat := 15

/-- The embedded type `BP_EMBEDDED_TYPE_DATA`. -/
def BP_EMBEDDED_TYPE_DATA : Nat := 0

/-- The shift `DNODE_SHIFT` of `sys/dnode.h`. -/
def DNODE_SHIFT : Nat := 9

/-- The function `overflow_multiply`: the returned boolean and `*c` after the
call. -/
def overflow_multiply (a b c : Nat) : Bool × Nat :=
  let temp := (a * b) % 2 ^ 64
  if b ≠ 0 ∧ temp / b ≠ a then (false, c) else (true, temp)

/-- The function `send_do_embed`. -/
def send_do_embed (dscp : dmu_send_cookie_t) (bp : blkptr_t) : Bool :=
  if bp.is_embedded = false then false
  else if bp.compress ≥ ZIO_COMPRESS_LEGACY_FUNCTIONS ∧
      dscp.dsc_featureflags &&& DMU_BACKUP_FEATURE_LZ4 = 0 then false
  else if bp.etype = BP_EMBEDDED_TYPE_DATA then
    if dscp.dsc_featureflags &&& DMU_BACKUP_FEATURE_EMBED_DATA ≠ 0 then true else false
  else false

/-- The fields of an `arc_buf_t` that `do_dump` reads: the data `b_data` and
what `arc_buf_size` gives. -/
structure arc_buf_t where
  b_data : List Nat
  size : Nat
deriving DecidableEq, Repr

/-- What a call of `arc_read` with `arc_getbuf_func` gives: the buffer, or the
returned error with the buffer pointer left `NULL`. -/
inductive arc_read_result where
  | ok (abuf : arc_buf_t)
  | failed (err : Nat)
deriving DecidableEq, Repr

/-- What `do_dump` takes from outside this file: `arc_read` (as a function of
the record read and of whether `ZIO_FLAG_RAW` and `ZIO_FLAG_RAW_COMPRESS` are
requested), the macro `DMU_OT_IS_METADATA`, and the tunable
`zfs_send_corrupt_data`. -/
structure do_dump_env where
  arc_read : send_range → Bool → Bool → arc_read_result
  ot_is_metadata : Nat → Bool
  zfs_send_corrupt_data : Bool

/-- The error that a call of `arc_read` returns. -/
def arc_read_err : arc_read_result → Nat
  | arc_read_result.ok _ => 0
  | arc_read_result.failed err => err

/-- The buffer pointer after a call of `arc_read`; `none` is `NULL`. -/
def arc_read_abuf : arc_read_result → Option arc_buf_t
  | arc_read_result.ok abuf => some abuf
  | arc_read_result.failed _ => none

/-- The bytes of the word `0x2f5baddb10c` that `do_dump` fills a substitute
block with, in the byte order of a little-endian machine. -/
def zfs_badd_bloc : List Nat := [0x0c, 0xb1, 0xdd, 0xba, 0xf5, 0x02, 0x00, 0x00]

/-- The buffer that `do_dump` allocates and fills in place of corrupt data. -/
def corrupt_data_buf (datablksz : Nat) : arc_buf_t :=
  { b_data := (List.replicate ((datablksz + 7) / 8) zfs_badd_bloc).flatten, size := datablksz }

/-- What `do_dump` does for a `DATA` record once it has looked at the block
pointer and read the data; the statements up to that point do not store to the
session state. -/
inductive data_action where
  /-- `return (SET_ERROR(EIO))` after a failed read. -/
  | fail (err : Nat)
  /-- A dereference of a `NULL` buffer pointer. -/
  | crash
  /-- The call of `dump_spill` with this payload. -/
  | spill (data : Option (List Nat))
  /-- The call of `dump_write_embedded`. -/
  | embedded
  /-- The loop that splits a large block, entered with this buffer and `err`. -/
  | split (buf : List Nat) (err : Nat)
  /-- The single call of `dump_write` with this `psize` and payload. -/
  | write (psize : Nat) (data : Option (List Nat))
deriving DecidableEq, Repr

/-- The `DATA` case of `do_dump` up to the first call of a `dump_*` function.
In a dry run of a spill block the source reads the buffer pointer without
setting it; the payload is then taken to be `NULL`. -/
def do_dump_data_action (E : do_dump_env) (dscp : dmu_send_cookie_t) (range : send_range)
    (bp : blkptr_t) : data_action :=
  let datablksz := range.sru.datablksz
  let raw : Bool := decide (dscp.dsc_featureflags &&& DMU_BACKUP_FEATURE_RAW ≠ 0)
  if bp.bp_type = DMU_OT_SA then
    if dscp.dsc_dso.dso_dryrun = false then
      match E.arc_read range raw false with
      | arc_read_result.ok abuf => data_action.spill (some abuf.b_data)
      | arc_read_result.failed err =>
        if err ≠ 0 then data_action.fail EIO else data_action.crash
    else data_action.spill none
  else if send_do_embed dscp bp = true then data_action.embedded
  else
    let split_large_blocks : Bool :=
      decide (datablksz > SPA_OLD_MAXBLOCKSIZE ∧
        dscp.dsc_featureflags &&& DMU_BACKUP_FEATURE_LARGE_BLOCKS = 0)
    let request_raw : Bool := raw
    let request_compressed : Bool :=
      decide (dscp.dsc_featureflags &&& DMU_BACKUP_FEATURE_COMPRESSED ≠ 0) &&
        !split_large_blocks && !bp.should_byteswap && !bp.is_embedded &&
        !E.ot_is_metadata bp.bp_type
    let rd := E.arc_read range request_raw (!request_raw && request_compressed)
    let err := if dscp.dsc_dso.dso_dryrun = false then arc_read_err rd else 0
    let abuf0 := if dscp.dsc_dso.dso_dryrun = false then arc_read_abuf rd else none
    if err ≠ 0 ∧ ¬ (E.zfs_send_corrupt_data = true ∧ dscp.dsc_dso.dso_dryrun = false) then
      data_action.fail EIO
    else
      let abuf : Option arc_buf_t :=
        if err ≠ 0 then some (corrupt_data_buf datablksz) else abuf0
      if split_large_blocks = true then
        match abuf with
        | none => data_action.crash
        | some b => data_action.split b.b_data err
      else
        match abuf with
        | some b => data_action.write b.size (some b.b_data)
        | none =>
          if request_compressed = false then data_action.write datablksz none
          else data_action.write bp.psize none

/-- The loop of `do_dump` that sends a large block in chunks of at most
`SPA_OLD_MAXBLOCKSIZE`: the locals `offset`, `buf`, `srdp->datablksz` and `err`
are arguments, and `err` with the session state is returned.  Every turn takes
at least one byte off `datablksz`, so `fuel = datablksz` turns are enough;
`none` is out of fuel. -/
def do_dump_split (W : stream_codec) (type object : Nat) :
    Nat → Nat → List Nat → Nat → Nat → dmu_send_cookie_t → Option (Nat × dmu_send_cookie_t)
  | 0, _, _, datablksz, err, dscp =>
    if datablksz > 0 ∧ err = 0 then none else some (err, dscp)
  | fuel + 1, offset, buf, datablksz, err, dscp =>
    if datablksz > 0 ∧ err = 0 then
      let n := min datablksz SPA_OLD_MAXBLOCKSIZE
      let r := dump_write W dscp type object offset n n none (some buf)
      do_dump_split W type object fuel ((offset + n) % 2 ^ 64) (buf.drop n) (datablksz - n)
        r.1 r.2
    else some (err, dscp)

/-- The function `do_dump`: the returned error and the session state; `none`
is a panic (a record type that `do_dump` has no case for), a dereference of a
`NULL` buffer, or a `DATA` record whose block pointer was never stored.  The
call of `dump_dnode` in the source gives no block pointer. -/
def do_dump (W : stream_codec) (E : do_dump_env) (dscp : dmu_send_cookie_t)
    (range : send_range) : Option (Nat × dmu_send_cookie_t) :=
  match range.type with
  | range_type.OBJECT => some (dump_dnode W dscp none range.object range.sru.dnp)
  | range_type.REDACT =>
    some (dump_redact W dscp range.object
      ((range.start_blkid * range.sru.datablksz) % 2 ^ 64)
      ((((range.end_blkid + 2 ^ 64 - range.start_blkid) % 2 ^ 64) * range.sru.datablksz) % 2 ^ 64))
  | range_type.DATA =>
    match range.sru.bp with
    | none => none
    | some bp =>
      let datablksz := range.sru.datablksz
      let offset := (range.start_blkid * datablksz) % 2 ^ 64
      match do_dump_data_action E dscp range bp with
      | data_action.fail err => some (err, dscp)
      | data_action.crash => none
      | data_action.spill data => some (dump_spill W dscp bp range.object data)
      | data_action.embedded =>
        some (dump_write_embedded W dscp range.object offset datablksz bp)
      | data_action.split buf err =>
        do_dump_split W range.sru.obj_type range.object datablksz offset buf datablksz err dscp
      | data_action.write psize data =>
        some (dump_write W dscp range.sru.obj_type range.object offset datablksz psize
          (some bp) data)
  | range_type.HOLE =>
    if range.object = DMU_META_DNODE_OBJECT then
      let span := range.sru.datablksz >>> DNODE_SHIFT
      let first_obj := (range.start_blkid * span) % 2 ^ 64
      let numobj := ((range.end_blkid * span) % 2 ^ 64 + 2 ^ 64 - first_obj) % 2 ^ 64
      some (dump_freeobjects W dscp first_obj numobj)
    else
      let m1 := overflow_multiply range.start_blkid range.sru.datablksz 0
      if m1.1 = false then some (0, dscp)
      else
        let offset := m1.2
        let m2 := overflow_multiply range.end_blkid range.sru.datablksz 0
        let len := if m2.1 = false then UINT64_MAX else m2.2
        some (dump_free W dscp range.object offset ((len + 2 ^ 64 - offset) % 2 ^ 64))
  | range_type.PREVIOUSLY_REDACTED => none

/-- Successive calls of `do_dump` on the records of a list, as the loop of
`dmu_send_impl` makes them while `err == 0`. -/
def do_dump_seq (W : stream_codec) (E : do_dump_env) :
    dmu_send_cookie_t → List send_range → Option (Nat × dmu_send_cookie_t)
  | dscp, [] => some (0, dscp)
  | dscp, range :: rest =>
    match do_dump W E dscp range with
    | none => none
    | some r => if r.1 ≠ 0 then some r else do_dump_seq W E r.2 rest

/-! ## The main function, `dmu_send_impl` -/

/-- The magic number `DMU_BACKUP_MAGIC` of `sys/zfs_ioctl.h`. -/
def DMU_BACKUP_MAGIC : Nat := 0x2F5bacbac

/-- The header type `DMU_SUBSTREAM`. -/
def DMU_SUBSTREAM : Nat := 1

/-- The flag `DRR_FLAG_CLONE`. -/
def DRR_FLAG_CLONE : Nat := 1 <<< 0

/-- The flag `DRR_FLAG_CI_DATA`. -/
def DRR_FLAG_CI_DATA : Nat := 1 <<< 1

/-- The flag `DRR_FLAG_FREERECORDS`. -/
def DRR_FLAG_FREERECORDS : Nat := 1 <<< 2

/-- The fields of `struct dmu_send_params` that `dmu_send_impl` reads:
`redactbook` tells whether the pointer is not `NULL`, `ancestor_guid` and
`ancestor_redaction_obj` are `ancestor_zb.zbm_guid` and
`ancestor_zb.zbm_redaction_obj`, and `off` is `*off`. -/
structure dmu_send_params where
  is_clone : Bool
  rawok : Bool
  resumeobj : Nat
  resumeoff : Nat
  redactbook : Bool
  ancestor_guid : Nat
  ancestor_redaction_obj : Nat
  dso : dmu_send_outparams_t
  off : Nat

/-- What `dmu_send_impl` gets from the functions it calls that are not part of
the serializer, and from the worker threads.  The `*_err` fields are returned
errors; `featureflags` is what `setup_featureflags` stores; `nvl_packed` is what
`fnvlist_pack` gives for the nvlist of the BEGIN record, `none` for an empty
nvlist; `spt_q` is what the queue of the prefetch thread delivers, `spt_error`
its `error` field as read after the main loop, and `issig i` tells whether a
signal is seen in turn `i` of the main loop. -/
structure dmu_send_world where
  objset_from_ds_err : Nat
  os_encrypted : Bool
  unauthenticated : Bool
  untransform_err : Nat
  featureflags_err : Nat
  featureflags : Nat
  redact_hold_err : Nat
  from_hold_err : Nat
  ds_creation_time : Nat
  objset_type : Nat
  ds_guid : Nat
  ci_dataset : Bool
  zfs_send_set_freerecords_bit : Bool
  resume_points_err : Nat
  key_nvlist_err : Nat
  nvl_packed : Option (List Nat)
  spt_q : List send_range
  spt_error : Nat
  issig : Nat → Bool
  env : do_dump_env

/-- The function `create_begin_record`.  The member `drr_type` of `drr_begin`
(the type of the object set) is kept in `drr_otype`; `drr_toname` is left
out. -/
def create_begin_record (P : dmu_send_params) (X : dmu_send_world) (featureflags : Nat) :
    dmu_replay_record_t :=
  let flags1 := if P.is_clone = true then 0 ||| DRR_FLAG_CLONE else 0
  let flags2 := if X.ci_dataset = true then flags1 ||| DRR_FLAG_CI_DATA else flags1
  let flags3 :=
    if X.zfs_send_set_freerecords_bit = true then flags2 ||| DRR_FLAG_FREERECORDS else flags2
  { drr_zero with
    drr_type := drr_type_t.DRR_BEGIN, drr_magic := DMU_BACKUP_MAGIC,
    drr_creation_time := X.ds_creation_time, drr_otype := X.objset_type,
    drr_toguid := X.ds_guid, drr_fromguid := P.ancestor_guid,
    drr_versioninfo := DMU_SUBSTREAM % 2 ^ 2 ||| (featureflags % 2 ^ 30) <<< 2,
    drr_flags := flags3 }

/-- The session state after the stores of `dmu_send_impl` to `dsc`, which
starts as `{0}`. -/
def dmu_send_cookie_init (P : dmu_send_params) (X : dmu_send_world) : dmu_send_cookie_t :=
  { dsc_drr := create_begin_record P X X.featureflags, dsc_dso := P.dso, dsc_out := [],
    dsc_off := P.off, dsc_zc := zio_cksum_zero, dsc_toguid := X.ds_guid, dsc_err := 0,
    dsc_pending_op := dmu_pendop_t.PENDING_NONE, dsc_featureflags := X.featureflags,
    dsc_last_data_object := 0, dsc_last_data_offset := 0,
    dsc_resume_object := P.resumeobj, dsc_resume_offset := P.resumeoff,
    dsc_sent_begin := false, dsc_sent_end := false }

/-- The main loop of `dmu_send_impl`,
`while (err == 0 && !range->eos_marker)`: the locals `range` and `err`, the
session state and what is left in the queue when the loop is left.  `none` when
`do_dump` does not return or the queue delivers nothing more. -/
def dmu_send_main_loop (W : stream_codec) (E : do_dump_env) (issig : Nat → Bool) :
    List send_range → send_range → Nat → dmu_send_cookie_t → Nat →
      Option (Nat × dmu_send_cookie_t × send_range × List send_range)
  | [], range, err, dsc, _ =>
    if err = 0 ∧ range.eos_marker = false then none else some (err, dsc, range, [])
  | next :: rest, range, err, dsc, i =>
    if err = 0 ∧ range.eos_marker = false then
      match do_dump W E dsc range with
      | none => none
      | some r =>
        dmu_send_main_loop W E issig rest next (if issig i = true then EINTR else r.1) r.2
          (i + 1)
    else some (err, dsc, range, next :: rest)

/-- The END record that `dmu_send_impl` stores into the record buffer. -/
def dmu_send_end_record (dsc : dmu_send_cookie_t) : dmu_replay_record_t :=
  { drr_zero with drr_type := drr_type_t.DRR_END, drr_end_checksum := dsc.dsc_zc,
                  drr_toguid := dsc.dsc_toguid }

/-- The statements of `dmu_send_impl` from the label `out`: the `VERIFY` (a
failure is a panic, `none`) and the returned error with the session state. -/
def dmu_send_out (err : Nat) (dsc : dmu_send_cookie_t) : Option (Nat × dmu_send_cookie_t) :=
  if err ≠ 0 ∨ (dsc.dsc_sent_begin = true ∧ dsc.dsc_sent_end = true) then some (err, dsc)
  else none

/-- The statements of `dmu_send_impl` after the worker threads are set up, up to
the label `out`: the main loop, the cancellation of the workers, the push-out
of a pending record and the END record.  The result is the local `err` and the
session state at the label `out`. -/
def dmu_send_serialize (W : stream_codec) (X : dmu_send_world) (dsc : dmu_send_cookie_t) :
    Option (Nat × dmu_send_cookie_t) :=
  match bqueue_dequeue X.spt_q with
  | none => none
  | some (range0, q0) =>
    match dmu_send_main_loop W X.env X.issig q0 range0 0 dsc 0 with
    | none => none
    | some (err1, dsc1, range1, q1) =>
      match (if err1 ≠ 0 then send_merge_drain range1 q1 else some range1) with
      | none => none
      | some _ =>
        let err2 := if err1 = 0 ∧ X.spt_error ≠ 0 then X.spt_error else err1
        if err2 ≠ 0 then some (err2, dsc1)
        else
          let r3 :=
            if dsc1.dsc_pending_op ≠ dmu_pendop_t.PENDING_NONE then dump_record W dsc1 none 0
            else (0, dsc1)
          let err3 := if r3.1 ≠ 0 then EINTR else err2
          if err3 ≠ 0 then
            some (if err3 = EINTR ∧ r3.2.dsc_err ≠ 0 then r3.2.dsc_err else err3, r3.2)
          else
            let r4 := dump_record W { r3.2 with dsc_drr := dmu_send_end_record r3.2 } none 0
            some (if r4.1 ≠ 0 then r4.2.dsc_err else err3, r4.2)

/-- The call of `dump_record` for the BEGIN record in `dmu_send_impl`: the
payload is the packed nvlist, whose length is stored into `drr_payloadlen`, or
`NULL` with length 0 for an empty nvlist. -/
def dmu_send_begin (W : stream_codec) (P : dmu_send_params) (X : dmu_send_world) :
    Nat × dmu_send_cookie_t :=
  let dsc0 := dmu_send_cookie_init P X
  match X.nvl_packed with
  | some bytes =>
    dump_record W
      { dsc0 with dsc_drr := { dsc0.dsc_drr with drr_payloadlen := bytes.length } }
      (some bytes) bytes.length
  | none => dump_record W dsc0 none 0

/-- The statements of `dmu_send_impl` in front of the label `out`.  The result
tells whether the function leaves through the label `out` (`true`) or through a
`return` in front of it (`false`), and gives the local `err` and the session
state `dsc` at that point; `none` when that point is not reached.  A return in
front of the stores to `dsc` is given the state that these stores set up, with
an empty sink. -/
def dmu_send_body (W : stream_codec) (P : dmu_send_params) (X : dmu_send_world) :
    Option (Bool × Nat × dmu_send_cookie_t) :=
  let dsc0 := dmu_send_cookie_init P X
  if X.objset_from_ds_err ≠ 0 then some (false, X.objset_from_ds_err, dsc0)
  else if (P.rawok = false ∧ X.os_encrypted = true ∧ X.unauthenticated = true) ∧
      X.untransform_err ≠ 0 then some (false, X.untransform_err, dsc0)
  else if X.featureflags_err ≠ 0 then some (false, X.featureflags_err, dsc0)
  else if P.redactbook = true ∧ X.redact_hold_err ≠ 0 then some (false, EINVAL, dsc0)
  else if P.ancestor_redaction_obj ≠ 0 ∧ X.from_hold_err ≠ 0 then some (false, EINVAL, dsc0)
  else
    let resuming : Bool := decide (P.resumeobj ≠ 0 ∨ P.resumeoff ≠ 0)
    if resuming = true ∧ X.resume_points_err ≠ 0 then some (true, X.resume_points_err, dsc0)
    else if X.featureflags &&& DMU_BACKUP_FEATURE_RAW ≠ 0 ∧ X.key_nvlist_err ≠ 0 then
      some (true, X.key_nvlist_err, dsc0)
    else
      let r := dmu_send_begin W P X
      if r.1 ≠ 0 then some (true, r.2.dsc_err, r.2)
      else
        match dmu_send_serialize W X r.2 with
        | none => none
        | some r1 => some (true, r1)

/-- The function `dmu_send_impl`: the returned error and the session state
`dsc` as the function leaves it; `none` when it does not return. -/
def dmu_send_impl (W : stream_codec) (P : dmu_send_params) (X : dmu_send_world) :
    Option (Nat × dmu_send_cookie_t) :=
  match dmu_send_body W P X with
  | none => none
  | some (false, r) => some r
  | some (true, r) => dmu_send_out r.1 r.2

/-- An environment for examples: every read gives the same four bytes. -/
def sample_env : do_dump_env :=
  { arc_read := fun _ _ _ => arc_read_result.ok { b_data := [1, 2, 3, 4], size := 4 },
    ot_is_metadata := fun _ => false, zfs_send_corrupt_data := false }

/-- A block pointer of a plain data block of 4 bytes. -/
def sample_bp : blkptr_t :=
  { is_hole := false, is_redacted := false, is_embedded := false, is_protected := false,
    is_encrypted := false, should_byteswap := false, bp_type := 19, lsize := 4, psize := 4,
    compress := 2, checksum := 7, etype := 0, bpe_lsize := 0, bpe_psize := 0, blk_cksum := 0,
    salt := 0, iv := 0, mac := 0, embedded_payload := [] }

/-- A dnode of a plain file with blocks of 512 bytes and no bonus buffer. -/
def sample_dnode : dnode_phys_t :=
  { dn_type := 19, dn_bonustype := 0, dn_datablkszsec := 1, dn_bonuslen := 0, dn_checksum := 0,
    dn_compress := 0, dn_maxblkid := 0, dn_indblkshift := 17, dn_nlevels := 1, dn_nblkptr := 1,
    dn_max_bonus_len := 0, dn_bonus := [] }

/-- An `OBJECT` record for the given object with `sample_dnode`. -/
def sample_object_range (object : Nat) : send_range :=
  { eos_marker := false, object := object, start_blkid := 0, end_blkid := 0,
    type := range_type.OBJECT, sru := { sru_zero with dnp := some sample_dnode } }

/-- A `DATA` record for one block of 4 bytes of the given object. -/
def sample_data_range (object blkid : Nat) : send_range :=
  { eos_marker := false, object := object, start_blkid := blkid, end_blkid := blkid + 1,
    type := range_type.DATA,
    sru := { datablksz := 4, obj_type := 19, bp := some sample_bp, dnp := none } }

/-- Parameters of a full, non-raw send that is not resumed, with the given
output function. -/
def sample_params (outfunc : List out_chunk → Nat) : dmu_send_params :=
  { is_clone := false, rawok := false, resumeobj := 0, resumeoff := 0, redactbook := false,
    ancestor_guid := 0, ancestor_redaction_obj := 0,
    dso := { dso_outfunc := outfunc, dso_dryrun := false }, off := 0 }

/-- A world in which no set-up call fails, no signal arrives and the prefetch
thread delivers the given queue and reports the given error. -/
def sample_world (spt_q : List send_range) (spt_error : Nat) : dmu_send_world :=
  { objset_from_ds_err := 0, os_encrypted := false, unauthenticated := false,
    untransform_err := 0, featureflags_err := 0, featureflags := 0, redact_hold_err := 0,
    from_hold_err := 0, ds_creation_time := 1000, objset_type := 2, ds_guid := 77,
    ci_dataset := false, zfs_send_set_freerecords_bit := true, resume_points_err := 0,
    key_nvlist_err := 0, nvl_packed := none, spt_q := spt_q, spt_error := spt_error,
    issig := fun _ => false, env := sample_env }

/-! ## What the serializer keeps from call to call -/

/-- The state of the one-slot pending record: whenever an aggregated record is
pending, the record buffer holds a record of the matching type with the
session's `toguid` and a zero trailing checksum field. -/
def pending_inv (d : dmu_send_cookie_t) : Prop :=
  (d.dsc_pending_op = dmu_pendop_t.PENDING_FREE →
    d.dsc_drr.drr_type = drr_type_t.DRR_FREE ∧ d.dsc_drr.drr_toguid = d.dsc_toguid ∧
      d.dsc_drr.drr_checksum = zio_cksum_zero) ∧
  (d.dsc_pending_op = dmu_pendop_t.PENDING_FREEOBJECTS →
    d.dsc_drr.drr_type = drr_type_t.DRR_FREEOBJECTS ∧ d.dsc_drr.drr_toguid = d.dsc_toguid ∧
      d.dsc_drr.drr_checksum = zio_cksum_zero) ∧
  (d.dsc_pending_op = dmu_pendop_t.PENDING_REDACT →
    d.dsc_drr.drr_type = drr_type_t.DRR_REDACT ∧ d.dsc_drr.drr_toguid = d.dsc_toguid ∧
      d.dsc_drr.drr_checksum = zio_cksum_zero)

/-- The (object, offset, logical size) of the WRITE headers among the buffers
handed to the output function, in order. -/
def write_recs : List out_chunk → List (Nat × Nat × Nat)
  | [] => []
  | out_chunk.header h :: rest =>
    if h.drr_type = drr_type_t.DRR_WRITE then
      (h.drr_object, h.drr_offset, h.drr_logical_size) :: write_recs rest
    else write_recs rest
  | out_chunk.payload _ _ :: rest => write_recs rest

/-- How a serializer function leaves the session state `d1` when it is entered
with `d`: it hands further buffers to the output function, none of them a BEGIN
or END header; the fields that only `dmu_send_impl` stores to are unchanged;
`dsc_sent_begin` stays set and `dsc_sent_end` is unchanged.  With `strict` the
running checksum keeps following the bytes of the stream; without `wr` no WRITE
header is handed over and the last data position is unchanged. -/
def ser_ext (W : stream_codec) (strict wr : Bool) (d d1 : dmu_send_cookie_t) : Prop :=
  d1.dsc_dso = d.dsc_dso ∧ d1.dsc_toguid = d.dsc_toguid ∧
  d1.dsc_featureflags = d.dsc_featureflags ∧
  d1.dsc_resume_object = d.dsc_resume_object ∧ d1.dsc_resume_offset = d.dsc_resume_offset ∧
  (d.dsc_sent_begin = true → d1.dsc_sent_begin = true) ∧
  d1.dsc_sent_end = d.dsc_sent_end ∧
  (∃ new, d1.dsc_out = d.dsc_out ++ new ∧
    ∀ h, out_chunk.header h ∈ new →
      h.drr_type ≠ drr_type_t.DRR_BEGIN ∧ h.drr_type ≠ drr_type_t.DRR_END ∧
      (wr = false → h.drr_type ≠ drr_type_t.DRR_WRITE)) ∧
  (strict = true → cksum_inv W d → cksum_inv W d1) ∧
  (wr = false → d1.dsc_last_data_object = d.dsc_last_data_object ∧
    d1.dsc_last_data_offset = d.dsc_last_data_offset)

/-- The statements that `dump_write`, `dump_write_embedded`, `dump_spill` and
`dump_dnode` share: push out the pending record, if there is one, then hand the
record `rec` with the payload `p` of `n` bytes to `dump_record`. -/
def emit_record (W : stream_codec) (d : dmu_send_cookie_t)
    (rec : dmu_send_cookie_t → dmu_replay_record_t) (p : Option (List Nat))
    (n : dmu_send_cookie_t → Nat) : Nat × dmu_send_cookie_t :=
  let r1 :=
    if d.dsc_pending_op ≠ dmu_pendop_t.PENDING_NONE then push_out_pending W d
    else (0, d)
  if r1.1 ≠ 0 then r1
  else
    let r2 := dump_record W { r1.2 with dsc_drr := rec r1.2 } p (n r1.2)
    if r2.1 ≠ 0 then (EINTR, r2.2) else (0, r2.2)

/-- What the checksum properties take from `arc_read`: a call that gives no
buffer returns a non-zero error. -/
def do_dump_env_ok (E : do_dump_env) : Prop :=
  ∀ (range : send_range) (raw compressed : Bool),
    E.arc_read range raw compressed ≠ arc_read_result.failed 0

/-- The state in which a send of one OBJECT record and one DATA record over
`sample_codec` ends. -/
def sample_send_result : dmu_send_cookie_t :=
  match dmu_send_impl sample_codec (sample_params fun _ => 0)
      (sample_world [sample_object_range 1, sample_data_range 1 0, eos_record] 0) with
  | some r => r.2
  | none => sample_cookie

/-- The error number `ENOSPC` of `sys/errno.h`. -/
def ENOSPC : Nat := 28

/-- A session that resumes at object 10, offset 0, with nothing pending. -/
def sample_cookie_resume : dmu_send_cookie_t :=
  { sample_cookie with dsc_resume_object := 10, dsc_resume_offset := 0 }

/-- A session that resumes at object 10, offset 512, with nothing pending. -/
def sample_cookie_resume_mid : dmu_send_cookie_t :=
  { sample_cookie with dsc_resume_object := 10, dsc_resume_offset := 512 }

/-- An output function that accepts the first buffer and fails with `ENOSPC`
from the second buffer on. -/
def sample_outfunc_fails (out : List out_chunk) : Nat :=
  if out.length ≥ 2 then ENOSPC else 0

/-! ## The to-traversal stage, `send_traverse_thread` -/

/-- What `send_traverse_thread` leaves behind: the records on `st_arg->q` and
`st_arg->error_code`. -/
structure send_thread_result where
  q : List send_range
  error_code : Nat
deriving DecidableEq, Repr

/-- The function `send_traverse_thread`.  `traversal` is `none` when there is
neither a dataset nor a redaction list to traverse; otherwise it holds the
records that the callback enqueued on `st_arg->q` during the traversal and the
error that the traversal returned.  `error_code` is 0 on entry
(`setup_to_thread`). -/
def send_traverse_thread (traversal : Option (List send_range × Nat)) : send_thread_result :=
  let enqueued :=
    match traversal with
    | none => []
    | some t => t.1
  let err :=
    match traversal with
    | none => 0
    | some t => t.2
  { q := enqueued ++ [range_alloc range_type.DATA 0 0 0 true],
    error_code := if err ≠ EINTR then err else 0 }

/-! ## The prefetch stage, `send_prefetch_thread` -/

/-- The error number `ENOENT` of `sys/errno.h`. -/
def ENOENT : Nat := 2

/-- The fields of a held `dnode_t` that `send_prefetch_thread` and
`enqueue_range` read. -/
structure dnode_t where
  dn_object : Nat
  dn_type : Nat
  dn_maxblkid : Nat
deriving DecidableEq, Repr

/-- What `send_prefetch_thread` gets from outside.  `cancel n` is
`spta->cancel` and `smta_error n` is `smta->error`, each as read in turn `n` of
the `while` loop (turns count from 0; the reads after the loop are those of the
turn after the last one).  `dnode_hold n object` is the error and the dnode
that `dnode_hold` gives in turn `n`; `dbuf_dnode_findbp dn blkid` is the error,
the block pointer and `datablkszsec` that `dbuf_dnode_findbp` gives.  The
dnode and the block pointer are read only when the error is 0. -/
structure prefetch_env where
  cancel : Nat → Bool
  smta_error : Nat → Nat
  dnode_hold : Nat → Nat → Nat × dnode_t
  dbuf_dnode_findbp : dnode_t → Nat → Nat × blkptr_t × Nat

/-- The function `enqueue_range`: the queue and `*pendp` as it leaves them
(`none` for `NULL`).  The prefetch that it may issue changes nothing here. -/
def enqueue_range (q : List send_range) (dn : dnode_t) (blkid : Nat) (bp : blkptr_t)
    (datablksz : Nat) (pending : Option send_range) : List send_range × Option send_range :=
  let pending_type :=
    match pending with
    | none => range_type.PREVIOUSLY_REDACTED
    | some p => p.type
  let new_type :=
    if bp.is_hole = true then range_type.HOLE
    else if bp.is_redacted = true then range_type.REDACT
    else range_type.DATA
  if pending_type = new_type then
    (q, pending.map fun p => { p with end_blkid := blkid })
  else
    let q1 :=
      match pending with
      | none => q
      | some p => if p.type ≠ range_type.PREVIOUSLY_REDACTED then q ++ [p] else q
    let fresh := range_alloc new_type dn.dn_object blkid ((blkid + 1) % 2 ^ 64) false
    match new_type with
    | range_type.HOLE =>
      (q1, some { fresh with sru := { fresh.sru with datablksz := datablksz } })
    | range_type.DATA =>
      (q1 ++ [{ fresh with
                sru := { fresh.sru with datablksz := datablksz, obj_type := dn.dn_type,
                                        bp := some bp } }], none)
    | range_type.REDACT =>
      (q1, some { fresh with sru := { fresh.sru with datablksz := datablksz } })
    | _ => (q1, some fresh)

/-- The loop `for (blkid = range->start_blkid; blkid < file_max; blkid++)` of
`send_prefetch_thread`: `err`, the output queue and `pending` when the loop is
left.  The first argument counts the turns that are left at most; the caller
gives `file_max - range->start_blkid`. -/
def send_prefetch_blocks (E : prefetch_env) (dn : dnode_t) (file_max : Nat) :
    Nat → Nat → List send_range → Option send_range →
    Nat × List send_range × Option send_range
  | 0, _, q, pending => (0, q, pending)
  | n + 1, blkid, q, pending =>
    if blkid < file_max then
      let r := E.dbuf_dnode_findbp dn blkid
      if r.1 ≠ 0 then (r.1, q, pending)
      else
        let e := enqueue_range q dn blkid r.2.1
          (((r.2.2 % 2 ^ 16) <<< SPA_MINBLOCKSHIFT) % 2 ^ 32) pending
        send_prefetch_blocks E dn file_max n (blkid + 1) e.1 e.2
    else (0, q, pending)

/-- The local variables of `send_prefetch_thread` with its input queue, the
records enqueued on `spta->q` so far and the number of turns of the `while`
loop made. -/
structure prefetch_state where
  range : send_range
  inq : List send_range
  outq : List send_range
  err : Nat
  last_obj : Nat
  last_obj_exists : Bool
  turns : Nat

/-- The `while` loop of `send_prefetch_thread`.  The `break` after a failed
`dnode_hold` leaves the `switch`, not the loop. -/
def send_prefetch_loop (E : prefetch_env) : Nat → prefetch_state → Option prefetch_state
  | 0, _ => none
  | fuel + 1, s =>
    if s.range.eos_marker = false ∧ E.cancel s.turns = false ∧ E.smta_error s.turns = 0 then
      match s.range.type with
      | range_type.PREVIOUSLY_REDACTED =>
        let cached : Bool := decide (s.range.object = s.last_obj) && !s.last_obj_exists
        let held := E.dnode_hold s.turns s.range.object
        let object_exists : Bool := if cached = true then false else decide (held.1 ≠ ENOENT)
        let err := if cached = true then s.err else if held.1 = ENOENT then 0 else held.1
        let last_obj := if cached = true then s.last_obj else s.range.object
        let last_obj_exists := if cached = true then s.last_obj_exists else object_exists
        if err ≠ 0 then
          send_prefetch_loop E fuel
            { s with err := err, last_obj := last_obj, last_obj_exists := last_obj_exists,
                     turns := s.turns + 1 }
        else if object_exists = false then
          match get_next_range s.inq s.range with
          | none => none
          | some (next, rest) =>
            send_prefetch_loop E fuel
              { range := next, inq := rest, outq := s.outq, err := err, last_obj := last_obj,
                last_obj_exists := last_obj_exists, turns := s.turns + 1 }
        else
          let dn := held.2
          let file_max :=
            if dn.dn_maxblkid < s.range.end_blkid then dn.dn_maxblkid else s.range.end_blkid
          let b := send_prefetch_blocks E dn file_max (file_max - s.range.start_blkid)
            s.range.start_blkid s.outq none
          let outq :=
            match b.2.2 with
            | some pending => b.2.1 ++ [pending]
            | none => b.2.1
          match get_next_range s.inq s.range with
          | none => none
          | some (next, rest) =>
            send_prefetch_loop E fuel
              { range := next, inq := rest, outq := outq, err := b.1, last_obj := last_obj,
                last_obj_exists := last_obj_exists, turns := s.turns + 1 }
      | _ =>
        match get_next_range_nofree s.inq s.range with
        | none => none
        | some (next, rest) =>
          send_prefetch_loop E fuel
            { s with range := next, inq := rest, outq := s.outq ++ [s.range],
                     turns := s.turns + 1 }
    else some s

/-- The loop `while (!range->eos_marker)` at the end of
`send_prefetch_thread`. -/
def send_prefetch_drain : send_range → List send_range → Option send_range
  | range, q =>
    if range.eos_marker = true then some range
    else
      match q with
      | [] => none
      | next :: rest => send_prefetch_drain next rest

/-- What `send_prefetch_thread` leaves behind: the records enqueued on
`spta->q`, `spta->error`, and whether it set `smta->cancel`. -/
structure prefetch_result where
  q : List send_range
  error : Nat
  cancelled_merge : Bool
deriving DecidableEq, Repr

/-- The function `send_prefetch_thread`; `inq` is what the queue of the merge
thread delivers.  `spta->error` is 0 on entry (`spt_arg = { 0 }`). -/
def send_prefetch_thread (E : prefetch_env) (inq : List send_range) (fuel : Nat) :
    Option prefetch_result :=
  match bqueue_dequeue inq with
  | none => none
  | some (range, rest) =>
    match send_prefetch_loop E fuel
        { range := range, inq := rest, outq := [], err := 0, last_obj := UINT64_MAX,
          last_obj_exists := true, turns := 0 } with
    | none => none
    | some s =>
      let stop : Bool := E.cancel (s.turns + 1) || decide (s.err ≠ 0)
      let error :=
        if stop = true then s.err
        else if E.smta_error (s.turns + 1) ≠ 0 then E.smta_error (s.turns + 1)
        else 0
      match send_prefetch_drain s.range s.inq with
      | none => none
      | some last =>
        some { q := s.outq ++ [last], error := error, cancelled_merge := stop }

/-- Nobody cancels the prefetch thread, the merge thread finished with the
given error, every object exists with the given largest block id, and every
block resolves to `sample_bp` with blocks of one sector. -/
def sample_prefetch_env (smta_error maxblkid : Nat) : prefetch_env :=
  { cancel := fun _ => false, smta_error := fun _ => smta_error,
    dnode_hold := fun _ object =>
      (0, { dn_object := object, dn_type := 19, dn_maxblkid := maxblkid }),
    dbuf_dnode_findbp := fun _ _ => (0, sample_bp, 1) }

/-- The to-traversal has failed with `EIO`; nothing else fails and nobody
cancels. -/
def merge_observed_to_failed : merge_observed :=
  { cancel := fun _ => false, to_error_code := fun _ => EIO,
    from_error_code := fun _ => 0, redact_error_code := fun _ => 0 }

/-! ## The ordering assertion of `dump_write` -/

/-- The ordering assertions of `dump_write` that the loop of `do_dump` for a
large block evaluates: the assertion of every call of `dump_write` that
`do_dump_split` makes. -/
def do_dump_split_ASSERT (W : stream_codec) (type object : Nat) :
    Nat → Nat → List Nat → Nat → Nat → dmu_send_cookie_t → Bool
  | 0, _, _, _, _, _ => true
  | fuel + 1, offset, buf, datablksz, err, dscp =>
    if datablksz > 0 ∧ err = 0 then
      let n := min datablksz SPA_OLD_MAXBLOCKSIZE
      let r := dump_write W dscp type object offset n n none (some buf)
      increasing_order_ASSERT dscp object offset &&
        do_dump_split_ASSERT W type object fuel ((offset + n) % 2 ^ 64) (buf.drop n)
          (datablksz - n) r.1 r.2
    else true

/-- The ordering assertions of `dump_write` that a call of `do_dump`
evaluates: one for a `DATA` record that is written with a single call of
`dump_write`, one for every chunk of a large block that is split, none for any
other record. -/
def do_dump_write_ASSERT (W : stream_codec) (E : do_dump_env) (dscp : dmu_send_cookie_t)
    (range : send_range) : Bool :=
  match range.type with
  | range_type.DATA =>
    match range.sru.bp with
    | none => true
    | some bp =>
      let datablksz := range.sru.datablksz
      let offset := (range.start_blkid * datablksz) % 2 ^ 64
      match do_dump_data_action E dscp range bp with
      | data_action.split buf err =>
        do_dump_split_ASSERT W range.sru.obj_type range.object datablksz offset buf datablksz
          err dscp
      | data_action.write _ _ => increasing_order_ASSERT dscp range.object offset
      | _ => true
  | _ => true

/-- The ordering assertions of `dump_write` that the calls of `do_dump_seq`
evaluate. -/
def do_dump_seq_write_ASSERT (W : stream_codec) (E : do_dump_env) :
    dmu_send_cookie_t → List send_range → Bool
  | _, [] => true
  | dscp, range :: rest =>
    do_dump_write_ASSERT W E dscp range &&
      match do_dump W E dscp range with
      | none => true
      | some r => if r.1 ≠ 0 then true else do_dump_seq_write_ASSERT W E r.2 rest

/-- The order of the `DATA` records of an input sequence: a later record is on
a higher object, or on the same object at a higher block id with the same
block size. -/
def data_before (r1 r2 : send_range) : Prop :=
  r1.type = range_type.DATA → r2.type = range_type.DATA →
    r1.object < r2.object ∨
    (r1.object = r2.object ∧ r1.start_blkid < r2.start_blkid ∧
      r1.sru.datablksz = r2.sru.datablksz)

/-- The order of two WRITE records, each given as (object, offset, logical
size): the second is on a higher object, or on the same object at a higher
offset, at or behind the end of the first. -/
def write_before (w1 w2 : Nat × Nat × Nat) : Prop :=
  w1.1 < w2.1 ∨ (w1.1 = w2.1 ∧ w1.2.1 < w2.2.1 ∧ w1.2.1 + w1.2.2 ≤ w2.2.1)

/-- Everything written so far lies in front of byte `x` of object `o`: the last
data position and every WRITE header handed to the output function. -/
def written_below (d : dmu_send_cookie_t) (o x : Nat) : Prop :=
  (d.dsc_last_data_object < o ∨
    (d.dsc_last_data_object = o ∧ d.dsc_last_data_offset < x)) ∧
  ∀ w ∈ write_recs d.dsc_out, w.1 < o ∨ (w.1 = o ∧ w.2.1 < x ∧ w.2.1 + w.2.2 ≤ x)

instance (r1 r2 : send_range) : Decidable (data_before r1 r2) :=
  inferInstanceAs (Decidable (r1.type = range_type.DATA → r2.type = range_type.DATA →
    r1.object < r2.object ∨
    (r1.object = r2.object ∧ r1.start_blkid < r2.start_blkid ∧
      r1.sru.datablksz = r2.sru.datablksz)))

/-- A `DATA` record for one block of the given object with the given block
size, which is also the logical size of its block pointer. -/
def sample_data_range_sized (object blkid datablksz : Nat) : send_range :=
  { eos_marker := false, object := object, start_blkid := blkid, end_blkid := blkid + 1,
    type := range_type.DATA,
    sru := { datablksz := datablksz, obj_type := 19,
             bp := some { sample_bp with lsize := datablksz }, dnp := none } }

/-- An OBJECT record of object 1, two `DATA` records of that object and one of
object 2, in ascending order. -/
def sample_ascending : List send_range :=
  [sample_object_range 1, sample_data_range 1 0, sample_data_range 1 1, sample_data_range 2 0]

/-- Every object exists with largest block id `maxblkid`, and every block
resolves to a hole in an object with blocks of one sector. -/
def sample_prefetch_env_holes (maxblkid : Nat) : prefetch_env :=
  { cancel := fun _ => false, smta_error := fun _ => 0,
    dnode_hold := fun _ object =>
      (0, { dn_object := object, dn_type := 19, dn_maxblkid := maxblkid }),
    dbuf_dnode_findbp := fun _ _ => (0, { sample_bp with is_hole := true }, 1) }

/-- Every call of `dnode_hold` fails with `EIO`. -/
def sample_prefetch_env_hold_fails : prefetch_env :=
  { cancel := fun _ => false, smta_error := fun _ => 0,
    dnode_hold := fun _ object => ( EIO, { dn_object := object, dn_type := 0, dn_maxblkid := 0 }),
    dbuf_dnode_findbp := fun _ _ => (0, sample_bp, 1) }

/-- Every object exists with largest block id 10; `dbuf_dnode_findbp` fails
with `EIO` for the blocks of object 7 and resolves every other block to
`sample_bp`. -/
def sample_prefetch_env_findbp_fails : prefetch_env :=
  { cancel := fun _ => false, smta_error := fun _ => 0,
    dnode_hold := fun _ object =>
      (0, { dn_object := object, dn_type := 19, dn_maxblkid := 10 }),
    dbuf_dnode_findbp := fun dn _ => (if dn.dn_object = 7 then EIO else 0, sample_bp, 1) }
/-- The DATA record that `enqueue_range` makes for a block that resolves to
`sample_bp` in an object of type 19 with blocks of one sector. -/
def sample_resolved_data (object blkid : Nat) : send_range :=
  { eos_marker := false, object := object, start_blkid := blkid, end_blkid := blkid + 1,
    type := range_type.DATA,
    sru := { datablksz := 512, obj_type := 19, bp := some sample_bp, dnp := none } }

/-! ## The entry points `dmu_send_obj` and `dmu_send` -/

/-- The size `ZFS_MAX_DATASET_NAME_LEN` of `sys/fs/zfs.h`. -/
def ZFS_MAX_DATASET_NAME_LEN : Nat := 256

/-- What `dmu_send_obj` and `dmu_send` get from the pool: the errors that
`dsl_pool_hold`, `dsl_dataset_hold_obj` or `dsl_dataset_hold` (target),
`dsl_dataset_own` (target), `dsl_bookmark_lookup` (redaction bookmark) and the
hold of the from snapshot return; `spa_writeable`; of a held from snapshot its
`ds_guid`, what `dsl_dataset_is_before(to_ds, fromds, 0)` gives and whether it
has the `ds_dir` of the target; and what `dsl_bookmark_lookup` gives for a from
bookmark (returned error, `zbm_guid`, `zbm_redaction_obj`). -/
structure send_holds_t where
  pool_hold_err : Nat
  to_hold_err : Nat
  to_own_err : Nat
  spa_writeable : Bool
  redactbook_lookup_err : Nat
  from_hold_err : Nat
  from_guid : Nat
  is_before : Bool
  from_same_dir : Bool
  from_bookmark : Nat × Nat × Nat

/-- What an entry point returns: the error, and the session state of
`dmu_send_impl` when that function was called (`none` when it was not, so that
no thread was started and nothing was handed to the output function). -/
abbrev send_entry_result : Type := Nat × Option dmu_send_cookie_t

/-- The call `err = dmu_send_impl(&dspp)` of an entry point; `none` when
`dmu_send_impl` does not return. -/
def call_dmu_send_impl (W : stream_codec) (P : dmu_send_params) (X : dmu_send_world) :
    Option send_entry_result :=
  match dmu_send_impl W P X with
  | none => none
  | some r => some (r.1, some r.2)

/-- The function `dmu_send_obj`; `dspp` starts as `{0}`. -/
def dmu_send_obj (W : stream_codec) (H : send_holds_t) (X : dmu_send_world)
    (fromsnap : Nat) (rawok : Bool) (off : Nat) (dsop : dmu_send_outparams_t) :
    Option send_entry_result :=
  let dspp : dmu_send_params :=
    { is_clone := false, rawok := rawok, resumeobj := 0, resumeoff := 0, redactbook := false,
      ancestor_guid := 0, ancestor_redaction_obj := 0, dso := dsop, off := off }
  if H.pool_hold_err ≠ 0 then some (H.pool_hold_err, none)
  else if H.to_hold_err ≠ 0 then some (H.to_hold_err, none)
  else if fromsnap ≠ 0 then
    if H.from_hold_err ≠ 0 then some (H.from_hold_err, none)
    else if H.is_before = false then some (EXDEV, none)
    else
      call_dmu_send_impl W
        { dspp with ancestor_guid := H.from_guid, is_clone := !H.from_same_dir } X
  else call_dmu_send_impl W dspp X

/-- The call `strpbrk(s, "@#")`, as the index of the character found. -/
def strpbrk_at_hash (s : List Char) : Option Nat :=
  let i := s.findIdx fun c => c = '@' || c = '#'
  if i < s.length then some i else none

/-- The statements of `dmu_send` that own or hold the target: the returned
error and `owned`.  The call of `dsl_dataset_hold` in the source names `dp` and
`ds`, which are not declared there; they are read as `dspp.dp` and
`dspp.to_ds`. -/
def dmu_send_hold_to (H : send_holds_t) (tosnap : List Char) : Nat × Bool :=
  if ¬ '@' ∈ tosnap ∧ H.spa_writeable = true then (H.to_own_err, true)
  else (H.to_hold_err, false)

/-- The statements of `dmu_send` for a redaction bookmark: `err` after them,
given that it was 0 before; `path` holds at most
`ZFS_MAX_DATASET_NAME_LEN - 1` characters of `tosnap`. -/
def dmu_send_redactbook_err (H : send_holds_t) (tosnap : List Char)
    (redactbook : Option (List Char)) : Nat :=
  match redactbook with
  | none => 0
  | some _ =>
    if ¬ '@' ∈ tosnap.take (ZFS_MAX_DATASET_NAME_LEN - 1) then EINVAL
    else H.redactbook_lookup_err

/-- The clone test of `dmu_send`: the from name is in another file system than
the target. -/
def dmu_send_is_clone (tosnap fromsnap : List Char) : Bool :=
  let fsnamelen :=
    match strpbrk_at_hash tosnap with
    | some i => i
    | none => tosnap.length
  decide (tosnap.take fsnamelen ≠ fromsnap.take fsnamelen) ||
    (decide (fromsnap.get? fsnamelen ≠ some '@') && decide (fromsnap.get? fsnamelen ≠ some '#'))

/-- The function `dmu_send`; a name is `none` for a `NULL` pointer. -/
def dmu_send (W : stream_codec) (H : send_holds_t) (X : dmu_send_world)
    (tosnap : List Char) (fromsnap : Option (List Char)) (rawok : Bool)
    (resumeobj resumeoff : Nat) (redactbook : Option (List Char)) (off : Nat)
    (dsop : dmu_send_outparams_t) : Option send_entry_result :=
  let dspp : dmu_send_params :=
    { is_clone := false, rawok := rawok, resumeobj := resumeobj, resumeoff := resumeoff,
      redactbook := false, ancestor_guid := 0, ancestor_redaction_obj := 0, dso := dsop,
      off := off }
  let bad_from : Bool :=
    match fromsnap with
    | some f => (strpbrk_at_hash f).isNone
    | none => false
  if bad_from = true then some (EINVAL, none)
  else if H.pool_hold_err ≠ 0 then some (H.pool_hold_err, none)
  else if (dmu_send_hold_to H tosnap).1 ≠ 0 then some ((dmu_send_hold_to H tosnap).1, none)
  else if dmu_send_redactbook_err H tosnap redactbook ≠ 0 then
    some (dmu_send_redactbook_err H tosnap redactbook, none)
  else
    let dspp1 : dmu_send_params :=
      { dspp with
        redactbook :=
          match redactbook with
          | some _ => true
          | none => false }
    match fromsnap with
    | some f =>
      let dspp2 : dmu_send_params :=
        if dmu_send_is_clone tosnap f = true then { dspp1 with is_clone := true } else dspp1
      if '@' ∈ f then
        if H.from_hold_err ≠ 0 then some (H.from_hold_err, none)
        else if H.is_before = false then some (EXDEV, none)
        else
          call_dmu_send_impl W
            { dspp2 with ancestor_guid := H.from_guid, ancestor_redaction_obj := 0 } X
      else
        let err :=
          if H.from_bookmark.1 = EXDEV ∧ H.from_bookmark.2.2 ≠ 0 ∧
              H.from_bookmark.2.1 = X.ds_guid then 0
          else H.from_bookmark.1
        if err = 0 then
          call_dmu_send_impl W
            { dspp2 with ancestor_guid := H.from_bookmark.2.1,
                         ancestor_redaction_obj := H.from_bookmark.2.2 } X
        else some (err, none)
    | none => call_dmu_send_impl W dspp1 X

/-- Holds that all succeed, with a from snapshot of guid 66 in the file system
of the target that is, or is not, an earlier snapshot of the target. -/
def sample_holds (is_before : Bool) : send_holds_t :=
  { pool_hold_err := 0, to_hold_err := 0, to_own_err := 0, spa_writeable := true,
    redactbook_lookup_err := 0, from_hold_err := 0, from_guid := 66, is_before := is_before,
    from_same_dir := true, from_bookmark := (0, 66, 0) }

/-- An incremental estimate from a snapshot that is not an earlier snapshot of
the target snapshot. -/
def sample_estimate_args_exdev : estimate_args_t :=
  { ds_is_snapshot := true,
    fromds := some { ds_is_snapshot := true, is_before := false, space_written := (0, 0, 0) },
    frombook := none, ds_uncompressed_bytes := 1024, ds_compressed_bytes := 100 }

/-! ## The zero-checksum assertion when a pending record is pushed out -/

/-- The assertions of `dump_record` that the calls of `dump_free` evaluate when
they push out a pending record. -/
def dump_free_flush_ASSERT (W : stream_codec) (dscp : dmu_send_cookie_t)
    (object offset : Nat) : Bool :=
  let r1 :=
    if dscp.dsc_pending_op ≠ dmu_pendop_t.PENDING_NONE ∧
        dscp.dsc_pending_op ≠ dmu_pendop_t.PENDING_FREE then push_out_pending W dscp
    else (0, dscp)
  (if dscp.dsc_pending_op ≠ dmu_pendop_t.PENDING_NONE ∧
      dscp.dsc_pending_op ≠ dmu_pendop_t.PENDING_FREE then dump_record_ASSERT dscp
    else true) &&
  (if r1.1 ≠ 0 then true
    else
      let d1 := r1.2
      if d1.dsc_pending_op = dmu_pendop_t.PENDING_FREE ∧ d1.dsc_drr.drr_object = object ∧
          (d1.dsc_drr.drr_offset + d1.dsc_drr.drr_length) % 2 ^ 64 = offset then true
      else if d1.dsc_pending_op = dmu_pendop_t.PENDING_FREE then dump_record_ASSERT d1
      else true)

/-- The assertions of `dump_record` that the calls of `dump_redact` evaluate
when they push out a pending record. -/
def dump_redact_flush_ASSERT (W : stream_codec) (dscp : dmu_send_cookie_t)
    (object offset : Nat) : Bool :=
  let r1 :=
    if dscp.dsc_pending_op ≠ dmu_pendop_t.PENDING_NONE ∧
        dscp.dsc_pending_op ≠ dmu_pendop_t.PENDING_REDACT then push_out_pending W dscp
    else (0, dscp)
  (if dscp.dsc_pending_op ≠ dmu_pendop_t.PENDING_NONE ∧
      dscp.dsc_pending_op ≠ dmu_pendop_t.PENDING_REDACT then dump_record_ASSERT dscp
    else true) &&
  (if r1.1 ≠ 0 then true
    else
      let d1 := r1.2
      if d1.dsc_pending_op = dmu_pendop_t.PENDING_REDACT ∧ d1.dsc_drr.drr_object = object ∧
          (d1.dsc_drr.drr_offset + d1.dsc_drr.drr_length) % 2 ^ 64 = offset then true
      else if d1.dsc_pending_op = dmu_pendop_t.PENDING_REDACT then dump_record_ASSERT d1
      else true)

/-- The assertions of `dump_record` that the calls of `dump_freeobjects`
evaluate when they push out a pending record. -/
def dump_freeobjects_flush_ASSERT (W : stream_codec) (dscp : dmu_send_cookie_t)
    (firstobj : Nat) : Bool :=
  let r1 :=
    if dscp.dsc_pending_op ≠ dmu_pendop_t.PENDING_NONE ∧
        dscp.dsc_pending_op ≠ dmu_pendop_t.PENDING_FREEOBJECTS then push_out_pending W dscp
    else (0, dscp)
  (if dscp.dsc_pending_op ≠ dmu_pendop_t.PENDING_NONE ∧
      dscp.dsc_pending_op ≠ dmu_pendop_t.PENDING_FREEOBJECTS then dump_record_ASSERT dscp
    else true) &&
  (if r1.1 ≠ 0 then true
    else
      let d1 := r1.2
      if d1.dsc_pending_op = dmu_pendop_t.PENDING_FREEOBJECTS ∧
          (d1.dsc_drr.drr_firstobj + d1.dsc_drr.drr_numobjs) % 2 ^ 64 = firstobj then true
      else if d1.dsc_pending_op = dmu_pendop_t.PENDING_FREEOBJECTS then dump_record_ASSERT d1
      else true)

/-- The assertion of `dump_record` that `dump_write`, `dump_write_embedded`,
`dump_spill` and `dump_dnode` evaluate when they push out a pending record in
front of their own record. -/
def emit_record_flush_ASSERT (dscp : dmu_send_cookie_t) : Bool :=
  if dscp.dsc_pending_op ≠ dmu_pendop_t.PENDING_NONE then dump_record_ASSERT dscp else true

/-- The assertions of `dump_record` that a call of `dump_dnode` evaluates when
it, or the function it calls, pushes out a pending record. -/
def dump_dnode_flush_ASSERT (W : stream_codec) (dscp : dmu_send_cookie_t)
    (bp : Option blkptr_t) (object : Nat) (dnp : Option dnode_phys_t) : Bool :=
  if object < dscp.dsc_resume_object then true
  else
    match dnp with
    | none => dump_freeobjects_flush_ASSERT W dscp object
    | some dn =>
      if dn.dn_type = DMU_OT_NONE then dump_freeobjects_flush_ASSERT W dscp object
      else
        let r1 :=
          if dscp.dsc_pending_op ≠ dmu_pendop_t.PENDING_NONE then push_out_pending W dscp
          else (0, dscp)
        emit_record_flush_ASSERT dscp &&
        (if r1.1 ≠ 0 then true
          else
            let r2 := dump_record W { r1.2 with dsc_drr := dump_dnode_record r1.2 bp object dn }
              (some dn.dn_bonus) (dump_dnode_bonuslen r1.2 dn)
            if r2.1 ≠ 0 then true
            else
              dump_free_flush_ASSERT W r2.2 object
                (((dn.dn_maxblkid + 1) * (dn.dn_datablkszsec <<< SPA_MINBLOCKSHIFT)) % 2 ^ 64))

/-- A session in which a REDACT record for object 1 is pending and the output
function fails with `ENOSPC`. -/
def sample_cookie_redact_fails : dmu_send_cookie_t :=
  { sample_cookie_redact with
    dsc_dso := { dso_outfunc := fun _ => ENOSPC, dso_dryrun := false } }

/-! ## The WRITE records of a large block that is split -/

/-- The length of the payload buffer at the front of a list of buffers, 0 when
the list does not start with a payload buffer. -/
def front_payload_len : List out_chunk → Nat
  | out_chunk.payload _ len :: _ => len
  | _ => 0

/-- The (object, offset, logical size, payload length) of the WRITE headers
among the buffers handed to the output function, in order; the payload length
is that of the payload buffer handed over right after the header, 0 when there
is none. -/
def write_chunks : List out_chunk → List (Nat × Nat × Nat × Nat)
  | [] => []
  | out_chunk.header h :: rest =>
    if h.drr_type = drr_type_t.DRR_WRITE then
      (h.drr_object, h.drr_offset, h.drr_logical_size, front_payload_len rest) ::
        write_chunks rest
    else write_chunks rest
  | out_chunk.payload _ _ :: rest => write_chunks rest

/-- Modelled from the spec: the WRITE records of a block of `L` bytes at byte
`offset` of an object that is sent in chunks of at most `SPA_OLD_MAXBLOCKSIZE`
bytes: `ceil(L / SPA_OLD_MAXBLOCKSIZE)` records at contiguous offsets, each with
the same logical and payload size. -/
def split_chunks (object offset L : Nat) : List (Nat × Nat × Nat × Nat) :=
  (List.range ((L + SPA_OLD_MAXBLOCKSIZE - 1) / SPA_OLD_MAXBLOCKSIZE)).map fun i =>
    (object, offset + i * SPA_OLD_MAXBLOCKSIZE, min SPA_OLD_MAXBLOCKSIZE (L - i * SPA_OLD_MAXBLOCKSIZE),
      min SPA_OLD_MAXBLOCKSIZE (L - i * SPA_OLD_MAXBLOCKSIZE))

/-- A `DATA` record for one block of the given size, with a block pointer of
that logical size. -/
def sample_large_range (object blkid datablksz : Nat) : send_range :=
  { eos_marker := false, object := object, start_blkid := blkid, end_blkid := blkid + 1,
    type := range_type.DATA,
    sru := { datablksz := datablksz, obj_type := 19,
             bp := some { sample_bp with lsize := datablksz, psize := datablksz }, dnp := none } }

/-- An environment in which every read fails with `EIO` and
`zfs_send_corrupt_data` is set. -/
def sample_env_corrupt : do_dump_env :=
  { arc_read := fun _ _ _ => arc_read_result.failed EIO, ot_is_metadata := fun _ => false,
    zfs_send_corrupt_data := true }

/-- An output function that accepts two buffers and fails with `ENOSPC` from
the third buffer on. -/
def sample_outfunc_fails_third (out : List out_chunk) : Nat :=
  if out.length ≥ 3 then ENOSPC else 0

/-- The condition of `ASSERT3U(ranges[i]->object, ==, ranges[idx]->object)` in
the third loop of `find_next_range`, at every front that the loop does not
skip. -/
def find_next_range_object_ASSERT (ranges : Fin NUM_THREADS → send_range)
    (idx : Fin NUM_THREADS) : Bool :=
  [(0 : Fin NUM_THREADS), 1, 2].all fun i =>
    if i = idx ∨ (ranges i).eos_marker = true ∨
        (ranges i).object > (ranges idx).object ∨
        (ranges i).object = DMU_META_DNODE_OBJECT then true
    else decide ((ranges i).object = (ranges idx).object)

/-- The conditions of the two assertions in one iteration of the fourth loop
of `find_next_range`: `ASSERT3U(first_change, >, ranges[i]->start_blkid)`,
before the start is moved, and
`ASSERT3U(ranges[i]->start_blkid, <=, ranges[i]->end_blkid)`, after it. -/
def find_next_range_update_one_ASSERT (idx : Fin NUM_THREADS) (bmask first_change : Nat)
    (st : merge_state) (i : Fin NUM_THREADS) : Bool × Bool :=
  if i = idx ∨ bmask &&& (1 <<< i.val) = 0 then (true, true)
  else
    let r : send_range := { st.ranges i with start_blkid := first_change }
    (decide (first_change > (st.ranges i).start_blkid),
     decide (r.start_blkid ≤ r.end_blkid))

/-- The two assertions of the fourth loop of `find_next_range`, each over all
the iterations that the loop makes. -/
def find_next_range_update_ASSERT (idx : Fin NUM_THREADS) (bmask first_change : Nat)
    (st : merge_state) : Bool × Bool :=
  ([(0 : Fin NUM_THREADS), 1, 2].foldl
    (fun (acc : (Bool × Bool) × Option merge_state) i =>
      match acc.2 with
      | none => acc
      | some s =>
        ((acc.1.1 && (find_next_range_update_one_ASSERT idx bmask first_change s i).1,
          acc.1.2 && (find_next_range_update_one_ASSERT idx bmask first_change s i).2),
         find_next_range_update_one idx bmask first_change s i))
    ((true, true), some st)).1

/-- The three assertions of one call of `find_next_range`, in the order of the
source: the objects are equal in the third loop, `first_change` is after the
start of every front that is moved, and no moved front starts after its end. -/
def find_next_range_ASSERT (st : merge_state) : Bool × Bool × Bool :=
  let idx := find_next_range_idx st.ranges
  if (st.ranges idx).eos_marker = true then (true, true, true)
  else
    let bmask := find_next_range_bmask st.ranges idx
    let first_change := find_next_range_first_change st.ranges idx bmask
    (find_next_range_object_ASSERT st.ranges idx,
     (find_next_range_update_ASSERT idx bmask first_change st).1,
     (find_next_range_update_ASSERT idx bmask first_change st).2)

/-- Modelled from the spec: a well-formed front record: an end-of-stream
record, an `OBJECT` record, or a record with `start_blkid < end_blkid`. -/
def front_well_formed (r : send_range) : Prop :=
  r.eos_marker = true ∨ r.type = range_type.OBJECT ∨ r.start_blkid < r.end_blkid

instance (r : send_range) : Decidable (front_well_formed r) :=
  inferInstanceAs (Decidable (r.eos_marker = true ∨ r.type = range_type.OBJECT ∨
    r.start_blkid < r.end_blkid))

/-- The fronts and the rests of the queues of a merge state, listed by
index. -/
def merge_state_lists (st : merge_state) : List (send_range × List send_range) :=
  [(st.ranges 0, st.qs 0), (st.ranges 1, st.qs 1), (st.ranges 2, st.qs 2)]

/-- The fronts and queues that the calls of `find_next_range` run into from
the input of `find_next_range_never_ends`: the range `[1,10)` of object 32 at
`REDACT_IDX`, end-of-stream at `TO_IDX`, and at `FROM_IDX` a range of object 32
that starts at 100 and ends at 1. -/
def sample_stuck_fronts : merge_state :=
  { ranges := fun i =>
      if i = 0 then sample_range range_type.REDACT 32 1 10 4096
      else if i = 1 then eos_record
      else sample_range range_type.PREVIOUSLY_REDACTED 32 100 1 0,
    qs := fun i => if i = 0 then [eos_record] else if i = 1 then [] else [eos_record] }

/-- The fronts and queues at the start of the merge of
`find_next_range_never_ends`: the range `[5,10)` of object 32 from the
target-redaction list, the hole `[1,100)` on object 0 from the to-traversal, and
the range `[0,1)` of object 32 from the from-redaction list, each followed by
end-of-stream. -/
def sample_stuck_start : merge_state :=
  { ranges := fun i =>
      if i = 0 then sample_range range_type.REDACT 32 5 10 4096
      else if i = 1 then sample_range range_type.HOLE 0 1 100 16384
      else sample_range range_type.PREVIOUSLY_REDACTED 32 0 1 0,
    qs := fun i => if i = 0 then [eos_record] else if i = 1 then [eos_record] else [eos_record] }

/-- The fronts and queues after the first call of `find_next_range` on
`sample_stuck_start`. -/
def sample_stuck_second : merge_state :=
  { ranges := fun i =>
      if i = 0 then sample_range range_type.REDACT 32 5 10 4096
      else if i = 1 then eos_record
      else sample_range range_type.PREVIOUSLY_REDACTED 32 100 1 0,
    qs := fun i => if i = 0 then [eos_record] else if i = 1 then [] else [eos_record] }

/-- The test `BP_GET_TYPE(bp) == DMU_OT_SA` by which `do_dump` tells the
`DATA` record of a spill block from that of a block of the object. -/
def is_spill_record (r : send_range) : Bool :=
  match r.sru.bp with
  | some bp => decide (bp.bp_type = DMU_OT_SA)
  | none => false

/-- The `DATA` record that `send_cb` makes for the spill block of an object:
the block id is `DMU_SPILL_BLKID`, the end `start + span` wraps and is stored as
0, and the block pointer is of type `DMU_OT_SA`. -/
def sample_spill_range (object : Nat) : send_range :=
  { eos_marker := false, object := object, start_blkid := 2 ^ 64 - 1, end_blkid := 0,
    type := range_type.DATA,
    sru := { datablksz := 4, obj_type := 19,
             bp := some { sample_bp with bp_type := DMU_OT_SA }, dnp := none } }

/-- An OBJECT record of object 1, two `DATA` records of that object, the record
of its spill block and a `DATA` record of object 2, in ascending order. -/
def sample_ascending_spill : List send_range :=
  [sample_object_range 1, sample_data_range 1 0, sample_data_range 1 1, sample_spill_range 1,
    sample_data_range 2 0]

/-! # Properties -/

/-! ## Facts about `dump_record` and the push-out of a pending record -/

theorem dump_record_out_nopayload (W : stream_codec) (d : dmu_send_cookie_t) :
    (dump_record W d none 0).2.dsc_out =
      d.dsc_out ++ [out_chunk.header (dump_record_header W d)] := by
  simp only [dump_record]
  split_ifs <;> simp_all

theorem dump_record_pending_op (W : stream_codec) (d : dmu_send_cookie_t)
    (p : Option (List Nat)) (n : Nat) :
    (dump_record W d p n).2.dsc_pending_op = d.dsc_pending_op := by
  simp only [dump_record]
  split_ifs <;> rfl

theorem dump_record_drr (W : stream_codec) (d : dmu_send_cookie_t)
    (p : Option (List Nat)) (n : Nat) :
    (dump_record W d p n).2.dsc_drr = dump_record_header W d := by
  simp only [dump_record]
  split_ifs <;> rfl

theorem dump_record_toguid (W : stream_codec) (d : dmu_send_cookie_t)
    (p : Option (List Nat)) (n : Nat) :
    (dump_record W d p n).2.dsc_toguid = d.dsc_toguid := by
  simp only [dump_record]
  split_ifs <;> rfl

theorem dump_record_ok_out (W : stream_codec) (d : dmu_send_cookie_t)
    (p : Option (List Nat)) (n : Nat) (h : (dump_record W d p n).1 = 0) :
    (dump_record W d p n).2.dsc_out =
      d.dsc_out ++ out_chunk.header (dump_record_header W d) ::
        (if n ≠ 0 then [out_chunk.payload (p.map (List.take n)) n] else []) := by
  simp only [dump_record] at h ⊢
  split_ifs at h ⊢ <;> simp_all [EINTR]

theorem push_out_pending_ok (W : stream_codec) (d : dmu_send_cookie_t)
    (h : (push_out_pending W d).1 = 0) :
    (push_out_pending W d).2.dsc_pending_op = dmu_pendop_t.PENDING_NONE ∧
    (push_out_pending W d).2.dsc_out =
      d.dsc_out ++ [out_chunk.header (dump_record_header W d)] ∧
    (push_out_pending W d).2.dsc_toguid = d.dsc_toguid := by
  simp only [push_out_pending] at h ⊢
  split_ifs at h ⊢ with h1
  · simp [EINTR] at h
  · exact ⟨rfl, dump_record_out_nopayload W d, dump_record_toguid W d none 0⟩

theorem push_out_pending_accepts (W : stream_codec) (d : dmu_send_cookie_t)
    (h : d.dsc_dso.dso_outfunc
      (d.dsc_out ++ [out_chunk.header (dump_record_header W d)]) = 0) :
    (push_out_pending W d).1 = 0 := by
  simp [push_out_pending, dump_record, h]

theorem dump_record_header_fields (W : stream_codec) (d : dmu_send_cookie_t) :
    { dump_record_header W d with drr_checksum := d.dsc_drr.drr_checksum } = d.dsc_drr := by
  unfold dump_record_header
  split_ifs <;> rfl

theorem dump_record_header_type (W : stream_codec) (d : dmu_send_cookie_t) :
    (dump_record_header W d).drr_type = d.dsc_drr.drr_type := by
  unfold dump_record_header
  split_ifs <;> rfl

theorem push_out_pending_out (W : stream_codec) (d : dmu_send_cookie_t) :
    (push_out_pending W d).2.dsc_out =
      d.dsc_out ++ [out_chunk.header (dump_record_header W d)] := by
  simp only [push_out_pending]
  split_ifs <;> exact dump_record_out_nopayload W d

/-! ## Aggregation of FREE and REDACT records (C6, C7) -/

theorem dump_free_merge (W : stream_codec) (dscp : dmu_send_cookie_t)
    (object offset length : Nat)
    (hp : dscp.dsc_pending_op = dmu_pendop_t.PENDING_FREE)
    (hm : dscp.dsc_drr.drr_object = object ∧
      (dscp.dsc_drr.drr_offset + dscp.dsc_drr.drr_length) % 2 ^ 64 = offset) :
    dump_free W dscp object offset length =
      (0, { dscp with dsc_drr := { dscp.dsc_drr with
              drr_length :=
                if dump_free_length offset length = UINT64_MAX then UINT64_MAX
                else (dscp.dsc_drr.drr_length + dump_free_length offset length) % 2 ^ 64 } }) := by
  have e64 : (2 : Nat) ^ 64 = 18446744073709551616 := by norm_num
  rw [e64] at hm
  simp [dump_free, hp, hm.1, hm.2]

theorem dump_free_no_merge (W : stream_codec) (dscp : dmu_send_cookie_t)
    (object offset length : Nat)
    (hp : dscp.dsc_pending_op = dmu_pendop_t.PENDING_FREE)
    (hm : ¬ (dscp.dsc_drr.drr_object = object ∧
      (dscp.dsc_drr.drr_offset + dscp.dsc_drr.drr_length) % 2 ^ 64 = offset))
    (hacc : (push_out_pending W dscp).1 = 0) :
    dump_free W dscp object offset length =
      (if dump_free_length offset length = UINT64_MAX then
        (if (dump_record W { (push_out_pending W dscp).2 with
              dsc_drr := (dump_free_record dscp.dsc_toguid object offset
                (dump_free_length offset length)) } none 0).1 ≠ 0
          then EINTR else 0,
          (dump_record W { (push_out_pending W dscp).2 with
              dsc_drr := (dump_free_record dscp.dsc_toguid object offset
                (dump_free_length offset length)) } none 0).2)
      else
        (0, { (push_out_pending W dscp).2 with
          dsc_drr := (dump_free_record dscp.dsc_toguid object offset
            (dump_free_length offset length)),
          dsc_pending_op := dmu_pendop_t.PENDING_FREE })) := by
  have e64 : (2 : Nat) ^ 64 = 18446744073709551616 := by norm_num
  obtain ⟨h3, h4, h5⟩ := push_out_pending_ok W dscp hacc
  rw [e64] at hm
  simp [dump_free, hp]
  rw [if_neg hm]
  simp only [hacc, if_true, h5]
  split_ifs <;> rfl

theorem dump_redact_merge (W : stream_codec) (dscp : dmu_send_cookie_t)
    (object offset length : Nat)
    (hp : dscp.dsc_pending_op = dmu_pendop_t.PENDING_REDACT)
    (hm : dscp.dsc_drr.drr_object = object ∧
      (dscp.dsc_drr.drr_offset + dscp.dsc_drr.drr_length) % 2 ^ 64 = offset) :
    dump_redact W dscp object offset length =
      (0, { dscp with dsc_drr := { dscp.dsc_drr with
              drr_length := (dscp.dsc_drr.drr_length + length) % 2 ^ 64 } }) := by
  have e64 : (2 : Nat) ^ 64 = 18446744073709551616 := by norm_num
  rw [e64] at hm
  simp [dump_redact, hp, hm.1, hm.2]

theorem dump_redact_no_merge (W : stream_codec) (dscp : dmu_send_cookie_t)
    (object offset length : Nat)
    (hp : dscp.dsc_pending_op = dmu_pendop_t.PENDING_REDACT)
    (hm : ¬ (dscp.dsc_drr.drr_object = object ∧
      (dscp.dsc_drr.drr_offset + dscp.dsc_drr.drr_length) % 2 ^ 64 = offset))
    (hacc : (push_out_pending W dscp).1 = 0) :
    dump_redact W dscp object offset length =
      (0, { (push_out_pending W dscp).2 with
        dsc_drr := dump_redact_record dscp.dsc_toguid object offset length,
        dsc_pending_op := dmu_pendop_t.PENDING_REDACT }) := by
  have e64 : (2 : Nat) ^ 64 = 18446744073709551616 := by norm_num
  obtain ⟨h3, h4, h5⟩ := push_out_pending_ok W dscp hacc
  rw [e64] at hm
  simp [dump_redact, hp]
  rw [if_neg hm]
  simp only [hacc, if_true, h5]

/-- C6 (as amended).  With a REDACT (FREE) record pending, `dump_redact`
(`dump_free`) merges the call into the pending record, emitting nothing, when
the object equals the pending object and pending offset plus pending length
(modulo 2^64) equals the offset.  A merged `dump_redact` grows the pending length
by `length` modulo 2^64; a merged `dump_free` does so too unless `length` is
`UINT64_MAX` or `offset + length` overflows (`dump_free_length` is then
`UINT64_MAX`), when it sets the pending length to `UINT64_MAX`.  Otherwise the
pending record is handed to the output function unchanged but for its checksum
field and, when the output function accepts it, a new record at (object, offset)
with that length becomes pending, except that `dump_free` with a length of
`UINT64_MAX` emits the new record at once and leaves nothing pending. -/
theorem dump_free_redact_aggregation (W : stream_codec) (dscp : dmu_send_cookie_t)
    (object offset length : Nat) :
    (dscp.dsc_pending_op = dmu_pendop_t.PENDING_REDACT →
      ((dscp.dsc_drr.drr_object = object ∧
          (dscp.dsc_drr.drr_offset + dscp.dsc_drr.drr_length) % 2 ^ 64 = offset) →
        dump_redact W dscp object offset length =
          (0, { dscp with dsc_drr := { dscp.dsc_drr with
                  drr_length := (dscp.dsc_drr.drr_length + length) % 2 ^ 64 } })) ∧
      (¬ (dscp.dsc_drr.drr_object = object ∧
          (dscp.dsc_drr.drr_offset + dscp.dsc_drr.drr_length) % 2 ^ 64 = offset) →
        dscp.dsc_dso.dso_outfunc
          (dscp.dsc_out ++ [out_chunk.header (dump_record_header W dscp)]) = 0 →
        (dump_redact W dscp object offset length).1 = 0 ∧
        (dump_redact W dscp object offset length).2.dsc_out =
          dscp.dsc_out ++ [out_chunk.header (dump_record_header W dscp)] ∧
        { dump_record_header W dscp with drr_checksum := dscp.dsc_drr.drr_checksum } =
          dscp.dsc_drr ∧
        (dump_redact W dscp object offset length).2.dsc_pending_op =
          dmu_pendop_t.PENDING_REDACT ∧
        (dump_redact W dscp object offset length).2.dsc_drr =
          dump_redact_record dscp.dsc_toguid object offset length)) ∧
    (dscp.dsc_pending_op = dmu_pendop_t.PENDING_FREE →
      ((dscp.dsc_drr.drr_object = object ∧
          (dscp.dsc_drr.drr_offset + dscp.dsc_drr.drr_length) % 2 ^ 64 = offset) →
        dump_free W dscp object offset length =
          (0, { dscp with dsc_drr := { dscp.dsc_drr with
                  drr_length :=
                    if dump_free_length offset length = UINT64_MAX then UINT64_MAX
                    else (dscp.dsc_drr.drr_length + dump_free_length offset length) %
                      2 ^ 64 } })) ∧
      (¬ (dscp.dsc_drr.drr_object = object ∧
          (dscp.dsc_drr.drr_offset + dscp.dsc_drr.drr_length) % 2 ^ 64 = offset) →
        dscp.dsc_dso.dso_outfunc
          (dscp.dsc_out ++ [out_chunk.header (dump_record_header W dscp)]) = 0 →
        { dump_record_header W dscp with drr_checksum := dscp.dsc_drr.drr_checksum } =
          dscp.dsc_drr ∧
        (dump_free_length offset length ≠ UINT64_MAX →
          (dump_free W dscp object offset length).1 = 0 ∧
          (dump_free W dscp object offset length).2.dsc_out =
            dscp.dsc_out ++ [out_chunk.header (dump_record_header W dscp)] ∧
          (dump_free W dscp object offset length).2.dsc_pending_op =
            dmu_pendop_t.PENDING_FREE ∧
          (dump_free W dscp object offset length).2.dsc_drr =
            dump_free_record dscp.dsc_toguid object offset
              (dump_free_length offset length)) ∧
        (dump_free_length offset length = UINT64_MAX →
          (dump_free W dscp object offset length).2.dsc_pending_op =
            dmu_pendop_t.PENDING_NONE ∧
          ∃ h : dmu_replay_record_t,
            (dump_free W dscp object offset length).2.dsc_out =
              dscp.dsc_out ++
                [out_chunk.header (dump_record_header W dscp), out_chunk.header h] ∧
            h.drr_type = drr_type_t.DRR_FREE ∧ h.drr_object = object ∧
            h.drr_offset = offset ∧ h.drr_length = UINT64_MAX))) ∧
    (length ≠ UINT64_MAX → offset + length < 2 ^ 64 →
      dump_free_length offset length = length) := by
  refine ⟨fun hp => ⟨dump_redact_merge W dscp object offset length hp, fun hm hacc => ?_⟩,
    fun hp => ⟨dump_free_merge W dscp object offset length hp, fun hm hacc => ?_⟩,
    fun hl ho => ?_⟩
  · have h2 := push_out_pending_accepts W dscp hacc
    obtain ⟨h3, h4, h5⟩ := push_out_pending_ok W dscp h2
    rw [dump_redact_no_merge W dscp object offset length hp hm h2]
    exact ⟨rfl, h4, dump_record_header_fields W dscp, rfl, rfl⟩
  · have h2 := push_out_pending_accepts W dscp hacc
    obtain ⟨h3, h4, h5⟩ := push_out_pending_ok W dscp h2
    rw [dump_free_no_merge W dscp object offset length hp hm h2]
    refine ⟨dump_record_header_fields W dscp, fun hL => ?_, fun hL => ?_⟩
    · rw [if_neg hL]
      exact ⟨rfl, h4, rfl, rfl⟩
    · rw [if_pos hL]
      refine ⟨?_, dump_record_header W { (push_out_pending W dscp).2 with
        dsc_drr := (dump_free_record dscp.dsc_toguid object offset
          (dump_free_length offset length)) }, ?_, ?_⟩
      · rw [dump_record_pending_op]; exact h3
      · rw [dump_record_out_nopayload]
        simp only [h4, List.append_assoc, List.singleton_append]
      · simp only [dump_record_header, dump_free_record, hL]
        split_ifs <;> simp
  · unfold dump_free_length
    rw [if_neg]
    rintro ⟨-, h⟩
    rw [Nat.mod_eq_of_lt ho] at h
    omega

/-- Witness of `dump_free_redact_aggregation`: with a REDACT record for object 1,
offset 0, length 10 pending, `dump_redact(1, 10, 5)` is merged. -/
theorem dump_free_redact_aggregation_witness :
    dump_redact sample_codec sample_cookie_redact 1 10 5 =
      (0, { sample_cookie_redact with dsc_drr := { sample_cookie_redact.dsc_drr with
              drr_length := (sample_cookie_redact.dsc_drr.drr_length + 5) % 2 ^ 64 } }) :=
  ((dump_free_redact_aggregation sample_codec sample_cookie_redact 1 10 5).1
    (by decide)).1 (by decide)

/-- C6 (counterexample to the claim as stated).  With a FREE record for object 1
pending, `dump_free(2, 0, UINT64_MAX)` is not merged (the objects differ) and
succeeds, yet no new record replaces the pending one: both records have been
emitted and nothing is pending. -/
theorem dump_free_to_end_replaces_nothing :
    sample_cookie_free.dsc_pending_op = dmu_pendop_t.PENDING_FREE ∧
    sample_cookie_free.dsc_drr.drr_object ≠ 2 ∧
    (dump_free sample_codec sample_cookie_free 2 0 UINT64_MAX).1 = 0 ∧
    ¬ ((dump_free sample_codec sample_cookie_free 2 0 UINT64_MAX).2.dsc_pending_op =
        dmu_pendop_t.PENDING_FREE) ∧
    ((dump_free sample_codec sample_cookie_free 2 0 UINT64_MAX).2.dsc_out).length = 2 := by
  decide

/-- C7 (as amended).  Aggregating a `dump_free` call whose length is `UINT64_MAX`
into a pending FREE record sets the pending length to `UINT64_MAX`.  No other
aggregation saturates: `dump_free` with another length that does not overflow,
`dump_redact`, and `dump_freeobjects` with a non-zero count add the length (or
count) of the call to the pending one modulo 2^64, so a pending length of
`UINT64_MAX` stays `UINT64_MAX` only when the added length is 0. -/
theorem aggregated_length_arithmetic (W : stream_codec) (dscp : dmu_send_cookie_t)
    (object offset length : Nat) :
    (dscp.dsc_pending_op = dmu_pendop_t.PENDING_FREE →
      dscp.dsc_drr.drr_object = object →
      (dscp.dsc_drr.drr_offset + dscp.dsc_drr.drr_length) % 2 ^ 64 = offset →
      (length = UINT64_MAX →
        (dump_free W dscp object offset length).2.dsc_drr.drr_length = UINT64_MAX) ∧
      (length ≠ UINT64_MAX → ¬ (offset + length) % 2 ^ 64 < offset →
        (dump_free W dscp object offset length).2.dsc_drr.drr_length =
          (dscp.dsc_drr.drr_length + length) % 2 ^ 64)) ∧
    (dscp.dsc_pending_op = dmu_pendop_t.PENDING_REDACT →
      dscp.dsc_drr.drr_object = object →
      (dscp.dsc_drr.drr_offset + dscp.dsc_drr.drr_length) % 2 ^ 64 = offset →
      (dump_redact W dscp object offset length).2.dsc_drr.drr_length =
        (dscp.dsc_drr.drr_length + length) % 2 ^ 64) ∧
    (dscp.dsc_pending_op = dmu_pendop_t.PENDING_FREEOBJECTS →
      (dscp.dsc_drr.drr_firstobj + dscp.dsc_drr.drr_numobjs) % 2 ^ 64 = object →
      length ≠ 0 →
      (dump_freeobjects W dscp object length).2.dsc_drr.drr_numobjs =
        (dscp.dsc_drr.drr_numobjs + length) % 2 ^ 64) ∧
    (length < 2 ^ 64 → ((UINT64_MAX + length) % 2 ^ 64 = UINT64_MAX ↔ length = 0)) := by
  have e64 : (2 : Nat) ^ 64 = 18446744073709551616 := by norm_num
  refine ⟨fun hp ho hm => ⟨fun hl => ?_, fun hl hov => ?_⟩, fun hp ho hm => ?_,
    fun hp hm hl => ?_, fun hl => ?_⟩
  · rw [dump_free_merge W dscp object offset length hp ⟨ho, hm⟩]
    simp [dump_free_length, hl]
  · rw [dump_free_merge W dscp object offset length hp ⟨ho, hm⟩]
    rw [e64] at hov
    simp [dump_free_length, hl, hov]
  · rw [dump_redact_merge W dscp object offset length hp ⟨ho, hm⟩]
  · rw [e64] at hm
    simp [dump_freeobjects, hp, hm, hl]
  · unfold UINT64_MAX
    omega

/-- Witness of `aggregated_length_arithmetic`: `dump_redact(1, 10, 5)` merged
into the pending REDACT record of `sample_cookie_redact`. -/
theorem aggregated_length_arithmetic_witness :
    (dump_redact sample_codec sample_cookie_redact 1 10 5).2.dsc_drr.drr_length =
      (sample_cookie_redact.dsc_drr.drr_length + 5) % 2 ^ 64 :=
  (aggregated_length_arithmetic sample_codec sample_cookie_redact 1 10 5).2.1
    (by decide) (by decide) (by decide)

/-- C7 (counterexample to the claim as stated).  With a REDACT record for object
1, offset 0, length 10 pending, `dump_redact(1, 10, UINT64_MAX)` is aggregated
(nothing is emitted) and leaves the pending length 9, not `UINT64_MAX`. -/
theorem dump_redact_length_not_sticky :
    sample_cookie_redact.dsc_pending_op = dmu_pendop_t.PENDING_REDACT ∧
    sample_cookie_redact.dsc_drr.drr_object = 1 ∧
    (sample_cookie_redact.dsc_drr.drr_offset + sample_cookie_redact.dsc_drr.drr_length) %
      2 ^ 64 = 10 ∧
    (dump_redact sample_codec sample_cookie_redact 1 10 UINT64_MAX).2.dsc_out = [] ∧
    (dump_redact sample_codec sample_cookie_redact 1 10 UINT64_MAX).2.dsc_pending_op =
      dmu_pendop_t.PENDING_REDACT ∧
    (dump_redact sample_codec sample_cookie_redact 1 10 UINT64_MAX).2.dsc_drr.drr_length = 9 ∧
    ¬ ((dump_redact sample_codec sample_cookie_redact 1 10 UINT64_MAX).2.dsc_drr.drr_length =
      UINT64_MAX) := by
  decide

/-! ## FREEOBJECTS records (C8, C10) -/

/-- C8.  For every first object id `f`, `dump_freeobjects(f, 0)` called with no
FREEOBJECTS record pending (nothing pending, or a pending FREE or REDACT record
that the output function accepts) returns 0 and leaves a pending FREEOBJECTS
record with first object `f` and count `MAX_OBJECT_ID - f`, where
`MAX_OBJECT_ID` is the `UINT64_MAX` of the source; with nothing pending it
emits nothing. -/
theorem dump_freeobjects_count_zero (W : stream_codec) (dscp : dmu_send_cookie_t) (f : Nat)
    (hp : dscp.dsc_pending_op ≠ dmu_pendop_t.PENDING_FREEOBJECTS)
    (hacc : dscp.dsc_pending_op = dmu_pendop_t.PENDING_NONE ∨
      dscp.dsc_dso.dso_outfunc
        (dscp.dsc_out ++ [out_chunk.header (dump_record_header W dscp)]) = 0) :
    (dump_freeobjects W dscp f 0).1 = 0 ∧
    (dump_freeobjects W dscp f 0).2.dsc_pending_op = dmu_pendop_t.PENDING_FREEOBJECTS ∧
    (dump_freeobjects W dscp f 0).2.dsc_drr.drr_type = drr_type_t.DRR_FREEOBJECTS ∧
    (dump_freeobjects W dscp f 0).2.dsc_drr.drr_firstobj = f ∧
    (dump_freeobjects W dscp f 0).2.dsc_drr.drr_numobjs = MAX_OBJECT_ID - f ∧
    (dscp.dsc_pending_op = dmu_pendop_t.PENDING_NONE →
      (dump_freeobjects W dscp f 0).2.dsc_out = dscp.dsc_out) := by
  by_cases h1 : dscp.dsc_pending_op = dmu_pendop_t.PENDING_NONE
  · simp [dump_freeobjects, dump_freeobjects_record, h1, MAX_OBJECT_ID]
  · have h2 : (push_out_pending W dscp).1 = 0 :=
      push_out_pending_accepts W dscp (hacc.resolve_left h1)
    have h3 := (push_out_pending_ok W dscp h2).1
    simp [dump_freeobjects, dump_freeobjects_record, h1, hp, h2, h3, MAX_OBJECT_ID]

/-- Witness of `dump_freeobjects_count_zero`: a logical count of 0 at object 100
is encoded with count `MAX_OBJECT_ID - 100`. -/
theorem dump_freeobjects_count_zero_witness :
    (dump_freeobjects sample_codec sample_cookie 100 0).2.dsc_drr.drr_firstobj = 100 ∧
    (dump_freeobjects sample_codec sample_cookie 100 0).2.dsc_drr.drr_numobjs =
      MAX_OBJECT_ID - 100 :=
  ⟨(dump_freeobjects_count_zero sample_codec sample_cookie 100 (by decide)
      (Or.inl rfl)).2.2.2.1,
    (dump_freeobjects_count_zero sample_codec sample_cookie 100 (by decide)
      (Or.inl rfl)).2.2.2.2.1⟩

theorem dump_freeobjects_out (W : stream_codec) (dscp : dmu_send_cookie_t)
    (firstobj numobjs : Nat) :
    (dump_freeobjects W dscp firstobj numobjs).2.dsc_out = dscp.dsc_out ∨
    (dscp.dsc_pending_op ≠ dmu_pendop_t.PENDING_NONE ∧
      (dump_freeobjects W dscp firstobj numobjs).2.dsc_out =
        dscp.dsc_out ++ [out_chunk.header (dump_record_header W dscp)]) := by
  have hpo := push_out_pending_out W
  have hpp : ∀ d, (push_out_pending W d).1 = 0 →
      (push_out_pending W d).2.dsc_pending_op = dmu_pendop_t.PENDING_NONE :=
    fun d h => (push_out_pending_ok W d h).1
  by_cases h0 : dscp.dsc_pending_op = dmu_pendop_t.PENDING_NONE
  · left
    simp [dump_freeobjects, h0]
  · by_cases h1 : dscp.dsc_pending_op = dmu_pendop_t.PENDING_FREEOBJECTS
    · by_cases hm : (dscp.dsc_drr.drr_firstobj + dscp.dsc_drr.drr_numobjs) %
          18446744073709551616 = firstobj
      · left
        simp [dump_freeobjects, h1]
        rw [if_pos hm]
      · right
        refine ⟨h0, ?_⟩
        simp [dump_freeobjects, h1]
        rw [if_neg hm]
        split_ifs <;> simp [hpo]
    · right
      refine ⟨h0, ?_⟩
      simp only [dump_freeobjects, h0, h1, ne_eq, not_false_eq_true, and_self, if_true]
      by_cases h2 : (push_out_pending W dscp).1 = 0
      · simp [h2, hpp dscp h2, hpo]
      · simp [h2, hpo]

/-- C10.  For an object id at or above the resume object, `dump_dnode` with a
null dnode or a dnode of type `DMU_OT_NONE` is exactly `dump_freeobjects(object,
1)`: it builds no OBJECT record, and the only header it can hand to the output
function is the record that was pending before the call.  Two such calls for
the object ids `k` and `k + 1`, starting with nothing pending, both return 0,
emit nothing, and leave one pending FREEOBJECTS record with first object `k`
and count 2. -/
theorem dump_dnode_absent_is_freeobjects (W : stream_codec) (dscp : dmu_send_cookie_t)
    (bp : Option blkptr_t) (object : Nat) (dnp : Option dnode_phys_t)
    (hres : dscp.dsc_resume_object ≤ object)
    (hdn : dnp = none ∨ ∃ dn, dnp = some dn ∧ dn.dn_type = DMU_OT_NONE) :
    dump_dnode W dscp bp object dnp = dump_freeobjects W dscp object 1 ∧
    ((dump_dnode W dscp bp object dnp).2.dsc_out = dscp.dsc_out ∨
      (dscp.dsc_pending_op ≠ dmu_pendop_t.PENDING_NONE ∧
        (dump_dnode W dscp bp object dnp).2.dsc_out =
          dscp.dsc_out ++ [out_chunk.header (dump_record_header W dscp)] ∧
        (dump_record_header W dscp).drr_type = dscp.dsc_drr.drr_type)) ∧
    (dscp.dsc_pending_op = dmu_pendop_t.PENDING_NONE → object + 1 < 2 ^ 64 →
      ∀ (bp2 : Option blkptr_t) (dnp2 : Option dnode_phys_t),
        (dnp2 = none ∨ ∃ dn, dnp2 = some dn ∧ dn.dn_type = DMU_OT_NONE) →
        (dump_dnode W dscp bp object dnp).1 = 0 ∧
        (dump_dnode W dscp bp object dnp).2.dsc_out = dscp.dsc_out ∧
        (dump_dnode W (dump_dnode W dscp bp object dnp).2 bp2 (object + 1) dnp2).1 = 0 ∧
        (dump_dnode W (dump_dnode W dscp bp object dnp).2 bp2 (object + 1) dnp2).2.dsc_out =
          dscp.dsc_out ∧
        (dump_dnode W (dump_dnode W dscp bp object dnp).2 bp2
          (object + 1) dnp2).2.dsc_pending_op = dmu_pendop_t.PENDING_FREEOBJECTS ∧
        (dump_dnode W (dump_dnode W dscp bp object dnp).2 bp2 (object + 1) dnp2).2.dsc_drr =
          dump_freeobjects_record dscp.dsc_toguid object 2) := by
  have key : ∀ (d : dmu_send_cookie_t) (b : Option blkptr_t) (o : Nat)
      (dp : Option dnode_phys_t), d.dsc_resume_object ≤ o →
      (dp = none ∨ ∃ dn, dp = some dn ∧ dn.dn_type = DMU_OT_NONE) →
      dump_dnode W d b o dp = dump_freeobjects W d o 1 := by
    intro d b o dp h1 h2
    rcases h2 with h2 | ⟨dn, h2, h3⟩
    · subst h2
      simp [dump_dnode, Nat.not_lt.mpr h1]
    · subst h2
      simp [dump_dnode, Nat.not_lt.mpr h1, h3]
  have e1 := key dscp bp object dnp hres hdn
  refine ⟨e1, ?_, ?_⟩
  · rw [e1]
    rcases dump_freeobjects_out W dscp object 1 with h | ⟨h1, h2⟩
    · exact Or.inl h
    · exact Or.inr ⟨h1, h2, dump_record_header_type W dscp⟩
  · intro hp hlt bp2 dnp2 hdn2
    have hres2 : (dump_freeobjects W dscp object 1).2.dsc_resume_object ≤ object + 1 := by
      simp [dump_freeobjects, hp]
      omega
    rw [e1, key _ bp2 (object + 1) dnp2 hres2 hdn2]
    have e64 : (2 : Nat) ^ 64 = 18446744073709551616 := by norm_num
    rw [e64] at hlt
    have hm : (object + 1) % 18446744073709551616 = object + 1 := Nat.mod_eq_of_lt hlt
    simp [dump_freeobjects, dump_freeobjects_record, hp, hm]

/-- Witness of `dump_dnode_absent_is_freeobjects`: null dnodes for the objects 5
and 6. -/
theorem dump_dnode_absent_is_freeobjects_witness :
    (dump_dnode sample_codec
      (dump_dnode sample_codec sample_cookie none 5 none).2 none (5 + 1) none).2.dsc_drr =
      dump_freeobjects_record sample_cookie.dsc_toguid 5 2 :=
  ((dump_dnode_absent_is_freeobjects sample_codec sample_cookie none 5 none (by decide)
    (Or.inl rfl)).2.2 rfl (by norm_num) none none (Or.inl rfl)).2.2.2.2.2

/-! ## Data records push out the pending record (C9) -/

theorem pushes_out_then_emits_intro (W : stream_codec) (dscp d0 : dmu_send_cookie_t)
    (t : drr_type_t) (r : Nat × dmu_send_cookie_t)
    (hd : d0.dsc_drr = dscp.dsc_drr ∧ d0.dsc_zc = dscp.dsc_zc ∧ d0.dsc_out = dscp.dsc_out)
    (hr : ∃ (w : dmu_replay_record_t) (data : Option (List Nat)) (n : Nat),
      (push_out_pending W d0).1 = 0 ∧
      (dump_record W { (push_out_pending W d0).2 with dsc_drr := w } data n).1 = 0 ∧
      r.2 = (dump_record W { (push_out_pending W d0).2 with dsc_drr := w } data n).2 ∧
      w.drr_type = t) :
    pushes_out_then_emits W dscp r t := by
  have hh : dump_record_header W d0 = dump_record_header W dscp := by
    simp [dump_record_header, hd.1, hd.2.1]
  obtain ⟨w, data, n, h1, h2, hr2, hw⟩ := hr
  obtain ⟨h3, h4, h5⟩ := push_out_pending_ok W d0 h1
  have h6 := dump_record_ok_out W _ data _ h2
  have h7 := dump_record_pending_op W { (push_out_pending W d0).2 with dsc_drr := w } data n
  refine ⟨by rw [hr2, h7]; exact h3,
    dump_record_header W { (push_out_pending W d0).2 with dsc_drr := w },
    (if n ≠ 0 then [out_chunk.payload (data.map (List.take n)) n] else []), ?_,
    dump_record_header_fields W dscp, ?_, ?_⟩
  · rw [hr2, h6]
    simp [h4, hh, hd.2.2]
  · rw [dump_record_header_type]; exact hw
  · split_ifs
    · exact Or.inr ⟨_, _, rfl⟩
    · exact Or.inl rfl

theorem dump_write_record_type (W : stream_codec) (d1 : dmu_send_cookie_t)
    (type object offset lsize psize : Nat) (bp : Option blkptr_t) :
    (dump_write_record W d1 type object offset lsize psize bp).drr_type =
      drr_type_t.DRR_WRITE := by
  simp only [dump_write_record]
  split_ifs <;> rfl

theorem dump_spill_record_type (d1 : dmu_send_cookie_t) (bp : blkptr_t) (object : Nat) :
    (dump_spill_record d1 bp object).drr_type = drr_type_t.DRR_SPILL := by
  simp only [dump_spill_record]
  split_ifs <;> rfl

/-- C9.  In every serializer state with `dsc_pending_op` not `PENDING_NONE`, a
call of `dump_write`, `dump_write_embedded` or `dump_spill` that returns 0 has
first handed the pending record to the output function, unchanged but for the
checksum field that `dump_record` fills in, then exactly one WRITE,
WRITE_EMBEDDED or SPILL header with at most one payload buffer, and leaves
`dsc_pending_op` equal to `PENDING_NONE`. -/
theorem data_records_push_out_pending (W : stream_codec) (dscp : dmu_send_cookie_t)
    (hp : dscp.dsc_pending_op ≠ dmu_pendop_t.PENDING_NONE) :
    (∀ (type object offset lsize psize : Nat) (bp : Option blkptr_t)
        (data : Option (List Nat)),
      (dump_write W dscp type object offset lsize psize bp data).1 = 0 →
      pushes_out_then_emits W dscp
        (dump_write W dscp type object offset lsize psize bp data) drr_type_t.DRR_WRITE) ∧
    (∀ (object offset blksz : Nat) (bp : blkptr_t),
      (dump_write_embedded W dscp object offset blksz bp).1 = 0 →
      pushes_out_then_emits W dscp
        (dump_write_embedded W dscp object offset blksz bp) drr_type_t.DRR_WRITE_EMBEDDED) ∧
    (∀ (bp : blkptr_t) (object : Nat) (data : Option (List Nat)),
      (dump_spill W dscp bp object data).1 = 0 →
      pushes_out_then_emits W dscp
        (dump_spill W dscp bp object data) drr_type_t.DRR_SPILL) := by
  refine ⟨?_, ?_, ?_⟩
  · intro type object offset lsize psize bp data hok
    refine pushes_out_then_emits_intro W dscp
      { dscp with dsc_last_data_object := object,
                  dsc_last_data_offset := (offset + lsize + 2 ^ 64 - 1) % 2 ^ 64 }
      _ _ ⟨rfl, rfl, rfl⟩ ?_
    simp only [dump_write, hp, ne_eq, not_false_eq_true, if_true] at hok ⊢
    split_ifs at hok ⊢ with h1 h2
    all_goals first
      | exact ⟨_, _, _, h1, h2, rfl, dump_write_record_type _ _ _ _ _ _ _ _⟩
      | exact absurd hok h1
      | (simp [EINTR] at hok)
  · intro object offset blksz bp hok
    refine pushes_out_then_emits_intro W dscp dscp _ _ ⟨rfl, rfl, rfl⟩ ?_
    simp only [dump_write_embedded, hp, ne_eq, not_false_eq_true, if_true] at hok ⊢
    split_ifs at hok ⊢ with h1 h2
    all_goals first
      | exact ⟨_, _, _, h1, h2, rfl, rfl⟩
      | exact absurd hok h1
      | (simp [EINTR] at hok)
  · intro bp object data hok
    refine pushes_out_then_emits_intro W dscp dscp _ _ ⟨rfl, rfl, rfl⟩ ?_
    simp only [dump_spill, hp, ne_eq, not_false_eq_true, if_true] at hok ⊢
    split_ifs at hok ⊢ with h1 h2
    all_goals first
      | exact ⟨_, _, _, h1, h2, rfl, dump_spill_record_type _ _ _⟩
      | exact absurd hok h1
      | (simp [EINTR] at hok)

/-- Witness of `data_records_push_out_pending`: a WRITE of 512 bytes at offset
4096 of object 1 while a FREE record is pending. -/
theorem data_records_push_out_pending_witness :
    sample_cookie_free.dsc_pending_op ≠ dmu_pendop_t.PENDING_NONE ∧
    pushes_out_then_emits sample_codec sample_cookie_free
      (dump_write sample_codec sample_cookie_free 19 1 4096 512 512 none (some [1, 2, 3]))
      drr_type_t.DRR_WRITE :=
  ⟨by decide,
    (data_records_push_out_pending sample_codec sample_cookie_free (by decide)).1
      19 1 4096 512 512 none (some [1, 2, 3]) (by decide)⟩

/-! ## The merge stage on concrete inputs (C3, C4, C5) -/

/-- C3 (the code at the documented example).  With the fronts `[2,4)` at index 0,
`[3,5)` at index 1 and `[1,3)` at index 2, all on object 7 and each followed by
end-of-stream, successive calls of `find_next_range` return four ranges before
end-of-stream, not three: `[1,2)` with the metadata of the third range, then
`[2,3)` and `[3,4)`, both with the metadata of the first range, then `[4,5)`
with the metadata of the second range. -/
theorem find_next_range_documented_example :
    (merge_start [sample_range range_type.REDACT 7 2 4 100]
        [sample_range range_type.HOLE 7 3 5 200]
        [sample_range range_type.PREVIOUSLY_REDACTED 7 1 3 300]).bind
      (find_next_range_calls 5) =
      some [sample_range range_type.PREVIOUSLY_REDACTED 7 1 2 300,
            sample_range range_type.REDACT 7 2 3 100,
            sample_range range_type.REDACT 7 3 4 100,
            sample_range range_type.HOLE 7 4 5 200] := by
  decide!

/-- C4 (the code at a failing input).  The target-redaction list holds
`[1,5)` of object 32, the from-redaction list holds `[0,5)` of object 32, and
the to-traversal delivers a hole on object 0 for the dnode block 1 (the objects
32 to 63).  Block 1 of object 32 lies in both redaction inputs, yet
`send_merge_thread` enqueues the range `[1,2)` of object 32, which covers it. -/
theorem send_merge_thread_enqueues_doubly_redacted :
    covers (sample_range range_type.REDACT 32 1 5 4096) 32 1 ∧
    covers (sample_range range_type.PREVIOUSLY_REDACTED 32 0 5 0) 32 1 ∧
    send_merge_thread merge_observed_quiet
        (some [sample_range range_type.REDACT 32 1 5 4096, eos_record])
        [sample_range range_type.HOLE 0 1 2 16384, eos_record]
        [sample_range range_type.PREVIOUSLY_REDACTED 32 0 5 0, eos_record] 5 =
      some { q := [sample_range range_type.HOLE 0 1 2 16384,
                   sample_range range_type.REDACT 32 1 2 4096, eos_record],
             error := 0, cancelled_inputs := false } ∧
    covers (sample_range range_type.REDACT 32 1 2 4096) 32 1 := by
  refine ⟨by decide, by decide, by decide!, by decide⟩

/-- C5 (the code at a failing input).  The target-redaction list holds `[1,5)`
of object 32 and the to-traversal delivers a hole on object 0 for the dnode
block 1 (the objects 32 to 63); every input is strictly ordered.
`send_merge_thread` enqueues the hole followed by the range of object 32, and
for this pair `send_range_after` is 0, not -1: the assertion of
`get_next_range_nofree` fails when the prefetch stage reads the merged queue. -/
theorem send_merge_thread_breaks_order :
    send_range_after (sample_range range_type.REDACT 32 1 5 4096) eos_record = -1 ∧
    send_range_after (sample_range range_type.HOLE 0 1 2 16384) eos_record = -1 ∧
    send_merge_thread merge_observed_quiet
        (some [sample_range range_type.REDACT 32 1 5 4096, eos_record])
        [sample_range range_type.HOLE 0 1 2 16384, eos_record] [eos_record] 5 =
      some { q := [sample_range range_type.HOLE 0 1 2 16384,
                   sample_range range_type.REDACT 32 1 5 4096, eos_record],
             error := 0, cancelled_inputs := false } ∧
    send_range_after (sample_range range_type.HOLE 0 1 2 16384)
      (sample_range range_type.REDACT 32 1 5 4096) = 0 ∧
    get_next_range_nofree_ASSERT (sample_range range_type.HOLE 0 1 2 16384)
      (sample_range range_type.REDACT 32 1 5 4096) = false := by
  refine ⟨by decide, by decide, by decide!, by decide, by decide⟩

/-! ## The merge over one object (C1, C2) -/

theorem start_compare_lt (o : Nat) (ho : o ≠ 0) (r1 r2 : send_range)
    (h1 : r1.eos_marker = true ∨ range_ok o r1) (h2 : r2.eos_marker = true ∨ range_ok o r2) :
    send_range_start_compare r1 r2 < 0 ↔
      r1.eos_marker = false ∧ (r2.eos_marker = true ∨ start_key r1 < start_key r2) := by
  unfold send_range_start_compare start_key
  rcases h1 with h1 | ⟨e1, o1, h1⟩
  · simp [h1]
  · rcases h2 with h2 | ⟨e2, o2, h2⟩
    · simp [e1, h2]
    · simp only [e1, e2, o1, o2, ho, if_false, Bool.false_eq_true]
      rcases h1 with ⟨t1, s1, -⟩ | ⟨t1, -⟩ <;> rcases h2 with ⟨t2, s2, -⟩ | ⟨t2, -⟩
      · simp [t1, t2, s1, s2]
      · simp [t1, t2, s1]
      · simp [t1, t2, s2]
      · simp only [t1, t2, false_and, and_false, if_false, ne_eq, not_false_eq_true]
        split_ifs <;> simp <;> omega

theorem start_compare_eq (o : Nat) (ho : o ≠ 0) (r1 r2 : send_range)
    (h1 : r1.eos_marker = true ∨ range_ok o r1) (h2 : r2.eos_marker = true ∨ range_ok o r2) :
    send_range_start_compare r1 r2 = 0 ↔
      r1.eos_marker = false ∧ r2.eos_marker = false ∧ start_key r1 = start_key r2 := by
  unfold send_range_start_compare start_key
  rcases h1 with h1 | ⟨e1, o1, h1⟩
  · simp [h1]
  · rcases h2 with h2 | ⟨e2, o2, h2⟩
    · simp [e1, h2]
    · simp only [e1, e2, o1, o2, ho, if_false, Bool.false_eq_true]
      rcases h1 with ⟨t1, s1, -⟩ | ⟨t1, -⟩ <;> rcases h2 with ⟨t2, s2, -⟩ | ⟨t2, -⟩
      · simp [t1, t2, s1, s2]
      · simp [t1, t2, s1]
      · simp [t1, t2, s2]
      · simp only [t1, t2, false_and, and_false, if_false, ne_eq, not_false_eq_true]
        split_ifs <;> simp <;> omega
theorem fin3_forall {P : Fin NUM_THREADS → Prop} (h0 : P 0) (h1 : P 1) (h2 : P 2) :
    ∀ i, P i := by
  intro i
  fin_cases i
  · exact h0
  · exact h1
  · exact h2

theorem find_next_range_idx_spec (o : Nat) (ho : o ≠ 0) (ranges : Fin NUM_THREADS → send_range)
    (hf : ∀ i, (ranges i).eos_marker = true ∨ range_ok o (ranges i)) :
    (∀ i, (ranges i).eos_marker = false →
      (ranges (find_next_range_idx ranges)).eos_marker = false ∧
      start_key (ranges (find_next_range_idx ranges)) ≤ start_key (ranges i)) ∧
    (∀ i, i < find_next_range_idx ranges → (ranges i).eos_marker = false →
      start_key (ranges i) ≠ start_key (ranges (find_next_range_idx ranges))) := by
  have c10 := start_compare_lt o ho (ranges 1) (ranges 0) (hf 1) (hf 0)
  have c20 := start_compare_lt o ho (ranges 2) (ranges 0) (hf 2) (hf 0)
  have c21 := start_compare_lt o ho (ranges 2) (ranges 1) (hf 2) (hf 1)
  have l01 : (0 : Fin NUM_THREADS) < 1 := by decide
  have l02 : (0 : Fin NUM_THREADS) < 2 := by decide
  have l12 : (1 : Fin NUM_THREADS) < 2 := by decide
  have n00 : ¬ (0 : Fin NUM_THREADS) < 0 := by decide
  have n10 : ¬ (1 : Fin NUM_THREADS) < 0 := by decide
  have n20 : ¬ (2 : Fin NUM_THREADS) < 0 := by decide
  have n11 : ¬ (1 : Fin NUM_THREADS) < 1 := by decide
  have n21 : ¬ (2 : Fin NUM_THREADS) < 1 := by decide
  have n22 : ¬ (2 : Fin NUM_THREADS) < 2 := by decide
  simp only [find_next_range_idx, List.foldl]
  by_cases h10 : send_range_start_compare (ranges 1) (ranges 0) < 0
  · simp only [h10, if_true]
    by_cases h21 : send_range_start_compare (ranges 2) (ranges 1) < 0
    · simp only [h21, if_true]
      rw [c10] at h10
      rw [c21] at h21
      clear c10 c20 c21 hf
      refine ⟨fin3_forall ?_ ?_ ?_, fin3_forall ?_ ?_ ?_⟩ <;>
        by_cases he0 : (ranges 0).eos_marker = true <;>
        by_cases he1 : (ranges 1).eos_marker = true <;>
        by_cases he2 : (ranges 2).eos_marker = true <;> simp_all <;> omega
    · simp only [h21, if_false]
      rw [c10] at h10
      rw [c21] at h21
      clear c10 c20 c21 hf
      refine ⟨fin3_forall ?_ ?_ ?_, fin3_forall ?_ ?_ ?_⟩ <;>
        by_cases he0 : (ranges 0).eos_marker = true <;>
        by_cases he1 : (ranges 1).eos_marker = true <;>
        by_cases he2 : (ranges 2).eos_marker = true <;> simp_all <;> omega
  · simp only [h10, if_false]
    by_cases h20 : send_range_start_compare (ranges 2) (ranges 0) < 0
    · simp only [h20, if_true]
      rw [c10] at h10
      rw [c20] at h20
      clear c10 c20 c21 hf
      refine ⟨fin3_forall ?_ ?_ ?_, fin3_forall ?_ ?_ ?_⟩ <;>
        by_cases he0 : (ranges 0).eos_marker = true <;>
        by_cases he1 : (ranges 1).eos_marker = true <;>
        by_cases he2 : (ranges 2).eos_marker = true <;> simp_all <;> omega
    · simp only [h20, if_false]
      rw [c10] at h10
      rw [c20] at h20
      clear c10 c20 c21 hf
      refine ⟨fin3_forall ?_ ?_ ?_, fin3_forall ?_ ?_ ?_⟩ <;>
        by_cases he0 : (ranges 0).eos_marker = true <;>
        by_cases he1 : (ranges 1).eos_marker = true <;>
        by_cases he2 : (ranges 2).eos_marker = true <;> simp_all
theorem find_next_range_bmask_spec (ranges : Fin NUM_THREADS → send_range)
    (I : Fin NUM_THREADS) :
    ∀ i : Fin NUM_THREADS, find_next_range_bmask ranges I &&& (1 <<< i.val) = 0 ↔
      ¬ send_range_start_compare (ranges i) (ranges I) = 0 := by
  simp only [find_next_range_bmask, List.foldl]
  by_cases h0 : send_range_start_compare (ranges 0) (ranges I) = 0 <;>
    by_cases h1 : send_range_start_compare (ranges 1) (ranges I) = 0 <;>
    by_cases h2 : send_range_start_compare (ranges 2) (ranges I) = 0 <;>
    simp only [h0, h1, h2, if_true, if_false] <;>
    refine fin3_forall ?_ ?_ ?_ <;> simp only [h0, h1, h2] <;> decide
theorem find_next_range_first_change_spec (o : Nat) (ho : o ≠ 0)
    (ranges : Fin NUM_THREADS → send_range) (bmask : Nat)
    (hf : ∀ i, (ranges i).eos_marker = true ∨ range_ok o (ranges i)) :
    ∀ I : Fin NUM_THREADS, (ranges I).eos_marker = false →
    (∀ i, (ranges i).eos_marker = false → start_key (ranges I) ≤ start_key (ranges i)) →
    (∀ i : Fin NUM_THREADS, bmask &&& (1 <<< i.val) = 0 ↔
      ¬ ((ranges i).eos_marker = false ∧ start_key (ranges i) = start_key (ranges I))) →
    find_next_range_first_change ranges I bmask ≤ (ranges I).end_blkid ∧
    ((ranges I).type ≠ range_type.OBJECT →
      (ranges I).start_blkid < find_next_range_first_change ranges I bmask) ∧
    ∀ i, (ranges i).eos_marker = false →
      (start_key (ranges i) = start_key (ranges I) →
        find_next_range_first_change ranges I bmask ≤ (ranges i).end_blkid) ∧
      (start_key (ranges i) ≠ start_key (ranges I) →
        find_next_range_first_change ranges I bmask ≤ (ranges i).start_blkid) := by
  have e01 : ((0 : Fin NUM_THREADS) = 1) = False := by decide
  have e02 : ((0 : Fin NUM_THREADS) = 2) = False := by decide
  have e10 : ((1 : Fin NUM_THREADS) = 0) = False := by decide
  have e12 : ((1 : Fin NUM_THREADS) = 2) = False := by decide
  have e20 : ((2 : Fin NUM_THREADS) = 0) = False := by decide
  have e21 : ((2 : Fin NUM_THREADS) = 1) = False := by decide
  have h0 := hf 0
  have h1 := hf 1
  have h2 := hf 2
  refine fin3_forall ?_ ?_ ?_ <;> intro hI hmin hb <;>
    have m0 := hmin 0 <;> have m1 := hmin 1 <;> have m2 := hmin 2 <;>
    simp only [find_next_range_first_change, List.foldl, hb, e01, e02, e10, e12, e20, e21,
      DMU_META_DNODE_OBJECT, eq_self_iff_true, true_or, false_or, if_true] <;>
    clear hb hmin hf <;>
    refine ⟨?_, ?_, fin3_forall ?_ ?_ ?_⟩ <;>
    rcases h0 with h0 | ⟨e0, o0, ⟨t0, s0, n0⟩ | ⟨t0, l0⟩⟩ <;>
    rcases h1 with h1 | ⟨e1, o1, ⟨t1, s1, n1⟩ | ⟨t1, l1⟩⟩ <;>
    rcases h2 with h2 | ⟨e2, o2, ⟨t2, s2, n2⟩ | ⟨t2, l2⟩⟩ <;>
    simp_all [start_key] <;> (try split_ifs) <;> (try omega)
theorem find_next_range_update_one_spec (I : Fin NUM_THREADS) (bmask fc : Nat)
    (st : merge_state) (i : Fin NUM_THREADS)
    (hq : i ≠ I → bmask &&& (1 <<< i.val) ≠ 0 → fc = (st.ranges i).end_blkid → st.qs i ≠ []) :
    ∃ st1, find_next_range_update_one I bmask fc st i = some st1 ∧
      (∀ j, j ≠ i → st1.ranges j = st.ranges j ∧ st1.qs j = st.qs j) ∧
      queue_advanced (i ≠ I ∧ bmask &&& (1 <<< i.val) ≠ 0) fc (st.ranges i) (st.qs i)
        (st1.ranges i) (st1.qs i) := by
  unfold find_next_range_update_one queue_advanced
  by_cases h1 : i = I ∨ bmask &&& (1 <<< i.val) = 0
  · rw [if_pos h1]
    refine ⟨st, rfl, fun j _ => ⟨rfl, rfl⟩, ?_, fun _ => ⟨rfl, rfl⟩⟩
    rintro ⟨a, b⟩
    rcases h1 with h1 | h1
    · exact absurd h1 a
    · exact absurd h1 b
  · rw [if_neg h1]
    have h2 : i ≠ I ∧ bmask &&& (1 <<< i.val) ≠ 0 := by
      constructor
      · exact fun h => h1 (Or.inl h)
      · exact fun h => h1 (Or.inr h)
    by_cases h3 : fc = (st.ranges i).end_blkid
    · have hne := hq h2.1 h2.2 h3
      obtain ⟨next, rest, hqe⟩ : ∃ next rest, st.qs i = next :: rest := by
        cases hc : st.qs i with
        | nil => exact absurd hc hne
        | cons a b => exact ⟨a, b, rfl⟩
      simp only [h3, if_true, get_next_range, get_next_range_nofree, bqueue_dequeue, hqe]
      refine ⟨_, rfl, fun j hj => ?_, ?_, fun h => absurd h2 h⟩
      · simp [Function.update_noteq hj]
      · intro _
        simp [hqe]
    · simp only [h3, if_false]
      refine ⟨_, rfl, fun j hj => ?_, ?_, fun h => absurd h2 h⟩
      · simp [Function.update_noteq hj]
      · intro _
        simp [h3]

theorem find_next_range_update_spec (I : Fin NUM_THREADS) (bmask fc : Nat)
    (st : merge_state)
    (hq : ∀ i, i ≠ I → bmask &&& (1 <<< i.val) ≠ 0 → fc = (st.ranges i).end_blkid →
      st.qs i ≠ []) :
    ∃ st1, find_next_range_update I bmask fc st = some st1 ∧
      ∀ i, queue_advanced (i ≠ I ∧ bmask &&& (1 <<< i.val) ≠ 0) fc (st.ranges i) (st.qs i)
        (st1.ranges i) (st1.qs i) := by
  have d10 : (1 : Fin NUM_THREADS) ≠ 0 := by decide
  have d20 : (2 : Fin NUM_THREADS) ≠ 0 := by decide
  have d01 : (0 : Fin NUM_THREADS) ≠ 1 := by decide
  have d21 : (2 : Fin NUM_THREADS) ≠ 1 := by decide
  have d02 : (0 : Fin NUM_THREADS) ≠ 2 := by decide
  have d12 : (1 : Fin NUM_THREADS) ≠ 2 := by decide
  obtain ⟨s1, h1, u1, a1⟩ := find_next_range_update_one_spec I bmask fc st 0 (hq 0)
  obtain ⟨s2, h2, u2, a2⟩ := find_next_range_update_one_spec I bmask fc s1 1
    (by rw [(u1 1 d10).1, (u1 1 d10).2]; exact hq 1)
  obtain ⟨s3, h3, u3, a3⟩ := find_next_range_update_one_spec I bmask fc s2 2
    (by rw [(u2 2 d21).1, (u2 2 d21).2, (u1 2 d20).1, (u1 2 d20).2]; exact hq 2)
  refine ⟨s3, ?_, fin3_forall ?_ ?_ ?_⟩
  · simp [find_next_range_update, List.foldlM, h1, h2, h3]
  · rw [(u3 0 d02).1, (u3 0 d02).2, (u2 0 d01).1, (u2 0 d01).2]
    exact a1
  · rw [(u3 1 d12).1, (u3 1 d12).2]
    rw [(u1 1 d10).1, (u1 1 d10).2] at a2
    exact a2
  · rw [(u2 2 d21).1, (u2 2 d21).2, (u1 2 d20).1, (u1 2 d20).2] at a3
    exact a3

theorem stream_ok_front (o : Nat) (r : send_range) (q : List send_range)
    (h : stream_ok o r q) : r.eos_marker = true ∨ range_ok o r := by
  cases q with
  | nil => exact Or.inl h
  | cons next rest => exact Or.inr h.1

theorem stream_ok_cons (o : Nat) (r : send_range) (q : List send_range)
    (h : stream_ok o r q) (he : r.eos_marker = false) :
    ∃ next rest, q = next :: rest ∧ range_ok o r ∧
      (next.eos_marker = false → r.end_blkid ≤ next.start_blkid) ∧ stream_ok o next rest := by
  cases q with
  | nil =>
    have h1 : r.eos_marker = true := h
    rw [he] at h1
    exact absurd h1 (by decide)
  | cons next rest => exact ⟨next, rest, rfl, h.1, h.2.1, h.2.2⟩

theorem stream_ok_eos (o : Nat) (r : send_range) (q : List send_range)
    (h : stream_ok o r q) (he : r.eos_marker = true) : q = [] := by
  cases q with
  | nil => rfl
  | cons next rest =>
    have h1 : r.eos_marker = false := h.1.1
    rw [he] at h1
    exact absurd h1 (by decide)

theorem range_ok_le (o : Nat) (r : send_range) (h : range_ok o r) :
    r.start_blkid ≤ r.end_blkid := by
  rcases h with ⟨-, -, ⟨-, s, e⟩ | ⟨-, l⟩⟩ <;> omega

theorem find_next_range_step (o : Nat) (ho : o ≠ 0) (st : merge_state)
    (hinv : merge_inv o st)
    (hI : (st.ranges (find_next_range_idx st.ranges)).eos_marker = false) :
    ∃ (I : Fin NUM_THREADS) (fc mask : Nat) (st1 : merge_state),
      find_next_range st = some ({ st.ranges I with end_blkid := fc }, mask, st1) ∧
      (st.ranges I).eos_marker = false ∧
      (∀ i, (st.ranges i).eos_marker = false →
        start_key (st.ranges I) ≤ start_key (st.ranges i)) ∧
      (∀ i, i < I → (st.ranges i).eos_marker = false →
        start_key (st.ranges i) ≠ start_key (st.ranges I)) ∧
      fc ≤ (st.ranges I).end_blkid ∧
      ((st.ranges I).type ≠ range_type.OBJECT → (st.ranges I).start_blkid < fc) ∧
      (∀ i, (st.ranges i).eos_marker = false →
        (start_key (st.ranges i) = start_key (st.ranges I) → fc ≤ (st.ranges i).end_blkid) ∧
        (start_key (st.ranges i) ≠ start_key (st.ranges I) →
          fc ≤ (st.ranges i).start_blkid)) ∧
      ∀ i, queue_advanced
        ((st.ranges i).eos_marker = false ∧
          start_key (st.ranges i) = start_key (st.ranges I))
        fc (st.ranges i) (st.qs i) (st1.ranges i) (st1.qs i) := by
  have hf : ∀ i, (st.ranges i).eos_marker = true ∨ range_ok o (st.ranges i) :=
    fun i => stream_ok_front o _ _ (hinv i)
  obtain ⟨hmin, hlow⟩ := find_next_range_idx_spec o ho st.ranges hf
  generalize hIdef : find_next_range_idx st.ranges = I at hI hmin hlow
  have hmin' : ∀ i, (st.ranges i).eos_marker = false →
      start_key (st.ranges I) ≤ start_key (st.ranges i) := fun i hi => (hmin i hi).2
  have hbit : ∀ i : Fin NUM_THREADS,
      find_next_range_bmask st.ranges I &&& (1 <<< i.val) = 0 ↔
        ¬ ((st.ranges i).eos_marker = false ∧
          start_key (st.ranges i) = start_key (st.ranges I)) := by
    intro i
    rw [find_next_range_bmask_spec st.ranges I i,
      start_compare_eq o ho (st.ranges i) (st.ranges I) (hf i) (hf I)]
    simp [hI]
  generalize hbm : find_next_range_bmask st.ranges I = bmask at hbit
  obtain ⟨hfc1, hfc2, hfc3⟩ :=
    find_next_range_first_change_spec o ho st.ranges bmask hf I hI hmin' hbit
  generalize hfcdef : find_next_range_first_change st.ranges I bmask = fc at hfc1 hfc2 hfc3
  have hq : ∀ i, i ≠ I → bmask &&& (1 <<< i.val) ≠ 0 → fc = (st.ranges i).end_blkid →
      st.qs i ≠ [] := by
    intro i _ hb _
    have ht := not_not.mp ((not_congr (hbit i)).mp hb)
    obtain ⟨next, rest, hqe, -⟩ := stream_ok_cons o _ _ (hinv i) ht.1
    rw [hqe]
    exact List.cons_ne_nil _ _
  obtain ⟨st1, hup, hadv⟩ := find_next_range_update_spec I bmask fc st hq
  have hsame : st1.ranges I = st.ranges I ∧ st1.qs I = st.qs I :=
    (hadv I).2 (fun h => h.1 rfl)
  obtain ⟨nextI, restI, hqI, -⟩ := stream_ok_cons o _ _ (hinv I) hI
  have hadv' : ∀ i, i ≠ I → queue_advanced
      ((st.ranges i).eos_marker = false ∧ start_key (st.ranges i) = start_key (st.ranges I))
      fc (st.ranges i) (st.qs i) (st1.ranges i) (st1.qs i) := by
    intro i hi
    have h := hadv i
    unfold queue_advanced at h ⊢
    constructor
    · intro ht
      exact h.1 ⟨hi, fun hb => ((hbit i).mp hb) ht⟩
    · intro ht
      exact h.2 (fun hc => ht (not_not.mp ((not_congr (hbit i)).mp hc.2)))
  unfold find_next_range
  simp only [hIdef, hI, hbm, hfcdef, hup, Bool.false_eq_true, if_false]
  by_cases hend : fc = (st.ranges I).end_blkid
  · refine ⟨I, fc, bmask,
      merge_state.mk (Function.update st1.ranges I nextI) (Function.update st1.qs I restI),
      ?_, hI, hmin', hlow, hfc1, hfc2, hfc3, ?_⟩
    · simp [hsame.1, hsame.2, hend, get_next_range_nofree, bqueue_dequeue, hqI]
    · intro i
      by_cases hi : i = I
      · subst hi
        unfold queue_advanced
        refine ⟨fun _ => ⟨fun _ => ?_, fun h => absurd hend h⟩, fun h => absurd ⟨hI, rfl⟩ h⟩
        simp [hqI]
      · simp only [Function.update_noteq hi]
        exact hadv' i hi
  · refine ⟨I, fc, bmask,
      merge_state.mk
        (Function.update st1.ranges I ({ st1.ranges I with start_blkid := fc })) st1.qs,
      ?_, hI, hmin', hlow, hfc1, hfc2, hfc3, ?_⟩
    · simp [hsame.1, hend]
    · intro i
      by_cases hi : i = I
      · subst hi
        unfold queue_advanced
        refine ⟨fun _ => ⟨fun h => absurd h hend, fun _ => ?_⟩, fun h => absurd ⟨hI, rfl⟩ h⟩
        simp [hsame.1, hsame.2]
      · simp only [Function.update_noteq hi]
        exact hadv' i hi

theorem stream_ok_tail_start (o : Nat) (q : List send_range) :
    ∀ r : send_range, stream_ok o r q →
      ∀ x ∈ q, x.eos_marker = false → r.end_blkid ≤ x.start_blkid := by
  induction q with
  | nil => intro r _ x hx; exact absurd hx (List.not_mem_nil x)
  | cons next rest ih =>
    intro r h x hx hxe
    obtain ⟨-, h2, h3⟩ := h
    rcases List.mem_cons.mp hx with hx | hx
    · subst hx
      exact h2 hxe
    · by_cases hn : next.eos_marker = true
      · rw [stream_ok_eos o next rest h3 hn] at hx
        exact absurd hx (List.not_mem_nil x)
      · have hn' : next.eos_marker = false := by simpa using hn
        have h4 := ih next h3 x hx hxe
        have h5 := range_ok_le o next (stream_ok_cons o next rest h3 hn').choose_spec.choose_spec.2.1
        have h6 := h2 hn'
        omega

theorem covering_meta_cons (r : send_range) (q : List send_range) (o b : Nat) :
    covering_meta (r :: q) o b =
      (if covers r o b then [range_meta r] else []) ++ covering_meta q o b := by
  unfold covering_meta
  by_cases h : covers r o b
  · simp [List.filter_cons, h]
  · simp [List.filter_cons, h]

theorem covering_meta_nil_of_start (q : List send_range) (o b : Nat)
    (h : ∀ x ∈ q, x.eos_marker = false → b < x.start_blkid) : covering_meta q o b = [] := by
  unfold covering_meta
  rw [List.map_eq_nil_iff, List.filter_eq_nil_iff]
  intro x hx hc
  have hc' : covers x o b := by simpa using hc
  have := h x hx hc'.1
  have := hc'.2.2.1
  omega

theorem covering_meta_tail (o : Nat) (r : send_range) (q : List send_range) (b : Nat)
    (h : stream_ok o r q) (hb : r.eos_marker = false → b < r.end_blkid) :
    covering_meta q o b = [] := by
  by_cases he : r.eos_marker = true
  · rw [stream_ok_eos o r q h he]
    rfl
  · have he' : r.eos_marker = false := by simpa using he
    apply covering_meta_nil_of_start
    intro x hx hxe
    have := stream_ok_tail_start o q r h x hx hxe
    have := hb he'
    omega

theorem covering_meta_stream (o : Nat) (r : send_range) (q : List send_range) (b : Nat)
    (h : stream_ok o r q) (hb : r.eos_marker = false → b < r.start_blkid) :
    covering_meta (r :: q) o b = [] := by
  have hc : ¬ covers r o b := by
    rintro ⟨h1, -, h3, -⟩
    have := hb h1
    omega
  rw [covering_meta_cons, if_neg hc, List.nil_append]
  apply covering_meta_tail o r q b h
  intro he
  have h1 := hb he
  have h2 := range_ok_le o r (stream_ok_cons o r q h he).choose_spec.choose_spec.2.1
  omega

theorem queue_advanced_spec (o : Nat) (tie : Prop) (m fc : Nat) (r : send_range)
    (q : List send_range) (r1 : send_range) (q1 : List send_range)
    (hs : stream_ok o r q) (ha : queue_advanced tie fc r q r1 q1)
    (ht : tie → r.eos_marker = false ∧ r.start_blkid = m ∧ m ≤ fc ∧ fc ≤ r.end_blkid ∧
      (fc ≠ r.end_blkid → m < fc))
    (hn : ¬ tie → r.eos_marker = false → fc ≤ r.start_blkid) :
    stream_ok o r1 q1 ∧
    (∀ b, ¬ (m ≤ b ∧ b < fc) → covering_meta (r1 :: q1) o b = covering_meta (r :: q) o b) ∧
    (∀ b, m ≤ b → b < fc → covering_meta (r1 :: q1) o b = [] ∧
      (tie → covering_meta (r :: q) o b = [range_meta r]) ∧
      (¬ tie → covering_meta (r :: q) o b = [])) ∧
    stream_weight (r1 :: q1) ≤ stream_weight (r :: q) ∧
    (tie → stream_weight (r1 :: q1) < stream_weight (r :: q)) := by
  by_cases htie : tie
  · obtain ⟨he, hst, hmf, hfe, hprog⟩ := ht htie
    obtain ⟨next, rest, hq, hok, hord, hrest⟩ := stream_ok_cons o r q hs he
    have hpop := (ha.1 htie).1
    have htr := (ha.1 htie).2
    by_cases hend : fc = r.end_blkid
    · have e1 := hpop hend
      rw [hq] at e1
      obtain ⟨e2, e3⟩ := List.cons.inj e1
      subst e2 e3
      have hw : stream_weight (r :: q) = 1 + (r.end_blkid - r.start_blkid) +
          stream_weight (r1 :: q1) := by
        rw [hq]
        simp [stream_weight, he]
      refine ⟨hrest, fun b hb => ?_, fun b hb1 hb2 => ⟨?_, fun _ => ?_, fun h => absurd htie h⟩,
        by omega, fun _ => by omega⟩
      · have hc : ¬ covers r o b := by
          rintro ⟨-, -, h3, h4⟩
          exact hb ⟨by omega, by omega⟩
        rw [covering_meta_cons r q, if_neg hc, hq, List.nil_append]
      · rw [← hq]
        exact covering_meta_tail o r q b hs (fun _ => by omega)
      · have hc : covers r o b := ⟨he, hok.2.1, by omega, by omega⟩
        rw [covering_meta_cons r q, if_pos hc, covering_meta_tail o r q b hs (fun _ => by omega)]
        rfl
    · obtain ⟨e1, e2⟩ := htr hend
      subst e1 e2
      have hlt : fc < r.end_blkid := by omega
      have hmfc : m < fc := hprog hend
      have hty : r.type ≠ range_type.OBJECT := by
        rcases hok.2.2 with ⟨-, -, h0⟩ | ⟨h1, -⟩
        · omega
        · exact h1
      have hok1 : stream_ok o { r with start_blkid := fc } q1 := by
        rw [hq]
        exact ⟨⟨he, hok.2.1, Or.inr ⟨hty, hlt⟩⟩, hord, hrest⟩
      refine ⟨hok1, fun b hb => ?_, fun b hb1 hb2 => ⟨?_, fun _ => ?_, fun h => absurd htie h⟩,
        ?_, fun _ => ?_⟩
      · rw [covering_meta_cons, covering_meta_cons]
        congr 1
        by_cases hc : covers r o b
        · have hc1 : covers { r with start_blkid := fc } o b := by
            obtain ⟨h1, h2, h3, h4⟩ := hc
            refine ⟨h1, h2, ?_, h4⟩
            show fc ≤ b
            by_contra hlt2
            exact hb ⟨by omega, by omega⟩
          rw [if_pos hc, if_pos hc1]
          rfl
        · have hc1 : ¬ covers { r with start_blkid := fc } o b := by
            rintro ⟨h1, h2, h3, h4⟩
            have h3' : fc ≤ b := h3
            exact hc ⟨h1, h2, by omega, h4⟩
          rw [if_neg hc, if_neg hc1]
      · apply covering_meta_stream o _ q1 b hok1
        intro _
        show b < fc
        exact hb2
      · have hc : covers r o b := ⟨he, hok.2.1, by omega, by omega⟩
        rw [covering_meta_cons r q1, if_pos hc, covering_meta_tail o r q1 b hs (fun _ => by omega)]
        rfl
      · simp only [stream_weight, List.map_cons, List.sum_cons, he, Bool.false_eq_true,
          if_false]
        omega
      · simp only [stream_weight, List.map_cons, List.sum_cons, he, Bool.false_eq_true,
          if_false]
        omega
  · obtain ⟨e1, e2⟩ := ha.2 htie
    subst e1 e2
    refine ⟨hs, fun _ _ => rfl, fun b hb1 hb2 => ⟨?_, fun h => absurd h htie, fun _ => ?_⟩,
      le_refl _, fun h => absurd h htie⟩
    · apply covering_meta_stream o r1 q1 b hs
      intro he
      have := hn htie he
      omega
    · apply covering_meta_stream o r1 q1 b hs
      intro he
      have := hn htie he
      omega

theorem priority_meta_lowest (st : merge_state) (o b : Nat) (x : range_type × sru_t) :
    ∀ I : Fin NUM_THREADS, covering_meta (st.ranges I :: st.qs I) o b = [x] →
      (∀ i, i < I → covering_meta (st.ranges i :: st.qs i) o b = []) →
      priority_meta st o b = some x := by
  have l01 : (0 : Fin NUM_THREADS) < 1 := by decide
  have l02 : (0 : Fin NUM_THREADS) < 2 := by decide
  have l12 : (1 : Fin NUM_THREADS) < 2 := by decide
  refine fin3_forall ?_ ?_ ?_
  · intro h _
    simp [priority_meta, h]
  · intro h hl
    simp [priority_meta, h, hl 0 l01]
  · intro h hl
    simp [priority_meta, h, hl 0 l02, hl 1 l12]

theorem priority_meta_none (st : merge_state) (o b : Nat)
    (h : ∀ i, covering_meta (st.ranges i :: st.qs i) o b = []) :
    priority_meta st o b = none := by
  simp [priority_meta, h 0, h 1, h 2]

theorem priority_meta_congr (st st1 : merge_state) (o b : Nat)
    (h : ∀ i, covering_meta (st1.ranges i :: st1.qs i) o b =
      covering_meta (st.ranges i :: st.qs i) o b) :
    priority_meta st1 o b = priority_meta st o b := by
  simp [priority_meta, h 0, h 1, h 2]

theorem merge_weight_lt (st st1 : merge_state)
    (hle : ∀ i, stream_weight (st1.ranges i :: st1.qs i) ≤
      stream_weight (st.ranges i :: st.qs i)) :
    ∀ I : Fin NUM_THREADS,
      stream_weight (st1.ranges I :: st1.qs I) < stream_weight (st.ranges I :: st.qs I) →
      merge_weight st1 < merge_weight st := by
  have h0 := hle 0
  have h1 := hle 1
  have h2 := hle 2
  refine fin3_forall ?_ ?_ ?_ <;> intro h <;> unfold merge_weight <;> omega

theorem find_next_range_step_spec (o : Nat) (ho : o ≠ 0) (st : merge_state)
    (hinv : merge_inv o st)
    (hI : (st.ranges (find_next_range_idx st.ranges)).eos_marker = false) :
    ∃ (ret : send_range) (mask : Nat) (st1 : merge_state),
      find_next_range st = some (ret, mask, st1) ∧
      ret.eos_marker = false ∧ ret.object = o ∧
      merge_inv o st1 ∧ merge_weight st1 < merge_weight st ∧
      ∀ b, (covers ret o b →
          priority_meta st o b = some (range_meta ret) ∧ priority_meta st1 o b = none) ∧
        (¬ covers ret o b → priority_meta st1 o b = priority_meta st o b) := by
  obtain ⟨I, fc, mask, st1, hfn, hIe, hmin, hlow, hfc1, hfc2, hfc3, hadv⟩ :=
    find_next_range_step o ho st hinv hI
  have hokI : range_ok o (st.ranges I) :=
    (stream_ok_cons o _ _ (hinv I) hIe).choose_spec.choose_spec.2.1
  have hspec : ∀ i, _ := fun i =>
    queue_advanced_spec o
      ((st.ranges i).eos_marker = false ∧ start_key (st.ranges i) = start_key (st.ranges I))
      (st.ranges I).start_blkid fc (st.ranges i) (st.qs i) (st1.ranges i) (st1.qs i)
      (hinv i) (hadv i)
      (by
        rintro ⟨he, hk⟩
        have hoki : range_ok o (st.ranges i) :=
          (stream_ok_cons o _ _ (hinv i) he).choose_spec.choose_spec.2.1
        have h3 := (hfc3 i he).1 hk
        refine ⟨he, ?_⟩
        unfold start_key at hk
        rcases hokI with ⟨-, -, ⟨tI, sI, eI⟩ | ⟨tI, lI⟩⟩ <;>
          rcases hoki with ⟨-, -, ⟨ti, si, ei⟩ | ⟨ti, li⟩⟩
        · refine ⟨by omega, by omega, by omega, by omega⟩
        · simp [tI, ti] at hk
        · simp [tI, ti] at hk
        · have := hfc2 tI
          simp [tI, ti] at hk
          refine ⟨by omega, by omega, by omega, by omega⟩)
      (by
        intro hnt he
        by_cases hk : start_key (st.ranges i) = start_key (st.ranges I)
        · exact absurd ⟨he, hk⟩ hnt
        · exact (hfc3 i he).2 hk)
  have hcov : ∀ b, covers { st.ranges I with end_blkid := fc } o b ↔
      ((st.ranges I).start_blkid ≤ b ∧ b < fc) := by
    intro b
    unfold covers
    simp [hIe, hokI.2.1]
  refine ⟨_, mask, st1, hfn, hIe, hokI.2.1, fun i => (hspec i).1,
    merge_weight_lt st st1 (fun i => (hspec i).2.2.2.1) I ((hspec I).2.2.2.2 ⟨hIe, rfl⟩),
    fun b => ⟨fun hc => ?_, fun hc => ?_⟩⟩
  · obtain ⟨hb1, hb2⟩ := (hcov b).mp hc
    refine ⟨?_, priority_meta_none st1 o b (fun i => ((hspec i).2.2.1 b hb1 hb2).1)⟩
    apply priority_meta_lowest st o b _ I
    · exact ((hspec I).2.2.1 b hb1 hb2).2.1 ⟨hIe, rfl⟩
    · intro i hi
      apply ((hspec i).2.2.1 b hb1 hb2).2.2
      rintro ⟨he, hk⟩
      exact hlow i hi he hk
  · apply priority_meta_congr
    intro i
    exact (hspec i).2.1 b (fun h => hc ((hcov b).mpr h))

theorem find_next_range_all_eos (o : Nat) (ho : o ≠ 0) (st : merge_state)
    (hinv : merge_inv o st)
    (hI : (st.ranges (find_next_range_idx st.ranges)).eos_marker = true) :
    find_next_range st = some (range_alloc range_type.DATA 0 0 0 true, 0, st) ∧
    ∀ b, priority_meta st o b = none := by
  have hf : ∀ i, (st.ranges i).eos_marker = true ∨ range_ok o (st.ranges i) :=
    fun i => stream_ok_front o _ _ (hinv i)
  have hall : ∀ i, (st.ranges i).eos_marker = true := by
    intro i
    by_contra hc
    have hc' : (st.ranges i).eos_marker = false := by simpa using hc
    have := ((find_next_range_idx_spec o ho st.ranges hf).1 i hc').1
    rw [hI] at this
    exact absurd this (by decide)
  refine ⟨by simp [find_next_range, hI], fun b => priority_meta_none st o b (fun i => ?_)⟩
  apply covering_meta_stream o _ _ b (hinv i)
  intro he
  rw [hall i] at he
  exact absurd he (by decide)

theorem find_next_range_calls_spec (o : Nat) (ho : o ≠ 0) :
    ∀ (n : Nat) (st : merge_state), merge_inv o st → merge_weight st < n →
      ∃ outs, find_next_range_calls n st = some outs ∧
        (∀ ret ∈ outs, ret.eos_marker = false ∧ ret.object = o) ∧
        ∀ b, (outs.filter (fun x => decide (covers x o b))).map range_meta =
          (priority_meta st o b).toList := by
  intro n
  induction n with
  | zero => intro st _ h; exact absurd h (Nat.not_lt_zero _)
  | succ n ih =>
    intro st hinv hw
    by_cases hI : (st.ranges (find_next_range_idx st.ranges)).eos_marker = true
    · obtain ⟨hfn, hp⟩ := find_next_range_all_eos o ho st hinv hI
      refine ⟨[], ?_, fun ret h => absurd h (List.not_mem_nil ret), fun b => ?_⟩
      · simp [find_next_range_calls, hfn, range_alloc]
      · simp [hp b]
    · have hI' : (st.ranges (find_next_range_idx st.ranges)).eos_marker = false := by
        simpa using hI
      obtain ⟨ret, mask, st1, hfn, hre, hro, hinv1, hw1, hcov⟩ :=
        find_next_range_step_spec o ho st hinv hI'
      obtain ⟨outs1, hc1, hall1, hsp1⟩ := ih st1 hinv1 (by omega)
      refine ⟨ret :: outs1, ?_, ?_, fun b => ?_⟩
      · simp [find_next_range_calls, hfn, hre, hc1]
      · intro x hx
        rcases List.mem_cons.mp hx with hx | hx
        · subst hx
          exact ⟨hre, hro⟩
        · exact hall1 x hx
      · by_cases hc : covers ret o b
        · obtain ⟨h1, h2⟩ := (hcov b).1 hc
          simp [List.filter_cons, hc, hsp1 b, h1, h2]
        · have h1 := (hcov b).2 hc
          simp [List.filter_cons, hc, hsp1 b, h1]

theorem stream_ok_of_input (o : Nat) (l : List send_range) :
    input_ok o l → ∀ r q, r :: q = l ++ [eos_record] → stream_ok o r q := by
  induction l with
  | nil =>
    intro _ r q h
    obtain ⟨h1, h2⟩ := List.cons.inj h
    subst h1 h2
    rfl
  | cons a rest ih =>
    intro h r q he
    obtain ⟨h1, h2⟩ := List.cons.inj he
    subst h1 h2
    have hrest : input_ok o rest :=
      ⟨fun x hx => h.1 x (List.mem_cons_of_mem _ hx), (List.chain'_cons'.mp h.2).2⟩
    cases rest with
    | nil =>
      refine ⟨h.1 r (List.mem_cons_self _ _), fun hc => ?_, rfl⟩
      exact absurd hc (by decide)
    | cons c rest2 =>
      refine ⟨h.1 r (List.mem_cons_self _ _), fun _ => ?_, ih hrest c _ rfl⟩
      exact (List.chain'_cons.mp h.2).1

theorem covering_meta_input (l : List send_range) (o b : Nat) :
    covering_meta (l ++ [eos_record]) o b = covering_meta l o b := by
  unfold covering_meta
  rw [List.filter_append]
  have : List.filter (fun x => decide (covers x o b)) [eos_record] = [] := by
    simp [covers, eos_record, range_alloc]
  rw [this, List.append_nil]

theorem covering_meta_mem (l : List send_range) (o b : Nat) (x : range_type × sru_t)
    (h : x ∈ covering_meta l o b) : ∃ r ∈ l, covers r o b ∧ range_meta r = x := by
  unfold covering_meta at h
  obtain ⟨r, hr, hx⟩ := List.mem_map.mp h
  obtain ⟨h1, h2⟩ := List.mem_filter.mp hr
  exact ⟨r, h1, by simpa using h2, hx⟩

theorem covering_meta_eq_nil (l : List send_range) (o b : Nat)
    (h : covering_meta l o b = []) : ∀ r ∈ l, ¬ covers r o b := by
  intro r hr hc
  have : range_meta r ∈ covering_meta l o b := by
    unfold covering_meta
    exact List.mem_map.mpr ⟨r, List.mem_filter.mpr ⟨hr, by simpa using hc⟩, rfl⟩
  rw [h] at this
  exact absurd this (List.not_mem_nil _)

theorem covering_meta_ne_nil (l : List send_range) (o b : Nat) (r : send_range)
    (hr : r ∈ l) (hc : covers r o b) : covering_meta l o b ≠ [] := by
  intro h
  exact covering_meta_eq_nil l o b h r hr hc

theorem priority_meta_some (st : merge_state) (o b : Nat) (x : range_type × sru_t)
    (h : priority_meta st o b = some x) :
    x ∈ covering_meta (st.ranges 0 :: st.qs 0) o b ∨
    (covering_meta (st.ranges 0 :: st.qs 0) o b = [] ∧
      x ∈ covering_meta (st.ranges 1 :: st.qs 1) o b) ∨
    (covering_meta (st.ranges 0 :: st.qs 0) o b = [] ∧
      covering_meta (st.ranges 1 :: st.qs 1) o b = [] ∧
      x ∈ covering_meta (st.ranges 2 :: st.qs 2) o b) := by
  unfold priority_meta at h
  cases h0 : covering_meta (st.ranges 0 :: st.qs 0) o b with
  | cons a l =>
    rw [h0] at h
    simp at h
    left
    rw [h]
    exact List.mem_cons_self _ _
  | nil =>
    rw [h0] at h
    cases h1 : covering_meta (st.ranges 1 :: st.qs 1) o b with
    | cons a l =>
      rw [h1] at h
      simp at h
      right; left
      refine ⟨rfl, ?_⟩
      rw [h]
      exact List.mem_cons_self _ _
    | nil =>
      rw [h1] at h
      cases h2 : covering_meta (st.ranges 2 :: st.qs 2) o b with
      | cons a l =>
        rw [h2] at h
        simp at h
        right; right
        refine ⟨rfl, rfl, ?_⟩
        rw [h]
        exact List.mem_cons_self _ _
      | nil =>
        rw [h2] at h
        simp at h

theorem priority_meta_eq_none (st : merge_state) (o b : Nat)
    (h : priority_meta st o b = none) :
    ∀ i, covering_meta (st.ranges i :: st.qs i) o b = [] := by
  unfold priority_meta at h
  cases h0 : covering_meta (st.ranges 0 :: st.qs 0) o b with
  | cons a l => rw [h0] at h; simp at h
  | nil =>
    rw [h0] at h
    cases h1 : covering_meta (st.ranges 1 :: st.qs 1) o b with
    | cons a l => rw [h1] at h; simp at h
    | nil =>
      rw [h1] at h
      cases h2 : covering_meta (st.ranges 2 :: st.qs 2) o b with
      | cons a l => rw [h2] at h; simp at h
      | nil => exact fin3_forall h0 h1 h2

theorem merge_start_spec (redact tor frm : List send_range) :
    ∃ st, merge_start redact tor frm = some st ∧
      st.ranges 0 :: st.qs 0 = redact ++ [eos_record] ∧
      st.ranges 1 :: st.qs 1 = tor ++ [eos_record] ∧
      st.ranges 2 :: st.qs 2 = frm ++ [eos_record] := by
  cases redact <;> cases tor <;> cases frm <;>
    exact ⟨_, rfl, rfl, rfl, rfl⟩

theorem merge_start_calls (o : Nat) (ho : o ≠ 0) (redact tor frm : List send_range)
    (h0 : input_ok o redact) (h1 : input_ok o tor) (h2 : input_ok o frm) :
    ∃ st fuel outs, merge_start redact tor frm = some st ∧
      find_next_range_calls fuel st = some outs ∧
      (∀ ret ∈ outs, ret.eos_marker = false ∧ ret.object = o) ∧
      (∀ b, (outs.filter (fun x => decide (covers x o b))).map range_meta =
          (priority_meta st o b).toList) ∧
      (∀ b, covering_meta (st.ranges 0 :: st.qs 0) o b = covering_meta redact o b) ∧
      (∀ b, covering_meta (st.ranges 1 :: st.qs 1) o b = covering_meta tor o b) ∧
      (∀ b, covering_meta (st.ranges 2 :: st.qs 2) o b = covering_meta frm o b) := by
  obtain ⟨st, hst, e0, e1, e2⟩ := merge_start_spec redact tor frm
  have hinv : merge_inv o st :=
    fin3_forall (stream_ok_of_input o redact h0 _ _ e0) (stream_ok_of_input o tor h1 _ _ e1)
      (stream_ok_of_input o frm h2 _ _ e2)
  obtain ⟨outs, hc, hall, hsp⟩ :=
    find_next_range_calls_spec o ho (merge_weight st + 1) st hinv (Nat.lt_succ_self _)
  refine ⟨st, merge_weight st + 1, outs, hst, hc, hall, hsp, fun b => ?_, fun b => ?_,
    fun b => ?_⟩
  · rw [e0, covering_meta_input]
  · rw [e1, covering_meta_input]
  · rw [e2, covering_meta_input]

/-- C1.  For three inputs that are each sorted, non-overlapping ranges over one
non-zero object `o` (each followed by end-of-stream), successive calls of
`find_next_range` reach the end-of-stream range, every returned range is a
range of object `o`, every block id covered by a range of some input is covered
by exactly one returned range, and a returned range covers no block id that no
input covers. -/
theorem find_next_range_covers_exactly_once (o : Nat) (ho : o ≠ 0)
    (redact tor frm : List send_range)
    (h0 : input_ok o redact) (h1 : input_ok o tor) (h2 : input_ok o frm) :
    ∃ st fuel outs, merge_start redact tor frm = some st ∧
      find_next_range_calls fuel st = some outs ∧
      (∀ ret ∈ outs, ret.eos_marker = false ∧ ret.object = o) ∧
      ∀ b,
        ((∃ r, (r ∈ redact ∨ r ∈ tor ∨ r ∈ frm) ∧ covers r o b) →
          (outs.filter (fun x => decide (covers x o b))).length = 1) ∧
        (∀ ret ∈ outs, covers ret o b →
          ∃ r, (r ∈ redact ∨ r ∈ tor ∨ r ∈ frm) ∧ covers r o b) := by
  obtain ⟨st, fuel, outs, hst, hc, hall, hsp, c0, c1, c2⟩ :=
    merge_start_calls o ho redact tor frm h0 h1 h2
  refine ⟨st, fuel, outs, hst, hc, hall, fun b => ⟨?_, ?_⟩⟩
  · rintro ⟨r, hr, hcov⟩
    have hlen : (outs.filter (fun x => decide (covers x o b))).length =
        (priority_meta st o b).toList.length := by
      rw [← hsp b, List.length_map]
    rw [hlen]
    cases hp : priority_meta st o b with
    | some x => rfl
    | none =>
      have hn := priority_meta_eq_none st o b hp
      rcases hr with hr | hr | hr
      · exact absurd (by rw [← c0 b]; exact hn 0) (covering_meta_ne_nil redact o b r hr hcov)
      · exact absurd (by rw [← c1 b]; exact hn 1) (covering_meta_ne_nil tor o b r hr hcov)
      · exact absurd (by rw [← c2 b]; exact hn 2) (covering_meta_ne_nil frm o b r hr hcov)
  · intro ret hret hcov
    have hm : range_meta ret ∈ (priority_meta st o b).toList := by
      rw [← hsp b]
      exact List.mem_map.mpr ⟨ret, List.mem_filter.mpr ⟨hret, by simpa using hcov⟩, rfl⟩
    have hp : priority_meta st o b = some (range_meta ret) := by
      cases hq : priority_meta st o b with
      | none => rw [hq] at hm; simp at hm
      | some x => rw [hq] at hm; simp at hm; rw [hm]
    rcases priority_meta_some st o b _ hp with h | ⟨-, h⟩ | ⟨-, -, h⟩
    · rw [c0 b] at h
      obtain ⟨r, hr, hc2, -⟩ := covering_meta_mem redact o b _ h
      exact ⟨r, Or.inl hr, hc2⟩
    · rw [c1 b] at h
      obtain ⟨r, hr, hc2, -⟩ := covering_meta_mem tor o b _ h
      exact ⟨r, Or.inr (Or.inl hr), hc2⟩
    · rw [c2 b] at h
      obtain ⟨r, hr, hc2, -⟩ := covering_meta_mem frm o b _ h
      exact ⟨r, Or.inr (Or.inr hr), hc2⟩

/-- C2.  For three inputs that are each sorted, non-overlapping ranges over one
non-zero object `o`, every block id that successive calls of `find_next_range`
return is returned in a range that carries the type and the metadata (the
union `sru`) of the highest-priority input range containing that block:
target-redaction (index 0) before to-traversal (index 1) before from-redaction
(index 2). -/
theorem find_next_range_priority_metadata (o : Nat) (ho : o ≠ 0)
    (redact tor frm : List send_range)
    (h0 : input_ok o redact) (h1 : input_ok o tor) (h2 : input_ok o frm) :
    ∃ st fuel outs, merge_start redact tor frm = some st ∧
      find_next_range_calls fuel st = some outs ∧
      ∀ ret ∈ outs, ∀ b, covers ret o b →
        (∃ r ∈ redact, covers r o b ∧ ret.type = r.type ∧ ret.sru = r.sru) ∨
        ((∀ r ∈ redact, ¬ covers r o b) ∧
          ∃ r ∈ tor, covers r o b ∧ ret.type = r.type ∧ ret.sru = r.sru) ∨
        ((∀ r ∈ redact, ¬ covers r o b) ∧ (∀ r ∈ tor, ¬ covers r o b) ∧
          ∃ r ∈ frm, covers r o b ∧ ret.type = r.type ∧ ret.sru = r.sru) := by
  obtain ⟨st, fuel, outs, hst, hc, hall, hsp, c0, c1, c2⟩ :=
    merge_start_calls o ho redact tor frm h0 h1 h2
  refine ⟨st, fuel, outs, hst, hc, fun ret hret b hcov => ?_⟩
  have hm : range_meta ret ∈ (priority_meta st o b).toList := by
    rw [← hsp b]
    exact List.mem_map.mpr ⟨ret, List.mem_filter.mpr ⟨hret, by simpa using hcov⟩, rfl⟩
  have hp : priority_meta st o b = some (range_meta ret) := by
    cases hq : priority_meta st o b with
    | none => rw [hq] at hm; simp at hm
    | some x => rw [hq] at hm; simp at hm; rw [hm]
  have hmeta : ∀ r : send_range, range_meta r = range_meta ret →
      ret.type = r.type ∧ ret.sru = r.sru := by
    intro r hr
    unfold range_meta at hr
    obtain ⟨e1, e2⟩ := Prod.mk.inj hr
    exact ⟨e1.symm, e2.symm⟩
  rcases priority_meta_some st o b _ hp with h | ⟨n0, h⟩ | ⟨n0, n1, h⟩
  · rw [c0 b] at h
    obtain ⟨r, hr, hc2, hx⟩ := covering_meta_mem redact o b _ h
    exact Or.inl ⟨r, hr, hc2, hmeta r hx⟩
  · rw [c0 b] at n0
    rw [c1 b] at h
    obtain ⟨r, hr, hc2, hx⟩ := covering_meta_mem tor o b _ h
    exact Or.inr (Or.inl ⟨covering_meta_eq_nil redact o b n0, r, hr, hc2, hmeta r hx⟩)
  · rw [c0 b] at n0
    rw [c1 b] at n1
    rw [c2 b] at h
    obtain ⟨r, hr, hc2, hx⟩ := covering_meta_mem frm o b _ h
    exact Or.inr (Or.inr ⟨covering_meta_eq_nil redact o b n0,
      covering_meta_eq_nil tor o b n1, r, hr, hc2, hmeta r hx⟩)
/-- Witness of `find_next_range_covers_exactly_once`: the three ranges of the
example in the header comment of `find_next_range`, on object 7. -/
theorem find_next_range_covers_exactly_once_witness :
    input_ok 7 [sample_range range_type.REDACT 7 2 4 100] ∧
    input_ok 7 [sample_range range_type.HOLE 7 3 5 200] ∧
    input_ok 7 [sample_range range_type.PREVIOUSLY_REDACTED 7 1 3 300] ∧
    ∃ st fuel outs,
      merge_start [sample_range range_type.REDACT 7 2 4 100]
        [sample_range range_type.HOLE 7 3 5 200]
        [sample_range range_type.PREVIOUSLY_REDACTED 7 1 3 300] = some st ∧
      find_next_range_calls fuel st = some outs ∧
      (∀ ret ∈ outs, ret.eos_marker = false ∧ ret.object = 7) ∧
      ∀ b,
        ((∃ r, (r ∈ [sample_range range_type.REDACT 7 2 4 100] ∨
              r ∈ [sample_range range_type.HOLE 7 3 5 200] ∨
              r ∈ [sample_range range_type.PREVIOUSLY_REDACTED 7 1 3 300]) ∧ covers r 7 b) →
          (outs.filter (fun x => decide (covers x 7 b))).length = 1) ∧
        (∀ ret ∈ outs, covers ret 7 b →
          ∃ r, (r ∈ [sample_range range_type.REDACT 7 2 4 100] ∨
              r ∈ [sample_range range_type.HOLE 7 3 5 200] ∨
              r ∈ [sample_range range_type.PREVIOUSLY_REDACTED 7 1 3 300]) ∧ covers r 7 b) :=
  ⟨by simp [input_ok, range_ok, sample_range],
    by simp [input_ok, range_ok, sample_range],
    by simp [input_ok, range_ok, sample_range],
    find_next_range_covers_exactly_once 7 (by decide) _ _ _
      (by simp [input_ok, range_ok, sample_range])
      (by simp [input_ok, range_ok, sample_range])
      (by simp [input_ok, range_ok, sample_range])⟩

/-- Witness of `find_next_range_priority_metadata`: an `OBJECT` record and two
data blocks from the to-traversal, with a target-redaction range over the
second block, on object 9. -/
theorem find_next_range_priority_metadata_witness :
    input_ok 9 [sample_range range_type.REDACT 9 1 2 10] ∧
    input_ok 9 [sample_range range_type.OBJECT 9 0 0 0, sample_range range_type.DATA 9 0 1 20,
      sample_range range_type.DATA 9 1 2 30] ∧
    input_ok 9 [] ∧
    ∃ st fuel outs,
      merge_start [sample_range range_type.REDACT 9 1 2 10]
        [sample_range range_type.OBJECT 9 0 0 0, sample_range range_type.DATA 9 0 1 20,
          sample_range range_type.DATA 9 1 2 30] [] = some st ∧
      find_next_range_calls fuel st = some outs ∧
      ∀ ret ∈ outs, ∀ b, covers ret 9 b →
        (∃ r ∈ [sample_range range_type.REDACT 9 1 2 10],
          covers r 9 b ∧ ret.type = r.type ∧ ret.sru = r.sru) ∨
        ((∀ r ∈ [sample_range range_type.REDACT 9 1 2 10], ¬ covers r 9 b) ∧
          ∃ r ∈ [sample_range range_type.OBJECT 9 0 0 0, sample_range range_type.DATA 9 0 1 20,
              sample_range range_type.DATA 9 1 2 30],
            covers r 9 b ∧ ret.type = r.type ∧ ret.sru = r.sru) ∨
        ((∀ r ∈ [sample_range range_type.REDACT 9 1 2 10], ¬ covers r 9 b) ∧
          (∀ r ∈ [sample_range range_type.OBJECT 9 0 0 0, sample_range range_type.DATA 9 0 1 20,
              sample_range range_type.DATA 9 1 2 30], ¬ covers r 9 b) ∧
          ∃ r ∈ ([] : List send_range),
            covers r 9 b ∧ ret.type = r.type ∧ ret.sru = r.sru) :=
  ⟨by simp [input_ok, range_ok, sample_range],
    by simp [input_ok, range_ok, sample_range],
    by simp [input_ok],
    find_next_range_priority_metadata 9 (by decide) _ _ _
      (by simp [input_ok, range_ok, sample_range])
      (by simp [input_ok, range_ok, sample_range])
      (by simp [input_ok])⟩

/-! ## The start order of `send_range_start_compare` (C18) -/

/-- C18.  `send_range_start_compare r1 r2` is 1 whenever `r1` is an end-of-stream
marker, -1 when only `r2` is, and otherwise the sign of the lexicographic
comparison of the triples (object-equivalent, 0 for `OBJECT` and 1 otherwise,
block-equivalent) of `start_triple`; the object-equivalent of a record on object
0 is the exact product `start_blkid * DNODES_PER_BLOCK` whenever that product
fits in 64 bits. -/
theorem send_range_start_compare_lexicographic (r1 r2 : send_range) :
    (r1.eos_marker = true → send_range_start_compare r1 r2 = 1) ∧
    (r1.eos_marker = false → r2.eos_marker = true → send_range_start_compare r1 r2 = -1) ∧
    (r1.eos_marker = false → r2.eos_marker = false →
      send_range_start_compare r1 r2 = lex_sign (start_triple r1) (start_triple r2)) ∧
    (r1.object = 0 → r1.start_blkid * DNODES_PER_BLOCK < 2 ^ 64 →
      (start_triple r1).1 = r1.start_blkid * DNODES_PER_BLOCK) := by
  refine ⟨?_, ?_, ?_, ?_⟩
  · intro h
    simp [send_range_start_compare, h]
  · intro h1 h2
    simp [send_range_start_compare, h1, h2]
  · intro h1 h2
    simp only [send_range_start_compare, h1, h2, lex_sign, start_triple, Bool.false_eq_true,
      if_false]
    by_cases t1 : r1.type = range_type.OBJECT <;> by_cases t2 : r2.type = range_type.OBJECT <;>
      by_cases o1 : r1.object = 0 <;> by_cases o2 : r2.object = 0 <;>
      simp only [t1, t2, o1, o2, if_true, if_false, not_true_eq_false, not_false_eq_true,
        and_true, and_false, true_and, false_and, ne_eq] <;>
      split_ifs <;>
      first | rfl | omega | (simp only [false_and, or_false, and_false, false_or] at *; omega)
  · intro h hlt
    simp only [start_triple, h, if_true, Nat.mod_eq_of_lt hlt]

/-! ## The fast size estimate (C20) -/

/-- C20 (as amended).  For a record size `r > 0` and 64-bit byte totals,
`dmu_adjust_send_estimate_for_indirects` stores
`S - n * sizeof (blkptr_t) + n * sizeof (dmu_replay_record_t)` in 64-bit
arithmetic, where `n = uncompressed / r` and `S` is the compressed total for a
compressed stream and the uncompressed total otherwise: the value
`(S + n * (312 - 128)) mod 2^64`.  It is the exact integer `S + n * (312 - 128)`
whenever that integer is below 2^64, also when `S < n * sizeof (blkptr_t)`.
`dmu_send_estimate_fast` stores that value plus
`2 * sizeof (dmu_replay_record_t)`, modulo 2^64, and returns 0. -/
theorem send_estimate_arithmetic (E : estimate_recordsize_t) (A : estimate_args_t)
    (r uncompressed compressed : Nat) (sc : Bool) (sizep : Nat)
    (hr : estimate_recordsize E = (0, r)) (hpos : 0 < r)
    (hc : compressed < 2 ^ 64) (hu : uncompressed < 2 ^ 64)
    (hA : dmu_send_estimate_fast_totals A = (0, compressed, uncompressed)) :
    dmu_adjust_send_estimate_for_indirects E uncompressed compressed sc sizep =
      some (0, ((if sc = true then compressed else uncompressed) +
        uncompressed / r * (SIZEOF_DMU_REPLAY_RECORD - SIZEOF_BLKPTR)) % 2 ^ 64) ∧
    ((if sc = true then compressed else uncompressed) +
        uncompressed / r * (SIZEOF_DMU_REPLAY_RECORD - SIZEOF_BLKPTR) < 2 ^ 64 →
      dmu_adjust_send_estimate_for_indirects E uncompressed compressed sc sizep =
        some (0, (if sc = true then compressed else uncompressed) +
          uncompressed / r * (SIZEOF_DMU_REPLAY_RECORD - SIZEOF_BLKPTR))) ∧
    dmu_send_estimate_fast E A sc sizep =
      some (0, (((if sc = true then compressed else uncompressed) +
        uncompressed / r * (SIZEOF_DMU_REPLAY_RECORD - SIZEOF_BLKPTR)) % 2 ^ 64 +
          2 * SIZEOF_DMU_REPLAY_RECORD) % 2 ^ 64) := by
  have key : dmu_adjust_send_estimate_for_indirects E uncompressed compressed sc sizep =
      some (0, ((if sc = true then compressed else uncompressed) +
        uncompressed / r * (SIZEOF_DMU_REPLAY_RECORD - SIZEOF_BLKPTR)) % 2 ^ 64) := by
    simp only [dmu_adjust_send_estimate_for_indirects, hr, SIZEOF_BLKPTR,
      SIZEOF_DMU_REPLAY_RECORD]
    rw [if_neg (by simp), if_neg (by omega)]
    generalize uncompressed / r = n
    congr 2
    cases sc <;> simp only [Bool.false_eq_true, if_false, if_true] <;> omega
  refine ⟨key, ?_, ?_⟩
  · intro h
    rw [key, Nat.mod_eq_of_lt h]
  · simp only [dmu_send_estimate_fast, hA, key]
    simp

/-- Witness of `send_estimate_arithmetic`: a compressed stream of a snapshot
with record size 512, 1024 uncompressed and 100 compressed bytes.  Here
`S = 100 < n * sizeof (blkptr_t) = 256`, and the stored values are the exact
`100 + 2 * 184 = 468` and `468 + 2 * 312 = 1092`. -/
theorem send_estimate_arithmetic_witness :
    dmu_adjust_send_estimate_for_indirects sample_estimate 1024 100 true 0 = some (0, 468) ∧
    dmu_send_estimate_fast sample_estimate (sample_estimate_args 1024 100) true 0 =
      some (0, 1092) :=
  ⟨(send_estimate_arithmetic sample_estimate (sample_estimate_args 1024 100) 512 1024 100 true 0
      rfl (by decide) (by decide) (by decide) rfl).2.1 (by decide),
   (send_estimate_arithmetic sample_estimate (sample_estimate_args 1024 100) 512 1024 100 true 0
      rfl (by decide) (by decide) (by decide) rfl).2.2⟩

/-- C20 (counterexample to the claim as stated).  For record size 512 and an
uncompressed total of `2^64 - 1` bytes, `n = 2^55 - 1` and the stored value is
`6629298651489369927`, not the exact integer `S + n * (312 - 128)`, which does
not fit in 64 bits. -/
theorem send_estimate_wraps :
    estimate_recordsize sample_estimate = (0, 512) ∧
    dmu_adjust_send_estimate_for_indirects sample_estimate (2 ^ 64 - 1) 0 false 0 =
      some (0, 6629298651489369927) ∧
    (2 ^ 64 - 1) + (2 ^ 64 - 1) / 512 * (SIZEOF_DMU_REPLAY_RECORD - SIZEOF_BLKPTR) =
      25076042725198921543 ∧
    ¬ (dmu_adjust_send_estimate_for_indirects sample_estimate (2 ^ 64 - 1) 0 false 0 =
      some (0, (2 ^ 64 - 1) + (2 ^ 64 - 1) / 512 *
        (SIZEOF_DMU_REPLAY_RECORD - SIZEOF_BLKPTR))) := by
  decide

/-! ## The redaction-list traversal stage (C19) -/

theorem stream_bytes_append (W : stream_codec) (a b : List out_chunk) :
    stream_bytes W (a ++ b) =
      match stream_bytes W a, stream_bytes W b with
      | some x, some y => some (x ++ y)
      | _, _ => none := by
  induction a with
  | nil => cases h : stream_bytes W b <;> simp [stream_bytes, h]
  | cons c rest ih =>
    simp only [List.cons_append, stream_bytes, List.append_eq]
    rw [ih]
    cases chunk_bytes W c <;> cases stream_bytes W rest <;> cases stream_bytes W b <;> simp

theorem stream_bytes_append_some (W : stream_codec) (a b : List out_chunk) (x y : List Nat)
    (ha : stream_bytes W a = some x) (hb : stream_bytes W b = some y) :
    stream_bytes W (a ++ b) = some (x ++ y) := by
  rw [stream_bytes_append, ha, hb]

theorem stream_bytes_prefix (W : stream_codec) (a b : List out_chunk) (z : List Nat)
    (h : stream_bytes W (a ++ b) = some z) : ∃ x, stream_bytes W a = some x := by
  rw [stream_bytes_append] at h
  cases hx : stream_bytes W a with
  | none => simp [hx] at h
  | some x => exact ⟨x, rfl⟩

theorem sample_codec_ok : stream_codec_ok sample_codec := by
  refine ⟨fun r c => rfl, fun a b z => ?_⟩
  simp [sample_codec, List.foldl_append]

theorem dump_record_header_bytes (W : stream_codec) (hW : stream_codec_ok W)
    (d : dmu_send_cookie_t) :
    W.header_bytes (dump_record_header W d) = W.header_bytes d.dsc_drr := by
  unfold dump_record_header
  split_ifs
  · rfl
  · exact hW.1 _ _

theorem dump_record_header_cksum (W : stream_codec) (d : dmu_send_cookie_t)
    (h : d.dsc_drr.drr_type ≠ drr_type_t.DRR_BEGIN) :
    dump_record_header W d =
      { d.dsc_drr with
        drr_checksum := W.fletcher_4_incremental_native (W.header_bytes d.dsc_drr) d.dsc_zc } := by
  unfold dump_record_header
  rw [if_neg h]

theorem dump_record_out (W : stream_codec) (d : dmu_send_cookie_t)
    (payload : Option (List Nat)) (payload_len : Nat) :
    (dump_record W d payload payload_len).2.dsc_out =
      d.dsc_out ++ out_chunk.header (dump_record_header W d) ::
        (if d.dsc_dso.dso_outfunc
            (d.dsc_out ++ [out_chunk.header (dump_record_header W d)]) = 0 ∧ payload_len ≠ 0 then
          [out_chunk.payload (payload.map (List.take payload_len)) payload_len]
        else []) := by
  simp only [dump_record]
  split_ifs <;> simp_all

theorem dump_record_zc (W : stream_codec) (d : dmu_send_cookie_t)
    (payload : Option (List Nat)) (payload_len : Nat) :
    (dump_record W d payload payload_len).2.dsc_zc =
      (if d.dsc_dso.dso_outfunc
            (d.dsc_out ++ [out_chunk.header (dump_record_header W d)]) = 0 ∧ payload_len ≠ 0 then
        match payload with
        | some bytes =>
          W.fletcher_4_incremental_native (bytes.take payload_len)
            (W.fletcher_4_incremental_native (W.cksum_bytes (dump_record_header W d).drr_checksum)
              (W.fletcher_4_incremental_native (W.header_bytes d.dsc_drr) d.dsc_zc))
        | none =>
          W.fletcher_4_incremental_native (W.cksum_bytes (dump_record_header W d).drr_checksum)
            (W.fletcher_4_incremental_native (W.header_bytes d.dsc_drr) d.dsc_zc)
      else
        W.fletcher_4_incremental_native (W.cksum_bytes (dump_record_header W d).drr_checksum)
          (W.fletcher_4_incremental_native (W.header_bytes d.dsc_drr) d.dsc_zc)) := by
  simp only [dump_record]
  split_ifs <;> simp_all

theorem dump_record_cksum_inv (W : stream_codec) (hW : stream_codec_ok W)
    (d : dmu_send_cookie_t) (payload : Option (List Nat)) (payload_len : Nat)
    (hinv : cksum_inv W d) (hp : payload_len ≠ 0 → payload ≠ none) :
    cksum_inv W (dump_record W d payload payload_len).2 := by
  obtain ⟨bytes, hb, hz⟩ := hinv
  have hhdr : stream_bytes W [out_chunk.header (dump_record_header W d)] =
      some (W.header_bytes d.dsc_drr ++ W.cksum_bytes (dump_record_header W d).drr_checksum) := by
    simp [stream_bytes, chunk_bytes, dump_record_header_bytes W hW]
  have h1 := stream_bytes_append_some W _ _ _ _ hb hhdr
  have hz1 : ∀ s, W.fletcher_4_incremental_native s
      (W.fletcher_4_incremental_native (W.cksum_bytes (dump_record_header W d).drr_checksum)
        (W.fletcher_4_incremental_native (W.header_bytes d.dsc_drr) d.dsc_zc)) =
      W.fletcher_4_incremental_native
        (bytes ++ (W.header_bytes d.dsc_drr ++
          W.cksum_bytes (dump_record_header W d).drr_checksum) ++ s) zio_cksum_zero := by
    intro s
    rw [← hW.2, ← hW.2, hz]
    simp only [List.append_assoc]
  unfold cksum_inv
  rw [dump_record_out, dump_record_zc]
  by_cases hc : d.dsc_dso.dso_outfunc
      (d.dsc_out ++ [out_chunk.header (dump_record_header W d)]) = 0 ∧ payload_len ≠ 0
  · rw [if_pos hc, if_pos hc]
    cases payload with
    | none => exact absurd rfl (hp hc.2)
    | some data =>
      have h2 : stream_bytes W
          [out_chunk.payload (Option.map (List.take payload_len) (some data)) payload_len] =
          some (data.take payload_len) := by
        simp [stream_bytes, chunk_bytes]
      have h3 := stream_bytes_append_some W _ _ _ _ h1 h2
      refine ⟨_, by simpa using h3, ?_⟩
      intro s
      simp only []
      rw [← hW.2, hz1]
      simp only [List.append_assoc]
  · rw [if_neg hc, if_neg hc]
    exact ⟨_, by simpa using h1, hz1⟩

theorem dump_record_out_grows (W : stream_codec) (d : dmu_send_cookie_t)
    (payload : Option (List Nat)) (payload_len : Nat) :
    ∃ rest, (dump_record W d payload payload_len).2.dsc_out =
      d.dsc_out ++ out_chunk.header (dump_record_header W d) :: rest := by
  exact ⟨_, dump_record_out W d payload payload_len⟩

theorem dump_record_calls_append (W : stream_codec) (pre post : List dump_record_call) :
    ∀ d, dump_record_calls W d (pre ++ post) =
      dump_record_calls W (dump_record_calls W d pre) post := by
  induction pre with
  | nil => intro d; rfl
  | cons c rest ih => intro d; exact ih _

theorem dump_record_calls_out_grows (W : stream_codec) (calls : List dump_record_call) :
    ∀ d, ∃ rest, (dump_record_calls W d calls).dsc_out = d.dsc_out ++ rest := by
  induction calls with
  | nil => intro d; exact ⟨[], by simp [dump_record_calls]⟩
  | cons c rest ih =>
    intro d
    obtain ⟨r1, h1⟩ := dump_record_out_grows W { d with dsc_drr := c.drr } c.payload c.payload_len
    obtain ⟨r2, h2⟩ := ih (dump_record W { d with dsc_drr := c.drr } c.payload c.payload_len).2
    refine ⟨out_chunk.header (dump_record_header W { d with dsc_drr := c.drr }) :: r1 ++ r2, ?_⟩
    show (dump_record_calls W
      (dump_record W { d with dsc_drr := c.drr } c.payload c.payload_len).2 rest).dsc_out = _
    rw [h2, h1]
    simp

theorem dump_record_calls_cksum_inv (W : stream_codec) (hW : stream_codec_ok W)
    (calls : List dump_record_call)
    (hp : ∀ c ∈ calls, c.payload_len ≠ 0 → c.payload ≠ none) :
    ∀ d, cksum_inv W d → cksum_inv W (dump_record_calls W d calls) := by
  induction calls with
  | nil => intro d h; exact h
  | cons c rest ih =>
    intro d h
    simp only [dump_record_calls]
    apply ih (fun c1 hc1 => hp c1 (List.mem_cons_of_mem _ hc1))
    exact dump_record_cksum_inv W hW _ _ _ h (hp c (List.mem_cons_self _ _))

/-- C11.  Take a session whose sink is empty and whose running checksum is zero,
and any sequence of `dump_record` calls whose payloads are not `NULL`.  For every
call of the sequence, the header it hands to the output function follows what
the earlier calls handed over, and
* if the record is not `DRR_BEGIN`, the header is the record of the call with its
  trailing checksum field set to the incremental Fletcher-4 hash, from zero, of
  all stream bytes emitted before that field: the bytes of all earlier headers
  with their checksum fields and of all earlier payloads, then the bytes of this
  header in front of its checksum field;
* if the record is `DRR_BEGIN`, the header is the record of the call, its
  checksum field as the caller left it. -/
theorem dump_record_trailing_checksum (W : stream_codec) (hW : stream_codec_ok W)
    (d0 : dmu_send_cookie_t) (calls : List dump_record_call)
    (hout : d0.dsc_out = []) (hzc : d0.dsc_zc = zio_cksum_zero)
    (hp : ∀ c ∈ calls, c.payload_len ≠ 0 → c.payload ≠ none)
    (pre post : List dump_record_call) (c : dump_record_call)
    (hsplit : calls = pre ++ c :: post) :
    (∃ rest, (dump_record_calls W d0 calls).dsc_out =
      (dump_record_calls W d0 pre).dsc_out ++
        out_chunk.header
          (dump_record_header W { dump_record_calls W d0 pre with dsc_drr := c.drr }) :: rest) ∧
    (c.drr.drr_type ≠ drr_type_t.DRR_BEGIN →
      ∃ bytes, stream_bytes W (dump_record_calls W d0 pre).dsc_out = some bytes ∧
        dump_record_header W { dump_record_calls W d0 pre with dsc_drr := c.drr } =
          { c.drr with
            drr_checksum :=
              W.fletcher_4_incremental_native (bytes ++ W.header_bytes c.drr) zio_cksum_zero }) ∧
    (c.drr.drr_type = drr_type_t.DRR_BEGIN →
      dump_record_header W { dump_record_calls W d0 pre with dsc_drr := c.drr } = c.drr) := by
  subst hsplit
  have h0 : cksum_inv W d0 := ⟨[], by simp [hout, stream_bytes], by simp [hzc]⟩
  have hpre : cksum_inv W (dump_record_calls W d0 pre) :=
    dump_record_calls_cksum_inv W hW pre
      (fun c1 hc1 => hp c1 (List.mem_append_left _ hc1)) d0 h0
  refine ⟨?_, ?_, ?_⟩
  · rw [dump_record_calls_append]
    simp only [dump_record_calls]
    obtain ⟨r1, h1⟩ := dump_record_out_grows W
      { dump_record_calls W d0 pre with dsc_drr := c.drr } c.payload c.payload_len
    obtain ⟨r2, h2⟩ := dump_record_calls_out_grows W post
      (dump_record W { dump_record_calls W d0 pre with dsc_drr := c.drr }
        c.payload c.payload_len).2
    exact ⟨r1 ++ r2, by rw [h2, h1]; simp⟩
  · intro hne
    obtain ⟨bytes, hb, hz⟩ := hpre
    refine ⟨bytes, hb, ?_⟩
    rw [dump_record_header_cksum W _ hne]
    simp only [hz]
  · intro hb
    simp [dump_record_header, hb]

/-- Witness of `dump_record_trailing_checksum`: the second of the two calls of
`sample_calls`, a FREE record that follows a WRITE record with its payload. -/
theorem dump_record_trailing_checksum_witness :
    ∃ bytes,
      stream_bytes sample_codec
        (dump_record_calls sample_codec sample_cookie
          [{ drr := dump_write_record sample_codec sample_cookie 19 1 0 3 3 none,
             payload := some [1, 2, 3], payload_len := 3 }]).dsc_out = some bytes ∧
      dump_record_header sample_codec
        { dump_record_calls sample_codec sample_cookie
            [{ drr := dump_write_record sample_codec sample_cookie 19 1 0 3 3 none,
               payload := some [1, 2, 3], payload_len := 3 }] with
          dsc_drr := dump_free_record 77 1 3 10 } =
        { dump_free_record 77 1 3 10 with
          drr_checksum :=
            sample_codec.fletcher_4_incremental_native
              (bytes ++ sample_codec.header_bytes (dump_free_record 77 1 3 10)) zio_cksum_zero } :=
  (dump_record_trailing_checksum sample_codec sample_codec_ok sample_cookie sample_calls rfl rfl
    (by intro c hc; simp [sample_calls] at hc; rcases hc with rfl | rfl <;> simp)
    [{ drr := dump_write_record sample_codec sample_cookie 19 1 0 3 3 none,
       payload := some [1, 2, 3], payload_len := 3 }] []
    { drr := dump_free_record 77 1 3 10, payload := none, payload_len := 0 } rfl).2.1
    (by decide)

/-! ## What the serializer functions keep -/

theorem ser_ext_refl (W : stream_codec) (strict wr : Bool) (d : dmu_send_cookie_t) :
    ser_ext W strict wr d d :=
  ⟨rfl, rfl, rfl, rfl, rfl, id, rfl, ⟨[], by simp, by simp⟩, fun _ h => h, fun _ => ⟨rfl, rfl⟩⟩

theorem ser_ext_trans (W : stream_codec) (strict wr : Bool) (d d1 d2 : dmu_send_cookie_t)
    (h1 : ser_ext W strict wr d d1) (h2 : ser_ext W strict wr d1 d2) :
    ser_ext W strict wr d d2 := by
  obtain ⟨a1, a2, a3, a4, a5, a6, a7, ⟨n1, a8, a9⟩, a10, a11⟩ := h1
  obtain ⟨b1, b2, b3, b4, b5, b6, b7, ⟨n2, b8, b9⟩, b10, b11⟩ := h2
  refine ⟨b1.trans a1, b2.trans a2, b3.trans a3, b4.trans a4, b5.trans a5,
    fun h => b6 (a6 h), b7.trans a7, ⟨n1 ++ n2, by rw [b8, a8, List.append_assoc], ?_⟩,
    fun hs h => b10 hs (a10 hs h), fun hw => ⟨(b11 hw).1.trans (a11 hw).1,
      (b11 hw).2.trans (a11 hw).2⟩⟩
  intro h hh
  rcases List.mem_append.1 hh with hh | hh
  · exact a9 h hh
  · exact b9 h hh

theorem ser_ext_wr (W : stream_codec) (strict : Bool) (d d1 : dmu_send_cookie_t)
    (h : ser_ext W strict false d d1) : ser_ext W strict true d d1 := by
  obtain ⟨a1, a2, a3, a4, a5, a6, a7, ⟨n1, a8, a9⟩, a10, -⟩ := h
  exact ⟨a1, a2, a3, a4, a5, a6, a7, ⟨n1, a8, fun h hh => ⟨(a9 h hh).1, (a9 h hh).2.1,
    fun hw => by cases hw⟩⟩, a10, fun hw => by cases hw⟩

theorem ser_ext_set_drr (W : stream_codec) (strict wr : Bool) (d : dmu_send_cookie_t)
    (r : dmu_replay_record_t) : ser_ext W strict wr d { d with dsc_drr := r } :=
  ⟨rfl, rfl, rfl, rfl, rfl, id, rfl, ⟨[], by simp, by simp⟩, fun _ h => h, fun _ => ⟨rfl, rfl⟩⟩

theorem ser_ext_set_pending (W : stream_codec) (strict wr : Bool) (d : dmu_send_cookie_t)
    (p : dmu_pendop_t) : ser_ext W strict wr d { d with dsc_pending_op := p } :=
  ⟨rfl, rfl, rfl, rfl, rfl, id, rfl, ⟨[], by simp, by simp⟩, fun _ h => h, fun _ => ⟨rfl, rfl⟩⟩

theorem dump_record_fields (W : stream_codec) (d : dmu_send_cookie_t)
    (p : Option (List Nat)) (n : Nat) :
    (dump_record W d p n).2.dsc_dso = d.dsc_dso ∧
    (dump_record W d p n).2.dsc_featureflags = d.dsc_featureflags ∧
    (dump_record W d p n).2.dsc_resume_object = d.dsc_resume_object ∧
    (dump_record W d p n).2.dsc_resume_offset = d.dsc_resume_offset ∧
    (dump_record W d p n).2.dsc_last_data_object = d.dsc_last_data_object ∧
    (dump_record W d p n).2.dsc_last_data_offset = d.dsc_last_data_offset ∧
    (dump_record W d p n).2.dsc_sent_begin =
      (if d.dsc_drr.drr_type = drr_type_t.DRR_BEGIN then true else d.dsc_sent_begin) ∧
    (dump_record W d p n).2.dsc_sent_end =
      (if d.dsc_drr.drr_type = drr_type_t.DRR_END then true else d.dsc_sent_end) := by
  simp only [dump_record]
  split_ifs <;> simp_all

theorem dump_record_err (W : stream_codec) (d : dmu_send_cookie_t)
    (p : Option (List Nat)) (n : Nat) :
    ((dump_record W d p n).1 = 0 ∨ (dump_record W d p n).1 = EINTR) ∧
    ((dump_record W d p n).1 = 0 ↔ (dump_record W d p n).2.dsc_err = 0) := by
  simp only [dump_record]
  split_ifs <;> simp_all [EINTR]

theorem dump_record_ser_ext (W : stream_codec) (strict wr : Bool) (hW : strict = true → stream_codec_ok W)
    (d : dmu_send_cookie_t) (p : Option (List Nat)) (n : Nat)
    (hb : d.dsc_drr.drr_type ≠ drr_type_t.DRR_BEGIN)
    (he : d.dsc_drr.drr_type ≠ drr_type_t.DRR_END)
    (hw : wr = false → d.dsc_drr.drr_type ≠ drr_type_t.DRR_WRITE)
    (hp : strict = true → n ≠ 0 → p ≠ none) :
    ser_ext W strict wr d (dump_record W d p n).2 := by
  obtain ⟨f1, f2, f3, f4, f5, f6, f7, f8⟩ := dump_record_fields W d p n
  refine ⟨f1, dump_record_toguid W d p n, f2, f3, f4, ?_, ?_, ⟨_, dump_record_out W d p n, ?_⟩,
    ?_, fun _ => ⟨f5, f6⟩⟩
  · intro h; rw [f7, if_neg hb]; exact h
  · rw [f8, if_neg he]
  · intro h hh
    rw [List.mem_cons] at hh
    rcases hh with hh | hh
    · cases hh
      rw [dump_record_header_type]
      exact ⟨hb, he, hw⟩
    · split_ifs at hh <;> simp at hh
  · intro hs hinv
    exact dump_record_cksum_inv W (hW hs) d p n hinv (hp hs)

theorem pending_inv_type (d : dmu_send_cookie_t) (h : pending_inv d)
    (hp : d.dsc_pending_op ≠ dmu_pendop_t.PENDING_NONE) :
    d.dsc_drr.drr_type ≠ drr_type_t.DRR_BEGIN ∧ d.dsc_drr.drr_type ≠ drr_type_t.DRR_END ∧
    d.dsc_drr.drr_type ≠ drr_type_t.DRR_WRITE := by
  obtain ⟨h1, h2, h3⟩ := h
  cases hq : d.dsc_pending_op with
  | PENDING_NONE => exact absurd hq hp
  | PENDING_FREE => rw [(h1 hq).1]; simp
  | PENDING_FREEOBJECTS => rw [(h2 hq).1]; simp
  | PENDING_REDACT => rw [(h3 hq).1]; simp

theorem pending_inv_none (d : dmu_send_cookie_t)
    (h : d.dsc_pending_op = dmu_pendop_t.PENDING_NONE) : pending_inv d := by
  refine ⟨?_, ?_, ?_⟩ <;> intro hq <;> rw [h] at hq <;> cases hq

/-- The optional push-out of the pending record that the serializer functions
start with: `flush` tells whether the push-out is made. -/
theorem push_out_ser_ext (W : stream_codec) (strict wr : Bool) (hW : strict = true → stream_codec_ok W)
    (d : dmu_send_cookie_t) (hinv : pending_inv d) (flush : Prop) [Decidable flush]
    (hf : flush → d.dsc_pending_op ≠ dmu_pendop_t.PENDING_NONE) :
    ser_ext W strict wr d (if flush then push_out_pending W d else (0, d)).2 ∧
    ((if flush then push_out_pending W d else (0, d)).1 = 0 →
      pending_inv (if flush then push_out_pending W d else (0, d)).2 ∧
      (flush → (if flush then push_out_pending W d else (0, d)).2.dsc_pending_op =
        dmu_pendop_t.PENDING_NONE) ∧
      (¬ flush → (if flush then push_out_pending W d else (0, d)).2 = d)) := by
  by_cases h : flush
  · simp only [h, if_true, not_true_eq_false, false_implies, and_true, true_implies]
    obtain ⟨t1, t2, t3⟩ := pending_inv_type d hinv (hf h)
    have hx := dump_record_ser_ext W strict wr hW d none 0 t1 t2 (fun _ => t3) (by simp)
    constructor
    · simp only [push_out_pending]
      split_ifs
      · exact hx
      · exact ser_ext_trans W strict wr _ _ _ hx (ser_ext_set_pending W strict wr _ _)
    · intro hok
      exact ⟨pending_inv_none _ (push_out_pending_ok W d hok).1, (push_out_pending_ok W d hok).1⟩
  · simp only [h, if_false, not_false_eq_true, true_implies, false_implies, true_and, and_true]
    exact ⟨ser_ext_refl W strict wr d, hinv⟩

theorem dump_free_ser_ext (W : stream_codec) (strict : Bool) (hW : strict = true → stream_codec_ok W)
    (d : dmu_send_cookie_t) (object offset length : Nat) (hinv : pending_inv d) :
    ser_ext W strict false d (dump_free W d object offset length).2 ∧
    ((dump_free W d object offset length).1 = 0 →
      pending_inv (dump_free W d object offset length).2) := by
  obtain ⟨e1, k1⟩ := push_out_ser_ext W strict false hW d hinv
    (d.dsc_pending_op ≠ dmu_pendop_t.PENDING_NONE ∧
      d.dsc_pending_op ≠ dmu_pendop_t.PENDING_FREE) (fun h => h.1)
  simp only [dump_free]
  generalize (if d.dsc_pending_op ≠ dmu_pendop_t.PENDING_NONE ∧
      d.dsc_pending_op ≠ dmu_pendop_t.PENDING_FREE then push_out_pending W d else (0, d)) = r1
    at e1 k1 ⊢
  by_cases h1 : r1.1 ≠ 0
  · rw [if_pos h1]
    exact ⟨e1, fun h => absurd h h1⟩
  rw [if_neg h1]
  obtain ⟨i1, k2, k3⟩ := k1 (not_not.1 h1)
  have hp1 : r1.2.dsc_pending_op = dmu_pendop_t.PENDING_NONE ∨
      r1.2.dsc_pending_op = dmu_pendop_t.PENDING_FREE := by
    by_cases hA : d.dsc_pending_op ≠ dmu_pendop_t.PENDING_NONE ∧
        d.dsc_pending_op ≠ dmu_pendop_t.PENDING_FREE
    · exact Or.inl (k2 hA)
    · rw [k3 hA]
      by_cases hn : d.dsc_pending_op = dmu_pendop_t.PENDING_NONE
      · exact Or.inl hn
      · exact Or.inr (not_not.1 fun hf => hA ⟨hn, hf⟩)
  by_cases hm : r1.2.dsc_pending_op = dmu_pendop_t.PENDING_FREE ∧
      r1.2.dsc_drr.drr_object = object ∧
      (r1.2.dsc_drr.drr_offset + r1.2.dsc_drr.drr_length) % 2 ^ 64 = offset
  · -- the call is merged into the pending record
    rw [if_pos hm]
    refine ⟨ser_ext_trans W strict false _ _ _ e1 (ser_ext_set_drr W strict false _ _), fun _ => ?_⟩
    obtain ⟨j1, j2, j3⟩ := i1
    exact ⟨fun hq => j1 hq, fun hq => j2 hq, fun hq => j3 hq⟩
  rw [if_neg hm]
  obtain ⟨e2, k4⟩ := push_out_ser_ext W strict false hW r1.2 i1
    (r1.2.dsc_pending_op = dmu_pendop_t.PENDING_FREE) (fun h => by rw [h]; simp)
  generalize (if r1.2.dsc_pending_op = dmu_pendop_t.PENDING_FREE then push_out_pending W r1.2
    else (0, r1.2)) = r2 at e2 k4 ⊢
  have e12 := ser_ext_trans W strict false _ _ _ e1 e2
  by_cases h2 : r2.1 ≠ 0
  · rw [if_pos h2]
    exact ⟨e12, fun h => absurd h h2⟩
  rw [if_neg h2]
  obtain ⟨i2, k5, k6⟩ := k4 (not_not.1 h2)
  have hp2 : r2.2.dsc_pending_op = dmu_pendop_t.PENDING_NONE := by
    by_cases hF : r1.2.dsc_pending_op = dmu_pendop_t.PENDING_FREE
    · exact k5 hF
    · rw [k6 hF]
      exact hp1.resolve_right hF
  by_cases hL : dump_free_length offset length = UINT64_MAX
  · rw [if_pos hL]
    have e3 := dump_record_ser_ext W strict false hW
      { r2.2 with dsc_drr := (dump_free_record r2.2.dsc_toguid object offset
          (dump_free_length offset length)) } none 0
      (by simp [dump_free_record]) (by simp [dump_free_record])
      (fun _ => by simp [dump_free_record]) (by simp)
    have e123 := ser_ext_trans W strict false _ _ _
      (ser_ext_trans W strict false _ _ _ e12 (ser_ext_set_drr W strict false _ _)) e3
    have hp3 : (dump_record W { r2.2 with dsc_drr := (dump_free_record r2.2.dsc_toguid object offset
          (dump_free_length offset length)) } none 0).2.dsc_pending_op =
        dmu_pendop_t.PENDING_NONE := by
      rw [dump_record_pending_op]; exact hp2
    split_ifs
    · exact ⟨e123, fun h => by simp [EINTR] at h⟩
    · exact ⟨e123, fun _ => pending_inv_none _ hp3⟩
  · rw [if_neg hL]
    refine ⟨ser_ext_trans W strict false _ _ _ e12
      (ser_ext_trans W strict false _ _ _ (ser_ext_set_drr W strict false _ _)
        (ser_ext_set_pending W strict false _ _)), fun _ => ?_⟩
    refine ⟨fun _ => ⟨rfl, rfl, rfl⟩, fun hq => ?_, fun hq => ?_⟩ <;> cases hq

theorem dump_redact_ser_ext (W : stream_codec) (strict : Bool) (hW : strict = true → stream_codec_ok W)
    (d : dmu_send_cookie_t) (object offset length : Nat) (hinv : pending_inv d) :
    ser_ext W strict false d (dump_redact W d object offset length).2 ∧
    ((dump_redact W d object offset length).1 = 0 →
      pending_inv (dump_redact W d object offset length).2) := by
  obtain ⟨e1, k1⟩ := push_out_ser_ext W strict false hW d hinv
    (d.dsc_pending_op ≠ dmu_pendop_t.PENDING_NONE ∧
      d.dsc_pending_op ≠ dmu_pendop_t.PENDING_REDACT) (fun h => h.1)
  simp only [dump_redact]
  generalize (if d.dsc_pending_op ≠ dmu_pendop_t.PENDING_NONE ∧
      d.dsc_pending_op ≠ dmu_pendop_t.PENDING_REDACT then push_out_pending W d else (0, d)) = r1
    at e1 k1 ⊢
  by_cases h1 : r1.1 ≠ 0
  · rw [if_pos h1]
    exact ⟨e1, fun h => absurd h h1⟩
  rw [if_neg h1]
  obtain ⟨i1, -, -⟩ := k1 (not_not.1 h1)
  by_cases hm : r1.2.dsc_pending_op = dmu_pendop_t.PENDING_REDACT ∧
      r1.2.dsc_drr.drr_object = object ∧
      (r1.2.dsc_drr.drr_offset + r1.2.dsc_drr.drr_length) % 2 ^ 64 = offset
  · rw [if_pos hm]
    refine ⟨ser_ext_trans W strict false _ _ _ e1 (ser_ext_set_drr W strict false _ _), fun _ => ?_⟩
    obtain ⟨j1, j2, j3⟩ := i1
    exact ⟨fun hq => j1 hq, fun hq => j2 hq, fun hq => j3 hq⟩
  rw [if_neg hm]
  obtain ⟨e2, k4⟩ := push_out_ser_ext W strict false hW r1.2 i1
    (r1.2.dsc_pending_op = dmu_pendop_t.PENDING_REDACT) (fun h => by rw [h]; simp)
  generalize (if r1.2.dsc_pending_op = dmu_pendop_t.PENDING_REDACT then push_out_pending W r1.2
    else (0, r1.2)) = r2 at e2 k4 ⊢
  have e12 := ser_ext_trans W strict false _ _ _ e1 e2
  by_cases h2 : r2.1 ≠ 0
  · rw [if_pos h2]
    exact ⟨e12, fun h => absurd h h2⟩
  rw [if_neg h2]
  refine ⟨ser_ext_trans W strict false _ _ _ e12
    (ser_ext_trans W strict false _ _ _ (ser_ext_set_drr W strict false _ _)
      (ser_ext_set_pending W strict false _ _)), fun _ => ?_⟩
  refine ⟨fun hq => ?_, fun hq => ?_, fun _ => ⟨rfl, rfl, rfl⟩⟩ <;> cases hq

theorem dump_freeobjects_ser_ext (W : stream_codec) (strict : Bool) (hW : strict = true → stream_codec_ok W)
    (d : dmu_send_cookie_t) (firstobj numobjs : Nat) (hinv : pending_inv d) :
    ser_ext W strict false d (dump_freeobjects W d firstobj numobjs).2 ∧
    ((dump_freeobjects W d firstobj numobjs).1 = 0 →
      pending_inv (dump_freeobjects W d firstobj numobjs).2) := by
  obtain ⟨e1, k1⟩ := push_out_ser_ext W strict false hW d hinv
    (d.dsc_pending_op ≠ dmu_pendop_t.PENDING_NONE ∧
      d.dsc_pending_op ≠ dmu_pendop_t.PENDING_FREEOBJECTS) (fun h => h.1)
  simp only [dump_freeobjects]
  generalize (if d.dsc_pending_op ≠ dmu_pendop_t.PENDING_NONE ∧
      d.dsc_pending_op ≠ dmu_pendop_t.PENDING_FREEOBJECTS then push_out_pending W d
    else (0, d)) = r1 at e1 k1 ⊢
  by_cases h1 : r1.1 ≠ 0
  · rw [if_pos h1]
    exact ⟨e1, fun h => absurd h h1⟩
  rw [if_neg h1]
  obtain ⟨i1, -, -⟩ := k1 (not_not.1 h1)
  by_cases hm : r1.2.dsc_pending_op = dmu_pendop_t.PENDING_FREEOBJECTS ∧
      (r1.2.dsc_drr.drr_firstobj + r1.2.dsc_drr.drr_numobjs) % 2 ^ 64 = firstobj
  · rw [if_pos hm]
    refine ⟨ser_ext_trans W strict false _ _ _ e1 (ser_ext_set_drr W strict false _ _), fun _ => ?_⟩
    obtain ⟨j1, j2, j3⟩ := i1
    exact ⟨fun hq => j1 hq, fun hq => j2 hq, fun hq => j3 hq⟩
  rw [if_neg hm]
  obtain ⟨e2, k4⟩ := push_out_ser_ext W strict false hW r1.2 i1
    (r1.2.dsc_pending_op = dmu_pendop_t.PENDING_FREEOBJECTS) (fun h => by rw [h]; simp)
  generalize (if r1.2.dsc_pending_op = dmu_pendop_t.PENDING_FREEOBJECTS then
    push_out_pending W r1.2 else (0, r1.2)) = r2 at e2 k4 ⊢
  have e12 := ser_ext_trans W strict false _ _ _ e1 e2
  by_cases h2 : r2.1 ≠ 0
  · rw [if_pos h2]
    exact ⟨e12, fun h => absurd h h2⟩
  rw [if_neg h2]
  refine ⟨ser_ext_trans W strict false _ _ _ e12
    (ser_ext_trans W strict false _ _ _ (ser_ext_set_drr W strict false _ _)
      (ser_ext_set_pending W strict false _ _)), fun _ => ?_⟩
  refine ⟨fun hq => ?_, fun _ => ⟨rfl, rfl, rfl⟩, fun hq => ?_⟩ <;> cases hq

/-- The shape shared by `dump_write`, `dump_write_embedded`, `dump_spill` and the
OBJECT record of `dump_dnode`: push out the pending record, if any, then emit
the record `rec`. -/
theorem emit_ser_ext (W : stream_codec) (strict wr : Bool) (hW : strict = true → stream_codec_ok W)
    (d : dmu_send_cookie_t) (hinv : pending_inv d)
    (rec : dmu_send_cookie_t → dmu_replay_record_t) (p : Option (List Nat))
    (n : dmu_send_cookie_t → Nat)
    (hb : ∀ x, (rec x).drr_type ≠ drr_type_t.DRR_BEGIN)
    (he : ∀ x, (rec x).drr_type ≠ drr_type_t.DRR_END)
    (hw : wr = false → ∀ x, (rec x).drr_type ≠ drr_type_t.DRR_WRITE)
    (hp : strict = true → p ≠ none) :
    ser_ext W strict wr d
      (dump_record W
        { (if d.dsc_pending_op ≠ dmu_pendop_t.PENDING_NONE then push_out_pending W d
            else (0, d)).2 with
          dsc_drr := rec (if d.dsc_pending_op ≠ dmu_pendop_t.PENDING_NONE then
            push_out_pending W d else (0, d)).2 } p
        (n (if d.dsc_pending_op ≠ dmu_pendop_t.PENDING_NONE then push_out_pending W d
            else (0, d)).2)).2 ∧
    ser_ext W strict wr d
      (if d.dsc_pending_op ≠ dmu_pendop_t.PENDING_NONE then push_out_pending W d else (0, d)).2 ∧
    ((if d.dsc_pending_op ≠ dmu_pendop_t.PENDING_NONE then push_out_pending W d
        else (0, d)).1 = 0 →
      (dump_record W
        { (if d.dsc_pending_op ≠ dmu_pendop_t.PENDING_NONE then push_out_pending W d
            else (0, d)).2 with
          dsc_drr := rec (if d.dsc_pending_op ≠ dmu_pendop_t.PENDING_NONE then
            push_out_pending W d else (0, d)).2 } p
        (n (if d.dsc_pending_op ≠ dmu_pendop_t.PENDING_NONE then push_out_pending W d
            else (0, d)).2)).2.dsc_pending_op = dmu_pendop_t.PENDING_NONE) := by
  obtain ⟨e1, k1⟩ := push_out_ser_ext W strict wr hW d hinv
    (d.dsc_pending_op ≠ dmu_pendop_t.PENDING_NONE) id
  generalize (if d.dsc_pending_op ≠ dmu_pendop_t.PENDING_NONE then push_out_pending W d
    else (0, d)) = r1 at e1 k1 ⊢
  have e2 := dump_record_ser_ext W strict wr hW { r1.2 with dsc_drr := rec r1.2 } p (n r1.2)
    (hb _) (he _) (fun h => hw h _) (fun hs _ => hp hs)
  refine ⟨ser_ext_trans W strict wr _ _ _ e1
    (ser_ext_trans W strict wr _ _ _ (ser_ext_set_drr W strict wr _ _) e2), e1, fun h1 => ?_⟩
  obtain ⟨-, k2, k3⟩ := k1 h1
  rw [dump_record_pending_op]
  by_cases hn : d.dsc_pending_op ≠ dmu_pendop_t.PENDING_NONE
  · exact k2 hn
  · rw [k3 hn]; exact not_not.1 hn

theorem ser_ext_set_last (W : stream_codec) (strict : Bool) (d : dmu_send_cookie_t)
    (o f : Nat) :
    ser_ext W strict true d { d with dsc_last_data_object := o, dsc_last_data_offset := f } :=
  ⟨rfl, rfl, rfl, rfl, rfl, id, rfl, ⟨[], by simp, by simp⟩, fun _ h => h, fun h => by cases h⟩

theorem emit_record_ser_ext (W : stream_codec) (strict wr : Bool) (hW : strict = true → stream_codec_ok W)
    (d : dmu_send_cookie_t) (hinv : pending_inv d)
    (rec : dmu_send_cookie_t → dmu_replay_record_t) (p : Option (List Nat))
    (n : dmu_send_cookie_t → Nat)
    (hb : ∀ x, (rec x).drr_type ≠ drr_type_t.DRR_BEGIN)
    (he : ∀ x, (rec x).drr_type ≠ drr_type_t.DRR_END)
    (hw : wr = false → ∀ x, (rec x).drr_type ≠ drr_type_t.DRR_WRITE)
    (hp : strict = true → p ≠ none) :
    ser_ext W strict wr d (emit_record W d rec p n).2 ∧
    ((emit_record W d rec p n).1 = 0 →
      (emit_record W d rec p n).2.dsc_pending_op = dmu_pendop_t.PENDING_NONE) := by
  obtain ⟨e1, k1⟩ := push_out_ser_ext W strict wr hW d hinv
    (d.dsc_pending_op ≠ dmu_pendop_t.PENDING_NONE) id
  simp only [emit_record]
  generalize (if d.dsc_pending_op ≠ dmu_pendop_t.PENDING_NONE then push_out_pending W d
    else (0, d)) = r1 at e1 k1 ⊢
  by_cases h1 : r1.1 ≠ 0
  · rw [if_pos h1]
    exact ⟨e1, fun h => absurd h h1⟩
  rw [if_neg h1]
  have e2 := dump_record_ser_ext W strict wr hW { r1.2 with dsc_drr := rec r1.2 } p (n r1.2)
    (hb _) (he _) (fun h => hw h _) (fun hs _ => hp hs)
  have e12 := ser_ext_trans W strict wr _ _ _ e1
    (ser_ext_trans W strict wr _ _ _ (ser_ext_set_drr W strict wr _ _) e2)
  obtain ⟨-, k2, k3⟩ := k1 (not_not.1 h1)
  have hp2 : (dump_record W { r1.2 with dsc_drr := rec r1.2 } p (n r1.2)).2.dsc_pending_op =
      dmu_pendop_t.PENDING_NONE := by
    rw [dump_record_pending_op]
    by_cases hn : d.dsc_pending_op ≠ dmu_pendop_t.PENDING_NONE
    · exact k2 hn
    · rw [k3 hn]; exact not_not.1 hn
  by_cases h2 : (dump_record W { r1.2 with dsc_drr := rec r1.2 } p (n r1.2)).1 ≠ 0
  · rw [if_pos h2]
    exact ⟨e12, fun h => by simp [EINTR] at h⟩
  · rw [if_neg h2]
    exact ⟨e12, fun _ => hp2⟩

theorem dump_write_eq_emit (W : stream_codec) (d : dmu_send_cookie_t)
    (type object offset lsize psize : Nat) (bp : Option blkptr_t) (data : Option (List Nat)) :
    dump_write W d type object offset lsize psize bp data =
      emit_record W
        { d with dsc_last_data_object := object,
                 dsc_last_data_offset := (offset + lsize + 2 ^ 64 - 1) % 2 ^ 64 }
        (fun x => dump_write_record W x type object offset lsize psize bp) data
        (fun x => dump_write_payload_size x lsize psize) := rfl

theorem dump_write_embedded_eq_emit (W : stream_codec) (d : dmu_send_cookie_t)
    (object offset blksz : Nat) (bp : blkptr_t) :
    dump_write_embedded W d object offset blksz bp =
      emit_record W d (fun x => dump_write_embedded_record x object offset blksz bp)
        (some bp.embedded_payload) (fun _ => P2ROUNDUP8 bp.bpe_psize) := rfl

theorem dump_spill_eq_emit (W : stream_codec) (d : dmu_send_cookie_t) (bp : blkptr_t)
    (object : Nat) (data : Option (List Nat)) :
    dump_spill W d bp object data =
      emit_record W d (fun x => dump_spill_record x bp object) data (fun _ => bp.lsize) := rfl

theorem dump_write_ser_ext (W : stream_codec) (strict : Bool) (hW : strict = true → stream_codec_ok W)
    (d : dmu_send_cookie_t) (type object offset lsize psize : Nat) (bp : Option blkptr_t)
    (data : Option (List Nat)) (hinv : pending_inv d) (hp : strict = true → data ≠ none) :
    ser_ext W strict true d (dump_write W d type object offset lsize psize bp data).2 ∧
    ((dump_write W d type object offset lsize psize bp data).1 = 0 →
      (dump_write W d type object offset lsize psize bp data).2.dsc_pending_op =
        dmu_pendop_t.PENDING_NONE) := by
  rw [dump_write_eq_emit]
  obtain ⟨e1, k1⟩ := emit_record_ser_ext W strict true hW
    { d with dsc_last_data_object := object,
             dsc_last_data_offset := (offset + lsize + 2 ^ 64 - 1) % 2 ^ 64 } hinv
    (fun x => dump_write_record W x type object offset lsize psize bp) data
    (fun x => dump_write_payload_size x lsize psize)
    (fun x => by rw [dump_write_record_type]; simp)
    (fun x => by rw [dump_write_record_type]; simp) (fun h => by cases h) hp
  exact ⟨ser_ext_trans W strict true _ _ _ (ser_ext_set_last W strict d _ _) e1, k1⟩

theorem dump_write_embedded_ser_ext (W : stream_codec) (strict : Bool) (hW : strict = true → stream_codec_ok W)
    (d : dmu_send_cookie_t) (object offset blksz : Nat) (bp : blkptr_t)
    (hinv : pending_inv d) :
    ser_ext W strict false d (dump_write_embedded W d object offset blksz bp).2 ∧
    ((dump_write_embedded W d object offset blksz bp).1 = 0 →
      (dump_write_embedded W d object offset blksz bp).2.dsc_pending_op =
        dmu_pendop_t.PENDING_NONE) := by
  rw [dump_write_embedded_eq_emit]
  exact emit_record_ser_ext W strict false hW d hinv _ _ _
    (fun x => by simp [dump_write_embedded_record])
    (fun x => by simp [dump_write_embedded_record])
    (fun _ x => by simp [dump_write_embedded_record]) (fun _ => by simp)

theorem dump_spill_ser_ext (W : stream_codec) (strict : Bool) (hW : strict = true → stream_codec_ok W)
    (d : dmu_send_cookie_t) (bp : blkptr_t) (object : Nat) (data : Option (List Nat))
    (hinv : pending_inv d) (hp : strict = true → data ≠ none) :
    ser_ext W strict false d (dump_spill W d bp object data).2 ∧
    ((dump_spill W d bp object data).1 = 0 →
      (dump_spill W d bp object data).2.dsc_pending_op = dmu_pendop_t.PENDING_NONE) := by
  rw [dump_spill_eq_emit]
  exact emit_record_ser_ext W strict false hW d hinv _ _ _
    (fun x => by rw [dump_spill_record_type]; simp)
    (fun x => by rw [dump_spill_record_type]; simp)
    (fun _ x => by rw [dump_spill_record_type]; simp) hp

theorem dump_dnode_record_type (d1 : dmu_send_cookie_t) (bp : Option blkptr_t) (object : Nat)
    (dn : dnode_phys_t) : (dump_dnode_record d1 bp object dn).drr_type = drr_type_t.DRR_OBJECT := by
  unfold dump_dnode_record
  split_ifs <;> rfl

theorem dump_dnode_eq_emit (W : stream_codec) (d : dmu_send_cookie_t) (bp : Option blkptr_t)
    (object : Nat) (dn : dnode_phys_t) (hr : ¬ object < d.dsc_resume_object)
    (ht : dn.dn_type ≠ DMU_OT_NONE) :
    dump_dnode W d bp object (some dn) =
      (if (emit_record W d (fun x => dump_dnode_record x bp object dn) (some dn.dn_bonus)
          (fun x => dump_dnode_bonuslen x dn)).1 ≠ 0 then
        emit_record W d (fun x => dump_dnode_record x bp object dn) (some dn.dn_bonus)
          (fun x => dump_dnode_bonuslen x dn)
      else
        (if (dump_free W (emit_record W d (fun x => dump_dnode_record x bp object dn)
              (some dn.dn_bonus) (fun x => dump_dnode_bonuslen x dn)).2 object
              (((dn.dn_maxblkid + 1) * (dn.dn_datablkszsec <<< SPA_MINBLOCKSHIFT)) % 2 ^ 64)
              UINT64_MAX).1 ≠ 0 ∨
            (dump_free W (emit_record W d (fun x => dump_dnode_record x bp object dn)
              (some dn.dn_bonus) (fun x => dump_dnode_bonuslen x dn)).2 object
              (((dn.dn_maxblkid + 1) * (dn.dn_datablkszsec <<< SPA_MINBLOCKSHIFT)) % 2 ^ 64)
              UINT64_MAX).2.dsc_err ≠ 0 then EINTR else 0,
          (dump_free W (emit_record W d (fun x => dump_dnode_record x bp object dn)
              (some dn.dn_bonus) (fun x => dump_dnode_bonuslen x dn)).2 object
              (((dn.dn_maxblkid + 1) * (dn.dn_datablkszsec <<< SPA_MINBLOCKSHIFT)) % 2 ^ 64)
              UINT64_MAX).2)) := by
  simp only [dump_dnode, emit_record, if_neg hr, if_neg ht]
  generalize (if d.dsc_pending_op ≠ dmu_pendop_t.PENDING_NONE then push_out_pending W d
    else (0, d)) = r1
  by_cases h1 : r1.1 ≠ 0
  · simp only [if_pos h1]
  · simp only [if_neg h1]
    generalize dump_record W _ _ _ = r2
    by_cases h2 : r2.1 ≠ 0
    · simp [if_pos h2, EINTR]
    · simp only [if_neg h2, ne_eq, not_true_eq_false, if_false]
      generalize dump_free W _ _ _ _ = r3
      by_cases h3 : r3.1 ≠ 0
      · simp [h3]
      · by_cases h4 : r3.2.dsc_err ≠ 0
        · simp [h3, h4]
        · simp [h3, h4]

theorem dump_dnode_ser_ext (W : stream_codec) (strict : Bool) (hW : strict = true → stream_codec_ok W)
    (d : dmu_send_cookie_t) (bp : Option blkptr_t) (object : Nat) (dnp : Option dnode_phys_t)
    (hinv : pending_inv d) :
    ser_ext W strict false d (dump_dnode W d bp object dnp).2 ∧
    ((dump_dnode W d bp object dnp).1 = 0 → pending_inv (dump_dnode W d bp object dnp).2) := by
  by_cases hr : object < d.dsc_resume_object
  · simp only [dump_dnode, if_pos hr]
    exact ⟨ser_ext_refl W strict false d, fun _ => hinv⟩
  cases dnp with
  | none =>
    simp only [dump_dnode, if_neg hr]
    exact dump_freeobjects_ser_ext W strict hW d object 1 hinv
  | some dn =>
    by_cases ht : dn.dn_type = DMU_OT_NONE
    · simp only [dump_dnode, if_neg hr, if_pos ht]
      exact dump_freeobjects_ser_ext W strict hW d object 1 hinv
    rw [dump_dnode_eq_emit W d bp object dn hr ht]
    obtain ⟨e1, k1⟩ := emit_record_ser_ext W strict false hW d hinv
      (fun x => dump_dnode_record x bp object dn) (some dn.dn_bonus)
      (fun x => dump_dnode_bonuslen x dn)
      (fun x => by rw [dump_dnode_record_type]; simp)
      (fun x => by rw [dump_dnode_record_type]; simp)
      (fun _ x => by rw [dump_dnode_record_type]; simp) (fun _ => by simp)
    generalize emit_record W d _ _ _ = r at e1 k1 ⊢
    by_cases h1 : r.1 ≠ 0
    · rw [if_pos h1]
      exact ⟨e1, fun h => absurd h h1⟩
    rw [if_neg h1]
    obtain ⟨e3, k3⟩ := dump_free_ser_ext W strict hW r.2 object
      (((dn.dn_maxblkid + 1) * (dn.dn_datablkszsec <<< SPA_MINBLOCKSHIFT)) % 2 ^ 64) UINT64_MAX
      (pending_inv_none _ (k1 (not_not.1 h1)))
    generalize dump_free W r.2 _ _ _ = r3 at e3 k3 ⊢
    refine ⟨ser_ext_trans W strict false _ _ _ e1 e3, fun h => k3 ?_⟩
    by_contra hc
    simp [hc, EINTR] at h

theorem do_dump_split_ser_ext (W : stream_codec) (strict : Bool) (hW : strict = true → stream_codec_ok W)
    (type object : Nat) :
    ∀ (fuel offset : Nat) (buf : List Nat) (datablksz err : Nat) (d : dmu_send_cookie_t)
      (r : Nat × dmu_send_cookie_t),
      pending_inv d → do_dump_split W type object fuel offset buf datablksz err d = some r →
      ser_ext W strict true d r.2 ∧ (r.1 = 0 → pending_inv r.2) := by
  intro fuel
  induction fuel with
  | zero =>
    intro offset buf datablksz err d r hinv h
    simp only [do_dump_split] at h
    split_ifs at h
    cases h
    exact ⟨ser_ext_refl W strict true d, fun _ => hinv⟩
  | succ fuel ih =>
    intro offset buf datablksz err d r hinv h
    simp only [do_dump_split] at h
    split_ifs at h with hc
    · obtain ⟨e1, k1⟩ := dump_write_ser_ext W strict hW d type object offset
        (min datablksz SPA_OLD_MAXBLOCKSIZE) (min datablksz SPA_OLD_MAXBLOCKSIZE) none
        (some buf) hinv (fun _ => by simp)
      generalize dump_write W d type object offset _ _ none (some buf) = w at e1 k1 h
      by_cases hw : w.1 = 0
      · obtain ⟨e2, k2⟩ := ih _ _ _ _ _ _ (pending_inv_none _ (k1 hw)) h
        exact ⟨ser_ext_trans W strict true _ _ _ e1 e2, k2⟩
      · cases fuel with
        | zero =>
          simp only [do_dump_split] at h
          rw [if_neg (fun hx => hw hx.2)] at h
          cases h
          exact ⟨e1, fun hx => absurd hx hw⟩
        | succ fuel =>
          simp only [do_dump_split] at h
          rw [if_neg (fun hx => hw hx.2)] at h
          cases h
          exact ⟨e1, fun hx => absurd hx hw⟩
    · cases h
      exact ⟨ser_ext_refl W strict true d, fun _ => hinv⟩

theorem arc_read_abuf_of_err (E : do_dump_env) (hE : do_dump_env_ok E) (range : send_range)
    (raw compressed : Bool) (h : arc_read_err (E.arc_read range raw compressed) = 0) :
    arc_read_abuf (E.arc_read range raw compressed) ≠ none := by
  have h1 := hE range raw compressed
  cases hrd : E.arc_read range raw compressed with
  | ok abuf => simp [arc_read_abuf]
  | failed err =>
    rw [hrd] at h h1
    simp only [arc_read_err] at h
    rw [h] at h1
    exact absurd rfl h1

theorem do_dump_data_action_payload (E : do_dump_env) (hE : do_dump_env_ok E)
    (d : dmu_send_cookie_t) (range : send_range) (bp : blkptr_t)
    (hdry : d.dsc_dso.dso_dryrun = false) :
    (∀ data, do_dump_data_action E d range bp = data_action.spill data → data ≠ none) ∧
    (∀ psize data, do_dump_data_action E d range bp = data_action.write psize data →
      data ≠ none) := by
  have key : ∀ a, do_dump_data_action E d range bp = a →
      (∀ data, a = data_action.spill data → data ≠ none) ∧
      (∀ psize data, a = data_action.write psize data → data ≠ none) := by
    intro a h
    simp only [do_dump_data_action, hdry, if_true, and_true] at h
    by_cases c1 : bp.bp_type = DMU_OT_SA
    · rw [if_pos c1] at h
      split at h
      · subst h
        exact ⟨fun data hd => (by cases hd; simp), fun psize data hd => (by cases hd)⟩
      · split_ifs at h <;> subst h <;>
          exact ⟨fun data hd => (by cases hd), fun psize data hd => (by cases hd)⟩
    rw [if_neg c1] at h
    by_cases c2 : send_do_embed d bp = true
    · rw [if_pos c2] at h
      subst h
      exact ⟨fun data hd => (by cases hd), fun psize data hd => (by cases hd)⟩
    rw [if_neg c2] at h
    generalize hrd : E.arc_read range _ _ = rd at h
    have hne : rd ≠ arc_read_result.failed 0 := by rw [← hrd]; exact hE _ _ _
    cases rd with
    | ok abuf =>
      simp only [arc_read_err, arc_read_abuf, ne_eq, not_true_eq_false, false_and, if_false] at h
      split_ifs at h <;> subst h <;>
        exact ⟨fun data hd => (by cases hd), fun psize data hd => (by first | (cases hd; simp) | cases hd)⟩
    | failed err =>
      have he : err ≠ 0 := fun h0 => hne (by rw [h0])
      simp only [arc_read_err, arc_read_abuf, ne_eq, he, not_false_eq_true, true_and,
        if_true] at h
      split_ifs at h <;> subst h <;>
        exact ⟨fun data hd => (by cases hd), fun psize data hd => (by first | (cases hd; simp) | cases hd)⟩
  exact key _ rfl

theorem do_dump_ser_ext (W : stream_codec) (strict : Bool) (hW : strict = true → stream_codec_ok W)
    (E : do_dump_env) (d : dmu_send_cookie_t) (range : send_range)
    (r : Nat × dmu_send_cookie_t) (hinv : pending_inv d)
    (hs : strict = true → d.dsc_dso.dso_dryrun = false ∧ do_dump_env_ok E)
    (h : do_dump W E d range = some r) :
    ser_ext W strict true d r.2 ∧ (r.1 = 0 → pending_inv r.2) := by
  unfold do_dump at h
  cases ht : range.type with
  | OBJECT =>
    simp only [ht] at h
    cases h
    obtain ⟨e, k⟩ := dump_dnode_ser_ext W strict hW d none range.object range.sru.dnp hinv
    exact ⟨ser_ext_wr W strict _ _ e, k⟩
  | REDACT =>
    simp only [ht] at h
    cases h
    obtain ⟨e, k⟩ := dump_redact_ser_ext W strict hW d range.object
      ((range.start_blkid * range.sru.datablksz) % 2 ^ 64)
      ((((range.end_blkid + 2 ^ 64 - range.start_blkid) % 2 ^ 64) * range.sru.datablksz) %
        2 ^ 64) hinv
    exact ⟨ser_ext_wr W strict _ _ e, k⟩
  | PREVIOUSLY_REDACTED =>
    simp only [ht] at h
    cases h
  | HOLE =>
    simp only [ht] at h
    by_cases c1 : range.object = DMU_META_DNODE_OBJECT
    · rw [if_pos c1] at h
      cases h
      exact ⟨ser_ext_wr W strict _ _ (dump_freeobjects_ser_ext W strict hW d _ _ hinv).1,
        (dump_freeobjects_ser_ext W strict hW d _ _ hinv).2⟩
    rw [if_neg c1] at h
    by_cases c2 : (overflow_multiply range.start_blkid range.sru.datablksz 0).1 = false
    · rw [if_pos c2] at h
      cases h
      exact ⟨ser_ext_refl W strict true d, fun _ => hinv⟩
    · rw [if_neg c2] at h
      cases h
      exact ⟨ser_ext_wr W strict _ _ (dump_free_ser_ext W strict hW d _ _ _ hinv).1,
        (dump_free_ser_ext W strict hW d _ _ _ hinv).2⟩
  | DATA =>
    simp only [ht] at h
    cases hbp : range.sru.bp with
    | none => simp only [hbp] at h; cases h
    | some bp =>
      simp only [hbp] at h
      cases ha : do_dump_data_action E d range bp with
      | fail err =>
        simp only [ha] at h
        cases h
        exact ⟨ser_ext_refl W strict true d, fun _ => hinv⟩
      | crash => simp only [ha] at h; cases h
      | spill data =>
        simp only [ha] at h
        cases h
        obtain ⟨e, k⟩ := dump_spill_ser_ext W strict hW d bp range.object data hinv
          (fun hst => (do_dump_data_action_payload E (hs hst).2 d range bp (hs hst).1).1 data ha)
        exact ⟨ser_ext_wr W strict _ _ e, fun hk => pending_inv_none _ (k hk)⟩
      | embedded =>
        simp only [ha] at h
        cases h
        obtain ⟨e, k⟩ := dump_write_embedded_ser_ext W strict hW d range.object
          ((range.start_blkid * range.sru.datablksz) % 2 ^ 64) range.sru.datablksz bp hinv
        exact ⟨ser_ext_wr W strict _ _ e, fun hk => pending_inv_none _ (k hk)⟩
      | split buf err =>
        simp only [ha] at h
        exact do_dump_split_ser_ext W strict hW _ _ _ _ _ _ _ _ _ hinv h
      | write psize data =>
        simp only [ha] at h
        cases h
        obtain ⟨e, k⟩ := dump_write_ser_ext W strict hW d range.sru.obj_type range.object
          ((range.start_blkid * range.sru.datablksz) % 2 ^ 64) range.sru.datablksz psize
          (some bp) data hinv
          (fun hst =>
            (do_dump_data_action_payload E (hs hst).2 d range bp (hs hst).1).2 psize data ha)
        exact ⟨e, fun hk => pending_inv_none _ (k hk)⟩

theorem dmu_send_main_loop_stop (W : stream_codec) (E : do_dump_env) (issig : Nat → Bool)
    (q : List send_range) (range : send_range) (err : Nat) (d : dmu_send_cookie_t) (i : Nat)
    (h : ¬ (err = 0 ∧ range.eos_marker = false)) :
    dmu_send_main_loop W E issig q range err d i = some (err, d, range, q) := by
  cases q <;> simp only [dmu_send_main_loop, if_neg h]

theorem dmu_send_main_loop_ser_ext (W : stream_codec) (strict : Bool) (hW : strict = true → stream_codec_ok W)
    (E : do_dump_env) (issig : Nat → Bool) :
    ∀ (q : List send_range) (range : send_range) (err : Nat) (d : dmu_send_cookie_t) (i : Nat)
      (r : Nat × dmu_send_cookie_t × send_range × List send_range),
      pending_inv d → (strict = true → d.dsc_dso.dso_dryrun = false ∧ do_dump_env_ok E) →
      dmu_send_main_loop W E issig q range err d i = some r →
      ser_ext W strict true d r.2.1 ∧ (r.1 = 0 → pending_inv r.2.1) := by
  intro q
  induction q with
  | nil =>
    intro range err d i r hinv hs h
    by_cases hc : err = 0 ∧ range.eos_marker = false
    · simp only [dmu_send_main_loop, if_pos hc] at h
      cases h
    · rw [dmu_send_main_loop_stop W E issig _ _ _ _ _ hc] at h
      cases h
      exact ⟨ser_ext_refl W strict true d, fun _ => hinv⟩
  | cons next rest ih =>
    intro range err d i r hinv hs h
    by_cases hc : err = 0 ∧ range.eos_marker = false
    · simp only [dmu_send_main_loop, if_pos hc] at h
      cases hd : do_dump W E d range with
      | none => simp only [hd] at h; cases h
      | some r1 =>
        simp only [hd] at h
        obtain ⟨e1, k1⟩ := do_dump_ser_ext W strict hW E d range r1 hinv hs hd
        generalize he : (if issig i = true then EINTR else r1.1) = e at h
        by_cases hz : e = 0
        · have hr1 : r1.1 = 0 := by
            by_cases hsig : issig i = true
            · rw [if_pos hsig] at he
              rw [← he] at hz
              simp [EINTR] at hz
            · rw [if_neg hsig] at he
              rw [he]; exact hz
          obtain ⟨e2, k2⟩ := ih next e r1.2 (i + 1) r (k1 hr1)
            (fun hst => by rw [e1.1]; exact hs hst) h
          exact ⟨ser_ext_trans W strict true _ _ _ e1 e2, k2⟩
        · rw [dmu_send_main_loop_stop W E issig _ _ _ _ _ (fun hx => hz hx.1)] at h
          cases h
          exact ⟨e1, fun hx => absurd hx hz⟩
    · rw [dmu_send_main_loop_stop W E issig _ _ _ _ _ hc] at h
      cases h
      exact ⟨ser_ext_refl W strict true d, fun _ => hinv⟩

/-! ## BEGIN and END of a successful send (C17) -/

theorem dump_record_err_ne (W : stream_codec) (d : dmu_send_cookie_t)
    (p : Option (List Nat)) (n : Nat) (h : (dump_record W d p n).1 ≠ 0) :
    (dump_record W d p n).2.dsc_err ≠ 0 :=
  fun h0 => h ((dump_record_err W d p n).2.2 h0)

/-- The statements of `dmu_send_impl` behind the BEGIN record return 0 only
through the call of `dump_record` for the END record, made in a state `r3` that
the serializer functions reach from the state behind the BEGIN record. -/
theorem dmu_send_serialize_end (W : stream_codec) (strict : Bool)
    (hW : strict = true → stream_codec_ok W) (X : dmu_send_world)
    (b d : dmu_send_cookie_t) (err : Nat) (hinv : pending_inv b)
    (hs : strict = true → b.dsc_dso.dso_dryrun = false ∧ do_dump_env_ok X.env)
    (h : dmu_send_serialize W X b = some (err, d)) :
    err ≠ 0 ∨
    ∃ r3, ser_ext W strict true b r3 ∧
      d = (dump_record W { r3 with dsc_drr := dmu_send_end_record r3 } none 0).2 ∧
      (dump_record W { r3 with dsc_drr := dmu_send_end_record r3 } none 0).1 = 0 := by
  unfold dmu_send_serialize at h
  cases hq : bqueue_dequeue X.spt_q with
  | none => simp only [hq] at h; cases h
  | some rq =>
    obtain ⟨range0, q0⟩ := rq
    simp only [hq] at h
    cases hl : dmu_send_main_loop W X.env X.issig q0 range0 0 b 0 with
    | none => simp only [hl] at h; cases h
    | some rl =>
      obtain ⟨err1, dsc1, range1, q1⟩ := rl
      simp only [hl] at h
      obtain ⟨e1, k1⟩ := dmu_send_main_loop_ser_ext W strict hW X.env X.issig q0 range0 0 b 0 _
        hinv hs hl
      simp only [] at e1 k1
      cases hdr : (if err1 ≠ 0 then send_merge_drain range1 q1 else some range1) with
      | none => simp only [hdr] at h; cases h
      | some rd =>
        simp only [hdr] at h
        by_cases h2 : (if err1 = 0 ∧ X.spt_error ≠ 0 then X.spt_error else err1) ≠ 0
        · rw [if_pos h2] at h
          cases h
          exact Or.inl h2
        rw [if_neg h2] at h
        have herr1 : err1 = 0 := by
          by_contra hne
          exact h2 (by rw [if_neg (fun hx => hne hx.1)]; exact hne)
        have hinv1 := k1 herr1
        have e3 : ser_ext W strict true dsc1
            (if dsc1.dsc_pending_op ≠ dmu_pendop_t.PENDING_NONE then dump_record W dsc1 none 0
              else (0, dsc1)).2 := by
          by_cases hp : dsc1.dsc_pending_op ≠ dmu_pendop_t.PENDING_NONE
          · rw [if_pos hp]
            obtain ⟨t1, t2, -⟩ := pending_inv_type dsc1 hinv1 hp
            exact dump_record_ser_ext W strict true hW dsc1 none 0 t1 t2 (fun hf => by cases hf)
              (fun _ hf => absurd rfl hf)
          · rw [if_neg hp]
            exact ser_ext_refl W strict true dsc1
        have hr3 : (if dsc1.dsc_pending_op ≠ dmu_pendop_t.PENDING_NONE then
            dump_record W dsc1 none 0 else (0, dsc1)).1 ≠ 0 →
            (if dsc1.dsc_pending_op ≠ dmu_pendop_t.PENDING_NONE then
              dump_record W dsc1 none 0 else (0, dsc1)).2.dsc_err ≠ 0 := by
          by_cases hp : dsc1.dsc_pending_op ≠ dmu_pendop_t.PENDING_NONE
          · rw [if_pos hp]
            exact dump_record_err_ne W dsc1 none 0
          · rw [if_neg hp]
            intro hx
            exact absurd rfl hx
        generalize (if dsc1.dsc_pending_op ≠ dmu_pendop_t.PENDING_NONE then
          dump_record W dsc1 none 0 else (0, dsc1)) = r3 at h e3 hr3
        generalize he2 : (if err1 = 0 ∧ X.spt_error ≠ 0 then X.spt_error else err1) = err2
          at h h2
        have herr2 : err2 = 0 := not_not.1 h2
        subst herr2
        by_cases h3 : r3.1 ≠ 0
        · simp only [if_pos h3, EINTR, true_and] at h
          rw [if_pos (by simp), if_pos (hr3 h3)] at h
          cases h
          exact Or.inl (hr3 h3)
        simp only [if_neg h3, ne_eq, not_true_eq_false, if_false] at h
        by_cases h4 : (dump_record W { r3.2 with dsc_drr := dmu_send_end_record r3.2 }
            none 0).1 ≠ 0
        · rw [if_pos h4] at h
          cases h
          exact Or.inl (dump_record_err_ne W _ none 0 h4)
        rw [if_neg h4] at h
        cases h
        exact Or.inr ⟨r3.2, ser_ext_trans W strict true _ _ _ e1 e3, rfl, not_not.1 h4⟩

theorem dmu_send_serialize_spec (W : stream_codec) (X : dmu_send_world)
    (b d : dmu_send_cookie_t) (err : Nat) (hinv : pending_inv b)
    (hbegin : b.dsc_sent_begin = true)
    (h : dmu_send_serialize W X b = some (err, d)) :
    (err = 0 →
      ∃ mid e, d.dsc_out = b.dsc_out ++ mid ++ [out_chunk.header e] ∧
        e.drr_type = drr_type_t.DRR_END ∧ e.drr_toguid = b.dsc_toguid ∧
        (∀ h, out_chunk.header h ∈ mid →
          h.drr_type ≠ drr_type_t.DRR_BEGIN ∧ h.drr_type ≠ drr_type_t.DRR_END) ∧
        d.dsc_sent_begin = true ∧ d.dsc_sent_end = true) ∧
    (err ≠ 0 ∨ (d.dsc_sent_begin = true ∧ d.dsc_sent_end = true)) := by
  have key : err = 0 →
      ∃ mid e, d.dsc_out = b.dsc_out ++ mid ++ [out_chunk.header e] ∧
        e.drr_type = drr_type_t.DRR_END ∧ e.drr_toguid = b.dsc_toguid ∧
        (∀ h, out_chunk.header h ∈ mid →
          h.drr_type ≠ drr_type_t.DRR_BEGIN ∧ h.drr_type ≠ drr_type_t.DRR_END) ∧
        d.dsc_sent_begin = true ∧ d.dsc_sent_end = true := by
    intro h0
    rcases dmu_send_serialize_end W false (fun hf => by cases hf) X b d err hinv
      (fun hf => by cases hf) h with hne | ⟨r3, e13, hd, -⟩
    · exact absurd h0 hne
    obtain ⟨-, a2, -, -, -, a6, -, ⟨mid, a8, a9⟩, -, -⟩ := e13
    obtain ⟨-, -, -, -, -, -, f7, f8⟩ := dump_record_fields W
      { r3 with dsc_drr := dmu_send_end_record r3 } none 0
    have hout := dump_record_out_nopayload W { r3 with dsc_drr := dmu_send_end_record r3 }
    have hsb : d.dsc_sent_begin = true := by
      rw [hd, f7]
      simp only [dmu_send_end_record]
      exact a6 hbegin
    have hse : d.dsc_sent_end = true := by
      rw [hd, f8]
      simp [dmu_send_end_record]
    refine ⟨mid, dump_record_header W { r3 with dsc_drr := dmu_send_end_record r3 },
      by rw [hd, hout, a8], ?_, ?_, fun x hx =>
      ⟨(a9 x hx).1, (a9 x hx).2.1⟩, hsb, hse⟩
    · rw [dump_record_header_type]
      rfl
    · have : (dump_record_header W { r3 with dsc_drr := dmu_send_end_record r3 }).drr_toguid
          = r3.dsc_toguid := by
        simp only [dump_record_header, dmu_send_end_record]
        split_ifs <;> rfl
      exact this.trans a2
  refine ⟨key, ?_⟩
  by_cases h0 : err = 0
  · obtain ⟨-, -, -, -, -, -, t5, t6⟩ := key h0
    exact Or.inr ⟨t5, t6⟩
  · exact Or.inl h0

theorem dmu_send_begin_spec (W : stream_codec) (P : dmu_send_params) (X : dmu_send_world) :
    (∃ b pl, (dmu_send_begin W P X).2.dsc_out = out_chunk.header b :: pl ∧
      b.drr_type = drr_type_t.DRR_BEGIN ∧ ∀ h, out_chunk.header h ∉ pl) ∧
    (dmu_send_begin W P X).2.dsc_pending_op = dmu_pendop_t.PENDING_NONE ∧
    (dmu_send_begin W P X).2.dsc_sent_begin = true ∧
    (dmu_send_begin W P X).2.dsc_toguid = X.ds_guid ∧
    (dmu_send_begin W P X).2.dsc_dso = P.dso ∧
    ((dmu_send_begin W P X).1 ≠ 0 → (dmu_send_begin W P X).2.dsc_err ≠ 0) ∧
    (stream_codec_ok W → cksum_inv W (dmu_send_begin W P X).2) := by
  have h0 : cksum_inv W (dmu_send_cookie_init P X) :=
    ⟨[], by simp [dmu_send_cookie_init, stream_bytes], by simp [dmu_send_cookie_init]⟩
  unfold dmu_send_begin
  cases X.nvl_packed with
  | none =>
    simp only []
    obtain ⟨f1, -, -, -, -, -, f7, -⟩ := dump_record_fields W (dmu_send_cookie_init P X) none 0
    refine ⟨⟨_, _, dump_record_out W _ none 0, ?_, ?_⟩, dump_record_pending_op W _ none 0, ?_,
      dump_record_toguid W _ none 0, f1, dump_record_err_ne W _ none 0, fun hW =>
        dump_record_cksum_inv W hW _ none 0 h0 (by simp)⟩
    · rw [dump_record_header_type]; rfl
    · intro h hh
      split_ifs at hh <;> simp at hh
    · rw [f7]; rfl
  | some bytes =>
    simp only []
    obtain ⟨f1, -, -, -, -, -, f7, -⟩ := dump_record_fields W
      { dmu_send_cookie_init P X with
        dsc_drr := { (dmu_send_cookie_init P X).dsc_drr with drr_payloadlen := bytes.length } }
      (some bytes) bytes.length
    refine ⟨⟨_, _, dump_record_out W _ (some bytes) bytes.length, ?_, ?_⟩,
      dump_record_pending_op W _ (some bytes) bytes.length, ?_,
      dump_record_toguid W _ (some bytes) bytes.length, f1,
      dump_record_err_ne W _ (some bytes) bytes.length, fun hW =>
        dump_record_cksum_inv W hW _ (some bytes) bytes.length h0 (by simp)⟩
    · rw [dump_record_header_type]; rfl
    · intro h hh
      split_ifs at hh <;> simp at hh
    · rw [f7]; rfl

theorem dmu_send_body_cases (W : stream_codec) (P : dmu_send_params) (X : dmu_send_world)
    (flag : Bool) (err : Nat) (d : dmu_send_cookie_t)
    (h : dmu_send_body W P X = some (flag, err, d)) :
    err ≠ 0 ∨
    (flag = true ∧ (dmu_send_begin W P X).1 = 0 ∧
      dmu_send_serialize W X (dmu_send_begin W P X).2 = some (err, d)) := by
  simp only [dmu_send_body] at h
  by_cases c1 : X.objset_from_ds_err ≠ 0
  · rw [if_pos c1] at h; cases h
    exact Or.inl c1
  rw [if_neg c1] at h
  by_cases c2 : (P.rawok = false ∧ X.os_encrypted = true ∧ X.unauthenticated = true) ∧
      X.untransform_err ≠ 0
  · rw [if_pos c2] at h; cases h
    exact Or.inl c2.2
  rw [if_neg c2] at h
  by_cases c3 : X.featureflags_err ≠ 0
  · rw [if_pos c3] at h; cases h
    exact Or.inl c3
  rw [if_neg c3] at h
  by_cases c4 : P.redactbook = true ∧ X.redact_hold_err ≠ 0
  · rw [if_pos c4] at h; cases h
    exact Or.inl (by simp [EINVAL])
  rw [if_neg c4] at h
  by_cases c5 : P.ancestor_redaction_obj ≠ 0 ∧ X.from_hold_err ≠ 0
  · rw [if_pos c5] at h; cases h
    exact Or.inl (by simp [EINVAL])
  rw [if_neg c5] at h
  by_cases c6 : decide (P.resumeobj ≠ 0 ∨ P.resumeoff ≠ 0) = true ∧ X.resume_points_err ≠ 0
  · rw [if_pos c6] at h; cases h
    exact Or.inl c6.2
  rw [if_neg c6] at h
  by_cases c7 : X.featureflags &&& DMU_BACKUP_FEATURE_RAW ≠ 0 ∧ X.key_nvlist_err ≠ 0
  · rw [if_pos c7] at h; cases h
    exact Or.inl c7.2
  rw [if_neg c7] at h
  by_cases c8 : (dmu_send_begin W P X).1 ≠ 0
  · rw [if_pos c8] at h; cases h
    exact Or.inl ((dmu_send_begin_spec W P X).2.2.2.2.2.1 c8)
  rw [if_neg c8] at h
  cases hs : dmu_send_serialize W X (dmu_send_begin W P X).2 with
  | none => simp only [hs] at h; cases h
  | some r1 =>
    simp only [hs] at h
    cases h
    exact Or.inr ⟨rfl, not_not.1 c8, rfl⟩

theorem dmu_send_body_false (W : stream_codec) (P : dmu_send_params) (X : dmu_send_world)
    (err : Nat) (d : dmu_send_cookie_t) (h : dmu_send_body W P X = some (false, err, d)) :
    err ≠ 0 := by
  rcases dmu_send_body_cases W P X false err d h with h1 | ⟨h1, -⟩
  · exact h1
  · cases h1

theorem dmu_send_impl_ok (W : stream_codec) (P : dmu_send_params) (X : dmu_send_world)
    (d : dmu_send_cookie_t) (h : dmu_send_impl W P X = some (0, d)) :
    (dmu_send_begin W P X).1 = 0 ∧
    dmu_send_serialize W X (dmu_send_begin W P X).2 = some (0, d) := by
  unfold dmu_send_impl at h
  cases hb : dmu_send_body W P X with
  | none => simp only [hb] at h; cases h
  | some r =>
    obtain ⟨flag, err, dsc⟩ := r
    cases flag with
    | false =>
      simp only [hb] at h
      cases h
      exact absurd rfl (dmu_send_body_false W P X 0 d hb)
    | true =>
      simp only [hb, dmu_send_out] at h
      split_ifs at h
      cases h
      rcases dmu_send_body_cases W P X true 0 d hb with h1 | ⟨-, h2, h3⟩
      · exact absurd rfl h1
      · exact ⟨h2, h3⟩

theorem dmu_send_body_spec (W : stream_codec) (P : dmu_send_params) (X : dmu_send_world)
    (err : Nat) (d : dmu_send_cookie_t)
    (h : dmu_send_body W P X = some (true, err, d)) :
    (err = 0 →
      ∃ b mid e, d.dsc_out = out_chunk.header b :: mid ++ [out_chunk.header e] ∧
        b.drr_type = drr_type_t.DRR_BEGIN ∧ e.drr_type = drr_type_t.DRR_END ∧
        e.drr_toguid = X.ds_guid ∧
        (∀ h, out_chunk.header h ∈ mid →
          h.drr_type ≠ drr_type_t.DRR_BEGIN ∧ h.drr_type ≠ drr_type_t.DRR_END) ∧
        d.dsc_sent_begin = true ∧ d.dsc_sent_end = true) ∧
    (err ≠ 0 ∨ (d.dsc_sent_begin = true ∧ d.dsc_sent_end = true)) := by
  rcases dmu_send_body_cases W P X true err d h with h1 | ⟨-, -, hs⟩
  · exact ⟨fun h0 => absurd h0 h1, Or.inl h1⟩
  obtain ⟨⟨b, pl, g1, g2, g3⟩, g4, g5, g6, -, g7, -⟩ := dmu_send_begin_spec W P X
  obtain ⟨s1, s2⟩ := dmu_send_serialize_spec W X _ _ _ (pending_inv_none _ g4) g5 hs
  refine ⟨fun h0 => ?_, s2⟩
  obtain ⟨mid, e, t1, t2, t3, t4, t5, t6⟩ := s1 h0
  rw [g1] at t1
  refine ⟨b, pl ++ mid, e, ?_, g2, t2, by rw [t3, g6], ?_, t5, t6⟩
  · rw [t1]; simp
  · intro x hx
    rcases List.mem_append.1 hx with hx | hx
    · exact absurd hx (g3 x)
    · exact t4 x hx

/-- C17.  Whenever `dmu_send_impl` returns 0, the buffers handed to the output
function start with a BEGIN header and end with an END header that carries the
guid of the target dataset, no header in between is a BEGIN or an END header,
and `dsc_sent_begin` and `dsc_sent_end` are both set.  On every path that
reaches the label `out`, the condition of the final `VERIFY` holds: `err` is
not 0 or both flags are set. -/
theorem dmu_send_impl_begin_end (W : stream_codec) (P : dmu_send_params)
    (X : dmu_send_world) :
    (∀ d, dmu_send_impl W P X = some (0, d) →
      ∃ b mid e, d.dsc_out = out_chunk.header b :: mid ++ [out_chunk.header e] ∧
        b.drr_type = drr_type_t.DRR_BEGIN ∧ e.drr_type = drr_type_t.DRR_END ∧
        e.drr_toguid = X.ds_guid ∧
        (∀ h, out_chunk.header h ∈ mid →
          h.drr_type ≠ drr_type_t.DRR_BEGIN ∧ h.drr_type ≠ drr_type_t.DRR_END) ∧
        d.dsc_sent_begin = true ∧ d.dsc_sent_end = true) ∧
    (∀ err dsc, dmu_send_body W P X = some (true, err, dsc) →
      (err ≠ 0 ∨ (dsc.dsc_sent_begin = true ∧ dsc.dsc_sent_end = true)) ∧
      dmu_send_out err dsc = some (err, dsc)) := by
  constructor
  · intro d h
    unfold dmu_send_impl at h
    cases hb : dmu_send_body W P X with
    | none => simp only [hb] at h; cases h
    | some r =>
      obtain ⟨flag, err, dsc⟩ := r
      cases flag with
      | false =>
        simp only [hb] at h
        cases h
        exact absurd rfl (dmu_send_body_false W P X 0 d hb)
      | true =>
        simp only [hb, dmu_send_out] at h
        split_ifs at h
        cases h
        exact (dmu_send_body_spec W P X 0 d hb).1 rfl
  · intro err dsc hb
    have s2 := (dmu_send_body_spec W P X err dsc hb).2
    refine ⟨s2, ?_⟩
    unfold dmu_send_out
    rw [if_pos s2]

/-- An instance of C17: a send of an OBJECT record and a DATA record hands six
buffers to the output function, a BEGIN header first and an END header with
the guid 77 of the target last. -/
theorem dmu_send_impl_begin_end_example :
    (dmu_send_impl sample_codec (sample_params fun _ => 0)
      (sample_world [sample_object_range 1, sample_data_range 1 0, eos_record] 0)).map
      (fun r => (r.1, r.2.dsc_out.map fun c =>
        match c with
        | out_chunk.header h => some (h.drr_type, h.drr_toguid)
        | out_chunk.payload _ _ => none)) =
    some (0, [some (drr_type_t.DRR_BEGIN, 77), some (drr_type_t.DRR_OBJECT, 77),
      some (drr_type_t.DRR_FREE, 77), some (drr_type_t.DRR_WRITE, 77), none,
      some (drr_type_t.DRR_END, 77)]) := by
  decide

/-! ## The checksum of the END record (C12) -/

/-- C12.  For every non-dry-run send that returns 0 (with an incremental hash,
and reads that give a buffer whenever they return 0), the last buffer handed to
the output function is the END header, and its trailing checksum field is the
incremental hash, from zero, of all bytes emitted in front of that field: the
bytes of all buffers handed over before, then the bytes of the END header in
front of its checksum field.  Hashing further bytes from the member
`drr_u.drr_end.drr_checksum` of the END record gives what hashing all bytes in
front of the END record and then these bytes gives; so that member is the hash
of all bytes in front of the END record when hashing no bytes changes
nothing. -/
theorem dmu_send_impl_end_checksum (W : stream_codec) (hW : stream_codec_ok W)
    (P : dmu_send_params) (X : dmu_send_world) (d : dmu_send_cookie_t)
    (hdry : P.dso.dso_dryrun = false) (hE : do_dump_env_ok X.env)
    (h : dmu_send_impl W P X = some (0, d)) :
    ∃ pre e bytes, d.dsc_out = pre ++ [out_chunk.header e] ∧
      e.drr_type = drr_type_t.DRR_END ∧ stream_bytes W pre = some bytes ∧
      e.drr_checksum =
        W.fletcher_4_incremental_native (bytes ++ W.header_bytes e) zio_cksum_zero ∧
      (∀ s, W.fletcher_4_incremental_native s e.drr_end_checksum =
        W.fletcher_4_incremental_native (bytes ++ s) zio_cksum_zero) ∧
      ((∀ z, W.fletcher_4_incremental_native [] z = z) →
        e.drr_end_checksum = W.fletcher_4_incremental_native bytes zio_cksum_zero) := by
  obtain ⟨hb, hs⟩ := dmu_send_impl_ok W P X d h
  obtain ⟨-, g4, -, -, g6, -, g8⟩ := dmu_send_begin_spec W P X
  rcases dmu_send_serialize_end W true (fun _ => hW) X _ d 0 (pending_inv_none _ g4)
    (fun _ => ⟨by rw [g6]; exact hdry, hE⟩) hs with hne | ⟨r3, e13, hd, -⟩
  · exact absurd rfl hne
  obtain ⟨bytes, hbytes, hz⟩ := e13.2.2.2.2.2.2.2.2.1 rfl (g8 hW)
  have hne : ({ r3 with dsc_drr := dmu_send_end_record r3 } : dmu_send_cookie_t).dsc_drr.drr_type
      ≠ drr_type_t.DRR_BEGIN := by
    simp [dmu_send_end_record]
  have hhdr := dump_record_header_cksum W _ hne
  refine ⟨r3.dsc_out, dump_record_header W { r3 with dsc_drr := dmu_send_end_record r3 }, bytes,
    ?_, ?_, hbytes, ?_, ?_, ?_⟩
  · rw [hd, dump_record_out_nopayload]
  · rw [dump_record_header_type]; rfl
  · rw [dump_record_header_bytes W hW]
    rw [hhdr]
    exact hz _
  · intro s
    rw [hhdr]
    exact hz s
  · intro hnil
    rw [hhdr]
    have := hz []
    rw [hnil, List.append_nil] at this
    exact this

theorem sample_env_ok : do_dump_env_ok sample_env := by
  intro range raw compressed h
  cases h

/-- Witness of `dmu_send_impl_end_checksum`: the send of one OBJECT record and
one DATA record over `sample_codec`. -/
theorem dmu_send_impl_end_checksum_witness :
    ∃ pre e bytes, sample_send_result.dsc_out = pre ++ [out_chunk.header e] ∧
      e.drr_type = drr_type_t.DRR_END ∧ stream_bytes sample_codec pre = some bytes ∧
      e.drr_checksum =
        sample_codec.fletcher_4_incremental_native (bytes ++ sample_codec.header_bytes e)
          zio_cksum_zero ∧
      (∀ s, sample_codec.fletcher_4_incremental_native s e.drr_end_checksum =
        sample_codec.fletcher_4_incremental_native (bytes ++ s) zio_cksum_zero) ∧
      ((∀ z, sample_codec.fletcher_4_incremental_native [] z = z) →
        e.drr_end_checksum =
          sample_codec.fletcher_4_incremental_native bytes zio_cksum_zero) :=
  dmu_send_impl_end_checksum sample_codec sample_codec_ok (sample_params fun _ => 0)
    (sample_world [sample_object_range 1, sample_data_range 1 0, eos_record] 0)
    sample_send_result rfl sample_env_ok rfl

/-! ## Records before the resume point (C13) -/

/-- C13, counterexample.  In a session that resumes at object 10, `do_dump`
makes a FREE record pending for a HOLE record of object 5, makes a REDACT
record pending for a REDACT record of object 5, and writes a WRITE header and
its payload for a DATA record of object 5: only the assertion of the DATA case
looks at the resume point.  An OBJECT record of object 10 in a session that
resumes at (10, 512) is written as well, with the FREE record behind its
last block. -/
theorem do_dump_before_resume_point :
    (do_dump sample_codec sample_env sample_cookie_resume
        (sample_range range_type.HOLE 5 0 1 512)).map
      (fun r => (r.1, r.2.dsc_pending_op, r.2.dsc_drr.drr_type, r.2.dsc_drr.drr_object,
        r.2.dsc_drr.drr_offset, r.2.dsc_drr.drr_length)) =
      some (0, dmu_pendop_t.PENDING_FREE, drr_type_t.DRR_FREE, 5, 0, 512) ∧
    (do_dump sample_codec sample_env sample_cookie_resume
        (sample_range range_type.REDACT 5 0 1 512)).map
      (fun r => (r.1, r.2.dsc_pending_op, r.2.dsc_drr.drr_type, r.2.dsc_drr.drr_object,
        r.2.dsc_drr.drr_offset, r.2.dsc_drr.drr_length)) =
      some (0, dmu_pendop_t.PENDING_REDACT, drr_type_t.DRR_REDACT, 5, 0, 512) ∧
    (do_dump sample_codec sample_env sample_cookie_resume (sample_data_range 5 0)).map
      (fun r => (r.1, r.2.dsc_out.map fun c =>
        match c with
        | out_chunk.header h => some (h.drr_type, h.drr_object, h.drr_offset)
        | out_chunk.payload _ _ => none)) =
      some (0, [some (drr_type_t.DRR_WRITE, 5, 0), none]) ∧
    (do_dump sample_codec sample_env sample_cookie_resume_mid
        (sample_object_range 10)).map
      (fun r => (r.1, r.2.dsc_out.map fun c =>
        match c with
        | out_chunk.header h => some (h.drr_type, h.drr_object)
        | out_chunk.payload _ _ => none)) =
      some (0, [some (drr_type_t.DRR_OBJECT, 10), some (drr_type_t.DRR_FREE, 10)]) := by
  refine ⟨?_, ?_, ?_, ?_⟩
  · decide
  · decide
  · decide
  · decide

/-- C13, amended.  For every OBJECT record passed to `do_dump` whose object is
below `dsc_resume_object`, `do_dump` returns 0 and leaves the session state as
it was: nothing is written to the output sink and no record is made
pending. -/
theorem do_dump_object_below_resume (W : stream_codec) (E : do_dump_env)
    (dscp : dmu_send_cookie_t) (range : send_range)
    (ht : range.type = range_type.OBJECT)
    (hlt : range.object < dscp.dsc_resume_object) :
    do_dump W E dscp range = some (0, dscp) := by
  simp only [do_dump, ht, dump_dnode]
  rw [if_pos hlt]

/-- Witness of `do_dump_object_below_resume`: the OBJECT record of object 5 in
a session that resumes at object 10. -/
theorem do_dump_object_below_resume_witness :
    do_dump sample_codec sample_env sample_cookie_resume (sample_object_range 5) =
      some (0, sample_cookie_resume) :=
  do_dump_object_below_resume sample_codec sample_env sample_cookie_resume
    (sample_object_range 5) rfl (by decide)

/-! ## The error that a failed write of the main loop returns (C16) -/

/-- C16.  A send of one OBJECT record whose output function accepts the BEGIN
header and then fails with `ENOSPC`: `dump_record` latches `ENOSPC` in
`dsc_err` while `do_dump` writes the OBJECT header, and `dmu_send_impl`
returns `EINTR`, not the latched `ENOSPC`; no END header is written. -/
theorem dmu_send_impl_returns_EINTR :
    (dmu_send_impl sample_codec (sample_params sample_outfunc_fails)
      (sample_world [sample_object_range 1, eos_record] 0)).map
      (fun r => (r.1, r.2.dsc_err, r.2.dsc_out.map fun c =>
        match c with
        | out_chunk.header h => some h.drr_type
        | out_chunk.payload _ _ => none)) =
    some (EINTR, ENOSPC, [some drr_type_t.DRR_BEGIN, some drr_type_t.DRR_OBJECT]) := by
  decide

/-! ## An error of the to-traversal (C15) -/

/-- C15.  A full send whose to-traversal fails with `EIO` before it has
produced a record: `send_traverse_thread` stores `EIO` in `error_code` and
enqueues end-of-stream, the from thread enqueues end-of-stream only,
`send_merge_thread` never enters its loop body, where
alone it reads the error codes of its producers, and finishes with error 0, the
prefetch thread reports 0, and `dmu_send_impl` returns 0 after writing BEGIN
and END. -/
theorem send_merge_thread_drops_error :
    send_traverse_thread (some ([], EIO)) = { q := [eos_record], error_code := EIO } ∧
    redact_list_thread none false (fun _ => false) = { q := [eos_record], error_code := 0 } ∧
    send_merge_thread merge_observed_to_failed none
        (send_traverse_thread (some ([], EIO))).q
        (redact_list_thread none false fun _ => false).q 1 =
      some { q := [eos_record], error := 0, cancelled_inputs := false } ∧
    send_prefetch_thread (sample_prefetch_env 0 0) [eos_record] 1 =
      some { q := [eos_record], error := 0, cancelled_merge := false } ∧
    (dmu_send_impl sample_codec (sample_params fun _ => 0) (sample_world [eos_record] 0)).map
      (fun r => (r.1, r.2.dsc_out.map fun c =>
        match c with
        | out_chunk.header h => some h.drr_type
        | out_chunk.payload _ _ => none)) =
      some (0, [some drr_type_t.DRR_BEGIN, some drr_type_t.DRR_END]) := by
  refine ⟨?_, ?_, ?_, ?_, ?_⟩
  · decide
  · decide
  · decide
  · decide
  · decide

/-! ## The order of the WRITE records (C14) -/

theorem write_recs_append (a b : List out_chunk) :
    write_recs (a ++ b) = write_recs a ++ write_recs b := by
  induction a with
  | nil => rfl
  | cons c rest ih =>
    cases c with
    | header h =>
      simp only [List.cons_append, write_recs, List.append_eq]
      split_ifs
      · rw [ih]; rfl
      · exact ih
    | payload p n =>
      simp only [List.cons_append, write_recs, List.append_eq]
      exact ih

theorem write_recs_no_write (l : List out_chunk)
    (h : ∀ x, out_chunk.header x ∈ l → x.drr_type ≠ drr_type_t.DRR_WRITE) :
    write_recs l = [] := by
  induction l with
  | nil => rfl
  | cons c rest ih =>
    cases c with
    | header x =>
      simp only [write_recs]
      rw [if_neg (h x (List.mem_cons_self _ _))]
      exact ih fun y hy => h y (List.mem_cons_of_mem _ hy)
    | payload p n =>
      simp only [write_recs]
      exact ih fun y hy => h y (List.mem_cons_of_mem _ hy)

theorem ser_ext_keeps_writes (W : stream_codec) (strict : Bool) (d d1 : dmu_send_cookie_t)
    (h : ser_ext W strict false d d1) :
    write_recs d1.dsc_out = write_recs d.dsc_out ∧
    d1.dsc_last_data_object = d.dsc_last_data_object ∧
    d1.dsc_last_data_offset = d.dsc_last_data_offset := by
  obtain ⟨-, -, -, -, -, -, -, ⟨new, a8, a9⟩, -, a11⟩ := h
  refine ⟨?_, (a11 rfl).1, (a11 rfl).2⟩
  rw [a8, write_recs_append, write_recs_no_write new fun x hx => (a9 x hx).2.2 rfl]
  simp

theorem written_below_of_ser_ext (W : stream_codec) (strict : Bool) (d d1 : dmu_send_cookie_t)
    (h : ser_ext W strict false d d1) (o x : Nat) (hb : written_below d o x) :
    written_below d1 o x := by
  obtain ⟨a, b, c⟩ := ser_ext_keeps_writes W strict d d1 h
  unfold written_below
  rw [a, b, c]
  exact hb

theorem written_below_mono (d : dmu_send_cookie_t) (o x o1 x1 : Nat)
    (hb : written_below d o x) (h : o < o1 ∨ (o = o1 ∧ x ≤ x1)) :
    written_below d o1 x1 := by
  obtain ⟨b1, b2⟩ := hb
  refine ⟨by omega, fun w hw => ?_⟩
  have := b2 w hw
  omega

theorem dump_record_header_write_fields (W : stream_codec) (d : dmu_send_cookie_t) :
    (dump_record_header W d).drr_object = d.dsc_drr.drr_object ∧
    (dump_record_header W d).drr_offset = d.dsc_drr.drr_offset ∧
    (dump_record_header W d).drr_logical_size = d.dsc_drr.drr_logical_size := by
  unfold dump_record_header
  split_ifs <;> exact ⟨rfl, rfl, rfl⟩

theorem dump_write_record_fields (W : stream_codec) (d : dmu_send_cookie_t)
    (type object offset lsize psize : Nat) (bp : Option blkptr_t) :
    (dump_write_record W d type object offset lsize psize bp).drr_type = drr_type_t.DRR_WRITE ∧
    (dump_write_record W d type object offset lsize psize bp).drr_object = object ∧
    (dump_write_record W d type object offset lsize psize bp).drr_offset = offset ∧
    (dump_write_record W d type object offset lsize psize bp).drr_logical_size = lsize := by
  unfold dump_write_record
  simp only
  split_ifs <;> exact ⟨rfl, rfl, rfl, rfl⟩

theorem emit_record_write_recs (W : stream_codec) (d : dmu_send_cookie_t)
    (hinv : pending_inv d) (rec : dmu_send_cookie_t → dmu_replay_record_t)
    (p : Option (List Nat)) (n : dmu_send_cookie_t → Nat) (object offset lsize : Nat)
    (hrec : ∀ x, (rec x).drr_type = drr_type_t.DRR_WRITE ∧ (rec x).drr_object = object ∧
      (rec x).drr_offset = offset ∧ (rec x).drr_logical_size = lsize) :
    (∃ l, (l = [] ∨ l = [(object, offset, lsize)]) ∧
      write_recs (emit_record W d rec p n).2.dsc_out = write_recs d.dsc_out ++ l) ∧
    (emit_record W d rec p n).2.dsc_last_data_object = d.dsc_last_data_object ∧
    (emit_record W d rec p n).2.dsc_last_data_offset = d.dsc_last_data_offset := by
  obtain ⟨e1, -⟩ := push_out_ser_ext W false false (fun h => by cases h) d hinv
    (d.dsc_pending_op ≠ dmu_pendop_t.PENDING_NONE) id
  obtain ⟨a1, a2, a3⟩ := ser_ext_keeps_writes W false _ _ e1
  simp only [emit_record]
  generalize (if d.dsc_pending_op ≠ dmu_pendop_t.PENDING_NONE then push_out_pending W d
    else (0, d)) = r1 at a1 a2 a3 ⊢
  by_cases h1 : r1.1 ≠ 0
  · rw [if_pos h1]
    exact ⟨⟨[], Or.inl rfl, by rw [a1]; simp⟩, a2, a3⟩
  rw [if_neg h1]
  obtain ⟨-, -, -, -, f5, f6, -, -⟩ :=
    dump_record_fields W { r1.2 with dsc_drr := rec r1.2 } p (n r1.2)
  have hout := dump_record_out W { r1.2 with dsc_drr := rec r1.2 } p (n r1.2)
  obtain ⟨g1, g2, g3⟩ := dump_record_header_write_fields W { r1.2 with dsc_drr := rec r1.2 }
  have g0 := dump_record_header_type W { r1.2 with dsc_drr := rec r1.2 }
  obtain ⟨t0, t1, t2, t3⟩ := hrec r1.2
  have hw : write_recs (dump_record W { r1.2 with dsc_drr := rec r1.2 } p (n r1.2)).2.dsc_out =
      write_recs d.dsc_out ++ [(object, offset, lsize)] := by
    rw [hout, write_recs_append]
    show write_recs r1.2.dsc_out ++ _ = _
    rw [a1]
    congr 1
    simp only [write_recs]
    rw [if_pos (g0.trans t0)]
    rw [g1, g2, g3]
    show (_ : Nat × Nat × Nat) :: _ = _
    rw [t1, t2, t3]
    congr 1
    split_ifs <;> rfl
  have key : (∃ l, (l = [] ∨ l = [(object, offset, lsize)]) ∧
      write_recs (dump_record W { r1.2 with dsc_drr := rec r1.2 } p (n r1.2)).2.dsc_out =
        write_recs d.dsc_out ++ l) ∧
      (dump_record W { r1.2 with dsc_drr := rec r1.2 } p (n r1.2)).2.dsc_last_data_object =
        d.dsc_last_data_object ∧
      (dump_record W { r1.2 with dsc_drr := rec r1.2 } p (n r1.2)).2.dsc_last_data_offset =
        d.dsc_last_data_offset :=
    ⟨⟨_, Or.inr rfl, hw⟩, f5.trans a2, f6.trans a3⟩
  by_cases h2 : (dump_record W { r1.2 with dsc_drr := rec r1.2 } p (n r1.2)).1 ≠ 0
  · rw [if_pos h2]
    exact key
  · rw [if_neg h2]
    exact key

theorem dump_write_write_recs (W : stream_codec) (d : dmu_send_cookie_t)
    (type object offset lsize psize : Nat) (bp : Option blkptr_t) (data : Option (List Nat))
    (hinv : pending_inv d) :
    (∃ l, (l = [] ∨ l = [(object, offset, lsize)]) ∧
      write_recs (dump_write W d type object offset lsize psize bp data).2.dsc_out =
        write_recs d.dsc_out ++ l) ∧
    (dump_write W d type object offset lsize psize bp data).2.dsc_last_data_object = object ∧
    (dump_write W d type object offset lsize psize bp data).2.dsc_last_data_offset =
      (offset + lsize + 2 ^ 64 - 1) % 2 ^ 64 := by
  rw [dump_write_eq_emit]
  exact emit_record_write_recs W
    { d with dsc_last_data_object := object,
             dsc_last_data_offset := (offset + lsize + 2 ^ 64 - 1) % 2 ^ 64 } hinv
    (fun x => dump_write_record W x type object offset lsize psize bp) data
    (fun x => dump_write_payload_size x lsize psize) object offset lsize
    (fun x => dump_write_record_fields W x type object offset lsize psize bp)

/-- One call of `dump_write` at a position behind everything written so far
keeps the WRITE records in order and moves the written part up to the end of
the block. -/
theorem dump_write_order (W : stream_codec) (d : dmu_send_cookie_t)
    (type object offset lsize psize : Nat) (bp : Option blkptr_t) (data : Option (List Nat))
    (hinv : pending_inv d) (hb : written_below d object offset)
    (hp : (write_recs d.dsc_out).Pairwise write_before)
    (hl : 0 < lsize) (hfit : offset + lsize ≤ 2 ^ 64) :
    increasing_order_ASSERT d object offset = true ∧
    written_below (dump_write W d type object offset lsize psize bp data).2 object
      (offset + lsize) ∧
    (write_recs (dump_write W d type object offset lsize psize bp data).2.dsc_out).Pairwise
      write_before := by
  obtain ⟨⟨l, hl1, hl2⟩, h2, h3⟩ :=
    dump_write_write_recs W d type object offset lsize psize bp data hinv
  obtain ⟨b1, b2⟩ := hb
  have e64 : (2 : Nat) ^ 64 = 18446744073709551616 := by norm_num
  rw [e64] at hfit h3
  refine ⟨?_, ⟨?_, ?_⟩, ?_⟩
  · unfold increasing_order_ASSERT
    simp only [decide_eq_true_eq]
    omega
  · rw [h2, h3]
    omega
  · intro w hw
    rw [hl2] at hw
    rcases List.mem_append.1 hw with hw | hw
    · have := b2 w hw
      omega
    · rcases hl1 with rfl | rfl
      · cases hw
      · simp only [List.mem_singleton] at hw
        subst hw
        refine Or.inr ⟨rfl, ?_, le_refl _⟩
        show offset < offset + lsize
        omega
  · rw [hl2]
    rw [List.pairwise_append]
    refine ⟨hp, ?_, ?_⟩
    · rcases hl1 with rfl | rfl
      · exact List.Pairwise.nil
      · exact List.pairwise_singleton _ _
    · intro a ha b hb
      rcases hl1 with rfl | rfl
      · cases hb
      · simp only [List.mem_singleton] at hb
        subst hb
        have := b2 a ha
        unfold write_before
        simp only
        omega

theorem do_dump_split_exit (W : stream_codec) (type object : Nat) (fuel offset : Nat)
    (buf : List Nat) (datablksz err : Nat) (d : dmu_send_cookie_t)
    (h : ¬ (datablksz > 0 ∧ err = 0)) :
    do_dump_split W type object fuel offset buf datablksz err d = some (err, d) ∧
    do_dump_split_ASSERT W type object fuel offset buf datablksz err d = true := by
  cases fuel with
  | zero =>
    simp only [do_dump_split, do_dump_split_ASSERT]
    rw [if_neg h]
    exact ⟨rfl, trivial⟩
  | succ fuel =>
    simp only [do_dump_split, do_dump_split_ASSERT]
    rw [if_neg h, if_neg h]
    exact ⟨rfl, rfl⟩

/-- The loop that splits a large block, entered behind everything written so
far, keeps the WRITE records in order: every assertion of `dump_write` holds
and the written part ends at the end of the block. -/
theorem do_dump_split_order (W : stream_codec) (type object xe : Nat) (hxe : xe ≤ 2 ^ 64) :
    ∀ (fuel offset : Nat) (buf : List Nat) (datablksz err : Nat) (d : dmu_send_cookie_t)
      (x : Nat),
      pending_inv d → written_below d object x → x ≤ xe →
      (datablksz > 0 → offset = x ∧ x + datablksz = xe) →
      (write_recs d.dsc_out).Pairwise write_before →
      do_dump_split_ASSERT W type object fuel offset buf datablksz err d = true ∧
      ∀ r, do_dump_split W type object fuel offset buf datablksz err d = some r →
        written_below r.2 object xe ∧ (write_recs r.2.dsc_out).Pairwise write_before := by
  intro fuel
  induction fuel with
  | zero =>
    intro offset buf datablksz err d x hinv hb hx hd hp
    refine ⟨rfl, fun r h => ?_⟩
    simp only [do_dump_split] at h
    split_ifs at h
    cases h
    exact ⟨written_below_mono d object x object xe hb (Or.inr ⟨rfl, hx⟩), hp⟩
  | succ fuel ih =>
    intro offset buf datablksz err d x hinv hb hx hd hp
    by_cases hc : datablksz > 0 ∧ err = 0
    · obtain ⟨ho, hsum⟩ := hd hc.1
      subst ho
      have hn : 0 < min datablksz SPA_OLD_MAXBLOCKSIZE := by
        have : 0 < SPA_OLD_MAXBLOCKSIZE := by decide
        exact lt_min hc.1 this
      have hnle : min datablksz SPA_OLD_MAXBLOCKSIZE ≤ datablksz := min_le_left _ _
      have e64 : (2 : Nat) ^ 64 = 18446744073709551616 := by norm_num
      rw [e64] at hxe
      obtain ⟨w1, w2, w3⟩ := dump_write_order W d type object offset
        (min datablksz SPA_OLD_MAXBLOCKSIZE) (min datablksz SPA_OLD_MAXBLOCKSIZE) none
        (some buf) hinv hb hp hn (by rw [e64]; omega)
      obtain ⟨-, k1⟩ := dump_write_ser_ext W false (fun h => by cases h) d type object offset
        (min datablksz SPA_OLD_MAXBLOCKSIZE) (min datablksz SPA_OLD_MAXBLOCKSIZE) none
        (some buf) hinv (fun h => by cases h)
      simp only [do_dump_split, do_dump_split_ASSERT]
      rw [if_pos hc, if_pos hc, w1]
      generalize dump_write W d type object offset _ _ none (some buf) = w at w2 w3 k1 ⊢
      generalize hn2 : min datablksz SPA_OLD_MAXBLOCKSIZE = n at hn hnle w2 ⊢
      by_cases hw : datablksz - n > 0 ∧ w.1 = 0
      · have := ih ((offset + n) % 2 ^ 64) (buf.drop n) (datablksz - n) w.1 w.2 (offset + n)
          (pending_inv_none _ (k1 hw.2)) w2 (by omega)
          (fun _ => ⟨by rw [e64]; omega, by omega⟩) w3
        exact ⟨by rw [this.1]; rfl, this.2⟩
      · obtain ⟨x1, x2⟩ := do_dump_split_exit W type object fuel ((offset + n) % 2 ^ 64)
          (buf.drop n) (datablksz - n) w.1 w.2 hw
        rw [x1, x2]
        refine ⟨rfl, fun r h => ?_⟩
        cases h
        exact ⟨written_below_mono _ object (offset + n) object xe w2 (Or.inr ⟨rfl, by omega⟩), w3⟩
    · obtain ⟨x1, x2⟩ := do_dump_split_exit W type object (fuel + 1) offset buf datablksz err d hc
      rw [x1, x2]
      refine ⟨rfl, fun r h => ?_⟩
      cases h
      exact ⟨written_below_mono d object x object xe hb (Or.inr ⟨rfl, hx⟩), hp⟩

/-- A block pointer of type `DMU_OT_SA` is sent as a spill block or not at
all: `do_dump` reaches no call of `dump_write` or `dump_write_embedded`. -/
theorem do_dump_data_action_SA (E : do_dump_env) (d : dmu_send_cookie_t) (range : send_range)
    (bp : blkptr_t) (hsa : bp.bp_type = DMU_OT_SA) :
    (∃ data, do_dump_data_action E d range bp = data_action.spill data) ∨
    (∃ err, do_dump_data_action E d range bp = data_action.fail err) ∨
    do_dump_data_action E d range bp = data_action.crash := by
  unfold do_dump_data_action
  simp only
  rw [if_pos hsa]
  by_cases hdry : d.dsc_dso.dso_dryrun = false
  · rw [if_pos hdry]
    cases E.arc_read range (decide (d.dsc_featureflags &&& DMU_BACKUP_FEATURE_RAW ≠ 0)) false with
    | ok abuf => exact Or.inl ⟨_, rfl⟩
    | failed err =>
      simp only
      by_cases he : err ≠ 0
      · rw [if_pos he]
        exact Or.inr (Or.inl ⟨_, rfl⟩)
      · rw [if_neg he]
        exact Or.inr (Or.inr rfl)
  · rw [if_neg hdry]
    exact Or.inl ⟨_, rfl⟩

/-- One call of `do_dump`.  A `DATA` record that is not a spill block, behind
everything written so far, with a block size above 0 and an end offset that
fits in 64 bits, passes the assertions of `dump_write`; the WRITE records stay
in order; and every position behind the record that everything written so far
lay in front of still has everything written in front of it.  The record of a
spill block reaches no call of `dump_write`. -/
theorem do_dump_order (W : stream_codec) (E : do_dump_env) (d : dmu_send_cookie_t)
    (range : send_range) (hinv : pending_inv d)
    (hp : (write_recs d.dsc_out).Pairwise write_before)
    (hd : range.type = range_type.DATA → is_spill_record range = false →
      written_below d range.object (range.start_blkid * range.sru.datablksz) ∧
      0 < range.sru.datablksz ∧ (range.start_blkid + 1) * range.sru.datablksz ≤ 2 ^ 64) :
    do_dump_write_ASSERT W E d range = true ∧
    ∀ r, do_dump W E d range = some r →
      (write_recs r.2.dsc_out).Pairwise write_before ∧ (r.1 = 0 → pending_inv r.2) ∧
      ∀ o x, written_below d o x →
        (range.type = range_type.DATA → is_spill_record range = false →
          range.object < o ∨
          (range.object = o ∧ (range.start_blkid + 1) * range.sru.datablksz ≤ x)) →
        written_below r.2 o x := by
  have hF : (false = true → stream_codec_ok W) := fun h => by cases h
  have keep : ∀ (Q : Nat → Nat → Prop) (r : Nat × dmu_send_cookie_t),
      ser_ext W false false d r.2 → (r.1 = 0 → pending_inv r.2) →
      (write_recs r.2.dsc_out).Pairwise write_before ∧ (r.1 = 0 → pending_inv r.2) ∧
      ∀ o x, written_below d o x → Q o x → written_below r.2 o x := by
    intro Q r e k
    refine ⟨?_, k, fun o x hb _ => written_below_of_ser_ext W false d r.2 e o x hb⟩
    rw [(ser_ext_keeps_writes W false d r.2 e).1]
    exact hp
  unfold do_dump do_dump_write_ASSERT
  cases ht : range.type with
  | OBJECT =>
    refine ⟨rfl, fun r h => ?_⟩
    simp only at h
    cases h
    obtain ⟨e, k⟩ := dump_dnode_ser_ext W false hF d none range.object range.sru.dnp hinv
    exact keep _ _ e k
  | REDACT =>
    refine ⟨rfl, fun r h => ?_⟩
    simp only at h
    cases h
    obtain ⟨e, k⟩ := dump_redact_ser_ext W false hF d range.object
      ((range.start_blkid * range.sru.datablksz) % 2 ^ 64)
      ((((range.end_blkid + 2 ^ 64 - range.start_blkid) % 2 ^ 64) * range.sru.datablksz) %
        2 ^ 64) hinv
    exact keep _ _ e k
  | PREVIOUSLY_REDACTED =>
    refine ⟨rfl, fun r h => ?_⟩
    simp only at h
    cases h
  | HOLE =>
    refine ⟨rfl, fun r h => ?_⟩
    simp only at h
    by_cases c1 : range.object = DMU_META_DNODE_OBJECT
    · rw [if_pos c1] at h
      cases h
      exact keep _ _ (dump_freeobjects_ser_ext W false hF d _ _ hinv).1
        (dump_freeobjects_ser_ext W false hF d _ _ hinv).2
    rw [if_neg c1] at h
    by_cases c2 : (overflow_multiply range.start_blkid range.sru.datablksz 0).1 = false
    · rw [if_pos c2] at h
      cases h
      exact keep _ (0, d) (ser_ext_refl W false false d) (fun _ => hinv)
    · rw [if_neg c2] at h
      cases h
      exact keep _ _ (dump_free_ser_ext W false hF d _ _ _ hinv).1
        (dump_free_ser_ext W false hF d _ _ _ hinv).2
  | DATA =>
    have e64 : (2 : Nat) ^ 64 = 18446744073709551616 := by norm_num
    have hmul : (range.start_blkid + 1) * range.sru.datablksz =
        range.start_blkid * range.sru.datablksz + range.sru.datablksz := by ring
    simp only
    cases hbp : range.sru.bp with
    | none =>
      refine ⟨rfl, fun r h => ?_⟩
      simp only at h
      cases h
    | some bp =>
      simp only
      have hns : (∀ data, do_dump_data_action E d range bp ≠ data_action.spill data) →
          (∀ err, do_dump_data_action E d range bp ≠ data_action.fail err) →
          do_dump_data_action E d range bp ≠ data_action.crash →
          is_spill_record range = false := by
        intro n1 n2 n3
        have hsa : bp.bp_type ≠ DMU_OT_SA := by
          intro hsa
          rcases do_dump_data_action_SA E d range bp hsa with ⟨x, h⟩ | ⟨x, h⟩ | h
          · exact n1 x h
          · exact n2 x h
          · exact n3 h
        simp [is_spill_record, hbp, hsa]
      cases ha : do_dump_data_action E d range bp with
      | fail err =>
        refine ⟨rfl, fun r h => ?_⟩
        simp only at h
        cases h
        exact keep _ (err, d) (ser_ext_refl W false false d) (fun _ => hinv)
      | crash =>
        refine ⟨rfl, fun r h => ?_⟩
        simp only at h
        cases h
      | spill data =>
        refine ⟨rfl, fun r h => ?_⟩
        simp only at h
        cases h
        obtain ⟨e, k⟩ := dump_spill_ser_ext W false hF d bp range.object data hinv
          (fun hst => by cases hst)
        exact keep _ _ e (fun hk => pending_inv_none _ (k hk))
      | embedded =>
        refine ⟨rfl, fun r h => ?_⟩
        simp only at h
        cases h
        obtain ⟨e, k⟩ := dump_write_embedded_ser_ext W false hF d range.object
          ((range.start_blkid * range.sru.datablksz) % 2 ^ 64) range.sru.datablksz bp hinv
        exact keep _ _ e (fun hk => pending_inv_none _ (k hk))
      | split buf err =>
        have hsp := hns (fun x h => by rw [ha] at h; cases h)
          (fun x h => by rw [ha] at h; cases h) (fun h => by rw [ha] at h; cases h)
        obtain ⟨hb, hpos, hfit⟩ := hd ht hsp
        have hoff : (range.start_blkid * range.sru.datablksz) % 2 ^ 64 =
            range.start_blkid * range.sru.datablksz := by
          apply Nat.mod_eq_of_lt
          rw [hmul] at hfit
          omega
        rw [hoff]
        simp only
        obtain ⟨s1, s2⟩ := do_dump_split_order W range.sru.obj_type range.object
          ((range.start_blkid + 1) * range.sru.datablksz) hfit range.sru.datablksz
          (range.start_blkid * range.sru.datablksz) buf range.sru.datablksz err d
          (range.start_blkid * range.sru.datablksz) hinv hb (by rw [hmul]; omega)
          (fun _ => ⟨rfl, hmul.symm⟩) hp
        refine ⟨s1, fun r h => ?_⟩
        obtain ⟨t1, t2⟩ := s2 r h
        refine ⟨t2, (do_dump_split_ser_ext W false hF _ _ _ _ _ _ _ _ _ hinv h).2,
          fun o x _ hox => ?_⟩
        exact written_below_mono _ _ _ o x t1 (hox trivial hsp)
      | write psize data =>
        have hsp := hns (fun x h => by rw [ha] at h; cases h)
          (fun x h => by rw [ha] at h; cases h) (fun h => by rw [ha] at h; cases h)
        obtain ⟨hb, hpos, hfit⟩ := hd ht hsp
        have hoff : (range.start_blkid * range.sru.datablksz) % 2 ^ 64 =
            range.start_blkid * range.sru.datablksz := by
          apply Nat.mod_eq_of_lt
          rw [hmul] at hfit
          omega
        rw [hoff]
        simp only
        obtain ⟨w1, w2, w3⟩ := dump_write_order W d range.sru.obj_type range.object
          (range.start_blkid * range.sru.datablksz) range.sru.datablksz psize (some bp) data
          hinv hb hp hpos (by rw [← hmul]; exact hfit)
        refine ⟨w1, fun r h => ?_⟩
        cases h
        obtain ⟨-, k⟩ := dump_write_ser_ext W false hF d range.sru.obj_type range.object
          (range.start_blkid * range.sru.datablksz) range.sru.datablksz psize (some bp) data
          hinv (fun hst => by cases hst)
        refine ⟨w3, fun hk => pending_inv_none _ (k hk), fun o x _ hox => ?_⟩
        rw [← hmul] at w2
        exact written_below_mono _ _ _ o x w2 (hox trivial hsp)

theorem do_dump_seq_order_inv (W : stream_codec) (E : do_dump_env) :
    ∀ (rs : List send_range) (d : dmu_send_cookie_t),
      pending_inv d → (write_recs d.dsc_out).Pairwise write_before →
      rs.Pairwise data_before →
      (∀ r ∈ rs, r.type = range_type.DATA → is_spill_record r = false →
        written_below d r.object (r.start_blkid * r.sru.datablksz) ∧
        0 < r.sru.datablksz ∧ (r.start_blkid + 1) * r.sru.datablksz ≤ 2 ^ 64) →
      do_dump_seq_write_ASSERT W E d rs = true ∧
      ∀ res, do_dump_seq W E d rs = some res →
        (write_recs res.2.dsc_out).Pairwise write_before := by
  intro rs
  induction rs with
  | nil =>
    intro d _ hp _ _
    refine ⟨rfl, fun res h => ?_⟩
    simp only [do_dump_seq] at h
    cases h
    exact hp
  | cons range rest ih =>
    intro d hinv hp hasc hdata
    obtain ⟨s1, s2⟩ := do_dump_order W E d range hinv hp
      (hdata range (List.mem_cons_self _ _))
    rw [List.pairwise_cons] at hasc
    simp only [do_dump_seq_write_ASSERT, do_dump_seq]
    rw [s1]
    cases hr : do_dump W E d range with
    | none =>
      refine ⟨rfl, fun res h => ?_⟩
      cases h
    | some r =>
      obtain ⟨t1, t2, t3⟩ := s2 r hr
      simp only
      by_cases he : r.1 ≠ 0
      · rw [if_pos he, if_pos he]
        refine ⟨rfl, fun res h => ?_⟩
        cases h
        exact t1
      · rw [if_neg he, if_neg he]
        have := ih r.2 (t2 (not_not.1 he)) t1 hasc.2 (fun r2 hr2 ht2 hs2 => by
          obtain ⟨u1, u2, u3⟩ := hdata r2 (List.mem_cons_of_mem _ hr2) ht2 hs2
          refine ⟨t3 _ _ u1 (fun ht _ => ?_), u2, u3⟩
          rcases hasc.1 r2 hr2 ht ht2 with hlt | ⟨heq, hblk, hsz⟩
          · exact Or.inl hlt
          · refine Or.inr ⟨heq, ?_⟩
            rw [hsz]
            exact Nat.mul_le_mul_right _ hblk)
        exact ⟨by rw [Bool.true_and]; exact this.1, this.2⟩

/-- The state in which `dmu_send_impl` enters its main loop, the one that the
BEGIN record leaves: nothing is pending, the last data object is 0 and no WRITE
header has been handed to the output function. -/
theorem dmu_send_begin_order_start (W : stream_codec) (P : dmu_send_params)
    (X : dmu_send_world) :
    (dmu_send_begin W P X).2.dsc_pending_op = dmu_pendop_t.PENDING_NONE ∧
    (dmu_send_begin W P X).2.dsc_last_data_object = 0 ∧
    write_recs (dmu_send_begin W P X).2.dsc_out = [] := by
  obtain ⟨⟨b, pl, ho, hb, hpl⟩, hn, -⟩ := dmu_send_begin_spec W P X
  refine ⟨hn, ?_, ?_⟩
  · unfold dmu_send_begin
    cases X.nvl_packed with
    | none => exact (dump_record_fields W _ none 0).2.2.2.2.1
    | some bytes => exact (dump_record_fields W _ (some bytes) bytes.length).2.2.2.2.1
  · rw [ho]
    apply write_recs_no_write
    intro x hx
    rcases List.mem_cons.1 hx with h | h
    · cases h
      rw [hb]
      decide
    · exact absurd h (hpl x)

/-- The two bounds on a `DATA` record in `do_dump_seq_write_order` are used.
`do_dump` computes the byte offset `start_blkid * datablksz` in 64 bits without
a check.  Records that no traversal makes show it: with blocks of 4 bytes at
the block ids 1 and 2^62 of object 1 the second offset wraps to 0, the
assertion of `dump_write` fails at the second record and the WRITE records are
at the offsets 4 and 0; with block size 0 the block ids 0 and 1 are both
written at offset 0. -/
theorem do_dump_seq_write_order_wraps :
    [sample_data_range 1 1, sample_data_range 1 (2 ^ 62)].Pairwise data_before ∧
    do_dump_seq_write_ASSERT sample_codec sample_env sample_cookie
      [sample_data_range 1 1, sample_data_range 1 (2 ^ 62)] = false ∧
    (do_dump_seq sample_codec sample_env sample_cookie
      [sample_data_range 1 1, sample_data_range 1 (2 ^ 62)]).map
      (fun r => (r.1, write_recs r.2.dsc_out)) = some (0, [(1, 4, 4), (1, 0, 4)]) ∧
    [sample_data_range_sized 1 0 0, sample_data_range_sized 1 1 0].Pairwise data_before ∧
    do_dump_seq_write_ASSERT sample_codec sample_env sample_cookie
      [sample_data_range_sized 1 0 0, sample_data_range_sized 1 1 0] = false ∧
    (do_dump_seq sample_codec sample_env sample_cookie
      [sample_data_range_sized 1 0 0, sample_data_range_sized 1 1 0]).map
      (fun r => (r.1, write_recs r.2.dsc_out)) = some (0, [(1, 0, 0), (1, 0, 0)]) := by
  refine ⟨?_, ?_, ?_, ?_, ?_, ?_⟩
  · decide
  · decide
  · decide
  · decide
  · decide
  · decide

/-- C14.  Let the calls of `do_dump` start in the state in which `dmu_send_impl`
enters its loop: nothing pending, the last data object 0 and no WRITE header in
the sink (`dmu_send_begin_order_start`).  Let the `DATA` records of the input
sequence be on objects from 1 on and in strictly ascending order of
(object, block id) with one block size per object.  The records are those that
`do_dump` can receive: a `DATA` record that is not the record of a spill block
has a block size above 0, which `do_dump` asserts to be the logical size of the
block, and an end offset `(start_blkid + 1) * datablksz` of at most 2^64, as
every block of an object has.  Then every ordering assertion of `dump_write`
that the calls of `do_dump` evaluate holds, and the WRITE headers handed to the
output function, after the whole sequence and after every part of it, are
strictly ascending by (object, offset), each starting at or behind the end of
the one before. -/
theorem do_dump_seq_write_order (W : stream_codec) (E : do_dump_env)
    (d : dmu_send_cookie_t) (rs : List send_range)
    (hnone : d.dsc_pending_op = dmu_pendop_t.PENDING_NONE)
    (hlast : d.dsc_last_data_object = 0) (hout : write_recs d.dsc_out = [])
    (hasc : rs.Pairwise data_before)
    (hdata : ∀ r ∈ rs, r.type = range_type.DATA →
      1 ≤ r.object ∧
      (is_spill_record r = false →
        0 < r.sru.datablksz ∧ (r.start_blkid + 1) * r.sru.datablksz ≤ 2 ^ 64)) :
    do_dump_seq_write_ASSERT W E d rs = true ∧
    (∀ res, do_dump_seq W E d rs = some res →
      (write_recs res.2.dsc_out).Pairwise write_before) ∧
    ∀ n res, do_dump_seq W E d (rs.take n) = some res →
      (write_recs res.2.dsc_out).Pairwise write_before := by
  have hstart : ∀ l : List send_range, (∀ r ∈ l, r ∈ rs) →
      ∀ r ∈ l, r.type = range_type.DATA → is_spill_record r = false →
        written_below d r.object (r.start_blkid * r.sru.datablksz) ∧
        0 < r.sru.datablksz ∧ (r.start_blkid + 1) * r.sru.datablksz ≤ 2 ^ 64 := by
    intro l hl r hr ht hs
    obtain ⟨u1, u2⟩ := hdata r (hl r hr) ht
    obtain ⟨u3, u4⟩ := u2 hs
    refine ⟨⟨Or.inl (by omega), fun w hw => ?_⟩, u3, u4⟩
    rw [hout] at hw
    cases hw
  have hnil : (write_recs d.dsc_out).Pairwise write_before := by
    rw [hout]
    exact List.Pairwise.nil
  obtain ⟨a1, a2⟩ := do_dump_seq_order_inv W E rs d (pending_inv_none d hnone) hnil hasc
    (hstart rs fun _ h => h)
  refine ⟨a1, a2, fun n res h => ?_⟩
  exact (do_dump_seq_order_inv W E (rs.take n) d (pending_inv_none d hnone) hnil
    (hasc.sublist (List.take_sublist n rs))
    (hstart (rs.take n) fun _ h => List.mem_of_mem_take h)).2 res h

/-- Witness of `do_dump_seq_write_order`: the records of
`sample_ascending_spill`, among them the record of a spill block at block id
`2^64 - 1`, sent from `sample_cookie`. -/
theorem do_dump_seq_write_order_witness :
    do_dump_seq_write_ASSERT sample_codec sample_env sample_cookie sample_ascending_spill =
      true ∧
    (∀ res, do_dump_seq sample_codec sample_env sample_cookie sample_ascending_spill =
        some res → (write_recs res.2.dsc_out).Pairwise write_before) ∧
    ∀ n res, do_dump_seq sample_codec sample_env sample_cookie (sample_ascending_spill.take n) =
        some res → (write_recs res.2.dsc_out).Pairwise write_before :=
  do_dump_seq_write_order sample_codec sample_env sample_cookie sample_ascending_spill
    rfl rfl rfl (by decide) (by decide)

/-- The run of the witness returns 0 with three WRITE records, at (1, 0),
(1, 4) and (2, 0), each of 4 bytes, and one SPILL record between the second
and the third. -/
theorem do_dump_seq_write_order_spill_example :
    (do_dump_seq sample_codec sample_env sample_cookie sample_ascending_spill).map
      (fun r => (r.1, write_recs r.2.dsc_out,
        r.2.dsc_out.filterMap fun c =>
          match c with
          | out_chunk.header h => some h.drr_type
          | out_chunk.payload _ _ => none)) =
      some (0, [(1, 0, 4), (1, 4, 4), (2, 0, 4)],
        [drr_type_t.DRR_OBJECT, drr_type_t.DRR_FREE, drr_type_t.DRR_WRITE,
          drr_type_t.DRR_WRITE, drr_type_t.DRR_SPILL, drr_type_t.DRR_WRITE]) := by
  decide

/-- The records of `sample_ascending`, sent from `sample_cookie`, give three
WRITE records, at (1, 0), (1, 4) and (2, 0), each of 4 bytes. -/
theorem do_dump_seq_write_order_example :
    (do_dump_seq sample_codec sample_env sample_cookie sample_ascending).map
      (fun r => (r.1, write_recs r.2.dsc_out)) = some (0, [(1, 0, 4), (1, 4, 4), (2, 0, 4)]) := by
  decide

/-! ## Checked multiplication (C25) -/

theorem overflow_multiply_fits (a b c : Nat) (h : a * b < 2 ^ 64) :
    overflow_multiply a b c = (true, a * b) := by
  unfold overflow_multiply
  simp only [Nat.mod_eq_of_lt h]
  rw [if_neg]
  rintro ⟨hb, hne⟩
  exact hne (Nat.mul_div_cancel a (Nat.pos_of_ne_zero hb))

theorem overflow_multiply_overflows (a b c : Nat) (h : ¬ a * b < 2 ^ 64) :
    overflow_multiply a b c = (false, c) := by
  unfold overflow_multiply
  simp only
  rw [if_pos]
  have hb : b ≠ 0 := by
    rintro rfl
    simp at h
  refine ⟨hb, ?_⟩
  have h1 : a * b % 2 ^ 64 < a * b :=
    lt_of_lt_of_le (Nat.mod_lt _ (by norm_num)) (not_lt.1 h)
  have h2 : a * b % 2 ^ 64 / b < a := by
    apply Nat.div_lt_of_lt_mul
    rw [Nat.mul_comm b a]
    exact h1
  omega

/-- C25.  `overflow_multiply(a, b, c)` returns `B_TRUE` exactly when the product
`a * b` of the integers is below 2^64, and then it stores `a * b` in `*c`;
otherwise it returns `B_FALSE` and leaves `*c` as it was. -/
theorem overflow_multiply_spec (a b c : Nat) :
    ((overflow_multiply a b c).1 = true ↔ a * b < 2 ^ 64) ∧
    (a * b < 2 ^ 64 → overflow_multiply a b c = (true, a * b)) ∧
    (¬ a * b < 2 ^ 64 → overflow_multiply a b c = (false, c)) := by
  refine ⟨⟨fun h => ?_, fun h => by rw [overflow_multiply_fits a b c h]⟩,
    overflow_multiply_fits a b c, overflow_multiply_overflows a b c⟩
  by_contra hn
  rw [overflow_multiply_overflows a b c hn] at h
  cases h

/-! ## Holes of an object other than the meta-dnode (C26) -/

theorem enqueue_range_same_type (q : List send_range) (dn : dnode_t) (blkid : Nat)
    (bp : blkptr_t) (datablksz : Nat) (p : send_range)
    (h : p.type = (if bp.is_hole = true then range_type.HOLE
      else if bp.is_redacted = true then range_type.REDACT else range_type.DATA)) :
    enqueue_range q dn blkid bp datablksz (some p) = (q, some { p with end_blkid := blkid }) := by
  simp only [enqueue_range]
  rw [if_pos h]
  rfl

theorem send_prefetch_blocks_same_type (E : prefetch_env) (dn : dnode_t) (bp : blkptr_t)
    (sec : Nat) (q : List send_range) :
    ∀ (n blkid : Nat) (p : send_range),
      p.type = (if bp.is_hole = true then range_type.HOLE
        else if bp.is_redacted = true then range_type.REDACT else range_type.DATA) →
      (∀ j, blkid ≤ j → j < blkid + n → E.dbuf_dnode_findbp dn j = (0, bp, sec)) →
      send_prefetch_blocks E dn (blkid + n) n blkid q (some p) =
        (0, q, some { p with end_blkid := if n = 0 then p.end_blkid else blkid + n - 1 }) := by
  intro n
  induction n with
  | zero =>
    intro blkid p _ _
    rfl
  | succ n ih =>
    intro blkid p hp hbp
    simp only [send_prefetch_blocks]
    rw [if_pos (by omega), hbp blkid (le_refl _) (by omega)]
    simp only [ne_eq, not_true_eq_false, if_false]
    rw [enqueue_range_same_type q dn blkid bp _ p hp]
    have e : blkid + (n + 1) = (blkid + 1) + n := by omega
    rw [e, ih (blkid + 1) { p with end_blkid := blkid } hp
      (fun j h1 h2 => hbp j (by omega) (by omega))]
    congr 3
    by_cases hn : n = 0
    · subst hn
      simp
    · simp only [hn, if_false]
      simp

/-- C22.  A run of `k ≥ 2` consecutive block ids `b, ..., b+k-1` of one object
that all resolve to holes, or all to redacted blocks, handed to `enqueue_range`
by the loop of `send_prefetch_thread`, leaves one pending record of that type
and nothing on the queue, but the record covers `[b, b+k-1)`: a block that is
coalesced sets `end_blkid` to its own block id, so the last block of the run is
not covered. -/
theorem enqueue_range_run (E : prefetch_env) (dn : dnode_t) (bp : blkptr_t) (sec b k : Nat)
    (q : List send_range) (hk : 2 ≤ k)
    (hco : bp.is_hole = true ∨ bp.is_redacted = true)
    (hbp : ∀ j, b ≤ j → j < b + k → E.dbuf_dnode_findbp dn j = (0, bp, sec)) :
    send_prefetch_blocks E dn (b + k) k b q none =
      (0, q, some
        { eos_marker := false, object := dn.dn_object, start_blkid := b,
          end_blkid := b + k - 1,
          type := if bp.is_hole = true then range_type.HOLE else range_type.REDACT,
          sru := { sru_zero with
            datablksz := ((sec % 2 ^ 16) <<< SPA_MINBLOCKSHIFT) % 2 ^ 32 } }) := by
  obtain ⟨n, rfl⟩ : ∃ n, k = n + 1 := ⟨k - 1, by omega⟩
  simp only [send_prefetch_blocks]
  rw [if_pos (by omega), hbp b (le_refl _) (by omega)]
  simp only [ne_eq, not_true_eq_false, if_false]
  have e : b + (n + 1) = (b + 1) + n := by omega
  have hn : n ≠ 0 := by omega
  rcases hco with hh | hr
  · simp only [enqueue_range, hh, if_true]
    rw [if_neg (by decide)]
    simp only
    rw [e, send_prefetch_blocks_same_type E dn bp sec q n (b + 1) _ (by simp [hh, range_alloc])
      (fun j h1 h2 => hbp j (by omega) (by omega))]
    simp only [hn, if_false, range_alloc]
  · by_cases hh : bp.is_hole = true
    · simp only [enqueue_range, hh, if_true]
      rw [if_neg (by decide)]
      simp only
      rw [e, send_prefetch_blocks_same_type E dn bp sec q n (b + 1) _ (by simp [hh, range_alloc])
        (fun j h1 h2 => hbp j (by omega) (by omega))]
      simp only [hn, if_false, range_alloc]
    · have hh2 : bp.is_hole = false := by simpa using hh
      simp only [enqueue_range, hh2, hr, Bool.false_eq_true, if_true, if_false]
      rw [if_neg (by decide)]
      simp only
      rw [e, send_prefetch_blocks_same_type E dn bp sec q n (b + 1) _
        (by simp [hh2, hr, range_alloc]) (fun j h1 h2 => hbp j (by omega) (by omega))]
      simp only [hn, if_false, range_alloc]

/-- Witness of `enqueue_range_run`: three holes at the block ids 4, 5 and 6 of
object 7 leave the pending HOLE record `[4, 6)`. -/
theorem enqueue_range_run_witness :
    send_prefetch_blocks (sample_prefetch_env_holes 10)
        { dn_object := 7, dn_type := 19, dn_maxblkid := 10 } (4 + 3) 3 4 [] none =
      (0, [], some
        { eos_marker := false, object := 7, start_blkid := 4, end_blkid := 4 + 3 - 1,
          type := if ({ sample_bp with is_hole := true } : blkptr_t).is_hole = true then
            range_type.HOLE else range_type.REDACT,
          sru := { sru_zero with
            datablksz := ((1 % 2 ^ 16) <<< SPA_MINBLOCKSHIFT) % 2 ^ 32 } }) :=
  enqueue_range_run (sample_prefetch_env_holes 10)
    { dn_object := 7, dn_type := 19, dn_maxblkid := 10 } { sample_bp with is_hole := true }
    1 4 3 [] (by decide) (Or.inl rfl) (fun _ _ _ => rfl)

/-! ## Resolving a PREVIOUSLY_REDACTED range (C23) -/

/-- C23.  The PREVIOUSLY_REDACTED range `[0, 4)` of object 7, whose largest
block id in the target is 2 and whose blocks all resolve to data blocks, is
re-emitted as DATA records for the blocks 0 and 1 only: the loop stops in front
of `min(dn_maxblkid, end_blkid)`, so block 2 is not resolved.  When the blocks
resolve to holes and the largest block id is 10, the range `[0, 3)` is
re-emitted as the HOLE record `[0, 2)`: block 2 is lost in coalescing. -/
theorem send_prefetch_thread_skips_blocks :
    send_prefetch_thread (sample_prefetch_env 0 2)
        [sample_range range_type.PREVIOUSLY_REDACTED 7 0 4 0, eos_record] 5 =
      some { q := [sample_resolved_data 7 0, sample_resolved_data 7 1, eos_record],
             error := 0, cancelled_merge := false } ∧
    send_prefetch_thread (sample_prefetch_env_holes 10)
        [sample_range range_type.PREVIOUSLY_REDACTED 7 0 3 0, eos_record] 5 =
      some { q := [sample_range range_type.HOLE 7 0 2 512, eos_record],
             error := 0, cancelled_merge := false } := by
  refine ⟨?_, ?_⟩
  · decide
  · decide

/-! ## A failure while a PREVIOUSLY_REDACTED range is resolved (C24) -/

theorem send_prefetch_loop_spins (range : send_range) (inq outq : List send_range)
    (ht : range.type = range_type.PREVIOUSLY_REDACTED) (he : range.eos_marker = false) :
    ∀ (fuel err last_obj turns : Nat),
      send_prefetch_loop sample_prefetch_env_hold_fails fuel
        { range := range, inq := inq, outq := outq, err := err, last_obj := last_obj,
          last_obj_exists := true, turns := turns } = none := by
  intro fuel
  induction fuel with
  | zero => intro err last_obj turns; rfl
  | succ fuel ih =>
    intro err last_obj turns
    simp only [send_prefetch_loop]
    rw [if_pos ⟨he, rfl, rfl⟩]
    simp only [ht, sample_prefetch_env_hold_fails, Bool.not_true, Bool.and_false,
      Bool.false_eq_true, if_false]
    have h1 : (if EIO = ENOENT then 0 else EIO) ≠ 0 := by decide
    have h2 : decide ( EIO ≠ ENOENT) = true := by decide
    rw [if_pos h1, h2]
    exact ih _ _ _

/-- C24.  When `dnode_hold` fails with `EIO` for the object of a
PREVIOUSLY_REDACTED range, and goes on failing, `send_prefetch_thread` never
leaves its loop, whatever the number of turns allowed: the `break` leaves the
`switch` only and `err` is not in the condition of the loop.  When
`dbuf_dnode_findbp` fails with `EIO` for the range of object 7, the thread goes
on with the next range and enqueues the DATA record of object 8 before it
reports `EIO`; and when that next range is a PREVIOUSLY_REDACTED range of
object 8 that resolves, the error is overwritten: the thread reports 0 and does
not set the cancel flag of the merge thread. -/
theorem send_prefetch_thread_goes_on_after_error :
    (∀ fuel, send_prefetch_thread sample_prefetch_env_hold_fails
      [sample_range range_type.PREVIOUSLY_REDACTED 7 0 4 0, eos_record] fuel = none) ∧
    send_prefetch_thread sample_prefetch_env_findbp_fails
        [sample_range range_type.PREVIOUSLY_REDACTED 7 0 2 0, sample_data_range 8 0,
          eos_record] 5 =
      some { q := [sample_data_range 8 0, eos_record], error := EIO, cancelled_merge := true } ∧
    send_prefetch_thread sample_prefetch_env_findbp_fails
        [sample_range range_type.PREVIOUSLY_REDACTED 7 0 2 0,
          sample_range range_type.PREVIOUSLY_REDACTED 8 0 2 0, eos_record] 5 =
      some { q := [sample_resolved_data 8 0, sample_resolved_data 8 1, eos_record],
             error := 0, cancelled_merge := false } := by
  refine ⟨fun fuel => ?_, ?_, ?_⟩
  · simp only [send_prefetch_thread, bqueue_dequeue]
    rw [send_prefetch_loop_spins _ _ _ rfl rfl]
  · decide
  · decide

/-! ## A from snapshot that is not an earlier snapshot of the target (C21) -/

/-- C21.  When the call `dsl_dataset_is_before(to_ds, fromds, 0)` is reached and
gives false, `dmu_send_obj`, `dmu_send` and `dmu_send_estimate_fast` return
`EXDEV`; `dmu_send_obj` and `dmu_send` do so without a call of `dmu_send_impl`,
and `dmu_send_estimate_fast` leaves `*sizep` as it was.  The call is reached in
`dmu_send_obj` when the pool, the target and the from snapshot (`fromsnap != 0`)
are held; in `dmu_send` when the from name holds an `@`, and the pool, the
target, the redaction bookmark, if one is given, and the from snapshot are
held; in `dmu_send_estimate_fast` when the target and `fromds` are
snapshots. -/
theorem send_not_before_is_EXDEV (W : stream_codec) (H : send_holds_t) (X : dmu_send_world)
    (hnb : H.is_before = false) :
    (∀ (fromsnap : Nat) (rawok : Bool) (off : Nat) (dsop : dmu_send_outparams_t),
      H.pool_hold_err = 0 → H.to_hold_err = 0 → fromsnap ≠ 0 → H.from_hold_err = 0 →
      dmu_send_obj W H X fromsnap rawok off dsop = some (EXDEV, none)) ∧
    (∀ (tosnap f : List Char) (rawok : Bool) (resumeobj resumeoff : Nat)
      (redactbook : Option (List Char)) (off : Nat) (dsop : dmu_send_outparams_t),
      '@' ∈ f → H.pool_hold_err = 0 → (dmu_send_hold_to H tosnap).1 = 0 →
      dmu_send_redactbook_err H tosnap redactbook = 0 → H.from_hold_err = 0 →
      dmu_send W H X tosnap (some f) rawok resumeobj resumeoff redactbook off dsop =
        some (EXDEV, none)) ∧
    (∀ (E : estimate_recordsize_t) (A : estimate_args_t) (f : estimate_fromds_t)
      (stream_compressed : Bool) (sizep : Nat),
      A.ds_is_snapshot = true → A.fromds = some f → f.ds_is_snapshot = true →
      f.is_before = false →
      dmu_send_estimate_fast E A stream_compressed sizep = some (EXDEV, sizep)) := by
  refine ⟨?_, ?_, ?_⟩
  · intro fromsnap rawok off dsop h1 h2 h3 h4
    simp only [dmu_send_obj]
    rw [if_neg (by simp [h1]), if_neg (by simp [h2]), if_pos h3, if_neg (by simp [h4]),
      if_pos hnb]
  · intro tosnap f rawok resumeobj resumeoff redactbook off dsop h0 h1 h2 h3 h4
    have hs : (strpbrk_at_hash f).isNone = false := by
      unfold strpbrk_at_hash
      have : (f.findIdx fun c => c = '@' || c = '#') < f.length := by
        apply List.findIdx_lt_length_of_exists
        exact ⟨'@', h0, by simp⟩
      simp [this]
    simp only [dmu_send, hs]
    rw [if_neg (by simp), if_neg (by simp [h1]), if_neg (by simp [h2]), if_neg (by simp [h3])]
    rw [if_pos h0, if_neg (by simp [h4]), if_pos hnb]
  · intro E A f sc sizep h1 h2 h3 h4
    simp [dmu_send_estimate_fast, dmu_send_estimate_fast_totals, h1, h2, h3, h4, EXDEV]

/-- Witness of `send_not_before_is_EXDEV`: an incremental send of `pool/fs@b`
from `pool/fs@a`, which is held but is not an earlier snapshot, by object
number and by name, and the estimate for it. -/
theorem send_not_before_is_EXDEV_witness :
    dmu_send_obj sample_codec (sample_holds false) (sample_world [eos_record] 0) 5 false 0
      { dso_outfunc := fun _ => 0, dso_dryrun := false } = some (EXDEV, none) ∧
    dmu_send sample_codec (sample_holds false) (sample_world [eos_record] 0)
      "pool/fs@b".toList (some "pool/fs@a".toList) false 0 0 none 0
      { dso_outfunc := fun _ => 0, dso_dryrun := false } = some (EXDEV, none) ∧
    dmu_send_estimate_fast sample_estimate sample_estimate_args_exdev false 7 =
      some (EXDEV, 7) :=
  ⟨(send_not_before_is_EXDEV sample_codec (sample_holds false) (sample_world [eos_record] 0)
      rfl).1 5 false 0 { dso_outfunc := fun _ => 0, dso_dryrun := false } rfl rfl (by decide) rfl,
   (send_not_before_is_EXDEV sample_codec (sample_holds false) (sample_world [eos_record] 0)
      rfl).2.1 "pool/fs@b".toList "pool/fs@a".toList false 0 0 none 0
      { dso_outfunc := fun _ => 0, dso_dryrun := false } (by decide) rfl rfl rfl rfl,
   (send_not_before_is_EXDEV sample_codec (sample_holds false) (sample_world [eos_record] 0)
      rfl).2.2 sample_estimate sample_estimate_args_exdev
      { ds_is_snapshot := true, is_before := false, space_written := (0, 0, 0) } false 7
      rfl rfl rfl rfl⟩

/-- The same send from a snapshot that is an earlier snapshot of the target
calls `dmu_send_impl` and returns 0. -/
theorem dmu_send_before_example :
    (dmu_send sample_codec (sample_holds true) (sample_world [eos_record] 0)
      "pool/fs@b".toList (some "pool/fs@a".toList) false 0 0 none 0
      { dso_outfunc := fun _ => 0, dso_dryrun := false }).map (fun r => (r.1, r.2.isNone)) =
      some (0, false) := by
  decide

/-! ## The record buffer while a record is pending (C28) -/

theorem pending_inv_ASSERT (d : dmu_send_cookie_t) (hinv : pending_inv d)
    (hp : d.dsc_pending_op ≠ dmu_pendop_t.PENDING_NONE) : dump_record_ASSERT d = true := by
  unfold dump_record_ASSERT
  simp only [decide_eq_true_eq]
  right
  obtain ⟨h1, h2, h3⟩ := hinv
  cases hq : d.dsc_pending_op with
  | PENDING_NONE => exact absurd hq hp
  | PENDING_FREE => exact (h1 hq).2.2
  | PENDING_FREEOBJECTS => exact (h2 hq).2.2
  | PENDING_REDACT => exact (h3 hq).2.2

theorem flush_twice_ASSERT (W : stream_codec) (d : dmu_send_cookie_t) (hinv : pending_inv d)
    (c1 c2 c3 : dmu_send_cookie_t → Prop) [Decidable (c1 d)]
    [∀ x, Decidable (c2 x)] [∀ x, Decidable (c3 x)]
    (h1 : c1 d → d.dsc_pending_op ≠ dmu_pendop_t.PENDING_NONE)
    (h3 : ∀ x, c3 x → x.dsc_pending_op ≠ dmu_pendop_t.PENDING_NONE) :
    ((if c1 d then dump_record_ASSERT d else true) &&
      (if (if c1 d then push_out_pending W d else (0, d)).1 ≠ 0 then true
        else if c2 (if c1 d then push_out_pending W d else (0, d)).2 then true
        else if c3 (if c1 d then push_out_pending W d else (0, d)).2 then
          dump_record_ASSERT (if c1 d then push_out_pending W d else (0, d)).2
        else true)) = true := by
  obtain ⟨-, k1⟩ := push_out_ser_ext W false false (fun h => by cases h) d hinv (c1 d) h1
  generalize (if c1 d then push_out_pending W d else (0, d)) = r1 at k1 ⊢
  rw [Bool.and_eq_true]
  constructor
  · by_cases hc : c1 d
    · rw [if_pos hc]
      exact pending_inv_ASSERT d hinv (h1 hc)
    · rw [if_neg hc]
  · by_cases he : r1.1 ≠ 0
    · rw [if_pos he]
    rw [if_neg he]
    by_cases h2 : c2 r1.2
    · rw [if_pos h2]
    rw [if_neg h2]
    by_cases h4 : c3 r1.2
    · rw [if_pos h4]
      exact pending_inv_ASSERT r1.2 (k1 (not_not.1 he)).1 (h3 _ h4)
    · rw [if_neg h4]

theorem dump_free_flush (W : stream_codec) (d : dmu_send_cookie_t) (hinv : pending_inv d)
    (object offset : Nat) : dump_free_flush_ASSERT W d object offset = true :=
  flush_twice_ASSERT W d hinv
    (fun x => x.dsc_pending_op ≠ dmu_pendop_t.PENDING_NONE ∧
      x.dsc_pending_op ≠ dmu_pendop_t.PENDING_FREE)
    (fun x => x.dsc_pending_op = dmu_pendop_t.PENDING_FREE ∧ x.dsc_drr.drr_object = object ∧
      (x.dsc_drr.drr_offset + x.dsc_drr.drr_length) % 2 ^ 64 = offset)
    (fun x => x.dsc_pending_op = dmu_pendop_t.PENDING_FREE)
    (fun h => h.1) (fun x h => by rw [h]; simp)

theorem dump_redact_flush (W : stream_codec) (d : dmu_send_cookie_t) (hinv : pending_inv d)
    (object offset : Nat) : dump_redact_flush_ASSERT W d object offset = true :=
  flush_twice_ASSERT W d hinv
    (fun x => x.dsc_pending_op ≠ dmu_pendop_t.PENDING_NONE ∧
      x.dsc_pending_op ≠ dmu_pendop_t.PENDING_REDACT)
    (fun x => x.dsc_pending_op = dmu_pendop_t.PENDING_REDACT ∧ x.dsc_drr.drr_object = object ∧
      (x.dsc_drr.drr_offset + x.dsc_drr.drr_length) % 2 ^ 64 = offset)
    (fun x => x.dsc_pending_op = dmu_pendop_t.PENDING_REDACT)
    (fun h => h.1) (fun x h => by rw [h]; simp)

theorem dump_freeobjects_flush (W : stream_codec) (d : dmu_send_cookie_t)
    (hinv : pending_inv d) (firstobj : Nat) :
    dump_freeobjects_flush_ASSERT W d firstobj = true :=
  flush_twice_ASSERT W d hinv
    (fun x => x.dsc_pending_op ≠ dmu_pendop_t.PENDING_NONE ∧
      x.dsc_pending_op ≠ dmu_pendop_t.PENDING_FREEOBJECTS)
    (fun x => x.dsc_pending_op = dmu_pendop_t.PENDING_FREEOBJECTS ∧
      (x.dsc_drr.drr_firstobj + x.dsc_drr.drr_numobjs) % 2 ^ 64 = firstobj)
    (fun x => x.dsc_pending_op = dmu_pendop_t.PENDING_FREEOBJECTS)
    (fun h => h.1) (fun x h => by rw [h]; simp)

theorem emit_record_flush (d : dmu_send_cookie_t) (hinv : pending_inv d) :
    emit_record_flush_ASSERT d = true := by
  unfold emit_record_flush_ASSERT
  by_cases h : d.dsc_pending_op ≠ dmu_pendop_t.PENDING_NONE
  · rw [if_pos h]
    exact pending_inv_ASSERT d hinv h
  · rw [if_neg h]

theorem dump_dnode_flush (W : stream_codec) (d : dmu_send_cookie_t) (hinv : pending_inv d)
    (bp : Option blkptr_t) (object : Nat) (dnp : Option dnode_phys_t) :
    dump_dnode_flush_ASSERT W d bp object dnp = true := by
  unfold dump_dnode_flush_ASSERT
  by_cases hr : object < d.dsc_resume_object
  · rw [if_pos hr]
  rw [if_neg hr]
  cases dnp with
  | none => exact dump_freeobjects_flush W d hinv object
  | some dn =>
    simp only
    by_cases ht : dn.dn_type = DMU_OT_NONE
    · rw [if_pos ht]
      exact dump_freeobjects_flush W d hinv object
    rw [if_neg ht, emit_record_flush d hinv, Bool.true_and]
    obtain ⟨-, k1⟩ := emit_record_ser_ext W false true (fun h => by cases h) d hinv
      (fun x => dump_dnode_record x bp object dn) (some dn.dn_bonus)
      (fun x => dump_dnode_bonuslen x dn)
      (fun x => by rw [dump_dnode_record_type]; simp)
      (fun x => by rw [dump_dnode_record_type]; simp) (fun h => by cases h)
      (fun h => by cases h)
    simp only [emit_record] at k1
    generalize (if d.dsc_pending_op ≠ dmu_pendop_t.PENDING_NONE then push_out_pending W d
      else (0, d)) = r1 at k1 ⊢
    by_cases h1 : r1.1 ≠ 0
    · rw [if_pos h1]
    rw [if_neg h1] at k1 ⊢
    generalize dump_record W { r1.2 with dsc_drr := dump_dnode_record r1.2 bp object dn }
      (some dn.dn_bonus) (dump_dnode_bonuslen r1.2 dn) = r2 at k1 ⊢
    by_cases h2 : r2.1 ≠ 0
    · rw [if_pos h2]
    rw [if_neg h2] at k1 ⊢
    exact dump_free_flush W r2.2 (pending_inv_none _ (k1 rfl)) object _

theorem sample_cookie_free_inv : pending_inv sample_cookie_free :=
  (dump_free_ser_ext sample_codec false (fun h => by cases h) sample_cookie 1 0 10
    (pending_inv_none sample_cookie rfl)).2 rfl

theorem sample_cookie_redact_inv : pending_inv sample_cookie_redact :=
  (dump_redact_ser_ext sample_codec false (fun h => by cases h) sample_cookie 1 0 10
    (pending_inv_none sample_cookie rfl)).2 rfl

/-- C28, counterexample.  `sample_cookie_redact_fails` has a REDACT record
pending with a zero checksum field.  The call `dump_free(1, 20, 5)` pushes that
record out, the output function fails, and `dump_free` returns `EINTR` with
`dsc_pending_op` still `PENDING_REDACT` while the record buffer holds the
checksum that `dump_record` stored: the invariant does not hold in the state
that the failed call leaves. -/
theorem dump_free_failed_flush :
    pending_inv sample_cookie_redact_fails ∧
    (dump_free sample_codec sample_cookie_redact_fails 1 20 5).1 = EINTR ∧
    (dump_free sample_codec sample_cookie_redact_fails 1 20 5).2.dsc_pending_op =
      dmu_pendop_t.PENDING_REDACT ∧
    (dump_free sample_codec sample_cookie_redact_fails 1 20 5).2.dsc_drr.drr_checksum ≠
      zio_cksum_zero ∧
    ¬ pending_inv (dump_free sample_codec sample_cookie_redact_fails 1 20 5).2 := by
  refine ⟨sample_cookie_redact_inv, by decide, by decide, by decide, fun h => ?_⟩
  have := (h.2.2 (by decide)).2.2
  revert this
  decide

/-- C28, amended.  Let the record buffer hold, whenever a record is pending, a
record of the matching type with the session's `toguid` and a zero trailing
checksum field.  Then in every call of `dump_free`, `dump_redact`,
`dump_freeobjects`, `dump_write`, `dump_write_embedded`, `dump_spill` and
`dump_dnode` the zero-checksum assertion of `dump_record` holds wherever the
call pushes out a pending record, and the state that a call leaves when it
returns 0 has the same property. -/
theorem pending_inv_kept (W : stream_codec) (d : dmu_send_cookie_t) (hinv : pending_inv d) :
    (∀ object offset length,
      dump_free_flush_ASSERT W d object offset = true ∧
      ((dump_free W d object offset length).1 = 0 →
        pending_inv (dump_free W d object offset length).2)) ∧
    (∀ object offset length,
      dump_redact_flush_ASSERT W d object offset = true ∧
      ((dump_redact W d object offset length).1 = 0 →
        pending_inv (dump_redact W d object offset length).2)) ∧
    (∀ firstobj numobjs,
      dump_freeobjects_flush_ASSERT W d firstobj = true ∧
      ((dump_freeobjects W d firstobj numobjs).1 = 0 →
        pending_inv (dump_freeobjects W d firstobj numobjs).2)) ∧
    (∀ type object offset lsize psize bp data,
      emit_record_flush_ASSERT d = true ∧
      ((dump_write W d type object offset lsize psize bp data).1 = 0 →
        pending_inv (dump_write W d type object offset lsize psize bp data).2)) ∧
    (∀ object offset blksz bp,
      emit_record_flush_ASSERT d = true ∧
      ((dump_write_embedded W d object offset blksz bp).1 = 0 →
        pending_inv (dump_write_embedded W d object offset blksz bp).2)) ∧
    (∀ bp object data,
      emit_record_flush_ASSERT d = true ∧
      ((dump_spill W d bp object data).1 = 0 →
        pending_inv (dump_spill W d bp object data).2)) ∧
    (∀ bp object dnp,
      dump_dnode_flush_ASSERT W d bp object dnp = true ∧
      ((dump_dnode W d bp object dnp).1 = 0 →
        pending_inv (dump_dnode W d bp object dnp).2)) := by
  have hF : (false = true → stream_codec_ok W) := fun h => by cases h
  refine ⟨fun object offset length => ⟨dump_free_flush W d hinv object offset,
      (dump_free_ser_ext W false hF d object offset length hinv).2⟩,
    fun object offset length => ⟨dump_redact_flush W d hinv object offset,
      (dump_redact_ser_ext W false hF d object offset length hinv).2⟩,
    fun firstobj numobjs => ⟨dump_freeobjects_flush W d hinv firstobj,
      (dump_freeobjects_ser_ext W false hF d firstobj numobjs hinv).2⟩,
    fun type object offset lsize psize bp data => ⟨emit_record_flush d hinv, fun h =>
      pending_inv_none _ ((dump_write_ser_ext W false hF d type object offset lsize psize bp data
        hinv (fun hs => by cases hs)).2 h)⟩,
    fun object offset blksz bp => ⟨emit_record_flush d hinv, fun h =>
      pending_inv_none _ ((dump_write_embedded_ser_ext W false hF d object offset blksz bp
        hinv).2 h)⟩,
    fun bp object data => ⟨emit_record_flush d hinv, fun h =>
      pending_inv_none _ ((dump_spill_ser_ext W false hF d bp object data hinv
        (fun hs => by cases hs)).2 h)⟩,
    fun bp object dnp => ⟨dump_dnode_flush W d hinv bp object dnp,
      (dump_dnode_ser_ext W false hF d bp object dnp hinv).2⟩⟩

/-- Witness of `pending_inv_kept`: the call `dump_redact(1, 20, 5)` in the state
`sample_cookie_free`, in which a FREE record is pending; the call pushes that
record out and makes a REDACT record pending. -/
theorem pending_inv_kept_witness :
    pending_inv sample_cookie_free ∧
    dump_redact_flush_ASSERT sample_codec sample_cookie_free 1 20 = true ∧
    (dump_redact sample_codec sample_cookie_free 1 20 5).1 = 0 ∧
    pending_inv (dump_redact sample_codec sample_cookie_free 1 20 5).2 :=
  ⟨sample_cookie_free_inv,
   ((pending_inv_kept sample_codec sample_cookie_free sample_cookie_free_inv).2.1 1 20 5).1,
   by decide,
   ((pending_inv_kept sample_codec sample_cookie_free sample_cookie_free_inv).2.1 1 20 5).2
     (by decide)⟩

/-! ## A large block sent in chunks (C27) -/

theorem front_payload_len_append_header (a : List out_chunk) (h : dmu_replay_record_t)
    (rest : List out_chunk) :
    front_payload_len (a ++ out_chunk.header h :: rest) = front_payload_len a := by
  cases a with
  | nil => rfl
  | cons c a => cases c <;> rfl

theorem write_chunks_append_header (a : List out_chunk) (h : dmu_replay_record_t)
    (rest : List out_chunk) :
    write_chunks (a ++ out_chunk.header h :: rest) =
      write_chunks a ++ write_chunks (out_chunk.header h :: rest) := by
  induction a with
  | nil => rfl
  | cons c a ih =>
    cases c with
    | payload p n =>
      show write_chunks (a ++ out_chunk.header h :: rest) = _
      rw [ih]
      rfl
    | header x =>
      show write_chunks (out_chunk.header x :: (a ++ out_chunk.header h :: rest)) = _
      by_cases hx : x.drr_type = drr_type_t.DRR_WRITE
      · conv_lhs => rw [write_chunks, if_pos hx]
        conv_rhs => rw [write_chunks, if_pos hx]
        rw [ih, front_payload_len_append_header]
        rfl
      · conv_lhs => rw [write_chunks, if_neg hx]
        conv_rhs => rw [write_chunks, if_neg hx]
        rw [ih]

theorem write_chunks_no_write (l : List out_chunk)
    (h : ∀ x, out_chunk.header x ∈ l → x.drr_type ≠ drr_type_t.DRR_WRITE) :
    write_chunks l = [] := by
  induction l with
  | nil => rfl
  | cons c rest ih =>
    cases c with
    | header x =>
      rw [write_chunks, if_neg (h x (List.mem_cons_self _ _))]
      exact ih fun y hy => h y (List.mem_cons_of_mem _ hy)
    | payload p n =>
      rw [write_chunks]
      exact ih fun y hy => h y (List.mem_cons_of_mem _ hy)

theorem split_chunks_zero (object offset : Nat) : split_chunks object offset 0 = [] := by
  unfold split_chunks
  have : (0 + SPA_OLD_MAXBLOCKSIZE - 1) / SPA_OLD_MAXBLOCKSIZE = 0 := by decide
  rw [this]
  rfl

theorem split_chunks_step (object offset L : Nat) (hL : 0 < L) :
    split_chunks object offset L =
      (object, offset, min L SPA_OLD_MAXBLOCKSIZE, min L SPA_OLD_MAXBLOCKSIZE) ::
        split_chunks object (offset + min L SPA_OLD_MAXBLOCKSIZE)
          (L - min L SPA_OLD_MAXBLOCKSIZE) := by
  unfold split_chunks
  have hM : 0 < SPA_OLD_MAXBLOCKSIZE := by decide
  generalize SPA_OLD_MAXBLOCKSIZE = M at hM ⊢
  by_cases hle : L ≤ M
  · have h1 : (L + M - 1) / M = 1 := by
      apply Nat.div_eq_of_lt_le <;> omega
    have h2 : (L - min L M + M - 1) / M = 0 := by
      rw [min_eq_left hle]
      apply Nat.div_eq_of_lt
      omega
    rw [h1, h2, min_eq_left hle]
    show [(object, offset + 0 * M, min M (L - 0 * M), min M (L - 0 * M))] = _
    simp [min_eq_right hle]
  · have hgt : M < L := not_le.1 hle
    have hmin : min L M = M := min_eq_right (le_of_lt hgt)
    rw [hmin]
    have h1 : (L + M - 1) / M = (L - M + M - 1) / M + 1 := by
      have : L + M - 1 = (L - M + M - 1) + M := by omega
      rw [this, Nat.add_div_right _ hM]
    rw [h1, List.range_succ_eq_map, List.map_cons, List.map_map]
    congr 1
    · simp [min_eq_left (le_of_lt hgt)]
    · apply List.map_congr_left
      intro i _
      simp only [Function.comp, Nat.succ_eq_add_one]
      have e1 : offset + (i + 1) * M = offset + M + i * M := by ring
      have e2 : L - (i + 1) * M = L - M - i * M := by
        rw [Nat.add_mul, Nat.one_mul, Nat.add_comm, Nat.sub_add_eq]
      rw [e1, e2]

theorem split_chunks_length (object offset L : Nat) :
    (split_chunks object offset L).length =
      (L + SPA_OLD_MAXBLOCKSIZE - 1) / SPA_OLD_MAXBLOCKSIZE := by
  simp [split_chunks]

theorem split_chunks_sizes (object : Nat) :
    ∀ (n offset L : Nat), L ≤ n →
      ((split_chunks object offset L).map fun c => c.2.2.1).sum = L ∧
      ∀ c ∈ split_chunks object offset L,
        c.1 = object ∧ 0 < c.2.2.1 ∧ c.2.2.1 ≤ SPA_OLD_MAXBLOCKSIZE ∧ c.2.2.2 = c.2.2.1 := by
  intro n
  induction n with
  | zero =>
    intro offset L h
    have : L = 0 := by omega
    subst this
    rw [split_chunks_zero]
    simp
  | succ n ih =>
    intro offset L h
    by_cases hL : 0 < L
    · rw [split_chunks_step object offset L hL]
      have hM : 0 < SPA_OLD_MAXBLOCKSIZE := by decide
      have hmin : 0 < min L SPA_OLD_MAXBLOCKSIZE := lt_min hL hM
      obtain ⟨s1, s2⟩ := ih (offset + min L SPA_OLD_MAXBLOCKSIZE)
        (L - min L SPA_OLD_MAXBLOCKSIZE) (by omega)
      refine ⟨?_, ?_⟩
      · rw [List.map_cons, List.sum_cons, s1]
        have : min L SPA_OLD_MAXBLOCKSIZE ≤ L := min_le_left _ _
        show min L SPA_OLD_MAXBLOCKSIZE + _ = L
        omega
      · intro c hc
        rcases List.mem_cons.1 hc with rfl | hc
        · exact ⟨rfl, hmin, min_le_right _ _, rfl⟩
        · exact s2 c hc
    · have : L = 0 := by omega
      subst this
      rw [split_chunks_zero]
      simp

theorem dump_write_payload_size_same (d : dmu_send_cookie_t) (n : Nat) :
    dump_write_payload_size d n n = n := by
  unfold dump_write_payload_size
  split_ifs <;> rfl

theorem emit_record_chunk (W : stream_codec) (d : dmu_send_cookie_t) (hinv : pending_inv d)
    (rec : dmu_send_cookie_t → dmu_replay_record_t) (p : Option (List Nat))
    (sz : dmu_send_cookie_t → Nat) (object offset lsize len : Nat)
    (hrec : ∀ x, (rec x).drr_type = drr_type_t.DRR_WRITE ∧ (rec x).drr_object = object ∧
      (rec x).drr_offset = offset ∧ (rec x).drr_logical_size = lsize)
    (hsz : ∀ x, sz x = len) (hlen : len ≠ 0) (h : (emit_record W d rec p sz).1 = 0) :
    write_chunks (emit_record W d rec p sz).2.dsc_out =
      write_chunks d.dsc_out ++ [(object, offset, lsize, len)] := by
  simp only [emit_record] at h ⊢
  have hout : write_chunks (if d.dsc_pending_op ≠ dmu_pendop_t.PENDING_NONE then
      push_out_pending W d else (0, d)).2.dsc_out = write_chunks d.dsc_out := by
    by_cases hp : d.dsc_pending_op ≠ dmu_pendop_t.PENDING_NONE
    · rw [if_pos hp, push_out_pending_out, write_chunks_append_header]
      rw [write_chunks_no_write [out_chunk.header (dump_record_header W d)]]
      · simp
      · intro y hy
        simp only [List.mem_singleton, out_chunk.header.injEq] at hy
        subst hy
        rw [dump_record_header_type]
        exact (pending_inv_type d hinv hp).2.2
    · rw [if_neg hp]
  generalize (if d.dsc_pending_op ≠ dmu_pendop_t.PENDING_NONE then push_out_pending W d
    else (0, d)) = r1 at h hout ⊢
  by_cases h1 : r1.1 ≠ 0
  · rw [if_pos h1] at h
    exact absurd h h1
  rw [if_neg h1] at h ⊢
  by_cases h2 : (dump_record W { r1.2 with dsc_drr := rec r1.2 } p (sz r1.2)).1 ≠ 0
  · rw [if_pos h2] at h
    simp [EINTR] at h
  rw [if_neg h2]
  rw [dump_record_ok_out _ _ _ _ (not_not.1 h2), hsz, if_pos hlen]
  rw [write_chunks_append_header]
  show write_chunks r1.2.dsc_out ++ _ = _
  rw [hout]
  congr 1
  obtain ⟨g1, g2, g3⟩ := dump_record_header_write_fields W { r1.2 with dsc_drr := rec r1.2 }
  have g0 := dump_record_header_type W { r1.2 with dsc_drr := rec r1.2 }
  obtain ⟨t0, t1, t2, t3⟩ := hrec r1.2
  rw [write_chunks, if_pos (g0.trans t0), g1, g2, g3]
  show (_ : Nat × Nat × Nat × Nat) :: _ = _
  rw [t1, t2, t3]
  rfl

theorem dump_write_chunk (W : stream_codec) (d : dmu_send_cookie_t)
    (type object offset n : Nat) (bp : Option blkptr_t) (data : Option (List Nat))
    (hinv : pending_inv d) (hn : n ≠ 0)
    (h : (dump_write W d type object offset n n bp data).1 = 0) :
    write_chunks (dump_write W d type object offset n n bp data).2.dsc_out =
      write_chunks d.dsc_out ++ [(object, offset, n, n)] := by
  rw [dump_write_eq_emit] at h ⊢
  exact emit_record_chunk W
    { d with dsc_last_data_object := object,
             dsc_last_data_offset := (offset + n + 2 ^ 64 - 1) % 2 ^ 64 } hinv _ data _
    object offset n n
    (fun x => dump_write_record_fields W x type object offset n n bp)
    (fun x => dump_write_payload_size_same x n) hn h

theorem do_dump_split_total (W : stream_codec) (type object : Nat) :
    ∀ (fuel offset : Nat) (buf : List Nat) (datablksz err : Nat) (d : dmu_send_cookie_t),
      datablksz ≤ fuel →
      ∃ r, do_dump_split W type object fuel offset buf datablksz err d = some r := by
  intro fuel
  induction fuel with
  | zero =>
    intro offset buf datablksz err d h
    exact ⟨_, (do_dump_split_exit W type object 0 offset buf datablksz err d (by omega)).1⟩
  | succ fuel ih =>
    intro offset buf datablksz err d h
    by_cases hc : datablksz > 0 ∧ err = 0
    · simp only [do_dump_split]
      rw [if_pos hc]
      have hM : 0 < SPA_OLD_MAXBLOCKSIZE := by decide
      have hn : 0 < min datablksz SPA_OLD_MAXBLOCKSIZE := lt_min hc.1 hM
      exact ih _ _ _ _ _ (by omega)
    · exact ⟨_, (do_dump_split_exit W type object _ offset buf datablksz err d hc).1⟩

theorem do_dump_split_chunks (W : stream_codec) (type object : Nat) :
    ∀ (fuel offset : Nat) (buf : List Nat) (datablksz err : Nat) (d : dmu_send_cookie_t)
      (r : Nat × dmu_send_cookie_t),
      err = 0 → pending_inv d → offset + datablksz ≤ 2 ^ 64 →
      do_dump_split W type object fuel offset buf datablksz err d = some r → r.1 = 0 →
      write_chunks r.2.dsc_out = write_chunks d.dsc_out ++ split_chunks object offset datablksz := by
  intro fuel
  induction fuel with
  | zero =>
    intro offset buf datablksz err d r herr hinv hfit h hr
    simp only [do_dump_split] at h
    split_ifs at h with hc
    cases h
    have : datablksz = 0 := by
      by_contra hne
      exact hc ⟨Nat.pos_of_ne_zero hne, herr⟩
    subst this
    rw [split_chunks_zero]
    simp
  | succ fuel ih =>
    intro offset buf datablksz err d r herr hinv hfit h hr
    by_cases hc : datablksz > 0 ∧ err = 0
    · simp only [do_dump_split] at h
      rw [if_pos hc] at h
      have hM : 0 < SPA_OLD_MAXBLOCKSIZE := by decide
      have hn : 0 < min datablksz SPA_OLD_MAXBLOCKSIZE := lt_min hc.1 hM
      have hnle : min datablksz SPA_OLD_MAXBLOCKSIZE ≤ datablksz := min_le_left _ _
      rw [split_chunks_step object offset datablksz hc.1]
      have hw := dump_write_chunk W d type object offset (min datablksz SPA_OLD_MAXBLOCKSIZE)
        none (some buf) hinv (by omega)
      obtain ⟨-, k1⟩ := dump_write_ser_ext W false (fun h => by cases h) d type object offset
        (min datablksz SPA_OLD_MAXBLOCKSIZE) (min datablksz SPA_OLD_MAXBLOCKSIZE) none
        (some buf) hinv (fun h => by cases h)
      generalize dump_write W d type object offset _ _ none (some buf) = w at hw k1 h
      generalize hn2 : min datablksz SPA_OLD_MAXBLOCKSIZE = n at hn hnle hw h ⊢
      have e64 : (2 : Nat) ^ 64 = 18446744073709551616 := by norm_num
      by_cases hw0 : w.1 = 0
      · by_cases hrem : datablksz - n = 0
        · rw [hrem] at h ⊢
          rw [(do_dump_split_exit W type object fuel _ _ 0 w.1 w.2 (by omega)).1] at h
          cases h
          rw [hw hw0, split_chunks_zero]
        · have hmod : (offset + n) % 2 ^ 64 = offset + n := by
            apply Nat.mod_eq_of_lt
            rw [e64] at hfit ⊢
            omega
          rw [hmod] at h
          rw [ih (offset + n) (buf.drop n) (datablksz - n) w.1 w.2 r hw0
            (pending_inv_none _ (k1 hw0)) (by rw [e64] at hfit ⊢; omega) h hr, hw hw0]
          simp
      · rw [(do_dump_split_exit W type object fuel _ _ _ w.1 w.2 (fun hx => hw0 hx.2)).1] at h
        cases h
        exact absurd hr hw0
    · have : datablksz = 0 := by
        by_contra hne
        exact hc ⟨Nat.pos_of_ne_zero hne, herr⟩
      subst this
      rw [(do_dump_split_exit W type object _ offset buf 0 err d (by omega)).1] at h
      cases h
      rw [split_chunks_zero]
      simp

theorem do_dump_split_assert_chain (W : stream_codec) (type object : Nat) :
    ∀ (fuel offset : Nat) (buf : List Nat) (datablksz err : Nat) (d : dmu_send_cookie_t),
      pending_inv d → increasing_order_ASSERT d object offset = true →
      offset + datablksz ≤ 2 ^ 64 →
      do_dump_split_ASSERT W type object fuel offset buf datablksz err d = true := by
  intro fuel
  induction fuel with
  | zero => intro offset buf datablksz err d _ _ _; rfl
  | succ fuel ih =>
    intro offset buf datablksz err d hinv ha hfit
    by_cases hc : datablksz > 0 ∧ err = 0
    · simp only [do_dump_split_ASSERT]
      rw [if_pos hc, ha, Bool.true_and]
      have hM : 0 < SPA_OLD_MAXBLOCKSIZE := by decide
      have hn : 0 < min datablksz SPA_OLD_MAXBLOCKSIZE := lt_min hc.1 hM
      have hnle : min datablksz SPA_OLD_MAXBLOCKSIZE ≤ datablksz := min_le_left _ _
      obtain ⟨-, l1, l2⟩ := dump_write_write_recs W d type object offset
        (min datablksz SPA_OLD_MAXBLOCKSIZE) (min datablksz SPA_OLD_MAXBLOCKSIZE) none
        (some buf) hinv
      obtain ⟨-, k1⟩ := dump_write_ser_ext W false (fun h => by cases h) d type object offset
        (min datablksz SPA_OLD_MAXBLOCKSIZE) (min datablksz SPA_OLD_MAXBLOCKSIZE) none
        (some buf) hinv (fun h => by cases h)
      generalize dump_write W d type object offset _ _ none (some buf) = w at l1 l2 k1 ⊢
      generalize hn2 : min datablksz SPA_OLD_MAXBLOCKSIZE = n at hn hnle l2 ⊢
      have e64 : (2 : Nat) ^ 64 = 18446744073709551616 := by norm_num
      by_cases hw : datablksz - n > 0 ∧ w.1 = 0
      · apply ih _ _ _ _ _ (pending_inv_none _ (k1 hw.2))
        · unfold increasing_order_ASSERT
          simp only [decide_eq_true_eq]
          rw [l1, l2]
          rw [e64] at hfit ⊢
          omega
        · rw [e64] at hfit ⊢
          omega
      · exact (do_dump_split_exit W type object fuel _ _ _ w.1 w.2 hw).2
    · exact (do_dump_split_exit W type object _ offset buf datablksz err d hc).2

theorem do_dump_data_action_split (E : do_dump_env) (d : dmu_send_cookie_t)
    (range : send_range) (bp : blkptr_t) (abuf : arc_buf_t)
    (hsa : bp.bp_type ≠ DMU_OT_SA) (hemb : send_do_embed d bp = false)
    (hL : range.sru.datablksz > SPA_OLD_MAXBLOCKSIZE)
    (hflag : d.dsc_featureflags &&& DMU_BACKUP_FEATURE_LARGE_BLOCKS = 0)
    (hdry : d.dsc_dso.dso_dryrun = false)
    (hread : E.arc_read range (decide (d.dsc_featureflags &&& DMU_BACKUP_FEATURE_RAW ≠ 0))
      false = arc_read_result.ok abuf) :
    do_dump_data_action E d range bp = data_action.split abuf.b_data 0 := by
  unfold do_dump_data_action
  generalize decide (d.dsc_featureflags &&& DMU_BACKUP_FEATURE_RAW ≠ 0) = raw at hread ⊢
  rw [if_neg hsa]
  simp [hemb, hdry, hflag, hL, hread, arc_read_err, arc_read_abuf]

/-- C27, counterexample.  Four sends of a block of `3 * 2^17` bytes of object 1
without the LARGE_BLOCKS flag.  At block id `(2^48 - 1) / 3` the start offset is
`2^64 - 2^17` in 64-bit arithmetic: the three WRITE records are at the offsets
`2^64 - 2^17`, 0 and `2^17`, and the assertion of `dump_write` fails at the
second.  With an output function that fails at the third buffer `do_dump`
returns `EINTR` after two WRITE headers.  When the read fails and
`zfs_send_corrupt_data` is set, the loop is entered with the error of the read
and `do_dump` returns `EIO` without a WRITE record.  From a state whose last
data object is 5 the assertion fails at the first chunk.  In a dry run no
buffer is read and `do_dump` dereferences the `NULL` buffer.  A block that is
sent embedded gives one WRITE_EMBEDDED record and no WRITE record. -/
theorem do_dump_split_fails :
    (do_dump_write_ASSERT sample_codec sample_env sample_cookie
        (sample_large_range 1 ((2 ^ 48 - 1) / 3) (3 * 2 ^ 17)) = false ∧
      (do_dump sample_codec sample_env sample_cookie
        (sample_large_range 1 ((2 ^ 48 - 1) / 3) (3 * 2 ^ 17))).map
        (fun r => (r.1, (write_chunks r.2.dsc_out).map fun c => c.2.1)) =
        some (0, [2 ^ 64 - 2 ^ 17, 0, 2 ^ 17])) ∧
    (do_dump sample_codec sample_env
        { sample_cookie with
          dsc_dso := { dso_outfunc := sample_outfunc_fails_third, dso_dryrun := false } }
        (sample_large_range 1 0 (3 * 2 ^ 17))).map
      (fun r => (r.1, (write_chunks r.2.dsc_out).length)) = some (EINTR, 2) ∧
    (do_dump sample_codec sample_env_corrupt sample_cookie
        (sample_large_range 1 0 (3 * 2 ^ 17))).map
      (fun r => (r.1, r.2.dsc_out.length)) = some ( EIO, 0) ∧
    do_dump_write_ASSERT sample_codec sample_env
      { sample_cookie with dsc_last_data_object := 5 }
      (sample_large_range 1 0 (3 * 2 ^ 17)) = false ∧
    (do_dump sample_codec sample_env
        { sample_cookie with dsc_dso := { dso_outfunc := fun _ => 0, dso_dryrun := true } }
        (sample_large_range 1 0 (3 * 2 ^ 17))).isNone = true ∧
    (do_dump sample_codec sample_env
        { sample_cookie with dsc_featureflags := DMU_BACKUP_FEATURE_EMBED_DATA }
        { sample_large_range 1 0 (3 * 2 ^ 17) with
          sru := { datablksz := 3 * 2 ^ 17, obj_type := 19,
                   bp := some { sample_bp with is_embedded := true, lsize := 3 * 2 ^ 17 },
                   dnp := none } }).map
      (fun r => (r.1, r.2.dsc_out.length, (write_chunks r.2.dsc_out).length)) =
      some (0, 1, 0) := by
  refine ⟨⟨?_, ?_⟩, ?_, ?_, ?_, ?_, ?_⟩
  · decide
  · decide
  · decide
  · decide
  · decide
  · decide
  · decide

/-- C27, amended.  Let a DATA block of `L > SPA_OLD_MAXBLOCKSIZE` bytes, neither
a spill block nor sent as an embedded block, be sent without the LARGE_BLOCKS
flag, not in a dry run, from a state in which the record buffer matches the
pending record; let the read of the block succeed and the end offset
`(start_blkid + 1) * L` be at most 2^64.  Then `do_dump` returns (the loop
terminates).  When it returns 0, the WRITE records it has handed to the output
function are those of `split_chunks`: `ceil(L / SPA_OLD_MAXBLOCKSIZE)` records
of the object at contiguous offsets from `start_blkid * L`, each with a payload
of its logical size, which is above 0 and at most `SPA_OLD_MAXBLOCKSIZE`, and
the sizes sum to `L`.  When the ordering assertion of `dump_write` holds for
the first of them, it holds for all. -/
theorem do_dump_splits_large_block (W : stream_codec) (E : do_dump_env)
    (d : dmu_send_cookie_t) (range : send_range) (bp : blkptr_t) (abuf : arc_buf_t)
    (hinv : pending_inv d) (ht : range.type = range_type.DATA)
    (hbp : range.sru.bp = some bp) (hsa : bp.bp_type ≠ DMU_OT_SA)
    (hemb : send_do_embed d bp = false)
    (hL : range.sru.datablksz > SPA_OLD_MAXBLOCKSIZE)
    (hflag : d.dsc_featureflags &&& DMU_BACKUP_FEATURE_LARGE_BLOCKS = 0)
    (hdry : d.dsc_dso.dso_dryrun = false)
    (hread : E.arc_read range (decide (d.dsc_featureflags &&& DMU_BACKUP_FEATURE_RAW ≠ 0))
      false = arc_read_result.ok abuf)
    (hfit : (range.start_blkid + 1) * range.sru.datablksz ≤ 2 ^ 64) :
    (∃ r, do_dump W E d range = some r) ∧
    (∀ r, do_dump W E d range = some r → r.1 = 0 →
      write_chunks r.2.dsc_out = write_chunks d.dsc_out ++
        split_chunks range.object (range.start_blkid * range.sru.datablksz)
          range.sru.datablksz) ∧
    (split_chunks range.object (range.start_blkid * range.sru.datablksz)
        range.sru.datablksz).length =
      (range.sru.datablksz + SPA_OLD_MAXBLOCKSIZE - 1) / SPA_OLD_MAXBLOCKSIZE ∧
    ((split_chunks range.object (range.start_blkid * range.sru.datablksz)
        range.sru.datablksz).map fun c => c.2.2.1).sum = range.sru.datablksz ∧
    (∀ c ∈ split_chunks range.object (range.start_blkid * range.sru.datablksz)
        range.sru.datablksz,
      c.1 = range.object ∧ 0 < c.2.2.1 ∧ c.2.2.1 ≤ SPA_OLD_MAXBLOCKSIZE ∧ c.2.2.2 = c.2.2.1) ∧
    (increasing_order_ASSERT d range.object (range.start_blkid * range.sru.datablksz) = true →
      do_dump_write_ASSERT W E d range = true) := by
  have ha := do_dump_data_action_split E d range bp abuf hsa hemb hL hflag hdry hread
  have hmul : (range.start_blkid + 1) * range.sru.datablksz =
      range.start_blkid * range.sru.datablksz + range.sru.datablksz := by ring
  have e64 : (2 : Nat) ^ 64 = 18446744073709551616 := by norm_num
  have hoff : (range.start_blkid * range.sru.datablksz) % 2 ^ 64 =
      range.start_blkid * range.sru.datablksz := by
    apply Nat.mod_eq_of_lt
    have : 0 < SPA_OLD_MAXBLOCKSIZE := by decide
    rw [hmul] at hfit
    omega
  have hdo : do_dump W E d range =
      do_dump_split W range.sru.obj_type range.object range.sru.datablksz
        (range.start_blkid * range.sru.datablksz) abuf.b_data range.sru.datablksz 0 d := by
    simp only [do_dump, ht, hbp, ha, hoff]
  have hfit2 : range.start_blkid * range.sru.datablksz + range.sru.datablksz ≤ 2 ^ 64 := by
    rw [← hmul]
    exact hfit
  obtain ⟨s1, s2⟩ := split_chunks_sizes range.object range.sru.datablksz
    (range.start_blkid * range.sru.datablksz) range.sru.datablksz (le_refl _)
  refine ⟨?_, ?_, split_chunks_length _ _ _, s1, s2, ?_⟩
  · rw [hdo]
    exact do_dump_split_total W _ _ _ _ _ _ _ _ (le_refl _)
  · intro r h hr
    rw [hdo] at h
    exact do_dump_split_chunks W _ _ _ _ _ _ _ _ _ rfl hinv hfit2 h hr
  · intro hfirst
    simp only [do_dump_write_ASSERT, ht, hbp, ha, hoff]
    exact do_dump_split_assert_chain W _ _ _ _ _ _ _ _ hinv hfirst hfit2

/-- Witness of `do_dump_splits_large_block`: block 0, of `3 * 2^17` bytes, of
object 1, sent from `sample_cookie`. -/
theorem do_dump_splits_large_block_witness :
    (∃ r, do_dump sample_codec sample_env sample_cookie
      (sample_large_range 1 0 (3 * 2 ^ 17)) = some r) ∧
    (∀ r, do_dump sample_codec sample_env sample_cookie
        (sample_large_range 1 0 (3 * 2 ^ 17)) = some r → r.1 = 0 →
      write_chunks r.2.dsc_out = write_chunks sample_cookie.dsc_out ++
        split_chunks 1 (0 * (3 * 2 ^ 17)) (3 * 2 ^ 17)) ∧
    (split_chunks 1 (0 * (3 * 2 ^ 17)) (3 * 2 ^ 17)).length =
      (3 * 2 ^ 17 + SPA_OLD_MAXBLOCKSIZE - 1) / SPA_OLD_MAXBLOCKSIZE ∧
    ((split_chunks 1 (0 * (3 * 2 ^ 17)) (3 * 2 ^ 17)).map fun c => c.2.2.1).sum = 3 * 2 ^ 17 ∧
    (∀ c ∈ split_chunks 1 (0 * (3 * 2 ^ 17)) (3 * 2 ^ 17),
      c.1 = 1 ∧ 0 < c.2.2.1 ∧ c.2.2.1 ≤ SPA_OLD_MAXBLOCKSIZE ∧ c.2.2.2 = c.2.2.1) ∧
    (increasing_order_ASSERT sample_cookie 1 (0 * (3 * 2 ^ 17)) = true →
      do_dump_write_ASSERT sample_codec sample_env sample_cookie
        (sample_large_range 1 0 (3 * 2 ^ 17)) = true) :=
  do_dump_splits_large_block sample_codec sample_env sample_cookie
    (sample_large_range 1 0 (3 * 2 ^ 17))
    { sample_bp with lsize := 3 * 2 ^ 17, psize := 3 * 2 ^ 17 }
    { b_data := [1, 2, 3, 4], size := 4 } (pending_inv_none sample_cookie rfl) rfl rfl
    (by decide) (by decide) (by decide) (by decide) rfl rfl (by decide)

/-- The send of the witness returns 0 with three WRITE records of `2^17` bytes
at the offsets 0, `2^17` and `2^18`, and passes the assertions of
`dump_write`. -/
theorem do_dump_splits_large_block_example :
    (do_dump sample_codec sample_env sample_cookie (sample_large_range 1 0 (3 * 2 ^ 17))).map
      (fun r => (r.1, write_chunks r.2.dsc_out)) =
      some (0, [(1, 0, 2 ^ 17, 2 ^ 17), (1, 2 ^ 17, 2 ^ 17, 2 ^ 17),
        (1, 2 ^ 18, 2 ^ 17, 2 ^ 17)]) ∧
    do_dump_write_ASSERT sample_codec sample_env sample_cookie
      (sample_large_range 1 0 (3 * 2 ^ 17)) = true := by
  refine ⟨?_, ?_⟩
  · decide
  · decide

/-! ## The assertions of `find_next_range` (C29) -/

/-- A record that `send_range_start_compare` puts before another is not an
end-of-stream record and its object-equivalent is not the greater one. -/
theorem send_range_start_compare_neg (r1 r2 : send_range)
    (h : send_range_start_compare r1 r2 < 0) :
    r1.eos_marker = false ∧
      (r2.eos_marker = false → (start_triple r1).1 ≤ (start_triple r2).1) := by
  unfold send_range_start_compare at h
  by_cases e1 : r1.eos_marker = true
  · rw [if_pos e1] at h
    omega
  · rw [if_neg e1] at h
    refine ⟨by simpa using e1, fun e2 => ?_⟩
    rw [if_neg (by simp [e2])] at h
    simp only [start_triple]
    by_contra hc
    dsimp only at h
    rw [if_neg (by omega), if_pos (by omega)] at h
    omega

/-- A record that `send_range_start_compare` does not put before another, and
that is not an end-of-stream record: the other is not one either and its
object-equivalent is not the greater one. -/
theorem send_range_start_compare_not_neg (r1 r2 : send_range)
    (h : ¬ send_range_start_compare r1 r2 < 0) (e1 : r1.eos_marker = false) :
    r2.eos_marker = false ∧ (start_triple r2).1 ≤ (start_triple r1).1 := by
  unfold send_range_start_compare at h
  rw [if_neg (by simp [e1])] at h
  by_cases e2 : r2.eos_marker = true
  · rw [if_pos e2] at h
    omega
  · rw [if_neg e2] at h
    refine ⟨by simpa using e2, ?_⟩
    simp only [start_triple]
    by_contra hc
    dsimp only at h
    rw [if_pos (by omega)] at h
    omega

/-- The front that the first loop of `find_next_range` chooses has the least
object-equivalent of the fronts that are not end-of-stream records. -/
theorem find_next_range_idx_first (ranges : Fin NUM_THREADS → send_range)
    (i : Fin NUM_THREADS) (hi : (ranges i).eos_marker = false) :
    (ranges (find_next_range_idx ranges)).eos_marker = false ∧
      (start_triple (ranges (find_next_range_idx ranges))).1 ≤ (start_triple (ranges i)).1 := by
  simp only [find_next_range_idx, List.foldl]
  by_cases h10 : send_range_start_compare (ranges 1) (ranges 0) < 0
  · rw [if_pos h10]
    have a10 := send_range_start_compare_neg _ _ h10
    by_cases h21 : send_range_start_compare (ranges 2) (ranges 1) < 0
    · rw [if_pos h21]
      have a21 := send_range_start_compare_neg _ _ h21
      have b1 := a21.2 a10.1
      fin_cases i
      · exact ⟨a21.1, le_trans b1 (a10.2 hi)⟩
      · exact ⟨a21.1, b1⟩
      · exact ⟨a21.1, le_refl _⟩
    · rw [if_neg h21]
      fin_cases i
      · exact ⟨a10.1, a10.2 hi⟩
      · exact ⟨a10.1, le_refl _⟩
      · exact ⟨a10.1, (send_range_start_compare_not_neg _ _ h21 hi).2⟩
  · rw [if_neg h10]
    by_cases h20 : send_range_start_compare (ranges 2) (ranges 0) < 0
    · rw [if_pos h20]
      have a20 := send_range_start_compare_neg _ _ h20
      fin_cases i
      · exact ⟨a20.1, a20.2 hi⟩
      · have b := send_range_start_compare_not_neg _ _ h10 hi
        exact ⟨a20.1, le_trans (a20.2 b.1) b.2⟩
      · exact ⟨a20.1, le_refl _⟩
    · rw [if_neg h20]
      fin_cases i
      · exact ⟨hi, le_refl _⟩
      · exact send_range_start_compare_not_neg _ _ h10 hi
      · exact send_range_start_compare_not_neg _ _ h20 hi

/-- The first assertion of `find_next_range` holds in every call: a front that
the third loop does not skip is on the object of the chosen front. -/
theorem find_next_range_object_ASSERT_holds (ranges : Fin NUM_THREADS → send_range) :
    find_next_range_object_ASSERT ranges (find_next_range_idx ranges) = true := by
  have key : ∀ i : Fin NUM_THREADS,
      (if i = find_next_range_idx ranges ∨ (ranges i).eos_marker = true ∨
          (ranges i).object > (ranges (find_next_range_idx ranges)).object ∨
          (ranges i).object = DMU_META_DNODE_OBJECT then true
       else decide ((ranges i).object = (ranges (find_next_range_idx ranges)).object)) = true := by
    intro i
    by_cases hs : i = find_next_range_idx ranges ∨ (ranges i).eos_marker = true ∨
          (ranges i).object > (ranges (find_next_range_idx ranges)).object ∨
          (ranges i).object = DMU_META_DNODE_OBJECT
    · rw [if_pos hs]
    · rw [if_neg hs]
      push_neg at hs
      obtain ⟨_, he, hle, h0⟩ := hs
      have he2 : (ranges i).eos_marker = false := by simpa using he
      have hm := (find_next_range_idx_first ranges i he2).2
      simp only [start_triple, DMU_META_DNODE_OBJECT] at hm h0
      rw [if_neg h0] at hm
      by_cases hI : (ranges (find_next_range_idx ranges)).object = 0
      · omega
      · rw [if_neg hI] at hm
        simp only [decide_eq_true_eq]
        omega
  simp only [find_next_range_object_ASSERT, List.all_cons, List.all_nil, key, Bool.and_self]

/-- One iteration of the fourth loop of `find_next_range` changes no front but
its own. -/
theorem find_next_range_update_one_frame (idx : Fin NUM_THREADS) (bmask fc : Nat)
    (st st1 : merge_state) (i j : Fin NUM_THREADS)
    (h : find_next_range_update_one idx bmask fc st i = some st1) (hj : j ≠ i) :
    st1.ranges j = st.ranges j := by
  unfold find_next_range_update_one at h
  by_cases h1 : i = idx ∨ bmask &&& (1 <<< i.val) = 0
  · rw [if_pos h1] at h
    cases h
    rfl
  · rw [if_neg h1] at h
    dsimp only at h
    by_cases h2 : fc = (st.ranges i).end_blkid
    · rw [if_pos h2] at h
      cases hg : get_next_range (st.qs i) { st.ranges i with start_blkid := fc } with
      | none => rw [hg] at h; cases h
      | some p =>
        rw [hg] at h
        cases h
        exact Function.update_noteq hj _ _
    · rw [if_neg h2] at h
      cases h
      exact Function.update_noteq hj _ _

/-- The assertions of one iteration of the fourth loop read the front of that
iteration only. -/
theorem find_next_range_update_one_ASSERT_congr (idx : Fin NUM_THREADS) (bmask fc : Nat)
    (st st1 : merge_state) (i : Fin NUM_THREADS) (h : st1.ranges i = st.ranges i) :
    find_next_range_update_one_ASSERT idx bmask fc st1 i =
      find_next_range_update_one_ASSERT idx bmask fc st i := by
  unfold find_next_range_update_one_ASSERT
  rw [h]

/-- The assertions of the fourth loop hold when they hold for each front as the
call finds it. -/
theorem find_next_range_update_ASSERT_of (idx : Fin NUM_THREADS) (bmask fc : Nat)
    (st : merge_state)
    (h : ∀ i, find_next_range_update_one_ASSERT idx bmask fc st i = (true, true)) :
    find_next_range_update_ASSERT idx bmask fc st = (true, true) := by
  have n10 : (1 : Fin NUM_THREADS) ≠ 0 := by decide
  have n20 : (2 : Fin NUM_THREADS) ≠ 0 := by decide
  have n21 : (2 : Fin NUM_THREADS) ≠ 1 := by decide
  simp only [find_next_range_update_ASSERT, List.foldl, h 0, Bool.and_self]
  cases h0 : find_next_range_update_one idx bmask fc st 0 with
  | none => rfl
  | some s1 =>
    have e1 : find_next_range_update_one_ASSERT idx bmask fc s1 1 = (true, true) := by
      rw [find_next_range_update_one_ASSERT_congr idx bmask fc st s1 1
        (find_next_range_update_one_frame idx bmask fc st s1 0 1 h0 n10)]
      exact h 1
    simp only [e1, Bool.and_self]
    cases h1 : find_next_range_update_one idx bmask fc s1 1 with
    | none => rfl
    | some s2 =>
      have e2 : find_next_range_update_one_ASSERT idx bmask fc s2 2 = (true, true) := by
        rw [find_next_range_update_one_ASSERT_congr idx bmask fc s1 s2 2
          (find_next_range_update_one_frame idx bmask fc s1 s2 1 2 h1 n21),
          find_next_range_update_one_ASSERT_congr idx bmask fc st s1 2
          (find_next_range_update_one_frame idx bmask fc st s1 0 2 h0 n20)]
        exact h 2
      simp only [e2, Bool.and_self]

/-- The three assertions of `find_next_range` hold when every front is
end-of-stream or a well-formed record of one object other than object 0, and
`OBJECT` records come from the to-traversal only. -/
theorem find_next_range_ASSERT_one_object (o : Nat) (ho : o ≠ 0) (st : merge_state)
    (hf : ∀ i, (st.ranges i).eos_marker = true ∨ range_ok o (st.ranges i))
    (hobj : ∀ i, (st.ranges i).eos_marker = false →
      (st.ranges i).type = range_type.OBJECT → i = TO_IDX) :
    find_next_range_ASSERT st = (true, true, true) := by
  unfold find_next_range_ASSERT
  by_cases hI : (st.ranges (find_next_range_idx st.ranges)).eos_marker = true
  · simp only [hI, if_true]
  · simp only [hI, if_false]
    have hI : (st.ranges (find_next_range_idx st.ranges)).eos_marker = false := by
      simpa using hI
    rw [find_next_range_object_ASSERT_holds st.ranges]
    obtain ⟨hmin, -⟩ := find_next_range_idx_spec o ho st.ranges hf
    generalize find_next_range_idx st.ranges = I at hI hmin
    have hmin' : ∀ i, (st.ranges i).eos_marker = false →
        start_key (st.ranges I) ≤ start_key (st.ranges i) := fun i hi => (hmin i hi).2
    have hbit : ∀ i : Fin NUM_THREADS,
        find_next_range_bmask st.ranges I &&& (1 <<< i.val) = 0 ↔
          ¬ ((st.ranges i).eos_marker = false ∧
            start_key (st.ranges i) = start_key (st.ranges I)) := by
      intro i
      rw [find_next_range_bmask_spec st.ranges I i,
        start_compare_eq o ho (st.ranges i) (st.ranges I) (hf i) (hf I)]
      simp [hI]
    generalize find_next_range_bmask st.ranges I = bmask at hbit
    obtain ⟨-, hfc2, hfc3⟩ :=
      find_next_range_first_change_spec o ho st.ranges bmask hf I hI hmin' hbit
    generalize find_next_range_first_change st.ranges I bmask = fc at hfc2 hfc3
    have hall : find_next_range_update_ASSERT I bmask fc st = (true, true) := by
      apply find_next_range_update_ASSERT_of
      intro i
      unfold find_next_range_update_one_ASSERT
      by_cases hs : i = I ∨ bmask &&& (1 <<< i.val) = 0
      · rw [if_pos hs]
      · rw [if_neg hs]
        push_neg at hs
        obtain ⟨hne, hb⟩ := hs
        obtain ⟨hei, hk⟩ := not_not.mp ((not_congr (hbit i)).mp hb)
        have hend := (hfc3 i hei).1 hk
        have htI : (st.ranges I).type ≠ range_type.OBJECT := by
          intro ht
          have hti : (st.ranges i).type = range_type.OBJECT := by
            by_contra hn
            simp only [start_key, ht, hn, if_true, if_false] at hk
            omega
          exact hne ((hobj i hei hti).trans (hobj I hI ht).symm)
        have hti : (st.ranges i).type ≠ range_type.OBJECT := by
          intro ht
          simp only [start_key, ht, htI, if_true, if_false] at hk
          omega
        have hst : (st.ranges i).start_blkid = (st.ranges I).start_blkid := by
          simp only [start_key, hti, htI, if_false] at hk
          omega
        have hlt := hfc2 htI
        simp only [Prod.mk.injEq, decide_eq_true_eq]
        exact ⟨by omega, hend⟩
    rw [hall]
    simp

/-- C29 (the code at two failing inputs).  The first assertion of
`find_next_range` holds in every call.  The other two fail for well-formed
fronts when a front is a hole on object 0.  With the hole `[1,100)` on object 0
at `TO_IDX` and the range `[0,1)` of object 32 at `FROM_IDX`, the two tie, the
third loop skips the range of object 32, `first_change` is 100 and the range is
moved to start at 100, after its end 1: the third assertion fails.  With the
range `[0,1)` of object 32 at `REDACT_IDX` and the same hole at `TO_IDX`, the
two tie, the third loop skips the hole, `first_change` is 1 and the hole, which
starts at 1, is in the tie set: the second assertion fails. -/
theorem find_next_range_assertions_fail :
    (∀ st : merge_state, (find_next_range_ASSERT st).1 = true) ∧
    (∀ r ∈ [sample_range range_type.HOLE 0 1 100 16384,
        sample_range range_type.PREVIOUSLY_REDACTED 32 0 1 0,
        sample_range range_type.REDACT 32 0 1 4096, eos_record], front_well_formed r) ∧
    (merge_start [] [sample_range range_type.HOLE 0 1 100 16384]
        [sample_range range_type.PREVIOUSLY_REDACTED 32 0 1 0]).map
      (fun st => (find_next_range_idx st.ranges,
        find_next_range_bmask st.ranges (find_next_range_idx st.ranges),
        find_next_range_first_change st.ranges (find_next_range_idx st.ranges)
          (find_next_range_bmask st.ranges (find_next_range_idx st.ranges)),
        find_next_range_ASSERT st)) = some (TO_IDX, 6, 100, true, true, false) ∧
    ((merge_start [] [sample_range range_type.HOLE 0 1 100 16384]
        [sample_range range_type.PREVIOUSLY_REDACTED 32 0 1 0]).bind find_next_range).map
      (fun r => (r.1, r.2.1, merge_state_lists r.2.2)) =
      some (sample_range range_type.HOLE 0 1 100 16384, 6,
        [(eos_record, []), (eos_record, []),
         (sample_range range_type.PREVIOUSLY_REDACTED 32 100 1 0, [eos_record])]) ∧
    (merge_start [sample_range range_type.REDACT 32 0 1 4096]
        [sample_range range_type.HOLE 0 1 100 16384] []).map
      (fun st => (find_next_range_idx st.ranges,
        find_next_range_bmask st.ranges (find_next_range_idx st.ranges),
        find_next_range_first_change st.ranges (find_next_range_idx st.ranges)
          (find_next_range_bmask st.ranges (find_next_range_idx st.ranges)),
        find_next_range_ASSERT st)) = some (REDACT_IDX, 3, 1, true, false, true) := by
  refine ⟨fun st => ?_, by decide, by decide, by decide, by decide⟩
  unfold find_next_range_ASSERT
  by_cases h : (st.ranges (find_next_range_idx st.ranges)).eos_marker = true
  · simp only [h, if_true]
  · simp only [h, if_false]
    exact find_next_range_object_ASSERT_holds st.ranges

/-! ## Calls of `find_next_range` that never reach end-of-stream (C30) -/

/-- Two merge states with the same fronts and queues are equal. -/
theorem merge_state_lists_inj (s t : merge_state)
    (h : merge_state_lists s = merge_state_lists t) : s = t := by
  obtain ⟨sr, sq⟩ := s
  obtain ⟨tr, tq⟩ := t
  simp only [merge_state_lists, List.cons.injEq, Prod.mk.injEq, and_true] at h
  obtain ⟨⟨r0, q0⟩, ⟨r1, q1⟩, r2, q2⟩ := h
  have hr : sr = tr := by
    funext i
    fin_cases i
    · exact r0
    · exact r1
    · exact r2
  have hq : sq = tq := by
    funext i
    fin_cases i
    · exact q0
    · exact q1
    · exact q2
  rw [hr, hq]

/-- A call of `find_next_range` is known from the returned range, the mask and
the fronts and queues that it leaves. -/
theorem find_next_range_of_lists (s t : merge_state) (ret : send_range) (mask : Nat)
    (h : (find_next_range s).map (fun r => (r.1, r.2.1, merge_state_lists r.2.2)) =
      some (ret, mask, merge_state_lists t)) :
    find_next_range s = some (ret, mask, t) := by
  cases hf : find_next_range s with
  | none => rw [hf] at h; cases h
  | some r =>
    rw [hf] at h
    obtain ⟨ret1, mask1, st1⟩ := r
    simp only [Option.map_some', Option.some.injEq, Prod.mk.injEq] at h
    obtain ⟨h1, h2, h3⟩ := h
    rw [h1, h2, merge_state_lists_inj _ _ h3]

/-- A call of `find_next_range` on `sample_stuck_fronts` returns the empty range
`[1,1)` of object 32 and leaves the fronts and the queues as they are. -/
theorem find_next_range_stuck :
    find_next_range sample_stuck_fronts =
      some (sample_range range_type.REDACT 32 1 1 4096, 1, sample_stuck_fronts) :=
  find_next_range_of_lists _ _ _ _ (by decide)

/-- The first call of `find_next_range` on `sample_stuck_start` returns the hole
and moves the range of object 32 at `FROM_IDX` to start at 100, after its
end. -/
theorem find_next_range_stuck_first :
    find_next_range sample_stuck_start =
      some (sample_range range_type.HOLE 0 1 100 16384, 6, sample_stuck_second) :=
  find_next_range_of_lists _ _ _ _ (by decide)

/-- The second call returns the range `[5,1)` of object 32 and leaves
`sample_stuck_fronts`. -/
theorem find_next_range_stuck_second :
    find_next_range sample_stuck_second =
      some (sample_range range_type.REDACT 32 5 1 4096, 1, sample_stuck_fronts) :=
  find_next_range_of_lists _ _ _ _ (by decide)

/-- From `sample_stuck_fronts` the calls of `find_next_range` reach no
end-of-stream range, however many are made. -/
theorem find_next_range_calls_stuck (fuel : Nat) :
    find_next_range_calls fuel sample_stuck_fronts = none := by
  induction fuel with
  | zero => rfl
  | succ n ih =>
    have he : (sample_range range_type.REDACT 32 1 1 4096).eos_marker = false := rfl
    simp only [find_next_range_calls, find_next_range_stuck, he, ih, Bool.false_eq_true,
      if_false]

/-- From `sample_stuck_start` the calls of `find_next_range` reach no
end-of-stream range. -/
theorem find_next_range_calls_stuck_start (fuel : Nat) :
    find_next_range_calls fuel sample_stuck_start = none := by
  have h1 : (sample_range range_type.HOLE 0 1 100 16384).eos_marker = false := rfl
  have h2 : (sample_range range_type.REDACT 32 5 1 4096).eos_marker = false := rfl
  match fuel with
  | 0 => rfl
  | 1 =>
    simp only [find_next_range_calls, find_next_range_stuck_first, h1, Bool.false_eq_true,
      if_false]
  | n + 2 =>
    simp only [find_next_range_calls, find_next_range_stuck_first, find_next_range_stuck_second,
      h1, h2, find_next_range_calls_stuck n, Bool.false_eq_true, if_false]

/-- From `sample_stuck_fronts` the loop of `send_merge_thread` goes on for
ever when no producer fails and nobody cancels. -/
theorem send_merge_loop_stuck (redact_arg_present : Bool) (fuel : Nat) :
    ∀ l : merge_loop_state, l.fronts = sample_stuck_fronts → l.range.eos_marker = false →
      l.err = 0 → send_merge_loop merge_observed_quiet redact_arg_present fuel l = none := by
  induction fuel with
  | zero => intro l _ _ _; rfl
  | succ n ih =>
    intro l hl hr he
    unfold send_merge_loop
    have hc : l.range.eos_marker = false ∧ l.err = 0 ∧
        merge_observed_quiet.cancel l.calls = false := ⟨hr, he, rfl⟩
    rw [if_pos hc, hl, find_next_range_stuck]
    refine ih _ rfl rfl ?_
    show (if l.mask &&& FROM_AND_REDACT_BITS = FROM_AND_REDACT_BITS then (l.enqueued, l.err)
      else _).2 = 0
    by_cases hm : l.mask &&& FROM_AND_REDACT_BITS = FROM_AND_REDACT_BITS
    · rw [if_pos hm]
      exact he
    · rw [if_neg hm]
      simp [merge_observed_quiet, he]

/-- One pass of the loop of `send_merge_thread`, when nothing stops it: the
loop goes on from the fronts that `find_next_range` leaves. -/
theorem send_merge_loop_quiet_step (redact_arg_present : Bool) (s t : merge_state)
    (ret : send_range) (mask : Nat) (hs : find_next_range s = some (ret, mask, t))
    (hret : ret.eos_marker = false)
    (ht : ∀ l : merge_loop_state, l.fronts = t → l.range.eos_marker = false → l.err = 0 →
      ∀ fuel, send_merge_loop merge_observed_quiet redact_arg_present fuel l = none)
    (l : merge_loop_state) (hl : l.fronts = s) (hr : l.range.eos_marker = false)
    (he : l.err = 0) (fuel : Nat) :
    send_merge_loop merge_observed_quiet redact_arg_present fuel l = none := by
  cases fuel with
  | zero => rfl
  | succ n =>
    unfold send_merge_loop
    have hc : l.range.eos_marker = false ∧ l.err = 0 ∧
        merge_observed_quiet.cancel l.calls = false := ⟨hr, he, rfl⟩
    rw [if_pos hc, hl, hs]
    refine ht _ rfl hret ?_ n
    show (if l.mask &&& FROM_AND_REDACT_BITS = FROM_AND_REDACT_BITS then (l.enqueued, l.err)
      else _).2 = 0
    by_cases hm : l.mask &&& FROM_AND_REDACT_BITS = FROM_AND_REDACT_BITS
    · rw [if_pos hm]
      exact he
    · rw [if_neg hm]
      simp [merge_observed_quiet, he]

/-- C30 (the code at a failing input).  The target-redaction list holds
`[5,10)` of object 32, the from-redaction list holds `[0,1)` of object 32, and
the to-traversal delivers the hole `[1,100)` on object 0; every record is well
formed and every queue ends with the end-of-stream record.  The first call of
`find_next_range` returns the hole and moves the start of the from-redaction
range to 100, past its end 1.  The second call returns `[5,1)` of object 32.
The third call returns the empty range `[1,1)` of object 32, dequeues nothing
and leaves every front as it is, and so does every later call: no number of
calls reaches the end-of-stream range, and `send_merge_thread` does not
return. -/
theorem find_next_range_never_ends :
    (∀ r ∈ [sample_range range_type.REDACT 32 5 10 4096,
        sample_range range_type.HOLE 0 1 100 16384,
        sample_range range_type.PREVIOUSLY_REDACTED 32 0 1 0, eos_record],
      front_well_formed r) ∧
    merge_start [sample_range range_type.REDACT 32 5 10 4096]
        [sample_range range_type.HOLE 0 1 100 16384]
        [sample_range range_type.PREVIOUSLY_REDACTED 32 0 1 0] = some sample_stuck_start ∧
    find_next_range sample_stuck_start =
      some (sample_range range_type.HOLE 0 1 100 16384, 6, sample_stuck_second) ∧
    find_next_range sample_stuck_second =
      some (sample_range range_type.REDACT 32 5 1 4096, 1, sample_stuck_fronts) ∧
    find_next_range sample_stuck_fronts =
      some (sample_range range_type.REDACT 32 1 1 4096, 1, sample_stuck_fronts) ∧
    (∀ fuel, find_next_range_calls fuel sample_stuck_start = none) ∧
    (∀ fuel, send_merge_thread merge_observed_quiet
        (some [sample_range range_type.REDACT 32 5 10 4096, eos_record])
        [sample_range range_type.HOLE 0 1 100 16384, eos_record]
        [sample_range range_type.PREVIOUSLY_REDACTED 32 0 1 0, eos_record] fuel = none) := by
  refine ⟨by decide, rfl, find_next_range_stuck_first, find_next_range_stuck_second,
    find_next_range_stuck, find_next_range_calls_stuck_start, fun fuel => ?_⟩
  have hloop : ∀ l : merge_loop_state, l.fronts = sample_stuck_second →
      l.range.eos_marker = false → l.err = 0 →
      ∀ fuel, send_merge_loop merge_observed_quiet true fuel l = none :=
    fun l hl hr he fuel =>
      send_merge_loop_quiet_step true _ _ _ _ find_next_range_stuck_second rfl
        (fun l1 h1 h2 h3 fuel1 => send_merge_loop_stuck true fuel1 l1 h1 h2 h3) l hl hr he fuel
  have hst : find_next_range
      { ranges := fun i => if i = REDACT_IDX then sample_range range_type.REDACT 32 5 10 4096
          else if i = TO_IDX then sample_range range_type.HOLE 0 1 100 16384
          else sample_range range_type.PREVIOUSLY_REDACTED 32 0 1 0,
        qs := fun i => if i = REDACT_IDX then [eos_record]
          else if i = TO_IDX then [eos_record] else [eos_record] } =
      some (sample_range range_type.HOLE 0 1 100 16384, 6, sample_stuck_second) :=
    find_next_range_stuck_first
  simp only [send_merge_thread, bqueue_dequeue, hst, Option.isSome_some]
  rw [hloop _ rfl rfl rfl fuel]

end DmuSend
